import Mathlib

/-!
# XPBD soft-body solver (Q-Minh/sbs): embedding and verified properties

Shallow embedding of

* `src/src/physics/xpbd/solver.cpp` (`solver_t`),
* `src/src/physics/xpbd/timestep.cpp` (`timestep_t`),
* `src/src/physics/xpbd/hybrid_mesh_meshless_sph_stvk_constraint.cpp`,
* `src/src/physics/xpbd/meshless_sph_collision_constraint.cpp`,
* `src/include/sbs/math/elasticity.h` (strain and energy operators).

Conventions of the embedding.

* `double` / `scalar_type` is the field `ℚ` with exact arithmetic; every theorem that
  depends on a quotient states that the divisor is non-zero. Where the code divides by zero
  it gets an infinity or a NaN, which `ℚ` does not have (its quotient by zero is `0`): such
  a quotient is followed with `finite_div`, which has no value for the divisor zero.
* `std::uint32_t`, `std::size_t` and `index_type` are `Nat`; none of the embedded loops can
  wrap around.
* `std::vector` is `List`. `vector::at` out of range (an exception) and `operator[]` out of
  range (undefined behaviour) both make the enclosing function return `none`.
* A pointer to a body is the index of the body in the owning vector.
* Virtual calls into code that is outside `src/` (`constraint_t::project`,
  `collision_constraint_t::project`, the collision detector, `triangle_t::normal`,
  `solver_t::solve` of the particle based API) are parameters of the embedding.
-/

namespace Sbs

/-! ## Vectors (`Eigen::Vector3d`) -/

/-- Three component vector, the embedding of `Eigen::Vector3d`. -/
@[ext]
structure Vec3 where
  x : ℚ
  y : ℚ
  z : ℚ
deriving DecidableEq, Repr

namespace Vec3

/-- Embedding of `Eigen::Vector3d::Zero()` / `setZero()`. -/
def zero : Vec3 := ⟨0, 0, 0⟩

/-- Component-wise sum, `a + b`. -/
def add (a b : Vec3) : Vec3 := ⟨a.x + b.x, a.y + b.y, a.z + b.z⟩

/-- Component-wise difference, `a - b`. -/
def sub (a b : Vec3) : Vec3 := ⟨a.x - b.x, a.y - b.y, a.z - b.z⟩

/-- Product with a scalar, `s * a` (also `a * s`). -/
def smul (s : ℚ) (a : Vec3) : Vec3 := ⟨s * a.x, s * a.y, s * a.z⟩

/-- Quotient by a scalar, `a / s` (also `a.array() / s`). -/
def sdiv (a : Vec3) (s : ℚ) : Vec3 := ⟨a.x / s, a.y / s, a.z / s⟩

/-- Inner product, `a.dot(b)`. -/
def dot (a b : Vec3) : ℚ := a.x * b.x + a.y * b.y + a.z * b.z

/-- Squared Euclidean norm, `a.squaredNorm()`. -/
def squaredNorm (a : Vec3) : ℚ := dot a a

end Vec3

/-! ## Data model of `solver_t` (`solver.cpp`) -/

/-- Embedding of `vertex_t`: the accessors used by `solver_t` are `position()`, `velocity()`,
`force()`, `mass()` and `fixed()`. -/
structure Vertex where
  position : Vec3
  velocity : Vec3
  force : Vec3
  mass : ℚ
  fixed : Bool
deriving DecidableEq, Repr

/-- Embedding of `tetrahedron_t`: the four vertex indices `v1() .. v4()`. -/
structure Tetrahedron where
  v1 : Nat
  v2 : Nat
  v3 : Nat
  v4 : Nat
deriving DecidableEq, Repr

/-- Embedding of `edge_t`: the two vertex indices `v1()`, `v2()`. -/
structure Edge where
  v1 : Nat
  v2 : Nat
deriving DecidableEq, Repr

/-- Embedding of `constraint_type_t`, with the two enumerators that `solver_t::setup` tests. -/
inductive ConstraintType where
  | green
  | distance
deriving DecidableEq, Repr

/-- Embedding of `simulation_parameters_t` with the members that `solver_t` reads. -/
structure SimulationParameters where
  alpha : ℚ
  constraint_type : ConstraintType
  young_modulus : ℚ
  poisson_ratio : ℚ
  hooke_coefficient : ℚ
deriving DecidableEq, Repr

/-- Embedding of `xpbd::tetrahedral_mesh_t` as far as `solver_t` reads it: `vertices()`,
`tetrahedra()`, `edges()` and `simulation_parameters()`. -/
structure Body where
  vertices : List Vertex
  tetrahedra : List Tetrahedron
  edges : List Edge
  simulation_parameters : SimulationParameters
deriving DecidableEq, Repr

/-- Embedding of the contact triangle handed over by the detector; `solver_t` reads `a()`
and `normal()` only, the corners `b`, `c` are kept for completeness. -/
structure Triangle where
  a : Vec3
  b : Vec3
  c : Vec3
deriving DecidableEq, Repr

/-- Embedding of `collision_constraint_t` as built in `handle_collisions`:
`collision_constraint_t{collision_alpha_, phys_body.get(), vi, triangle, n}`. The body pointer is
the index of the body in `physics_bodies_`. -/
structure CollisionConstraint where
  alpha : ℚ
  body : Nat
  vi : Nat
  triangle : Triangle
  n : Vec3
deriving DecidableEq, Repr

/-- Persistent constraint (`std::unique_ptr<constraint_t>`). Its virtual
`project(bodies, lagrange_multiplier, dt)` is outside `src/`; it is a parameter that maps the
bodies and the multiplier passed by reference to their new values. -/
structure Constraint where
  project : List Body → ℚ → ℚ → List Body × ℚ

/-- Modelled from the spec: `common::shared_vertex_surface_mesh_i` is declared outside `src/`;
an environment body is static geometry that the detector reads, here the list of its
triangles. -/
structure EnvBody where
  triangles : List Triangle
deriving DecidableEq, Repr

/-- Collaborators of `solver_t` whose code is outside `src/`:
`brute_force_collision_detector_t::intersect` (applied to the environment bodies that were
added to the detector and to one physics body), `triangle_t::normal`,
`collision_constraint_t::project`, and the constructors
`green_constraint_t(alpha, body, ti, young_modulus, poisson_ratio)` and
`distance_constraint_t(alpha, (body, v1), (body, v2))`. -/
structure Env where
  intersect : List EnvBody → Body → List (Nat × Triangle)
  normal : Triangle → Vec3
  collision_project : CollisionConstraint → List Body → ℚ → ℚ → List Body × ℚ
  green_constraint : ℚ → Nat → Nat → ℚ → ℚ → Constraint
  distance_constraint : ℚ → Nat × Nat → Nat × Nat → Constraint

/-- A node of the scene handed to `setup`: the two `dynamic_pointer_cast`s of
`solver.cpp` 67-81 tell a physics body from an environment body; any other node is skipped. -/
inductive SceneNode where
  | physics (body : Body)
  | environment (body : EnvBody)
  | other
deriving DecidableEq, Repr

/-- Data members of `solver_t`. A key `(body, ti)` of `tetrahedron_to_constraint_map_` is the
pair of the body index and the tetrahedron index. -/
structure Solver where
  physics_bodies_ : List Body
  environment_bodies_ : List EnvBody
  constraints_ : List Constraint
  collision_constraints_ : List CollisionConstraint
  tetrahedron_to_constraint_map_ : List ((Nat × Nat) × Nat)
  x0_ : List (List Vec3)
  lagrange_multipliers_ : List ℚ
  dt_ : ℚ
  substeps_ : Nat
  iteration_count_ : Nat
  collision_alpha_ : ℚ

/-! ## `solver_t::reset` and the constructors -/

/-- Embedding of `solver_t::reset` (`solver.cpp` 102-111): every container is cleared, the
scalar configuration is kept. -/
def Solver.reset (st : Solver) : Solver :=
  { st with
    physics_bodies_ := []
    environment_bodies_ := []
    constraints_ := []
    collision_constraints_ := []
    tetrahedron_to_constraint_map_ := []
    x0_ := []
    lagrange_multipliers_ := [] }

/-- Embedding of `solver_t::solver_t(double timestep, uint32_t substeps, uint32_t iterations)`
(`solver.cpp` 26-36); `collision_alpha` is the value of the in-class initialiser of
`collision_alpha_`, which is declared outside `src/`. -/
def Solver.mk3 (timestep : ℚ) (substeps iterations : Nat) (collision_alpha : ℚ) : Solver :=
  { physics_bodies_ := []
    environment_bodies_ := []
    constraints_ := []
    collision_constraints_ := []
    tetrahedron_to_constraint_map_ := []
    x0_ := []
    lagrange_multipliers_ := []
    dt_ := timestep
    substeps_ := substeps
    iteration_count_ := iterations
    collision_alpha_ := collision_alpha }

/-- Embedding of the default constructor `solver_t::solver_t()` (`solver.cpp` 14-24):
`dt_{0.0167}, substeps_{1u}, iteration_count_{10u}`. -/
def Solver.mk0 (collision_alpha : ℚ) : Solver :=
  Solver.mk3 (167 / 10000) 1 10 collision_alpha

/-! ## `solver_t::setup` -/

/-- `map[key] = value` on `tetrahedron_to_constraint_map_`: the entry of `key` is replaced
or created. -/
def map_assign (map : List ((Nat × Nat) × Nat)) (key : Nat × Nat) (value : Nat) :
    List ((Nat × Nat) × Nat) :=
  (key, value) :: map.filter (fun entry => decide (entry.1 ≠ key))

/-- The loop of `create_green_constraints_for_body` (`solver.cpp` 258-276) over the
tetrahedron indices `ti, ti + 1, ...` of body `b`, one index for every element of the list. -/
def create_green_constraints (env : Env) (b : Nat) (params : SimulationParameters) :
    List Tetrahedron → Nat → Solver → Solver
  | [], _, st => st
  | _ :: rest, ti, st =>
    let constraint :=
      env.green_constraint params.alpha b ti params.young_modulus params.poisson_ratio
    create_green_constraints env b params rest (ti + 1)
      { st with
        tetrahedron_to_constraint_map_ :=
          map_assign st.tetrahedron_to_constraint_map_ (b, ti) st.constraints_.length
        constraints_ := st.constraints_ ++ [constraint] }

/-- Embedding of `solver_t::create_green_constraints_for_body` for body `b`. -/
def create_green_constraints_for_body (env : Env) (b : Nat) (body : Body) (st : Solver) :
    Solver :=
  create_green_constraints env b body.simulation_parameters body.tetrahedra 0 st

/-- Embedding of `solver_t::create_distance_constraints_for_body` (`solver.cpp` 278-290) for
body `b`: one constraint of compliance `1 / hooke_coefficient` for every edge. -/
def create_distance_constraints_for_body (env : Env) (b : Nat) (body : Body) (st : Solver) :
    Solver :=
  { st with
    constraints_ := st.constraints_ ++ body.edges.map (fun edge =>
      env.distance_constraint (1 / body.simulation_parameters.hooke_coefficient)
        (b, edge.v1) (b, edge.v2)) }

/-- The loop of `solver.cpp` 65-82 that sorts the scene nodes into `physics_bodies_` and
`environment_bodies_`. -/
def sort_bodies : List SceneNode → Solver → Solver
  | [], st => st
  | SceneNode.physics body :: rest, st =>
    sort_bodies rest { st with physics_bodies_ := st.physics_bodies_ ++ [body] }
  | SceneNode.environment body :: rest, st =>
    sort_bodies rest { st with environment_bodies_ := st.environment_bodies_ ++ [body] }
  | SceneNode.other :: rest, st => sort_bodies rest st

/-- The loop of `solver.cpp` 84-96 over the physics bodies, `b` being the index of the first
body of the list. -/
def create_constraints (env : Env) : Nat → List Body → Solver → Solver
  | _, [], st => st
  | b, body :: rest, st =>
    let st1 :=
      if body.simulation_parameters.constraint_type = ConstraintType.green then
        create_green_constraints_for_body env b body st
      else st
    let st2 :=
      if body.simulation_parameters.constraint_type = ConstraintType.distance then
        create_distance_constraints_for_body env b body st1
      else st1
    create_constraints env (b + 1) rest st2

/-- `x0_.resize(n)`: the vector is truncated or padded with empty vectors. -/
def resize_x0 (xs : List (List Vec3)) (n : Nat) : List (List Vec3) :=
  xs.take n ++ List.replicate (n - xs.length) []

/-- `lagrange_multipliers_.resize(n)`: the vector is truncated or padded with zeros. -/
def resize (xs : List ℚ) (n : Nat) : List ℚ :=
  xs.take n ++ List.replicate (n - xs.length) 0

/-- Embedding of `solver_t::setup` (`solver.cpp` 61-100). -/
def Solver.setup (env : Env) (bodies : List SceneNode) (st : Solver) : Solver :=
  let st1 := sort_bodies bodies st.reset
  let st2 := create_constraints env 0 st1.physics_bodies_ st1
  { st2 with
    x0_ := resize_x0 st2.x0_ st2.physics_bodies_.length
    lagrange_multipliers_ := resize st2.lagrange_multipliers_ st2.constraints_.length }

/-- Embedding of `solver_t::solver_t(bodies)` (`solver.cpp` 38-49):
`dt_{0.0167}, substeps_{30u}, iteration_count_{30u}` followed by `setup(bodies)`. -/
def Solver.mk1 (env : Env) (bodies : List SceneNode) (collision_alpha : ℚ) : Solver :=
  Solver.setup env bodies (Solver.mk3 (167 / 10000) 30 30 collision_alpha)

/-- Embedding of `solver_t::solver_t(timestep, substeps, iterations, bodies)`
(`solver.cpp` 51-59): the three argument constructor followed by `setup(bodies)`. -/
def Solver.mk4 (env : Env) (timestep : ℚ) (substeps iterations : Nat)
    (bodies : List SceneNode) (collision_alpha : ℚ) : Solver :=
  Solver.setup env bodies (Solver.mk3 timestep substeps iterations collision_alpha)

/-! ## `solver_t::handle_collisions` -/

/-- Body of the innermost loop of `handle_collisions` (`solver.cpp` 318-337) for one vertex
index `vi` of the tetrahedron: `flags` is `is_vertex_constrained_by_collision`, `out` is
`collision_constraints_`. `vertices().at(vi)` throws when `vi` is out of range. -/
def check_vertex (alpha : ℚ) (b : Nat) (body : Body) (triangle : Triangle) (n : Vec3)
    (acc : List Bool × List CollisionConstraint) (vi : Nat) :
    Option (List Bool × List CollisionConstraint) :=
  match body.vertices[vi]? with
  | none => none
  | some vertex =>
    let d := Vec3.sub vertex.position triangle.a
    let is_vertex_over_surface := decide (Vec3.dot d n ≥ 0)
    if is_vertex_over_surface then some acc
    else if acc.1.getD vi false then some acc
    else some (acc.1.set vi true, acc.2 ++ [⟨alpha, b, vi, triangle, n⟩])

/-- The loop `for (j = 0; j < v.size(); ++j)` over the four vertex indices of a tetrahedron. -/
def check_vertices (alpha : ℚ) (b : Nat) (body : Body) (triangle : Triangle) (n : Vec3) :
    List Nat → List Bool × List CollisionConstraint →
    Option (List Bool × List CollisionConstraint)
  | [], acc => some acc
  | vi :: rest, acc =>
    match check_vertex alpha b body triangle n acc vi with
    | none => none
    | some acc1 => check_vertices alpha b body triangle n rest acc1

/-- The four vertex indices `{v1, v2, v3, v4}` of a tetrahedron, in the order of the array
`v` of `handle_collisions`. -/
def Tetrahedron.indices (t : Tetrahedron) : List Nat := [t.v1, t.v2, t.v3, t.v4]

/-- Body of the loop over the intersection pairs (`solver.cpp` 308-338) for one pair
`(ti, triangle)`; `tetrahedra().at(ti)` throws when `ti` is out of range. -/
def handle_pair (env : Env) (alpha : ℚ) (b : Nat) (body : Body)
    (acc : List Bool × List CollisionConstraint) (pair : Nat × Triangle) :
    Option (List Bool × List CollisionConstraint) :=
  match body.tetrahedra[pair.1]? with
  | none => none
  | some tetrahedron =>
    check_vertices alpha b body pair.2 (env.normal pair.2) tetrahedron.indices acc

/-- The loop `for (auto const& [ti, triangle] : intersection_pairs)`. -/
def handle_pairs (env : Env) (alpha : ℚ) (b : Nat) (body : Body) :
    List (Nat × Triangle) → List Bool × List CollisionConstraint →
    Option (List Bool × List CollisionConstraint)
  | [], acc => some acc
  | pair :: rest, acc =>
    match handle_pair env alpha b body acc pair with
    | none => none
    | some acc1 => handle_pairs env alpha b body rest acc1

/-- One iteration of `for (auto const& phys_body : physics_bodies_)` (`solver.cpp` 302-339):
the flags are cleared and resized to the vertex count, the detector is asked for the pairs of
this body, and the constraints found are appended to `out`. -/
def handle_body (env : Env) (envs : List EnvBody) (alpha : ℚ) (b : Nat) (body : Body)
    (out : List CollisionConstraint) : Option (List CollisionConstraint) :=
  match handle_pairs env alpha b body (env.intersect envs body)
      (List.replicate body.vertices.length false, out) with
  | none => none
  | some acc => some acc.2

/-- The loop over `physics_bodies_`, `b` being the index of the first body of the list. -/
def handle_bodies (env : Env) (envs : List EnvBody) (alpha : ℚ) :
    Nat → List Body → List CollisionConstraint → Option (List CollisionConstraint)
  | _, [], out => some out
  | b, body :: rest, out =>
    match handle_body env envs alpha b body out with
    | none => none
    | some out1 => handle_bodies env envs alpha (b + 1) rest out1

/-- Embedding of `solver_t::handle_collisions` (`solver.cpp` 292-340): the new value of
`collision_constraints_`, or `none` when an `at` throws. -/
def handle_collisions (env : Env) (st : Solver) : Option (List CollisionConstraint) :=
  handle_bodies env st.environment_bodies_ st.collision_alpha_ 0 st.physics_bodies_
    st.collision_constraints_

/-! ## `solver_t::step` -/

/-- The local `can_perform_substepping` of `step` (`solver.cpp` 118). -/
def can_perform_substepping (st : Solver) : Bool :=
  decide (st.iteration_count_ ≥ st.substeps_)

/-- The local `num_iterations` of `step` (`solver.cpp` 119-123). Both operands are below
`2^32`, so the quotient of the two doubles truncated to `uint32_t` is the integer quotient.
For `substeps_ = 0` the C++ conversion is undefined and the value is never used, because
`num_substeps` is then `0`. -/
def num_iterations (st : Solver) : Nat :=
  if can_perform_substepping st then st.iteration_count_ / st.substeps_
  else st.iteration_count_

/-- The local `num_substeps` of `step` (`solver.cpp` 124). -/
def num_substeps (st : Solver) : Nat :=
  if can_perform_substepping st then st.substeps_ else 1

/-- The local `dt` of `step` (`solver.cpp` 125). -/
def step_dt (st : Solver) : ℚ :=
  if can_perform_substepping st then st.dt_ / (st.substeps_ : ℚ) else st.dt_

/-- The `std::transform` of `solver.cpp` 134-147: the positions of every body are written
over the leading entries of `x0_`. Writing past the end of `x0_` is undefined. -/
def hold_previous_positions (bodies : List Body) (x0 : List (List Vec3)) :
    Option (List (List Vec3)) :=
  if bodies.length ≤ x0.length then
    some (bodies.map (fun body => body.vertices.map (fun v => v.position))
      ++ x0.drop bodies.length)
  else none

/-- The constant `gravity{0., -9.81, 0.}` of `solver.cpp` 150. -/
def gravity : Vec3 := ⟨0, -981 / 100, 0⟩

/-- The lambda of the explicit integration step (`solver.cpp` 156-164). -/
def integrate_vertex (dt : ℚ) (vertex : Vertex) : Vertex :=
  if vertex.fixed then vertex
  else
    let force := Vec3.add vertex.force gravity
    let acceleration := Vec3.sdiv force vertex.mass
    let velocity := Vec3.add vertex.velocity (Vec3.smul dt acceleration)
    { vertex with
      force := force
      velocity := velocity
      position := Vec3.add vertex.position (Vec3.smul dt velocity) }

/-- The explicit integration loop over all bodies (`solver.cpp` 151-165). -/
def integrate (dt : ℚ) (bodies : List Body) : List Body :=
  bodies.map (fun body => { body with vertices := body.vertices.map (integrate_vertex dt) })

/-- One recorded call of `project`: the index of the constraint in its list and the index
of the multiplier slot that was passed by reference; a collision call also records the
constraint itself. -/
inductive ProjectCall where
  | persistent (j : Nat) (slot : Nat)
  | collision (c : Nat) (slot : Nat) (constraint : CollisionConstraint)
deriving DecidableEq, Repr

/-- Mutable data of the projection loops: the bodies, the multipliers and the record of the
calls made so far in the current sweep. -/
structure ProjectionState where
  bodies : List Body
  lagrange : List ℚ
  calls : List ProjectCall

/-- The loop `for (j = 0; j < J; ++j)` of `solver.cpp` 178-182, from index `j` on: the
`j`-th persistent constraint is projected with `lagrange_multipliers_[j]`. -/
def project_constraints (dt : ℚ) : List Constraint → Nat → ProjectionState → ProjectionState
  | [], _, ps => ps
  | constraint :: rest, j, ps =>
    let r := constraint.project ps.bodies (ps.lagrange.getD j 0) dt
    project_constraints dt rest (j + 1)
      { bodies := r.1
        lagrange := ps.lagrange.set j r.2
        calls := ps.calls ++ [ProjectCall.persistent j j] }

/-- The loop `for (c = 0; c < Mc; ++c)` of `solver.cpp` 183-187, from index `c` on: the
`c`-th collision constraint is projected with `lagrange_multipliers_[J + c]`. -/
def project_collision_constraints (env : Env) (dt : ℚ) (J : Nat) :
    List CollisionConstraint → Nat → ProjectionState → ProjectionState
  | [], _, ps => ps
  | constraint :: rest, c, ps =>
    let r := env.collision_project constraint ps.bodies (ps.lagrange.getD (J + c) 0) dt
    project_collision_constraints env dt J rest (c + 1)
      { bodies := r.1
        lagrange := ps.lagrange.set (J + c) r.2
        calls := ps.calls ++ [ProjectCall.collision c (J + c) constraint] }

/-- One iteration of `for (n = 0; n < num_iterations; ++n)` (`solver.cpp` 176-188): a sweep
over the persistent constraints followed by the collision constraints. -/
def sweep (env : Env) (dt : ℚ) (constraints : List Constraint)
    (collision_constraints : List CollisionConstraint) (bodies : List Body)
    (lagrange : List ℚ) : ProjectionState :=
  project_collision_constraints env dt constraints.length collision_constraints 0
    (project_constraints dt constraints 0 { bodies := bodies, lagrange := lagrange, calls := [] })

/-- The loop `for (n = 0; n < num_iterations; ++n)`: the bodies and multipliers after `count`
sweeps together with the record of every sweep. -/
def sweeps (env : Env) (dt : ℚ) (constraints : List Constraint)
    (collision_constraints : List CollisionConstraint) :
    Nat → List Body → List ℚ → List Body × List ℚ × List (List ProjectCall)
  | 0, bodies, lagrange => (bodies, lagrange, [])
  | count + 1, bodies, lagrange =>
    let ps := sweep env dt constraints collision_constraints bodies lagrange
    let r := sweeps env dt constraints collision_constraints count ps.bodies ps.lagrange
    (r.1, r.2.1, ps.calls :: r.2.2)

/-- `std::fill(lagrange_multipliers_.begin(), lagrange_multipliers_.end(), 0.)`. -/
def fill_zero (xs : List ℚ) : List ℚ := xs.map (fun _ => 0)

/-- Body of the inner loop of `solver.cpp` 196-206 for one vertex with its saved position. -/
def update_vertex (dt : ℚ) (x0 : Vec3) (vertex : Vertex) : Vertex :=
  let x := vertex.position
  { vertex with
    velocity := Vec3.sdiv (Vec3.sub x x0) dt
    position := x
    force := Vec3.zero }

/-- The loop `for (vi = 0; vi < vertex_count; ++vi)` of `solver.cpp` 196-206, walking the
vertices and the saved positions `x0_[b]` side by side; reading `x0_[b][vi]` past the end is
undefined. -/
def update_vertices (dt : ℚ) : List Vec3 → List Vertex → Option (List Vertex)
  | _, [] => some []
  | [], _ :: _ => none
  | x0 :: xs, vertex :: rest =>
    match update_vertices dt xs rest with
    | none => none
    | some rest1 => some (update_vertex dt x0 vertex :: rest1)

/-- The loop `for (b = 0; b < physics_bodies_.size(); ++b)` of `solver.cpp` 192-207, walking
the bodies and `x0_` side by side; reading `x0_[b]` past the end is undefined. -/
def update_bodies (dt : ℚ) : List (List Vec3) → List Body → Option (List Body)
  | _, [] => some []
  | [], _ :: _ => none
  | x0b :: xs, body :: rest =>
    match update_vertices dt x0b body.vertices with
    | none => none
    | some vertices =>
      match update_bodies dt xs rest with
      | none => none
      | some rest1 => some ({ body with vertices := vertices } :: rest1)

/-- What one pass through the body of the substep loop did: the sub-interval `dt`, the
collision constraints appended by this pass of `handle_collisions`, the multiplier vector
right before the first sweep, and the calls of `project` of every sweep; `J` and `Mc` are the
locals of `solver.cpp` 172-173. -/
structure SubstepRecord where
  dt : ℚ
  J : Nat
  Mc : Nat
  generated : List CollisionConstraint
  lagrange_before_sweeps : List ℚ
  sweeps : List (List ProjectCall)
deriving DecidableEq, Repr

/-- Body of the loop `for (s = 0; s < num_substeps; ++s)` of `step` (`solver.cpp` 127-210)
with the locals `dt` and `num_iterations`. -/
def substep (env : Env) (dt : ℚ) (iterations : Nat) (st : Solver) :
    Option (Solver × SubstepRecord) :=
  match hold_previous_positions st.physics_bodies_ st.x0_ with
  | none => none
  | some x0 =>
    let st1 := { st with x0_ := x0, physics_bodies_ := integrate dt st.physics_bodies_ }
    match handle_collisions env st1 with
    | none => none
    | some collision_constraints =>
      let J := st1.constraints_.length
      let Mc := collision_constraints.length
      let lagrange := fill_zero (resize st1.lagrange_multipliers_ (J + Mc))
      let r := sweeps env dt st1.constraints_ collision_constraints iterations
        st1.physics_bodies_ lagrange
      match update_bodies dt x0 r.1 with
      | none => none
      | some bodies =>
        some ({ st1 with
                physics_bodies_ := bodies
                collision_constraints_ := []
                lagrange_multipliers_ := r.2.1 },
              { dt := dt
                J := J
                Mc := Mc
                generated := collision_constraints.drop st.collision_constraints_.length
                lagrange_before_sweeps := lagrange
                sweeps := r.2.2 })

/-- The loop `for (s = 0; s < num_substeps; ++s)`: `count` passes through the body. -/
def substeps (env : Env) (dt : ℚ) (iterations : Nat) :
    Nat → Solver → Option (Solver × List SubstepRecord)
  | 0, st => some (st, [])
  | count + 1, st =>
    match substep env dt iterations st with
    | none => none
    | some (st1, record) =>
      match substeps env dt iterations count st1 with
      | none => none
      | some (st2, records) => some (st2, record :: records)

/-- Embedding of `solver_t::step` (`solver.cpp` 113-211): the solver after the call and the
record of its substeps, or `none` when the call throws or is undefined. -/
def step (env : Env) (st : Solver) : Option (Solver × List SubstepRecord) :=
  substeps env (step_dt st) (num_iterations st) (num_substeps st) st

/-! ## Well-formedness of a solver state

`step` completes when no `at` throws and no `operator[]` leaves its vector. The conditions
below are what the constructors, `setup` and the collaborators are relied upon to provide. -/

/-- What `step` relies on in a body: the vertex count and the tetrahedra. -/
def Body.shape (body : Body) : Nat × List Tetrahedron :=
  (body.vertices.length, body.tetrahedra)

/-- Every vertex index of every tetrahedron is an index into the vertex list. -/
def shape_ok (s : Nat × List Tetrahedron) : Prop :=
  ∀ t ∈ s.2, ∀ vi ∈ t.indices, vi < s.1

instance (s : Nat × List Tetrahedron) : Decidable (shape_ok s) := by
  unfold shape_ok; infer_instance

/-- Two lists of bodies with the same number of bodies, the same vertex counts and the same
tetrahedra. -/
def SameShape (bodies bodies1 : List Body) : Prop :=
  bodies.map Body.shape = bodies1.map Body.shape

instance (bodies bodies1 : List Body) : Decidable (SameShape bodies bodies1) := by
  unfold SameShape; infer_instance

/-- A projection that neither adds nor removes bodies, vertices or tetrahedra. -/
def KeepsShape (project : List Body → ℚ → ℚ → List Body × ℚ) : Prop :=
  ∀ bodies lagrange dt, SameShape bodies (project bodies lagrange dt).1

/-- The detector reports tetrahedron indices of the body it was asked about. -/
def DetectorOk (env : Env) : Prop :=
  ∀ envs body, ∀ pair ∈ env.intersect envs body, pair.1 < body.tetrahedra.length

/-- The state of a solver on which `step` runs to completion: `x0_` has an entry for every
body (`setup` resizes it so), the tetrahedra index existing vertices, the detector reports
existing tetrahedra, and no projection changes the shape of a body. -/
structure Ready (env : Env) (st : Solver) : Prop where
  x0_size : st.physics_bodies_.length ≤ st.x0_.length
  shapes : ∀ s ∈ st.physics_bodies_.map Body.shape, shape_ok s
  detector : DetectorOk env
  persistent : ∀ c ∈ st.constraints_, KeepsShape c.project
  collision : ∀ c, KeepsShape (env.collision_project c)

/-- The vertex `vi` of body `b`, when both indices exist. -/
def vertex_at (bodies : List Body) (b vi : Nat) : Option Vertex :=
  match bodies[b]? with
  | none => none
  | some body => body.vertices[vi]?

/-! ## Vocabulary for `handle_collisions` -/

/-- Whether vertex `vi` of the body lies strictly below the plane of the triangle. -/
def pen (body : Body) (triangle : Triangle) (n : Vec3) (vi : Nat) : Bool :=
  match body.vertices[vi]? with
  | none => false
  | some vertex => decide (Vec3.dot (Vec3.sub vertex.position triangle.a) n < 0)

/-- What a stretch of `handle_collisions` does to the flags: `flags1` are the flags after it
and `added` the constraints it appended. -/
structure Grows (flags flags1 : List Bool) (added : List CollisionConstraint) : Prop where
  length_eq : flags1.length = flags.length
  flag_iff : ∀ vi, flags1.getD vi false = true ↔
    (flags.getD vi false = true ∨ ∃ c ∈ added, c.vi = vi)
  fresh : ∀ c ∈ added, flags.getD c.vi false = false
  nodup : (added.map (fun c => c.vi)).Nodup

/-- Whether the pair `(ti, triangle)` reports a tetrahedron that has `vi` among its four
vertices while vertex `vi` lies strictly below the plane of the triangle:
`(position(vi) - triangle.a) . n < 0`. -/
def penetrates (env : Env) (body : Body) (vi : Nat) (pair : Nat × Triangle) : Bool :=
  match body.tetrahedra[pair.1]? with
  | none => false
  | some t => decide (vi ∈ t.indices) && pen body pair.2 (env.normal pair.2) vi

/-- What one pass of the loop over the bodies appended for body `b`. -/
structure BodyAdded (env : Env) (envs : List EnvBody) (alpha : ℚ) (b : Nat) (body : Body)
    (added : List CollisionConstraint) : Prop where
  nodup : (added.map (fun c => c.vi)).Nodup
  first : ∀ c ∈ added, ∃ pair,
    (env.intersect envs body).find? (penetrates env body c.vi) = some pair ∧
    c = ⟨alpha, b, c.vi, pair.2, env.normal pair.2⟩
  complete : ∀ vi, (env.intersect envs body).any (penetrates env body vi) = true →
    ∃ c ∈ added, c.vi = vi

/-- What the loop over the bodies appended, `b` being the index of the first body. -/
def BodiesAdded (env : Env) (envs : List EnvBody) (alpha : ℚ) :
    Nat → List Body → List CollisionConstraint → Prop
  | _, [], added => added = []
  | b, body :: rest, added =>
    ∃ a1 a2, added = a1 ++ a2 ∧ BodyAdded env envs alpha b body a1 ∧
      BodiesAdded env envs alpha (b + 1) rest a2

/-! ## Vocabulary for `step` -/

/-- The calls of `project` of one sweep as `solver.cpp` 178-187 orders them: the persistent
constraints `0 .. J-1`, each with its own slot, then the collision constraints `0 .. Mc-1`
with the slots `J .. J+Mc-1`. -/
def expected_calls (J : Nat) (collision_constraints : List CollisionConstraint) :
    List ProjectCall :=
  (List.range J).map (fun j => ProjectCall.persistent j j) ++
    collision_constraints.enum.map (fun p => ProjectCall.collision p.1 (J + p.1) p.2)

/-- The collision constraints that were projected in a sweep, in the order of the calls. -/
def collisions_of (calls : List ProjectCall) : List CollisionConstraint :=
  calls.filterMap (fun call =>
    match call with
    | ProjectCall.persistent _ _ => none
    | ProjectCall.collision _ _ constraint => some constraint)

/-- The positions saved for one body by `hold_previous_positions`. -/
def positions_of (body : Body) : List Vec3 := body.vertices.map (fun v => v.position)

/-- The body after the update of `solver.cpp` 196-206 with the saved positions `x0b`. -/
def update_body (dt : ℚ) (x0b : List Vec3) (body : Body) : Body :=
  { body with vertices := List.zipWith (update_vertex dt) x0b body.vertices }

/-- The solver and the record that one pass through the body of the substep loop produces
when `handle_collisions` appended `added`. -/
def substep_result (env : Env) (dt : ℚ) (iterations : Nat) (st : Solver)
    (added : List CollisionConstraint) : Solver × SubstepRecord :=
  let ccs := st.collision_constraints_ ++ added
  let J := st.constraints_.length
  let r := sweeps env dt st.constraints_ ccs iterations (integrate dt st.physics_bodies_)
    (List.replicate (J + ccs.length) 0)
  ({ st with
     x0_ := st.physics_bodies_.map positions_of ++ st.x0_.drop st.physics_bodies_.length
     physics_bodies_ :=
       List.zipWith (update_body dt) (st.physics_bodies_.map positions_of) r.1
     collision_constraints_ := []
     lagrange_multipliers_ := r.2.1 },
   { dt := dt
     J := J
     Mc := ccs.length
     generated := added
     lagrange_before_sweeps := List.replicate (J + ccs.length) 0
     sweeps := List.replicate iterations (expected_calls J ccs) })

/-- What the record of one substep must look like when the substep ran with sub-interval
`dt`, `iterations` sweeps and `J` persistent constraints, `old` being the collision
constraints that were in the list before `handle_collisions` ran. -/
def RecordOk (dt : ℚ) (iterations J : Nat) (old : List CollisionConstraint)
    (r : SubstepRecord) : Prop :=
  r.dt = dt ∧ r.J = J ∧ r.Mc = (old ++ r.generated).length ∧
  r.lagrange_before_sweeps = List.replicate (r.J + r.Mc) 0 ∧
  r.sweeps = List.replicate iterations (expected_calls J (old ++ r.generated))

/-- The records of consecutive substeps: only the first one can see collision constraints
that were in the list before `step` was entered. -/
def RecordsOk (dt : ℚ) (iterations J : Nat) :
    List CollisionConstraint → List SubstepRecord → Prop
  | _, [] => True
  | old, r :: rs => RecordOk dt iterations J old r ∧ RecordsOk dt iterations J [] rs

/-- The states a `solver_t` object can be in: it is made by a constructor and then driven
through `setup`, `reset`, the reference accessors `timestep()`, `substeps()`, `iterations()`,
`collision_compliance()` and calls of `step` that return. -/
inductive Reachable (env : Env) : Solver → Prop where
  | mk0 (collision_alpha : ℚ) : Reachable env (Solver.mk0 collision_alpha)
  | mk3 (timestep : ℚ) (substeps iterations : Nat) (collision_alpha : ℚ) :
      Reachable env (Solver.mk3 timestep substeps iterations collision_alpha)
  | setup (bodies : List SceneNode) (st : Solver) :
      Reachable env st → Reachable env (Solver.setup env bodies st)
  | reset (st : Solver) : Reachable env st → Reachable env st.reset
  | configure (st : Solver) (timestep : ℚ) (substeps iterations : Nat) (collision_alpha : ℚ) :
      Reachable env st →
      Reachable env
        { st with
          dt_ := timestep
          substeps_ := substeps
          iteration_count_ := iterations
          collision_alpha_ := collision_alpha }
  | step (st st1 : Solver) (records : List SubstepRecord) :
      Reachable env st → step env st = some (st1, records) → Reachable env st1

/-- Vertex `vi` of body `b` exists, is fixed and sits at `p`. -/
def FixedAt (bodies : List Body) (b vi : Nat) (p : Vec3) : Prop :=
  ∃ v, vertex_at bodies b vi = some v ∧ v.fixed = true ∧ v.position = p

/-- A projection that does not move fixed vertices: a vertex that is fixed before the call
is fixed after it, at the same position. -/
def KeepsFixed (project : List Body → ℚ → ℚ → List Body × ℚ) : Prop :=
  ∀ bodies lagrange dt b vi p, FixedAt bodies b vi p → FixedAt (project bodies lagrange dt).1 b vi p

/-- What one substep does to a vertex when no constraint is projected. -/
def free_vertex (dt : ℚ) (v : Vertex) : Vertex :=
  update_vertex dt v.position (integrate_vertex dt v)

/-! ## Matrices (`Eigen::Matrix3d`) -/

/-- Three by three matrix, the embedding of `Eigen::Matrix3d`; `mij` is the entry of row `i`
and column `j`. -/
@[ext]
structure Mat3 where
  m00 : ℚ
  m01 : ℚ
  m02 : ℚ
  m10 : ℚ
  m11 : ℚ
  m12 : ℚ
  m20 : ℚ
  m21 : ℚ
  m22 : ℚ
deriving DecidableEq, Repr

namespace Mat3

/-- Embedding of `setZero()`. -/
def zero : Mat3 := ⟨0, 0, 0, 0, 0, 0, 0, 0, 0⟩

/-- Embedding of `Eigen::Matrix3d::Identity()`. -/
def identity : Mat3 := ⟨1, 0, 0, 0, 1, 0, 0, 0, 1⟩

/-- Entry-wise sum `A + B`. -/
def add (A B : Mat3) : Mat3 :=
  ⟨A.m00 + B.m00, A.m01 + B.m01, A.m02 + B.m02,
   A.m10 + B.m10, A.m11 + B.m11, A.m12 + B.m12,
   A.m20 + B.m20, A.m21 + B.m21, A.m22 + B.m22⟩

/-- Entry-wise difference `A - B`. -/
def sub (A B : Mat3) : Mat3 :=
  ⟨A.m00 - B.m00, A.m01 - B.m01, A.m02 - B.m02,
   A.m10 - B.m10, A.m11 - B.m11, A.m12 - B.m12,
   A.m20 - B.m20, A.m21 - B.m21, A.m22 - B.m22⟩

/-- Product with a scalar `s * A`. -/
def smul (s : ℚ) (A : Mat3) : Mat3 :=
  ⟨s * A.m00, s * A.m01, s * A.m02,
   s * A.m10, s * A.m11, s * A.m12,
   s * A.m20, s * A.m21, s * A.m22⟩

/-- Matrix product `A * B`. -/
def mul (A B : Mat3) : Mat3 :=
  ⟨A.m00 * B.m00 + A.m01 * B.m10 + A.m02 * B.m20,
   A.m00 * B.m01 + A.m01 * B.m11 + A.m02 * B.m21,
   A.m00 * B.m02 + A.m01 * B.m12 + A.m02 * B.m22,
   A.m10 * B.m00 + A.m11 * B.m10 + A.m12 * B.m20,
   A.m10 * B.m01 + A.m11 * B.m11 + A.m12 * B.m21,
   A.m10 * B.m02 + A.m11 * B.m12 + A.m12 * B.m22,
   A.m20 * B.m00 + A.m21 * B.m10 + A.m22 * B.m20,
   A.m20 * B.m01 + A.m21 * B.m11 + A.m22 * B.m21,
   A.m20 * B.m02 + A.m21 * B.m12 + A.m22 * B.m22⟩

/-- Transposed matrix `A.transpose()`. -/
def transpose (A : Mat3) : Mat3 :=
  ⟨A.m00, A.m10, A.m20, A.m01, A.m11, A.m21, A.m02, A.m12, A.m22⟩

/-- Matrix times column vector `A * v`; its component `i` is `A.row(i).dot(v)`. -/
def mulVec (A : Mat3) (v : Vec3) : Vec3 :=
  ⟨A.m00 * v.x + A.m01 * v.y + A.m02 * v.z,
   A.m10 * v.x + A.m11 * v.y + A.m12 * v.z,
   A.m20 * v.x + A.m21 * v.y + A.m22 * v.z⟩

/-- Column vector times row vector `u * v.transpose()`. -/
def outer (u v : Vec3) : Mat3 :=
  ⟨u.x * v.x, u.x * v.y, u.x * v.z,
   u.y * v.x, u.y * v.y, u.y * v.z,
   u.z * v.x, u.z * v.y, u.z * v.z⟩

/-- Sum of the diagonal `A.trace()`. -/
def trace (A : Mat3) : ℚ := A.m00 + A.m11 + A.m22

/-- The contraction `(A.array() * A.array()).sum()`. -/
def contraction (A : Mat3) : ℚ :=
  A.m00 * A.m00 + A.m01 * A.m01 + A.m02 * A.m02 +
  A.m10 * A.m10 + A.m11 * A.m11 + A.m12 * A.m12 +
  A.m20 * A.m20 + A.m21 * A.m21 + A.m22 * A.m22

end Mat3

/-! ## Data model of the particle based API -/

/-- Embedding of `xpbd::particle_t` with the accessors used under `src/`: `x()`, `xi()`,
`xn()`, `v()`, `f()` and `invmass()`. -/
structure Particle where
  x : Vec3
  xi : Vec3
  xn : Vec3
  v : Vec3
  f : Vec3
  invmass : ℚ
deriving DecidableEq, Repr

/-- Modelled from the spec: `particle_t::a()` is declared outside `src/`. The spec integrates
with `v += dt * (f / m)` and stores the inverse mass of a particle, `0` for a fixed one, so the
acceleration is the force times the inverse mass. -/
def Particle.a (p : Particle) : Vec3 := Vec3.smul p.invmass p.f

/-- Embedding of `mechanics::meshless_sph_surface_vertex_t` as read by the collision
constraint: `neighbours()`, `Xkjs()`, `Wkjs()`, `Vjs()` and `sk()`. -/
structure SurfaceVertex where
  neighbours : List Nat
  Xkjs : List Vec3
  Wkjs : List ℚ
  Vjs : List ℚ
  sk : ℚ
deriving DecidableEq, Repr

/-- Embedding of `meshless_sph_collision_constraint_t`: the members `alpha_`, `beta_` and
`lagrange_` of `constraint_t`, then `bi_`, `vk_`, `vi_`, `n_`, `c_`; of the body `b_` the
constraint reads `nodes()[j].Fi()` only, kept here as the list `node_Fis`. -/
structure MeshlessSphCollisionConstraint where
  alpha_ : ℚ
  beta_ : ℚ
  lagrange_ : ℚ
  bi_ : Nat
  node_Fis : List Mat3
  vk_ : SurfaceVertex
  vi_ : Vec3
  n_ : Vec3
  c_ : Vec3
deriving DecidableEq, Repr

/-- Embedding of `simulation_t` as read under `src/`: `particles()`, one vector of particles
for every body, and `collision_constraints()`. -/
structure Simulation where
  particles : List (List Particle)
  collision_constraints : List MeshlessSphCollisionConstraint
deriving DecidableEq, Repr

/-- The particle `i` of body `bi`, when both indices exist. -/
def particle_at (particles : List (List Particle)) (bi i : Nat) : Option Particle :=
  match particles[bi]? with
  | none => none
  | some body_particles => body_particles[i]?

/-- The constant `epsilon = 1e-20` of `project_positions`. -/
def epsilon : ℚ := 1 / 10 ^ 20

/-! ## `meshless_sph_collision_constraint_t::project_positions` -/

/-- The first loop of `meshless_sph_collision_constraint.cpp` 49-58 from index `a` on, over
the neighbours that are left: the gradients pushed so far and `weighted_sum_of_gradients`. -/
def collision_gradients (c : MeshlessSphCollisionConstraint) (particles : List Particle) :
    List Nat → Nat → List Vec3 × ℚ → Option (List Vec3 × ℚ)
  | [], _, acc => some acc
  | j :: rest, a, acc =>
    match c.vk_.Vjs[a]?, c.vk_.Wkjs[a]?, particles[j]? with
    | some Vj, some Wkj, some p =>
      let grad := Vec3.smul (c.vk_.sk * Vj * Wkj) c.n_
      collision_gradients c particles rest (a + 1)
        (acc.1 ++ [grad], acc.2 + p.invmass * Vec3.squaredNorm grad)
    | _, _, _ => none

/-- The second loop of `meshless_sph_collision_constraint.cpp` 65-78 from index `a` on: the
particles and the vertex position `vi_` accumulated so far. -/
def collision_update (c : MeshlessSphCollisionConstraint) (gradC : List Vec3)
    (delta_lagrange : ℚ) :
    List Nat → Nat → List Particle × Vec3 → Option (List Particle × Vec3)
  | [], _, acc => some acc
  | j :: rest, a, acc =>
    match acc.1[j]?, gradC[a]?, c.vk_.Vjs[a]?, c.vk_.Xkjs[a]?, c.vk_.Wkjs[a]?,
        c.node_Fis[j]? with
    | some p, some grad, some Vj, some Xkj, some Wkj, some Fj =>
      let p1 :=
        { p with xi := Vec3.add p.xi (Vec3.smul delta_lagrange (Vec3.smul p.invmass grad)) }
      let vi := Vec3.add acc.2
        (Vec3.smul Wkj (Vec3.smul (c.vk_.sk * Vj) (Vec3.add (Mat3.mulVec Fj Xkj) p1.xi)))
      collision_update c gradC delta_lagrange rest (a + 1) (acc.1.set j p1, vi)
    | _, _, _, _, _, _ => none

/-- Embedding of `meshless_sph_collision_constraint_t::project_positions`
(`meshless_sph_collision_constraint.cpp` 25-79): the constraint, whose member `vi_` is
written, and the simulation after the call. The two quotients are those of `ℚ`: the
embedding is that of the code where `dt` and `weighted_sum_of_gradients + alpha_tilde` are
not zero; `finite_delta_lagrange` follows the quotients where a divisor is zero. -/
def MeshlessSphCollisionConstraint.project_positions (c : MeshlessSphCollisionConstraint)
    (simulation : Simulation) (dt : ℚ) :
    Option (MeshlessSphCollisionConstraint × Simulation) :=
  match simulation.particles[c.bi_]? with
  | none => none
  | some particles =>
    let C := Vec3.dot (Vec3.sub c.vi_ c.c_) c.n_
    if C ≥ 0 then some (c, simulation)
    else
      match collision_gradients c particles c.vk_.neighbours 0 ([], 0) with
      | none => none
      | some (gradC, weighted_sum_of_gradients) =>
        let alpha_tilde := c.alpha_ / (dt * dt)
        let delta_lagrange :=
          -(C + alpha_tilde * c.lagrange_) / (weighted_sum_of_gradients + alpha_tilde)
        match collision_update c gradC delta_lagrange c.vk_.neighbours 0
            (particles, Vec3.zero) with
        | none => none
        | some (particles1, vi) =>
          some ({ c with vi_ := vi },
                { simulation with particles := simulation.particles.set c.bi_ particles1 })

/-- The value of `weighted_sum_of_gradients` that `project_positions` holds when it divides
(`meshless_sph_collision_constraint.cpp` 48-62). -/
def MeshlessSphCollisionConstraint.weighted_sum_of_gradients
    (c : MeshlessSphCollisionConstraint) (simulation : Simulation) : Option ℚ :=
  match simulation.particles[c.bi_]? with
  | none => none
  | some particles =>
    match collision_gradients c particles c.vk_.neighbours 0 ([], 0) with
    | none => none
    | some r => some r.2

/-! ## `hybrid_mesh_meshless_sph_constraint_t` -/

/-- Embedding of `mechanics::hybrid_mesh_meshless_sph_body_t` as read by the constraint:
the two index offsets, `topology().tetrahedron(ti)`, `is_boundary_mesh_vertex(vi)` and
`grad_phi_i(ti, i)`. -/
structure HybridBody where
  mesh_particles_index_offset : Nat
  meshless_particles_index_offset : Nat
  tetrahedra : List Tetrahedron
  is_boundary_mesh_vertex : Nat → Bool
  grad_phi_i : Nat → Nat → Vec3

/-- Embedding of `mechanics::hybrid_mesh_meshless_sph_node_t` as read by the constraint:
`neighbours()`, `Vjs()`, `gradWij()`, `Li()`, `Vi()`, `Fi()`, `ti()`, `is_mixed_particle()` and
`body()`. -/
structure HybridNode where
  neighbours : List Nat
  Vjs : List ℚ
  gradWij : List Vec3
  Li : Mat3
  Vi : ℚ
  Fi : Mat3
  ti : Nat
  is_mixed_particle : Bool
  body : HybridBody

/-- Embedding of `hybrid_mesh_meshless_sph_constraint_t`: the members `alpha_`, `beta_` and
`lagrange_` of `constraint_t`, then `node_`, `bi_`, `ni_`, `mu_` and `lambda_`. -/
structure HybridConstraint where
  alpha_ : ℚ
  beta_ : ℚ
  lagrange_ : ℚ
  node_ : HybridNode
  bi_ : Nat
  ni_ : Nat
  mu_ : ℚ
  lambda_ : ℚ

/-- Embedding of the constructor (`hybrid_mesh_meshless_sph_stvk_constraint.cpp` 12-25); the
multiplier of a new `constraint_t` is `0`. -/
def HybridConstraint.mk8 (alpha beta : ℚ) (bi ni : Nat) (young_modulus poisson_ratio : ℚ)
    (node : HybridNode) : HybridConstraint :=
  { alpha_ := alpha
    beta_ := beta
    lagrange_ := 0
    node_ := node
    bi_ := bi
    ni_ := ni
    mu_ := young_modulus / (2 * (1 + poisson_ratio))
    lambda_ := (young_modulus * poisson_ratio) / ((1 + poisson_ratio) * (1 - 2 * poisson_ratio)) }

/-- The loop of `deformation_gradient` (lines 122-133) from index `k` on, over the
neighbours that are left. -/
def deformation_gradient_loop (c : HybridConstraint) (particles : List Particle) :
    List Nat → Nat → Mat3 → Option Mat3
  | [], _, Fi => some Fi
  | j :: rest, k, Fi =>
    let offset := c.node_.body.meshless_particles_index_offset
    match c.node_.Vjs[k]?, c.node_.gradWij[k]?, particles[offset + c.ni_]?,
        particles[offset + j]? with
    | some Vj, some gradWij, some pi, some pj =>
      let xji := Vec3.sub pj.xi pi.xi
      let Fij := Mat3.outer (Vec3.smul Vj xji) (Mat3.mulVec c.node_.Li gradWij)
      deformation_gradient_loop c particles rest (k + 1) (Mat3.add Fi Fij)
    | _, _, _, _ => none

/-- Embedding of `hybrid_mesh_meshless_sph_constraint_t::deformation_gradient` (lines
109-154); the branch for a mixed particle is commented out in the source and does nothing. -/
def HybridConstraint.deformation_gradient (c : HybridConstraint) (particles : List Particle) :
    Option Mat3 :=
  deformation_gradient_loop c particles c.node_.neighbours 0 Mat3.zero

/-- Embedding of `hybrid_mesh_meshless_sph_constraint_t::green_strain` (lines 156-161). -/
def HybridConstraint.green_strain (Fi : Mat3) : Mat3 :=
  Mat3.smul (1 / 2) (Mat3.sub (Mat3.mul (Mat3.transpose Fi) Fi) Mat3.identity)

/-- Embedding of `hybrid_mesh_meshless_sph_constraint_t::strain_energy_and_stress` (lines
163-178): the pair `(Psi, dPsidFi)`. -/
def HybridConstraint.strain_energy_and_stress (c : HybridConstraint) (Fi Ei : Mat3) :
    ℚ × Mat3 :=
  let Eitrace := Mat3.trace Ei
  let Psi := c.mu_ * Mat3.contraction Ei + (1 / 2) * c.lambda_ * (Eitrace * Eitrace)
  let dPsidFi := Mat3.mul Fi
    (Mat3.add (Mat3.smul (2 * c.mu_) Ei) (Mat3.smul (c.lambda_ * Eitrace) Mat3.identity))
  (Psi, dPsidFi)

/-- Embedding of `hybrid_mesh_meshless_sph_constraint_t::C` (lines 180-183). -/
def HybridConstraint.C (c : HybridConstraint) (Psi : ℚ) : ℚ := c.node_.Vi * Psi

/-- `xs[i] = f(xs[i])` on a vector; an index past the end is undefined. -/
def modify_at (xs : List Vec3) (i : Nat) (f : Vec3 → Vec3) : Option (List Vec3) :=
  match xs[i]? with
  | none => none
  | some x => some (xs.set i (f x))

/-- The loop of `dCdxk` (lines 194-219) from index `a` on, over the neighbours that are
left; `i_idx` is the position of `ni_` in `neighbours`. -/
def dCdxk_loop (c : HybridConstraint) (dPsidFi : Mat3) (i_idx : Nat) :
    List Nat → Nat → List Vec3 → Option (List Vec3)
  | [], _, gradC => some gradC
  | k :: rest, a, gradC =>
    if k = c.ni_ then dCdxk_loop c dPsidFi i_idx rest (a + 1) gradC
    else
      match c.node_.Vjs[a]?, c.node_.gradWij[a]? with
      | some Vj, some gradWij =>
        let LiGradWij := Mat3.mulVec c.node_.Li gradWij
        let dFidxj := Vec3.smul Vj LiGradWij
        let gradPsi := Vec3.smul c.node_.Vi (Mat3.mulVec dPsidFi dFidxj)
        match modify_at gradC a (fun g => Vec3.add g gradPsi) with
        | none => none
        | some gradC1 =>
          match modify_at gradC1 i_idx (fun g => Vec3.sub g gradPsi) with
          | none => none
          | some gradC2 => dCdxk_loop c dPsidFi i_idx rest (a + 1) gradC2
      | _, _ => none

/-- Embedding of `hybrid_mesh_meshless_sph_constraint_t::dCdxk` (lines 185-222); `std::find`
returns the end of `neighbours` when `ni_` is absent, which makes `i_idx` its size. -/
def HybridConstraint.dCdxk (c : HybridConstraint) (dPsidFi : Mat3) : Option (List Vec3) :=
  let neighbours := c.node_.neighbours
  let i_idx := neighbours.indexOf c.ni_
  dCdxk_loop c dPsidFi i_idx neighbours 0 (List.replicate neighbours.length Vec3.zero)

/-- The loop of `dCdvi` (lines 233-252) from corner `i` on, over the vertex indices of the
tetrahedron that are left. -/
def dCdvi_loop (c : HybridConstraint) (dPsidFi : Mat3) :
    List Nat → Nat → List (Option Vec3)
  | [], _ => []
  | vi :: rest, i =>
    if c.node_.body.is_boundary_mesh_vertex vi then none :: dCdvi_loop c dPsidFi rest (i + 1)
    else
      let grad_phi_i := c.node_.body.grad_phi_i c.node_.ti i
      let gradPsi := Vec3.smul c.node_.Vi (Mat3.mulVec dPsidFi grad_phi_i)
      some gradPsi :: dCdvi_loop c dPsidFi rest (i + 1)

/-- Embedding of `hybrid_mesh_meshless_sph_constraint_t::dCdvi` (lines 224-255): the array of
four optional gradients; `tetrahedron(ti)` needs an existing tetrahedron. -/
def HybridConstraint.dCdvi (c : HybridConstraint) (dPsidFi : Mat3) :
    Option (List (Option Vec3)) :=
  if c.node_.is_mixed_particle then
    match c.node_.body.tetrahedra[c.node_.ti]? with
    | none => none
    | some t => some (dCdvi_loop c dPsidFi t.indices 0)
  else some [none, none, none, none]

/-- The loop of `project_positions` lines 52-58 from index `a` on: the pair
`(weighted_sum_of_gradients, gradC_dot_displacement)`. -/
def meshless_sums (c : HybridConstraint) (particles : List Particle) (gradC : List Vec3) :
    List Nat → Nat → ℚ × ℚ → Option (ℚ × ℚ)
  | [], _, acc => some acc
  | j :: rest, a, acc =>
    match particles[c.node_.body.meshless_particles_index_offset + j]?, gradC[a]? with
    | some pj, some g =>
      meshless_sums c particles gradC rest (a + 1)
        (acc.1 + pj.invmass * Vec3.squaredNorm g,
         acc.2 + Vec3.dot g (Vec3.sub pj.xi pj.xn))
    | _, _ => none

/-- The loop of `project_positions` lines 61-71 from corner `i` on: the particle of a mesh
vertex is read at `particles[vi]`. -/
def mesh_sums (c : HybridConstraint) (particles : List Particle) :
    List (Option Vec3) → Nat → ℚ × ℚ → Option (ℚ × ℚ)
  | [], _, acc => some acc
  | none :: rest, i, acc => mesh_sums c particles rest (i + 1) acc
  | some g :: rest, i, acc =>
    match c.node_.body.tetrahedra[c.node_.ti]? with
    | none => none
    | some t =>
      match t.indices[i]? with
      | none => none
      | some vi =>
        match particles[vi]? with
        | none => none
        | some pi =>
          mesh_sums c particles rest (i + 1)
            (acc.1 + pi.invmass * Vec3.squaredNorm g,
             acc.2 + Vec3.dot g (Vec3.sub pi.xi pi.xn))

/-- The locals of `project_positions` at the test against `epsilon` (line 74). -/
structure GradientSums where
  Fi : Mat3
  C : ℚ
  gradC : List Vec3
  gradC_wrt_mesh_indices : List (Option Vec3)
  weighted_sum_of_gradients : ℚ
  gradC_dot_displacement : ℚ

/-- Lines 36-71 of `project_positions`: everything that is computed before the test against
`epsilon`. -/
def HybridConstraint.gradient_sums (c : HybridConstraint) (particles : List Particle) :
    Option GradientSums :=
  match c.deformation_gradient particles with
  | none => none
  | some Fi =>
    let Ei := HybridConstraint.green_strain Fi
    let r := c.strain_energy_and_stress Fi Ei
    let C := c.node_.Vi * r.1
    match c.dCdxk r.2 with
    | none => none
    | some gradC =>
      match meshless_sums c particles gradC c.node_.neighbours 0 (0, 0) with
      | none => none
      | some s1 =>
        match c.dCdvi r.2 with
        | none => none
        | some gradC_wrt_mesh_indices =>
          match mesh_sums c particles gradC_wrt_mesh_indices 0 s1 with
          | none => none
          | some s2 =>
            some { Fi := Fi
                   C := C
                   gradC := gradC
                   gradC_wrt_mesh_indices := gradC_wrt_mesh_indices
                   weighted_sum_of_gradients := s2.1
                   gradC_dot_displacement := s2.2 }

/-- The loop of `project_positions` lines 90-95 from index `a` on. -/
def update_meshless_particles (c : HybridConstraint) (gradC : List Vec3) (delta_lagrange : ℚ) :
    List Nat → Nat → List Particle → Option (List Particle)
  | [], _, particles => some particles
  | j :: rest, a, particles =>
    let index := c.node_.body.meshless_particles_index_offset + j
    match particles[index]?, gradC[a]? with
    | some pj, some g =>
      update_meshless_particles c gradC delta_lagrange rest (a + 1)
        (particles.set index
          { pj with
            xi := Vec3.add pj.xi (Vec3.smul delta_lagrange (Vec3.smul pj.invmass g)) })
    | _, _ => none

/-- The loop of `project_positions` lines 97-106 from corner `i` on: the particle of a mesh
vertex is written at `particles[mesh_particle_offset + vi]`. -/
def update_mesh_particles (c : HybridConstraint) (delta_lagrange : ℚ) :
    List (Option Vec3) → Nat → List Particle → Option (List Particle)
  | [], _, particles => some particles
  | none :: rest, i, particles => update_mesh_particles c delta_lagrange rest (i + 1) particles
  | some g :: rest, i, particles =>
    match c.node_.body.tetrahedra[c.node_.ti]? with
    | none => none
    | some t =>
      match t.indices[i]? with
      | none => none
      | some vi =>
        let index := c.node_.body.mesh_particles_index_offset + vi
        match particles[index]? with
        | none => none
        | some pi =>
          update_mesh_particles c delta_lagrange rest (i + 1)
            (particles.set index
              { pi with
                xi := Vec3.add pi.xi (Vec3.smul delta_lagrange (Vec3.smul pi.invmass g)) })

/-- Embedding of `hybrid_mesh_meshless_sph_constraint_t::project_positions` (lines 27-107):
the constraint, whose `lagrange_` and `node_.Fi()` are written, and the simulation after
the call. The quotients are those of `ℚ`: the embedding is that of the code where `dt` and
`delta_lagrange_den` are not zero. -/
def HybridConstraint.project_positions (c : HybridConstraint) (simulation : Simulation)
    (dt : ℚ) : Option (HybridConstraint × Simulation) :=
  match simulation.particles[c.bi_]? with
  | none => none
  | some particles =>
    match c.gradient_sums particles with
    | none => none
    | some g =>
      let c1 := { c with node_ := { c.node_ with Fi := g.Fi } }
      if g.weighted_sum_of_gradients < epsilon then some (c1, simulation)
      else
        let dt2 := dt * dt
        let alpha_tilde := c1.alpha_ / dt2
        let beta_tilde := c1.beta_ * dt2
        let gamma := alpha_tilde * beta_tilde / dt
        let delta_lagrange_num :=
          -(g.C + alpha_tilde * c1.lagrange_) - gamma * g.gradC_dot_displacement
        let delta_lagrange_den := (1 + gamma) * g.weighted_sum_of_gradients + alpha_tilde
        let delta_lagrange := delta_lagrange_num / delta_lagrange_den
        let c2 := { c1 with lagrange_ := c1.lagrange_ + delta_lagrange }
        match update_meshless_particles c2 g.gradC delta_lagrange c2.node_.neighbours 0
            particles with
        | none => none
        | some particles1 =>
          match update_mesh_particles c2 delta_lagrange g.gradC_wrt_mesh_indices 0
              particles1 with
          | none => none
          | some particles2 =>
            some (c2, { simulation with particles := simulation.particles.set c.bi_ particles2 })

/-! ## `timestep_t` -/

/-- One recorded call of `timestep_t::step` into a collaborator. -/
inductive TimestepCall where
  | on_cd_starting
  | execute
  | on_cd_ending
  | solve (dt : ℚ) (iterations : Nat)
  | update_models
  | cd_update
deriving DecidableEq, Repr

/-- Collaborators of `timestep_t::step` whose code is outside `src/`: whether the simulation
has a collision detection system with a contact handler, the three calls around the
detection, `solver_t::solve(simulation, dt, iterations)` of the particle based API, the four
refresh calls made on every body, and `cd_system->update(simulation)`. -/
structure TimestepEnv where
  has_contact_handler : Simulation → Bool
  on_cd_starting : Simulation → Simulation
  execute : Simulation → Simulation
  on_cd_ending : Simulation → Simulation
  solve : Simulation → ℚ → Nat → Simulation
  update_models : Simulation → Simulation
  cd_update : Simulation → Simulation

/-- Embedding of `timestep_t`: the members `dt_`, `iterations_`, `substeps_` and whether
`solver_` points to a solver. -/
structure Timestep where
  dt_ : ℚ
  iterations_ : Nat
  substeps_ : Nat
  has_solver : Bool
deriving DecidableEq, Repr

/-- The lambda of `timestep.cpp` 51-55: gravity is taken off the force, then velocity and
predicted position are integrated. -/
def move_particle (dt : ℚ) (p : Particle) : Particle :=
  let p1 := { p with f := { p.f with y := p.f.y - 981 / 100 } }
  let p2 := { p1 with v := Vec3.add p1.v (Vec3.smul dt p1.a) }
  { p2 with xi := Vec3.add p2.x (Vec3.smul dt p2.v) }

/-- The lambda of `timestep.cpp` 63-68. -/
def set_solution (dt : ℚ) (p : Particle) : Particle :=
  let p1 := { p with x := p.xi }
  let p2 := { p1 with v := Vec3.sdiv (Vec3.sub p1.x p1.xn) dt }
  let p3 := { p2 with xn := p2.x }
  { p3 with f := Vec3.zero }

/-- Body of the loop `for (s = 0; s < substeps_; ++s)` of `timestep.cpp` 46-70. -/
def timestep_substep (env : TimestepEnv) (dt : ℚ) (iterations : Nat)
    (simulation : Simulation) : Simulation :=
  let moved :=
    { simulation with particles := simulation.particles.map (List.map (move_particle dt)) }
  let solved := env.solve moved dt iterations
  { solved with particles := solved.particles.map (List.map (set_solution dt)) }

/-- The loop `for (s = 0; s < substeps_; ++s)`: `count` passes through the body, with the
calls of `solve` recorded. -/
def timestep_substeps (env : TimestepEnv) (dt : ℚ) (iterations : Nat) :
    Nat → Simulation → Simulation × List TimestepCall
  | 0, simulation => (simulation, [])
  | count + 1, simulation =>
    let r := timestep_substeps env dt iterations count
      (timestep_substep env dt iterations simulation)
    (r.1, TimestepCall.solve dt iterations :: r.2)

/-- Lines 32-39 of `timestep.cpp`: the collision detection ahead of the substep loop. -/
def detect_collisions (env : TimestepEnv) (simulation : Simulation) :
    Simulation × List TimestepCall :=
  if env.has_contact_handler simulation then
    (env.on_cd_ending (env.execute (env.on_cd_starting simulation)),
     [TimestepCall.on_cd_starting, TimestepCall.execute, TimestepCall.on_cd_ending])
  else (simulation, [])

/-- Lines 72-86 of `timestep.cpp`: the refresh of the bodies, the clearing of the collision
constraints and the update of the collision detection system. -/
def finish_step (env : TimestepEnv) (simulation : Simulation) :
    Simulation × List TimestepCall :=
  let updated := env.update_models simulation
  let cleared := { updated with collision_constraints := [] }
  if env.has_contact_handler cleared then
    (env.cd_update cleared, [TimestepCall.update_models, TimestepCall.cd_update])
  else (cleared, [TimestepCall.update_models])

/-- Embedding of `timestep_t::step` (`timestep.cpp` 23-87): the simulation after the call
and the record of the calls into the collaborators; calling `solve` through a null `solver_`
is undefined. -/
def Timestep.step (env : TimestepEnv) (t : Timestep) (simulation : Simulation) :
    Option (Simulation × List TimestepCall) :=
  let dt := t.dt_ / (t.substeps_ : ℚ)
  let detected := detect_collisions env simulation
  if t.substeps_ ≠ 0 ∧ t.has_solver = false then none
  else
    let r := timestep_substeps env dt t.iterations_ t.substeps_ detected.1
    let final := finish_step env r.1
    some (final.1, detected.2 ++ r.2 ++ final.2)

/-! ## Vocabulary for `timestep_t::step` -/

/-- Particle `i` of body `bi` exists, has inverse mass `0`, and both its predicted position
and its previous confirmed position are `p`. -/
def PredictedAt (particles : List (List Particle)) (bi i : Nat) (p : Vec3) : Prop :=
  ∃ q, particle_at particles bi i = some q ∧ q.invmass = 0 ∧ q.xi = p ∧ q.xn = p

/-- A collaborator that leaves the particles alone. -/
def KeepsParticles (f : Simulation → Simulation) : Prop :=
  ∀ simulation, (f simulation).particles = simulation.particles

/-- A `solve` that does not move fixed particles: a particle of inverse mass `0` keeps its
inverse mass, its predicted position and its previous confirmed position. -/
def KeepsFixedParticles (solve : Simulation → ℚ → Nat → Simulation) : Prop :=
  ∀ simulation dt iterations bi i p, PredictedAt simulation.particles bi i p →
    PredictedAt (solve simulation dt iterations).particles bi i p

/-- Particle `i` of body `bi` exists, has inverse mass `0`, velocity zero, and both its
position and its previous confirmed position are `p`. -/
def AtRest (particles : List (List Particle)) (bi i : Nat) (p : Vec3) : Prop :=
  ∃ q, particle_at particles bi i = some q ∧ q.invmass = 0 ∧ q.x = p ∧ q.xn = p ∧
    q.v = Vec3.zero

/-! ## Constitutive models (`elasticity.h`) -/

/-- Embedding of `green_strain_op_t::operator()` (`elasticity.h` 143-151):
`E = 0.5 * (F.transpose() * F - I)`. -/
def green_strain_op_t (F : Mat3) : Mat3 :=
  let I := Mat3.identity
  Mat3.smul (1 / 2) (Mat3.sub (Mat3.mul (Mat3.transpose F) F) I)

/-- Embedding of `small_strain_tensor_op_t::operator()` (`elasticity.h` 171-176):
`E = S - I`. -/
def small_strain_tensor_op_t (S : Mat3) : Mat3 :=
  let I := Mat3.identity
  Mat3.sub S I

/-- Embedding of `linear_elasticity_strain_energy_density_t` (`elasticity.h` 179-190): the
members `mu` and `lambda`. The structs `stvk_strain_energy_density_op_t` and
`corotational_linear_elasticity_strain_energy_density_op_t` derive from it and add no
member. -/
structure linear_elasticity_strain_energy_density_t where
  mu : ℚ
  lambda : ℚ
deriving DecidableEq, Repr

/-- Embedding of the constructor
`linear_elasticity_strain_energy_density_t(young_modulus, poisson_ratio)` (`elasticity.h`
181-187). The body has no test and no `throw`: it returns for every pair of arguments. The
two quotients are those of `ℚ`: the members are those of the code for a Poisson ratio other
than `-1` and `1/2`; `finite_ctor` follows the quotients where a divisor is zero. -/
def linear_elasticity_strain_energy_density_t.ctor (young_modulus poisson_ratio : ℚ) :
    linear_elasticity_strain_energy_density_t :=
  { mu := young_modulus / (2 * (1 + poisson_ratio))
    lambda :=
      (young_modulus * poisson_ratio) / ((1 + poisson_ratio) * (1 - 2 * poisson_ratio)) }

/-- Embedding of the constructor `stvk_strain_energy_density_op_t(young_modulus,
poisson_ratio)` (`elasticity.h` 194-197), which forwards to the base class. -/
def stvk_strain_energy_density_op_t.ctor (young_modulus poisson_ratio : ℚ) :
    linear_elasticity_strain_energy_density_t :=
  linear_elasticity_strain_energy_density_t.ctor young_modulus poisson_ratio

/-- Embedding of `stvk_strain_energy_density_op_t::operator()` (`elasticity.h` 199-205):
`mu * EdotE + 0.5 * lambda * tr2`. -/
def stvk_strain_energy_density_op_t.energy (op : linear_elasticity_strain_energy_density_t)
    (E : Mat3) : ℚ :=
  let trace := Mat3.trace E
  let tr2 := trace * trace
  let EdotE := Mat3.contraction E
  op.mu * EdotE + (1 / 2) * op.lambda * tr2

/-- Embedding of `stvk_strain_energy_density_op_t::stress` (`elasticity.h` 207-214):
`F * ((2. * mu * E) + (lambda * tr * I))`. -/
def stvk_strain_energy_density_op_t.stress (op : linear_elasticity_strain_energy_density_t)
    (F E : Mat3) : Mat3 :=
  let tr := Mat3.trace E
  let I := Mat3.identity
  Mat3.mul F (Mat3.add (Mat3.smul (2 * op.mu) E) (Mat3.smul (op.lambda * tr) I))

/-- Embedding of the constructor
`corotational_linear_elasticity_strain_energy_density_op_t(young_modulus, poisson_ratio)`
(`elasticity.h` 220-225), which forwards to the base class. -/
def corotational_linear_elasticity_strain_energy_density_op_t.ctor
    (young_modulus poisson_ratio : ℚ) : linear_elasticity_strain_energy_density_t :=
  linear_elasticity_strain_energy_density_t.ctor young_modulus poisson_ratio

/-- Embedding of `corotational_linear_elasticity_strain_energy_density_op_t::operator()`
(`elasticity.h` 227-233). -/
def corotational_linear_elasticity_strain_energy_density_op_t.energy
    (op : linear_elasticity_strain_energy_density_t) (E : Mat3) : ℚ :=
  let trace := Mat3.trace E
  let tr2 := trace * trace
  let EdotE := Mat3.contraction E
  op.mu * EdotE + (1 / 2) * op.lambda * tr2

/-- Embedding of `corotational_linear_elasticity_strain_energy_density_op_t::stress`
(`elasticity.h` 235-243). -/
def corotational_linear_elasticity_strain_energy_density_op_t.stress
    (op : linear_elasticity_strain_energy_density_t) (R F : Mat3) : Mat3 :=
  let I := Mat3.identity
  let RtF_I := Mat3.sub (Mat3.mul (Mat3.transpose R) F) I
  let C1 := Mat3.smul (2 * op.mu) (Mat3.sub F R)
  let C2 := Mat3.smul (op.lambda * Mat3.trace RtF_I) R
  Mat3.add C1 C2

/-- Embedding of the value computed by `differentiable::strain_op_t::operator()(F)`
(`elasticity.h` 80-85); the derivative parts of the dual numbers are not embedded. -/
def differentiable.strain_op_t (F : Mat3) : Mat3 :=
  let I := Mat3.identity
  Mat3.smul (1 / 2) (Mat3.sub (Mat3.mul (Mat3.transpose F) F) I)

/-- Embedding of `differentiable::stvk_strain_energy_density_op_t`: the members `mu` and
`lambda` (`elasticity.h` 138). -/
structure differentiable.stvk_strain_energy_density_op_t where
  mu : ℚ
  lambda : ℚ
deriving DecidableEq, Repr

/-- Embedding of the constructor of `differentiable::stvk_strain_energy_density_op_t`
(`elasticity.h` 95-104). The body has no test and no `throw`. -/
def differentiable.stvk_strain_energy_density_op_t.ctor (young_modulus poisson_ratio : ℚ) :
    differentiable.stvk_strain_energy_density_op_t :=
  { mu := young_modulus / (2 * (1 + poisson_ratio))
    lambda :=
      (young_modulus * poisson_ratio) / ((1 + poisson_ratio) * (1 - 2 * poisson_ratio)) }

/-- Embedding of the value computed by
`differentiable::stvk_strain_energy_density_op_t::operator()(E)` (`elasticity.h` 129-135). -/
def differentiable.stvk_strain_energy_density_op_t.energy
    (op : differentiable.stvk_strain_energy_density_op_t) (E : Mat3) : ℚ :=
  let trace := Mat3.trace E
  let tr2 := trace * trace
  let EdotE := Mat3.contraction E
  op.mu * EdotE + (1 / 2) * op.lambda * tr2

/-! ## Vocabulary for the constitutive models -/

/-- The Frobenius inner product `A : B` of two matrices, the sum of the products of their
entries. -/
def Mat3.inner (A B : Mat3) : ℚ :=
  A.m00 * B.m00 + A.m01 * B.m01 + A.m02 * B.m02 +
  A.m10 * B.m10 + A.m11 * B.m11 + A.m12 * B.m12 +
  A.m20 * B.m20 + A.m21 * B.m21 + A.m22 * B.m22

/-- The deformation gradient `F + t H` on the line through `F` with direction `H`. -/
def Mat3.line (F H : Mat3) (t : ℚ) : Mat3 := Mat3.add F (Mat3.smul t H)

/-- The matrix `sigma.asDiagonal()` of `elasticity.h` 162. -/
def Mat3.asDiagonal (sigma : Vec3) : Mat3 := ⟨sigma.x, 0, 0, 0, sigma.y, 0, 0, 0, sigma.z⟩

/-- Embedding of `small_strain_tensor_op_t::get_RS` (`elasticity.h` 155-169). The
decomposition `F.jacobiSvd(ComputeFullU | ComputeFullV)` is library code outside `src/`; it
is the parameter `jacobiSvd`, which returns `matrixU()`, `singularValues()` and
`matrixV()`. -/
def small_strain_tensor_op_t.get_RS (jacobiSvd : Mat3 → Mat3 × Vec3 × Mat3) (F : Mat3) :
    Mat3 × Mat3 :=
  let SVD := jacobiSvd F
  let U := SVD.1
  let V := SVD.2.2
  let Vt := Mat3.transpose V
  let sigma := SVD.2.1
  let E := Mat3.asDiagonal sigma
  let R := Mat3.mul U Vt
  let S := Mat3.mul (Mat3.mul V E) Vt
  (R, S)

/-- The matrix of Mathlib with the entries of a `Mat3`. -/
def Mat3.toMatrix (A : Mat3) : Matrix (Fin 3) (Fin 3) ℚ :=
  !![A.m00, A.m01, A.m02; A.m10, A.m11, A.m12; A.m20, A.m21, A.m22]

/-! ## Quotients by zero

Where a divisor is zero the `double` arithmetic of the code gives an infinity or a NaN, and
every sum or product of such a value with another value is an infinity or a NaN again. The
field `ℚ` has no such values. The definitions of this section follow a quotient of the code,
and what the code computes from it by sums and products, as far as it is a number. -/

/-- The quotient `a / b` where it is a number: there is none for the divisor `0`. -/
def finite_div (a b : ℚ) : Option ℚ := if b = 0 then none else some (a / b)

/-- The members `mu` and `lambda` that the constructor
`linear_elasticity_strain_energy_density_t(young_modulus, poisson_ratio)` stores
(`elasticity.h` 181-187), each where it is a number. -/
def linear_elasticity_strain_energy_density_t.finite_ctor (young_modulus poisson_ratio : ℚ) :
    Option ℚ × Option ℚ :=
  (finite_div young_modulus (2 * (1 + poisson_ratio)),
   finite_div (young_modulus * poisson_ratio)
     ((1 + poisson_ratio) * (1 - 2 * poisson_ratio)))

/-- The value `mu * EdotE + 0.5 * lambda * tr2` of
`stvk_strain_energy_density_op_t::operator()` (`elasticity.h` 199-205) for members that the
constructor stored, where it is a number: it is none when `mu` or `lambda` is none. -/
def stvk_strain_energy_density_op_t.finite_energy (op : Option ℚ × Option ℚ) (E : Mat3) :
    Option ℚ :=
  match op.1, op.2 with
  | some mu, some lambda => some (stvk_strain_energy_density_op_t.energy ⟨mu, lambda⟩ E)
  | _, _ => none

/-! ## Vocabulary for the projections of the particle based API -/

/-- The particle list `particles1` has the length of `particles` and holds every particle of
inverse mass `0` of `particles` unchanged at its index. -/
def FixedKept (particles particles1 : List Particle) : Prop :=
  particles1.length = particles.length ∧
    ∀ (k : Nat) (p : Particle),
      particles[k]? = some p → p.invmass = 0 → particles1[k]? = some p

/-- The update `p.xi() += p.invmass() * grad * delta_lagrange` of both `project_positions`. -/
def push_particle (delta_lagrange : ℚ) (grad : Vec3) (p : Particle) : Particle :=
  { p with xi := Vec3.add p.xi (Vec3.smul delta_lagrange (Vec3.smul p.invmass grad)) }

/-- The local `alpha_tilde = alpha / (dt * dt)` of both `project_positions`. -/
def alpha_tilde (alpha dt : ℚ) : ℚ := alpha / (dt * dt)

/-- The local `beta_tilde = beta * dt2` of the hybrid `project_positions` (line 79). -/
def beta_tilde (beta dt : ℚ) : ℚ := beta * (dt * dt)

/-- The local `gamma = alpha_tilde * beta_tilde / dt` of the hybrid `project_positions`
(line 80). -/
def gamma (alpha beta dt : ℚ) : ℚ := alpha_tilde alpha dt * beta_tilde beta dt / dt

/-- The position of the surface vertex interpolated from the predicted positions of its
neighbours, `sum_a sk * Vj * (Fj * Xkj + xi_j) * Wkj`: the sum that the second loop of the
collision constraint accumulates in `vi_` (`meshless_sph_collision_constraint.cpp` 64-78),
taken over the particles as they are, from index `a` on. -/
def interpolation (c : MeshlessSphCollisionConstraint) (particles : List Particle) :
    List Nat → Nat → Vec3 → Option Vec3
  | [], _, vi => some vi
  | j :: rest, a, vi =>
    match particles[j]?, c.vk_.Vjs[a]?, c.vk_.Xkjs[a]?, c.vk_.Wkjs[a]?, c.node_Fis[j]? with
    | some p, some Vj, some Xkj, some Wkj, some Fj =>
      interpolation c particles rest (a + 1)
        (Vec3.add vi
          (Vec3.smul Wkj (Vec3.smul (c.vk_.sk * Vj) (Vec3.add (Mat3.mulVec Fj Xkj) p.xi))))
    | _, _, _, _, _ => none

/-- The value of the local `delta_lagrange` with which
`meshless_sph_collision_constraint_t::project_positions` displaces the particles
(`meshless_sph_collision_constraint.cpp` 37, 60-62), when the call gets that far. -/
def MeshlessSphCollisionConstraint.delta_lagrange (c : MeshlessSphCollisionConstraint)
    (simulation : Simulation) (dt : ℚ) : Option ℚ :=
  match c.weighted_sum_of_gradients simulation with
  | none => none
  | some weighted_sum_of_gradients =>
    let C := Vec3.dot (Vec3.sub c.vi_ c.c_) c.n_
    let alpha_tilde := c.alpha_ / (dt * dt)
    some (-(C + alpha_tilde * c.lagrange_) / (weighted_sum_of_gradients + alpha_tilde))

/-! ## Quotients by zero in the collision constraint -/

/-- The local `delta_lagrange` of `meshless_sph_collision_constraint_t::project_positions`
(`meshless_sph_collision_constraint.cpp` 37, 60-62) for the value `S` of
`weighted_sum_of_gradients`, where it is a number. -/
def MeshlessSphCollisionConstraint.finite_delta_lagrange (c : MeshlessSphCollisionConstraint)
    (S dt : ℚ) : Option ℚ :=
  let C := Vec3.dot (Vec3.sub c.vi_ c.c_) c.n_
  match finite_div c.alpha_ (dt * dt) with
  | none => none
  | some alpha_tilde => finite_div (-(C + alpha_tilde * c.lagrange_)) (S + alpha_tilde)

/-- The particle after `p.xi() += p.invmass() * grad * delta_lagrange`
(`meshless_sph_collision_constraint.cpp` 69), where its predicted position consists of
numbers: there is none when `delta_lagrange` is not a number. -/
def finite_push (delta_lagrange : Option ℚ) (grad : Vec3) (p : Particle) : Option Particle :=
  match delta_lagrange with
  | none => none
  | some dl => some (push_particle dl grad p)

/-! ## Further vocabulary for `step` -/

/-- The multiplier slot that a recorded call of `project` was given. -/
def ProjectCall.slot : ProjectCall → Nat
  | ProjectCall.persistent _ slot => slot
  | ProjectCall.collision _ slot _ => slot

/-- The simulation after `count` passes through the substep loop of `timestep_t::step`
entered with `simulation`. -/
def timestep_state (env : TimestepEnv) (t : Timestep) (simulation : Simulation)
    (count : Nat) : Simulation :=
  (timestep_substeps env (t.dt_ / (t.substeps_ : ℚ)) t.iterations_ count
    (detect_collisions env simulation).1).1

/-- A `solve` that neither adds particles nor writes the previous confirmed position `xn`. -/
def KeepsConfirmed (solve : Simulation → ℚ → Nat → Simulation) : Prop :=
  ∀ simulation dt iterations bi i q1,
    particle_at (solve simulation dt iterations).particles bi i = some q1 →
    ∃ q, particle_at simulation.particles bi i = some q ∧ q1.xn = q.xn

/-! ## Vocabulary for the gradients of the hybrid constraint -/

/-- The constraint value `C = Vi * Psi(E(Fi))` that `project_positions` computes from the
particles (`hybrid_mesh_meshless_sph_stvk_constraint.cpp` 38-44). -/
def HybridConstraint.value (c : HybridConstraint) (particles : List Particle) : Option ℚ :=
  match c.deformation_gradient particles with
  | none => none
  | some Fi => some (c.C (c.strain_energy_and_stress Fi (HybridConstraint.green_strain Fi)).1)

/-- The particle `p` with its predicted position moved by `t * h`. -/
def moved (h : Vec3) (t : ℚ) (p : Particle) : Particle :=
  { p with xi := Vec3.add p.xi (Vec3.smul t h) }

/-- The vector `Vj * Li * gradWij` of the neighbour at position `a` (`dFidxj` in `dCdxk`);
an absent entry counts as zero. -/
def kernel_gradient (c : HybridConstraint) (a : Nat) : Vec3 :=
  Vec3.smul (c.node_.Vjs.getD a 0)
    (Mat3.mulVec c.node_.Li (c.node_.gradWij.getD a Vec3.zero))

/-- The vector `Vi * dPsi/dF * (Vj * Li * gradWij)` of the neighbour at position `a`
(`gradPsi` in `dCdxk`). -/
def neighbour_gradient (c : HybridConstraint) (dPsidFi : Mat3) (a : Nat) : Vec3 :=
  Vec3.smul c.node_.Vi (Mat3.mulVec dPsidFi (kernel_gradient c a))

/-- The sum of `neighbour_gradient` over the neighbours other than the node itself, the
neighbour list being read from position `a` on. -/
def others_sum (c : HybridConstraint) (dPsidFi : Mat3) : List Nat → Nat → Vec3
  | [], _ => Vec3.zero
  | k :: rest, a =>
    Vec3.add (if k = c.ni_ then Vec3.zero else neighbour_gradient c dPsidFi a)
      (others_sum c dPsidFi rest (a + 1))

/-- How the term of neighbour `n` in the deformation gradient, `Vj (x_n - x_i) (Li gradWij)^T`,
follows the predicted position of particle `j`: `1` for `n = j`, minus `1` when `j` is the
node `i` itself. -/
def follows (c : HybridConstraint) (j n : Nat) : ℚ :=
  (if n = j then 1 else 0) - (if c.ni_ = j then 1 else 0)

/-- The derivative of the deformation gradient with respect to the predicted position of
particle `j` in the direction `h`, term by term over the neighbours from position `k` on. -/
def direction (c : HybridConstraint) (h : Vec3) (j : Nat) : List Nat → Nat → Mat3
  | [], _ => Mat3.zero
  | n :: rest, k =>
    Mat3.add
      (Mat3.outer (Vec3.smul (c.node_.Vjs.getD k 0) (Vec3.smul (follows c j n) h))
        (Mat3.mulVec c.node_.Li (c.node_.gradWij.getD k Vec3.zero)))
      (direction c h j rest (k + 1))

/-- The derivative of the constraint value with respect to the predicted position of
particle `j`, term by term over the neighbours from position `k` on. -/
def total_gradient (c : HybridConstraint) (dPsidFi : Mat3) (j : Nat) : List Nat → Nat → Vec3
  | [], _ => Vec3.zero
  | n :: rest, k =>
    Vec3.add (Vec3.smul (follows c j n) (neighbour_gradient c dPsidFi k))
      (total_gradient c dPsidFi j rest (k + 1))

/-- What the pass of `dCdxk` over the neighbours from position `a` on adds to `gradC[m]` by
the statement `gradC[a] += gradPsi`. -/
def own_gradient (c : HybridConstraint) (dPsidFi : Mat3) : List Nat → Nat → Nat → Vec3
  | [], _, _ => Vec3.zero
  | k :: rest, a, m =>
    Vec3.add (if m = a ∧ k ≠ c.ni_ then neighbour_gradient c dPsidFi a else Vec3.zero)
      (own_gradient c dPsidFi rest (a + 1) m)

/-! ## Vocabulary for `setup` -/

/-- The physics bodies among the nodes of a scene, in the order of the scene. -/
def physics_bodies_of : List SceneNode → List Body
  | [] => []
  | SceneNode.physics body :: rest => body :: physics_bodies_of rest
  | SceneNode.environment _ :: rest => physics_bodies_of rest
  | SceneNode.other :: rest => physics_bodies_of rest

/-- The constraints that `setup` is to create for the body with index `b`: one Green
constraint for every tetrahedron of a body whose selector is `green`, one distance
constraint of compliance `1 / hooke_coefficient` for every edge of a body whose selector is
`distance`. -/
def expected_body_constraints (env : Env) (b : Nat) (body : Body) : List Constraint :=
  match body.simulation_parameters.constraint_type with
  | ConstraintType.green =>
    (List.range body.tetrahedra.length).map (fun ti =>
      env.green_constraint body.simulation_parameters.alpha b ti
        body.simulation_parameters.young_modulus body.simulation_parameters.poisson_ratio)
  | ConstraintType.distance =>
    body.edges.map (fun edge =>
      env.distance_constraint (1 / body.simulation_parameters.hooke_coefficient)
        (b, edge.v1) (b, edge.v2))

/-- The constraints that `setup` is to create for a list of bodies, in body order, `b` being
the index of the first body of the list. -/
def expected_constraints (env : Env) : Nat → List Body → List Constraint
  | _, [] => []
  | b, body :: rest =>
    expected_body_constraints env b body ++ expected_constraints env (b + 1) rest

/-! ## Vocabulary for the covariance of the deformation gradient -/

/-- The particle `p` with its predicted position `x` replaced by `A * x + t`. -/
def transformed (A : Mat3) (t : Vec3) (p : Particle) : Particle :=
  { p with xi := Vec3.add (Mat3.mulVec A p.xi) t }

/-! ## Vocabulary for the displacements of the hybrid projection -/

/-- The sum of a list of vectors. -/
def vec3_sum : List Vec3 → Vec3
  | [] => Vec3.zero
  | v :: rest => Vec3.add v (vec3_sum rest)

/-- The value of the local `delta_lagrange` of the hybrid `project_positions`
(`hybrid_mesh_meshless_sph_stvk_constraint.cpp` 77-85) for the locals `g` computed before
the test against `epsilon`. -/
def HybridConstraint.delta_lagrange (c : HybridConstraint) (g : GradientSums) (dt : ℚ) : ℚ :=
  (-(g.C + alpha_tilde c.alpha_ dt * c.lagrange_)
      - gamma c.alpha_ c.beta_ dt * g.gradC_dot_displacement)
    / ((1 + gamma c.alpha_ c.beta_ dt) * g.weighted_sum_of_gradients + alpha_tilde c.alpha_ dt)

/-- The mass-weighted sum of the displacements of the predicted positions of the
neighbours, `sum_k (1 / invmass_k) * (xi_k' - xi_k)`, between the particles `before` and
`after` a projection. -/
def momentum_change (c : HybridConstraint) (before after : List Particle) : List Nat → Vec3
  | [] => Vec3.zero
  | j :: rest =>
    Vec3.add
      (match before[c.node_.body.meshless_particles_index_offset + j]?,
          after[c.node_.body.meshless_particles_index_offset + j]? with
       | some p, some p1 => Vec3.smul (1 / p.invmass) (Vec3.sub p1.xi p.xi)
       | _, _ => Vec3.zero)
      (momentum_change c before after rest)

/-- The change of the linearised constraint, `sum_k grad C_k . (xi_k' - xi_k)`, between the
particles `before` and `after` a projection, over the neighbours from position `a` on. -/
def linearised_change (c : HybridConstraint) (gradC : List Vec3)
    (before after : List Particle) : List Nat → Nat → ℚ
  | [], _ => 0
  | j :: rest, a =>
    (match gradC[a]?, before[c.node_.body.meshless_particles_index_offset + j]?,
        after[c.node_.body.meshless_particles_index_offset + j]? with
     | some grad, some p, some p1 => Vec3.dot grad (Vec3.sub p1.xi p.xi)
     | _, _, _ => 0)
      + linearised_change c gradC before after rest (a + 1)

/-! ## Vocabulary for the sums of the hybrid projection -/

/-- The particles that the first update loop of `project_positions` displaces, each with
the gradient along which it is displaced (lines 89-95): for the position `a` of the neighbour
list the particle `meshless_particle_offset + neighbours[a]` with `gradC[a]`. -/
def displaced_meshless (c : HybridConstraint) (particles : List Particle)
    (gradC : List Vec3) : List Nat → Nat → Option (List (Vec3 × Particle))
  | [], _ => some []
  | j :: rest, a =>
    match particles[c.node_.body.meshless_particles_index_offset + j]?, gradC[a]?,
        displaced_meshless c particles gradC rest (a + 1) with
    | some p, some grad, some tail => some ((grad, p) :: tail)
    | _, _, _ => none

/-- The particles that the second update loop of `project_positions` displaces, each with
the gradient along which it is displaced (lines 97-106): for every corner `i` of the
tetrahedron that has a gradient the particle `mesh_particle_offset + vertex_indices[i]`. -/
def displaced_mesh (c : HybridConstraint) (particles : List Particle) :
    List (Option Vec3) → Nat → Option (List (Vec3 × Particle))
  | [], _ => some []
  | none :: rest, i => displaced_mesh c particles rest (i + 1)
  | some grad :: rest, i =>
    match c.node_.body.tetrahedra[c.node_.ti]? with
    | none => none
    | some t =>
      match t.indices[i]? with
      | none => none
      | some vi =>
        match particles[c.node_.body.mesh_particles_index_offset + vi]?,
            displaced_mesh c particles rest (i + 1) with
        | some p, some tail => some ((grad, p) :: tail)
        | _, _ => none

/-- The particles `k` that take part in the hybrid constraint, each with its gradient
`grad C_k`: the particles that `project_positions` displaces. -/
def HybridConstraint.displaced (c : HybridConstraint) (particles : List Particle)
    (g : GradientSums) : Option (List (Vec3 × Particle)) :=
  match displaced_meshless c particles g.gradC c.node_.neighbours 0,
      displaced_mesh c particles g.gradC_wrt_mesh_indices 0 with
  | some meshless, some mesh => some (meshless ++ mesh)
  | _, _ => none

/-- The weighted gradient sum `S = sum_k invmass_k * |grad C_k|^2` over pairs of a gradient
and its particle. -/
def specified_weighted_sum (pairs : List (Vec3 × Particle)) : ℚ :=
  (pairs.map (fun pair => pair.2.invmass * Vec3.squaredNorm pair.1)).sum

/-- The sum `dot_term = sum_k grad C_k . (xi_k - xn_k)` over pairs of a gradient and its
particle. -/
def specified_dot_term (pairs : List (Vec3 × Particle)) : ℚ :=
  (pairs.map (fun pair => Vec3.dot pair.1 (Vec3.sub pair.2.xi pair.2.xn))).sum

/-- The multiplier increment
`dlambda = -(C + at * lambda + gamma * dot_term) / ((1 + gamma) * S + at)` with
`at = alpha / dt^2` and `gamma = at * (beta * dt^2) / dt`. -/
def specified_delta_lagrange (alpha beta lagrange dt C S dot_term : ℚ) : ℚ :=
  -(C + alpha_tilde alpha dt * lagrange + gamma alpha beta dt * dot_term)
    / ((1 + gamma alpha beta dt) * S + alpha_tilde alpha dt)

/-! ## Constraints that own their multipliers -/

/-- One pass over a list of constraints each of which carries its own multiplier: the
constraints are projected in the order of the list, each with the multiplier paired with
it, and the multiplier that the projection returns takes its place. -/
def project_owned {α : Type} (project : α → List Body → ℚ → ℚ → List Body × ℚ) (dt : ℚ) :
    List (α × ℚ) → List Body → List Body × List (α × ℚ)
  | [], bodies => (bodies, [])
  | (constraint, lagrange) :: rest, bodies =>
    let r := project constraint bodies lagrange dt
    let r2 := project_owned project dt rest r.1
    (r2.1, (constraint, r.2) :: r2.2)

/-- One sweep over constraints that carry their own multipliers: the persistent
constraints, then the collision constraints. -/
def sweep_owned (env : Env) (dt : ℚ)
    (owned : List (Constraint × ℚ) × List (CollisionConstraint × ℚ)) (bodies : List Body) :
    List Body × List (Constraint × ℚ) × List (CollisionConstraint × ℚ) :=
  let a := project_owned (fun constraint => constraint.project) dt owned.1 bodies
  let b := project_owned env.collision_project dt owned.2 a.1
  (b.1, a.2, b.2)

/-- The given number of sweeps over constraints that carry their own multipliers. -/
def sweeps_owned (env : Env) (dt : ℚ) :
    Nat → List (Constraint × ℚ) × List (CollisionConstraint × ℚ) → List Body →
    List Body × List (Constraint × ℚ) × List (CollisionConstraint × ℚ)
  | 0, owned, bodies => (bodies, owned)
  | count + 1, owned, bodies =>
    let r := sweep_owned env dt owned bodies
    sweeps_owned env dt count r.2 r.1

/-- The sweeps of a substep entered from the solver `st`, after its bodies were integrated,
with the collision constraints `ccs`: every constraint carries its own multiplier, which is
`0` before the first sweep. -/
def owned_substep (env : Env) (dt : ℚ) (iterations : Nat) (st : Solver)
    (ccs : List CollisionConstraint) :
    List Body × List (Constraint × ℚ) × List (CollisionConstraint × ℚ) :=
  sweeps_owned env dt iterations
    (st.constraints_.map (fun constraint => (constraint, 0)),
     ccs.map (fun constraint => (constraint, 0)))
    (integrate dt st.physics_bodies_)

/-! ## Example data -/

/-- A projection that lifts every vertex that is not fixed by `shift` and adds `1` to the
multiplier. -/
def lift_project (shift : Vec3) (bodies : List Body) (lagrange : ℚ) (_dt : ℚ) :
    List Body × ℚ :=
  (bodies.map (fun body =>
    { body with
      vertices := body.vertices.map (fun v =>
        if v.fixed then v else { v with position := Vec3.add v.position shift }) }),
   lagrange + 1)

/-- A floor triangle in the plane `y = 0`. -/
def floor_triangle : Triangle := ⟨⟨0, 0, 0⟩, ⟨0, 0, 1⟩, ⟨1, 0, 0⟩⟩

/-- A second floor triangle in the plane `y = 0`. -/
def floor_triangle2 : Triangle := ⟨⟨1, 0, 1⟩, ⟨1, 0, 0⟩, ⟨0, 0, 1⟩⟩

/-- Collaborators for the examples: the detector pairs every tetrahedron of the body with
every triangle of every environment body, every normal is `(0, 1, 0)`, and every projection
is a `lift_project`. -/
def example_env : Env :=
  { intersect := fun envs body =>
      (List.range body.tetrahedra.length).flatMap (fun ti =>
        (envs.flatMap (fun e => e.triangles)).map (fun triangle => (ti, triangle)))
    normal := fun _ => ⟨0, 1, 0⟩
    collision_project := fun c => lift_project (Vec3.smul (1 / 100) c.n)
    green_constraint := fun _ _ _ _ _ => ⟨lift_project ⟨0, 1 / 1000, 0⟩⟩
    distance_constraint := fun _ _ _ => ⟨lift_project ⟨1 / 1000, 0, 0⟩⟩ }

/-- A body of two tetrahedra that share the face `1, 2, 3`; vertex `0` is fixed with a
velocity that is not zero, the vertices `1` and `4` lie below the plane `y = 0`. -/
def example_body : Body :=
  { vertices :=
      [ ⟨⟨0, 1, 0⟩, ⟨1, 0, 0⟩, ⟨0, 0, 0⟩, 1, true⟩,
        ⟨⟨0, -1 / 10, 0⟩, ⟨0, 0, 0⟩, ⟨0, 0, 0⟩, 1, false⟩,
        ⟨⟨1, 0, 0⟩, ⟨0, 0, 0⟩, ⟨0, 0, 0⟩, 2, false⟩,
        ⟨⟨0, 0, 1⟩, ⟨0, 0, 0⟩, ⟨0, 0, 0⟩, 1, false⟩,
        ⟨⟨1, -1 / 5, 1⟩, ⟨0, 0, 0⟩, ⟨0, 0, 0⟩, 1, false⟩ ]
    tetrahedra := [⟨0, 1, 2, 3⟩, ⟨1, 2, 3, 4⟩]
    edges := [⟨0, 1⟩, ⟨1, 2⟩]
    simulation_parameters := ⟨1 / 1000, ConstraintType.distance, 1000, 3 / 10, 100⟩ }

/-- The scene of the examples: the body above a floor of two triangles. -/
def example_scene : List SceneNode :=
  [SceneNode.physics example_body, SceneNode.environment ⟨[floor_triangle, floor_triangle2]⟩]

/-- The solver of `main.cpp`: timestep `1/60`, 60 substeps, 60 iterations, after `setup`. -/
def example_solver : Solver :=
  Solver.mk4 example_env (1 / 60) 60 60 example_scene (1 / 1000)

/-- The same scene with 30 substeps and 10 iterations. -/
def fallback_solver : Solver :=
  Solver.mk4 example_env (1 / 60) 30 10 example_scene (1 / 1000)

/-- The example solver entered with multipliers left over from earlier work. -/
def stale_solver : Solver :=
  { example_solver with lagrange_multipliers_ := [5, -3, 8] }

/-- A `solve` for the examples: every particle that is not fixed has its predicted position
lifted by `1/100`. -/
def example_solve (simulation : Simulation) (_dt : ℚ) (_iterations : Nat) : Simulation :=
  { simulation with
    particles := simulation.particles.map (List.map (fun q =>
      if q.invmass = 0 then q else { q with xi := Vec3.add q.xi ⟨0, 1 / 100, 0⟩ })) }

/-- Collaborators of `timestep_t::step` for the examples: the simulation has a contact
handler, and the detection and the refresh calls leave the simulation as it is. -/
def example_timestep_env : TimestepEnv :=
  { has_contact_handler := fun _ => true
    on_cd_starting := fun simulation => simulation
    execute := fun simulation => simulation
    on_cd_ending := fun simulation => simulation
    solve := example_solve
    update_models := fun simulation => simulation
    cd_update := fun simulation => simulation }

/-- A simulation of one body with a fixed particle at rest and a free particle. -/
def example_simulation : Simulation :=
  { particles :=
      [[⟨⟨0, 1, 0⟩, ⟨0, 1, 0⟩, ⟨0, 1, 0⟩, ⟨0, 0, 0⟩, ⟨0, 0, 0⟩, 0⟩,
        ⟨⟨1, 1, 0⟩, ⟨1, 1, 0⟩, ⟨1, 1, 0⟩, ⟨0, 0, 0⟩, ⟨0, 0, 0⟩, 1⟩]]
    collision_constraints := [] }

/-- A `timestep_t` with timestep `1/60`, 10 iterations, 2 substeps and a solver. -/
def example_timestep : Timestep := ⟨1 / 60, 10, 2, true⟩

/-- A solver with one free vertex of mass `1` at the origin, no constraints, timestep `1/60`,
one substep and no iterations. -/
def free_solver : Solver :=
  { Solver.mk3 (1 / 60) 1 0 (1 / 1000) with
    physics_bodies_ :=
      [{ vertices := [⟨⟨0, 0, 0⟩, ⟨0, 0, 0⟩, ⟨0, 0, 0⟩, 1, false⟩]
         tetrahedra := []
         edges := []
         simulation_parameters := ⟨1 / 1000, ConstraintType.distance, 1000, 3 / 10, 100⟩ }]
    x0_ := [[]] }

/-- A meshless node `0` with the neighbours `0` and `1`, not embedded in the mesh. -/
def example_node : HybridNode :=
  { neighbours := [0, 1]
    Vjs := [1, 1]
    gradWij := [⟨0, 0, 0⟩, ⟨1, 0, 0⟩]
    Li := Mat3.identity
    Vi := 1
    Fi := Mat3.zero
    ti := 0
    is_mixed_particle := false
    body :=
      { mesh_particles_index_offset := 0
        meshless_particles_index_offset := 0
        tetrahedra := []
        is_boundary_mesh_vertex := fun _ => false
        grad_phi_i := fun _ _ => ⟨0, 0, 0⟩ } }

/-- The elastic constraint of `example_node` with Young modulus `1000` and Poisson ratio
`3/10`, entered with the multiplier `7`. -/
def example_hybrid : HybridConstraint :=
  { HybridConstraint.mk8 (1 / 1000) (1 / 10) 0 0 1000 (3 / 10) example_node with
    lagrange_ := 7 }

/-- Two fixed particles one unit apart: the constraint is violated but every particle that
it touches has inverse mass `0`. -/
def pinned_simulation : Simulation :=
  { particles :=
      [[⟨⟨0, 0, 0⟩, ⟨0, 0, 0⟩, ⟨0, 0, 0⟩, ⟨0, 0, 0⟩, ⟨0, 0, 0⟩, 0⟩,
        ⟨⟨1, 0, 0⟩, ⟨1, 0, 0⟩, ⟨1, 0, 0⟩, ⟨0, 0, 0⟩, ⟨0, 0, 0⟩, 0⟩]]
    collision_constraints := [] }

/-- The locals of `project_positions` for `example_hybrid` on `pinned_simulation`. -/
def pinned_sums : GradientSums :=
  { Fi := ⟨1, 0, 0, 0, 0, 0, 0, 0, 0⟩
    C := 6250 / 13
    gradC := [⟨7500 / 13, 0, 0⟩, ⟨-7500 / 13, 0, 0⟩]
    gradC_wrt_mesh_indices := [none, none, none, none]
    weighted_sum_of_gradients := 0
    gradC_dot_displacement := 0 }

/-- A collision constraint whose only neighbour has the kernel weight `1e-11`: the vertex is
one unit below the contact plane `y = 0`, the compliance is `0`. -/
def tiny_collision : MeshlessSphCollisionConstraint :=
  { alpha_ := 0
    beta_ := 0
    lagrange_ := 0
    bi_ := 0
    node_Fis := [Mat3.identity]
    vk_ := { neighbours := [0], Xkjs := [⟨0, 0, 0⟩], Wkjs := [1 / 10 ^ 11], Vjs := [1], sk := 1 }
    vi_ := ⟨0, -1, 0⟩
    n_ := ⟨0, 1, 0⟩
    c_ := ⟨0, 0, 0⟩ }

/-- A simulation of one body with one free particle of inverse mass `1` at the origin. -/
def tiny_simulation : Simulation :=
  { particles := [[⟨⟨0, 0, 0⟩, ⟨0, 0, 0⟩, ⟨0, 0, 0⟩, ⟨0, 0, 0⟩, ⟨0, 0, 0⟩, 1⟩]]
    collision_constraints := [] }

/-- A rotation by the angle whose cosine is `3/5` and whose sine is `4/5`, about the `z`
axis. -/
def example_rotation : Mat3 := ⟨3 / 5, -4 / 5, 0, 4 / 5, 3 / 5, 0, 0, 0, 1⟩

/-- A deformation gradient with stretch and shear. -/
def example_deformation : Mat3 := ⟨2, 1, 0, 0, 1, 0, 0, 0, 3⟩

/-- A collision constraint whose vertex lies one unit above the contact plane `y = 0`. -/
def satisfied_collision : MeshlessSphCollisionConstraint :=
  { tiny_collision with vi_ := ⟨0, 1, 0⟩, alpha_ := 1 / 1000, lagrange_ := 3 }

/-- A simulation of one body below the plane `y = 0`: a fixed particle at `(0, -1, 0)` and a
free particle of inverse mass `1` at `(1, -1, 0)`. -/
def sunk_simulation : Simulation :=
  { particles :=
      [[⟨⟨0, -1, 0⟩, ⟨0, -1, 0⟩, ⟨0, -1, 0⟩, ⟨0, 0, 0⟩, ⟨0, 0, 0⟩, 0⟩,
        ⟨⟨1, -1, 0⟩, ⟨1, -1, 0⟩, ⟨1, -1, 0⟩, ⟨0, 0, 0⟩, ⟨0, 0, 0⟩, 1⟩]]
    collision_constraints := [] }

/-- A collision constraint of a surface vertex between the two particles of
`sunk_simulation`, with the weights `1/2` and the compliance `1/1000`; the stored vertex
position `(0, -1, 0)` is the interpolation of the two particles. -/
def sunk_collision : MeshlessSphCollisionConstraint :=
  { alpha_ := 1 / 1000
    beta_ := 0
    lagrange_ := 0
    bi_ := 0
    node_Fis := [Mat3.identity, Mat3.identity]
    vk_ :=
      { neighbours := [0, 1]
        Xkjs := [⟨0, 0, 0⟩, ⟨-1, 0, 0⟩]
        Wkjs := [1 / 2, 1 / 2]
        Vjs := [1, 1]
        sk := 1 }
    vi_ := ⟨0, -1, 0⟩
    n_ := ⟨0, 1, 0⟩
    c_ := ⟨0, 0, 0⟩ }

/-- The elastic constraint `example_hybrid` after `project_positions` on `sunk_simulation`
with `dt = 1`. -/
def sunk_hybrid_after : HybridConstraint :=
  { example_hybrid with
    lagrange_ := 393708125000 / 56255625169
    node_ := { example_node with Fi := ⟨1, 0, 0, 0, 0, 0, 0, 0, 0⟩ } }

/-- The simulation `sunk_simulation` after `project_positions` of `example_hybrid` with
`dt = 1`: the free particle has moved along `x`. -/
def sunk_simulation_after_hybrid : Simulation :=
  { particles :=
      [[⟨⟨0, -1, 0⟩, ⟨0, -1, 0⟩, ⟨0, -1, 0⟩, ⟨0, 0, 0⟩, ⟨0, 0, 0⟩, 0⟩,
        ⟨⟨1, -1, 0⟩, ⟨103131307669 / 56255625169, -1, 0⟩, ⟨1, -1, 0⟩, ⟨0, 0, 0⟩, ⟨0, 0, 0⟩,
          1⟩]]
    collision_constraints := [] }

/-- The simulation `sunk_simulation` after `project_positions` of `sunk_collision` with
`dt = 1`: the free particle has moved up by `500/251`. -/
def sunk_simulation_after_collision : Simulation :=
  { particles :=
      [[⟨⟨0, -1, 0⟩, ⟨0, -1, 0⟩, ⟨0, -1, 0⟩, ⟨0, 0, 0⟩, ⟨0, 0, 0⟩, 0⟩,
        ⟨⟨1, -1, 0⟩, ⟨1, 249 / 251, 0⟩, ⟨1, -1, 0⟩, ⟨0, 0, 0⟩, ⟨0, 0, 0⟩, 1⟩]]
    collision_constraints := [] }

/-- The simulation `sunk_simulation` with the free particle entered from `(1/2, -1, 0)`, so
that the displacement `xi - xn` of the step is not zero. -/
def moving_simulation : Simulation :=
  { particles :=
      [[⟨⟨0, -1, 0⟩, ⟨0, -1, 0⟩, ⟨0, -1, 0⟩, ⟨0, 0, 0⟩, ⟨0, 0, 0⟩, 0⟩,
        ⟨⟨1, -1, 0⟩, ⟨1, -1, 0⟩, ⟨1 / 2, -1, 0⟩, ⟨0, 0, 0⟩, ⟨0, 0, 0⟩, 1⟩]]
    collision_constraints := [] }

/-- The locals of `project_positions` for `example_hybrid` on `moving_simulation`. -/
def moving_sums : GradientSums :=
  { pinned_sums with
    weighted_sum_of_gradients := 56250000 / 169
    gradC_dot_displacement := -3750 / 13 }

/-- A collision constraint with one neighbour of weight `1` and compliance `0`, whose stored
vertex position `(0, -1, 0)` is one unit below the contact plane `y = 0`. -/
def stale_collision : MeshlessSphCollisionConstraint :=
  { alpha_ := 0
    beta_ := 0
    lagrange_ := 0
    bi_ := 0
    node_Fis := [Mat3.identity]
    vk_ := { neighbours := [0], Xkjs := [⟨0, 0, 0⟩], Wkjs := [1], Vjs := [1], sk := 1 }
    vi_ := ⟨0, -1, 0⟩
    n_ := ⟨0, 1, 0⟩
    c_ := ⟨0, 0, 0⟩ }

/-- A simulation whose only particle, free with inverse mass `1`, was at `(0, -1, 0)` and
has the predicted position `(0, -5, 0)`. -/
def deep_simulation : Simulation :=
  { particles := [[⟨⟨0, -1, 0⟩, ⟨0, -5, 0⟩, ⟨0, -1, 0⟩, ⟨0, 0, 0⟩, ⟨0, 0, 0⟩, 1⟩]]
    collision_constraints := [] }

/-- A rotation by the angle whose cosine is `4/5` and whose sine is `3/5`, about the `x`
axis. -/
def example_rotation_x : Mat3 := ⟨1, 0, 0, 0, 4 / 5, -3 / 5, 0, 3 / 5, 4 / 5⟩

/-- A deformation gradient with the singular values `2, 1, 3`. -/
def example_svd_matrix : Mat3 :=
  Mat3.mul (Mat3.mul example_rotation (Mat3.asDiagonal ⟨2, 1, 3⟩))
    (Mat3.transpose example_rotation_x)

/-- A decomposition routine for the examples: it returns the factors from which
`example_svd_matrix` is built. -/
def example_jacobiSvd (_F : Mat3) : Mat3 × Vec3 × Mat3 :=
  (example_rotation, ⟨2, 1, 3⟩, example_rotation_x)

/-- The node of `example_node` embedded in a tetrahedron `(0, 1, 2, 3)` of which only the
vertex `0` is not on the boundary; the mesh particles of the body start at index `2`, the
meshless particles at index `0`. -/
def mixed_node : HybridNode :=
  { example_node with
    ti := 0
    is_mixed_particle := true
    body :=
      { mesh_particles_index_offset := 2
        meshless_particles_index_offset := 0
        tetrahedra := [⟨0, 1, 2, 3⟩]
        is_boundary_mesh_vertex := fun vi => decide (vi ≠ 0)
        grad_phi_i := fun _ _ => ⟨1, 0, 0⟩ } }

/-- The elastic constraint of `mixed_node` with Young modulus `1000`, Poisson ratio `3/10`
and neither compliance nor damping. -/
def mixed_hybrid : HybridConstraint :=
  HybridConstraint.mk8 0 0 0 0 1000 (3 / 10) mixed_node

/-- The particles of the body of `mixed_node` with the particle `q` of the mesh vertex `0` at
index `2`: the fixed meshless particle of the node at index `0` and a free meshless particle
at index `1`. -/
def mixed_particles (q : Particle) : List Particle :=
  [⟨⟨0, 0, 0⟩, ⟨0, 0, 0⟩, ⟨0, 0, 0⟩, ⟨0, 0, 0⟩, ⟨0, 0, 0⟩, 0⟩,
   ⟨⟨1, 0, 0⟩, ⟨1, 0, 0⟩, ⟨1, 0, 0⟩, ⟨0, 0, 0⟩, ⟨0, 0, 0⟩, 1⟩,
   q]

/-- A free particle of inverse mass `1` at the origin. -/
def mesh_particle : Particle := ⟨⟨0, 0, 0⟩, ⟨0, 0, 0⟩, ⟨0, 0, 0⟩, ⟨0, 0, 0⟩, ⟨0, 0, 0⟩, 1⟩

/-- The simulation of one body with the particles `mixed_particles mesh_particle`. -/
def mixed_simulation : Simulation :=
  { particles := [mixed_particles mesh_particle]
    collision_constraints := [] }

/-- The locals of `project_positions` for `mixed_hybrid` on `mixed_simulation`. -/
def mixed_sums : GradientSums :=
  { Fi := ⟨1, 0, 0, 0, 0, 0, 0, 0, 0⟩
    C := 6250 / 13
    gradC := [⟨7500 / 13, 0, 0⟩, ⟨-7500 / 13, 0, 0⟩]
    gradC_wrt_mesh_indices := [some ⟨-7500 / 13, 0, 0⟩, none, none, none]
    weighted_sum_of_gradients := 56250000 / 169
    gradC_dot_displacement := 0 }

/-- A simulation of one body with two free particles, of inverse mass `1` at `(0, -1, 0)`
and of inverse mass `2` at `(1, -1, 0)`. -/
def loose_simulation : Simulation :=
  { particles :=
      [[⟨⟨0, -1, 0⟩, ⟨0, -1, 0⟩, ⟨0, -1, 0⟩, ⟨0, 0, 0⟩, ⟨0, 0, 0⟩, 1⟩,
        ⟨⟨1, -1, 0⟩, ⟨1, -1, 0⟩, ⟨1, -1, 0⟩, ⟨0, 0, 0⟩, ⟨0, 0, 0⟩, 2⟩]]
    collision_constraints := [] }

/-- The elastic constraint of `example_node` with compliance `0` and damping `1/10`. -/
def rigid_hybrid : HybridConstraint :=
  HybridConstraint.mk8 0 (1 / 10) 0 0 1000 (3 / 10) example_node

/-- The collision constraint `sunk_collision` with compliance `0`, entered with the
multiplier `3`. -/
def rigid_collision : MeshlessSphCollisionConstraint :=
  { sunk_collision with alpha_ := 0, lagrange_ := 3 }

/-- The collision constraint `sunk_collision` with compliance `0`. -/
def pinned_collision : MeshlessSphCollisionConstraint := { sunk_collision with alpha_ := 0 }

/-- A free particle of inverse mass `1` at the origin that was at `(-1, 0, 0)` before the
step. -/
def lagging_particle : Particle :=
  ⟨⟨0, 0, 0⟩, ⟨0, 0, 0⟩, ⟨-1, 0, 0⟩, ⟨0, 0, 0⟩, ⟨0, 0, 0⟩, 1⟩

/-- The elastic constraint of `mixed_node` with compliance `1/1000` and damping `1/10`. -/
def damped_mixed_hybrid : HybridConstraint :=
  HybridConstraint.mk8 (1 / 1000) (1 / 10) 0 0 1000 (3 / 10) mixed_node

/-- The simulation of one body with the particles `mixed_particles lagging_particle`. -/
def lagging_simulation : Simulation :=
  { particles := [mixed_particles lagging_particle]
    collision_constraints := [] }

/-! # Theorems

## The loops of `handle_collisions` -/

theorem getD_set_bool (l : List Bool) (i j : Nat) (a d : Bool) :
    (l.set i a).getD j d = if i = j ∧ i < l.length then a else l.getD j d := by
  simp only [List.getD_eq_getElem?_getD, List.getElem?_set]
  by_cases h : i = j
  · subst h
    by_cases h2 : i < l.length
    · simp [h2]
    · simp [h2]
      rw [List.getElem?_eq_none (by omega)]
      rfl
  · simp [h]

theorem check_vertex_eq (alpha : ℚ) (b : Nat) (body : Body) (triangle : Triangle) (n : Vec3)
    (acc : List Bool × List CollisionConstraint) (vi : Nat) (h : vi < body.vertices.length) :
    check_vertex alpha b body triangle n acc vi =
      some (if pen body triangle n vi && !(acc.1.getD vi false)
            then (acc.1.set vi true, acc.2 ++ [⟨alpha, b, vi, triangle, n⟩]) else acc) := by
  unfold check_vertex pen
  rw [List.getElem?_eq_getElem h]
  generalize acc.1.getD vi false = f
  by_cases h1 : 0 ≤ Vec3.dot (Vec3.sub body.vertices[vi].position triangle.a) n
  · simp [h1, not_lt.mpr h1]
  · cases f <;> simp [h1, not_le.mp h1]

theorem check_vertex_none (alpha : ℚ) (b : Nat) (body : Body) (triangle : Triangle) (n : Vec3)
    (acc : List Bool × List CollisionConstraint) (vi : Nat) (h : body.vertices.length ≤ vi) :
    check_vertex alpha b body triangle n acc vi = none := by
  unfold check_vertex
  rw [List.getElem?_eq_none h]

theorem grows_refl (flags : List Bool) : Grows flags flags [] :=
  ⟨rfl, by simp, by simp, by simp⟩

theorem grows_trans {f0 f1 f2 : List Bool} {a1 a2 : List CollisionConstraint}
    (h1 : Grows f0 f1 a1) (h2 : Grows f1 f2 a2) : Grows f0 f2 (a1 ++ a2) := by
  refine ⟨h2.length_eq.trans h1.length_eq, ?_, ?_, ?_⟩
  · intro vi
    rw [h2.flag_iff, h1.flag_iff]
    simp only [List.mem_append]
    constructor
    · rintro ((h | ⟨c, hc, e⟩) | ⟨c, hc, e⟩)
      · exact Or.inl h
      · exact Or.inr ⟨c, Or.inl hc, e⟩
      · exact Or.inr ⟨c, Or.inr hc, e⟩
    · rintro (h | ⟨c, hc | hc, e⟩)
      · exact Or.inl (Or.inl h)
      · exact Or.inl (Or.inr ⟨c, hc, e⟩)
      · exact Or.inr ⟨c, hc, e⟩
  · intro c hc
    rcases List.mem_append.mp hc with hc | hc
    · exact h1.fresh c hc
    · have := h2.fresh c hc
      by_contra hne
      have ht : f0.getD c.vi false = true := by
        cases h : f0.getD c.vi false
        · exact absurd h hne
        · rfl
      have := (h1.flag_iff c.vi).mpr (Or.inl ht)
      simp_all
  · rw [List.map_append, List.nodup_append]
    refine ⟨h1.nodup, h2.nodup, ?_⟩
    intro v hv1 hv2
    obtain ⟨c1, hc1, e1⟩ := List.mem_map.mp hv1
    obtain ⟨c2, hc2, e2⟩ := List.mem_map.mp hv2
    have t1 := (h1.flag_iff v).mpr (Or.inr ⟨c1, hc1, e1⟩)
    have t2 := h2.fresh c2 hc2
    rw [e2] at t2
    rw [t1] at t2
    exact Bool.noConfusion t2

theorem check_vertices_spec (alpha : ℚ) (b : Nat) (body : Body) (triangle : Triangle) (n : Vec3)
    (is : List Nat) :
    ∀ (flags : List Bool) (out : List CollisionConstraint) (acc1 : List Bool × List CollisionConstraint),
      flags.length = body.vertices.length →
      check_vertices alpha b body triangle n is (flags, out) = some acc1 →
      ∃ added, acc1.2 = out ++ added ∧ Grows flags acc1.1 added ∧
        (∀ c ∈ added, c = ⟨alpha, b, c.vi, triangle, n⟩ ∧ c.vi ∈ is ∧
          pen body triangle n c.vi = true) ∧
        (∀ vi ∈ is, pen body triangle n vi = true → acc1.1.getD vi false = true) := by
  induction is with
  | nil =>
    intro flags out acc1 _ h
    simp only [check_vertices, Option.some.injEq] at h
    subst h
    exact ⟨[], by simp, grows_refl _, by simp, by simp⟩
  | cons vi rest ih =>
    intro flags out acc1 hlen h
    by_cases hvi : vi < body.vertices.length
    · rw [check_vertices, check_vertex_eq _ _ _ _ _ _ _ hvi] at h
      simp only at h
      by_cases hp : (pen body triangle n vi && !(flags.getD vi false)) = true
      · rw [if_pos hp] at h
        obtain ⟨added, e, g, hc, hf⟩ := ih (flags.set vi true) _ acc1 (by simpa using hlen) h
        simp only [Bool.and_eq_true, Bool.not_eq_true'] at hp
        have g0 : Grows flags (flags.set vi true) [⟨alpha, b, vi, triangle, n⟩] := by
          refine ⟨by simp, ?_, ?_, by simp⟩
          · intro w
            rw [getD_set_bool]
            by_cases hw : vi = w
            · subst hw
              simp [hlen, hvi]
            · simp [hw]
          · intro c hc
            rw [List.mem_singleton] at hc
            subst hc
            exact hp.2
        refine ⟨⟨alpha, b, vi, triangle, n⟩ :: added, by simp [e], ?_, ?_, ?_⟩
        · exact grows_trans g0 g
        · intro c hc'
          rcases List.mem_cons.mp hc' with rfl | hc'
          · exact ⟨rfl, by simp, hp.1⟩
          · obtain ⟨h1, h2, h3⟩ := hc c hc'
            exact ⟨h1, List.mem_cons_of_mem _ h2, h3⟩
        · intro w hw hpw
          rcases List.mem_cons.mp hw with rfl | hw
          · exact (g.flag_iff w).mpr (Or.inl (by rw [getD_set_bool]; simp [hlen, hvi]))
          · exact hf w hw hpw
      · rw [if_neg hp] at h
        obtain ⟨added, e, g, hc, hf⟩ := ih flags out acc1 hlen h
        refine ⟨added, e, g, ?_, ?_⟩
        · intro c hc'
          obtain ⟨h1, h2, h3⟩ := hc c hc'
          exact ⟨h1, List.mem_cons_of_mem _ h2, h3⟩
        · intro w hw hpw
          rcases List.mem_cons.mp hw with rfl | hw
          · simp only [Bool.and_eq_true, Bool.not_eq_true', not_and, Bool.not_eq_false] at hp
            exact (g.flag_iff w).mpr (Or.inl (hp hpw))
          · exact hf w hw hpw
    · rw [check_vertices, check_vertex_none _ _ _ _ _ _ _ (not_lt.mp hvi)] at h
      exact absurd h (by simp)

theorem check_vertices_isSome (alpha : ℚ) (b : Nat) (body : Body) (triangle : Triangle) (n : Vec3)
    (is : List Nat) (his : ∀ vi ∈ is, vi < body.vertices.length) :
    ∀ acc, ∃ acc1, check_vertices alpha b body triangle n is acc = some acc1 := by
  induction is with
  | nil => intro acc; exact ⟨acc, rfl⟩
  | cons vi rest ih =>
    intro acc
    rw [check_vertices, check_vertex_eq _ _ _ _ _ _ _ (his vi (by simp))]
    exact ih (fun w hw => his w (List.mem_cons_of_mem _ hw)) _

theorem handle_pair_spec (env : Env) (alpha : ℚ) (b : Nat) (body : Body)
    (pair : Nat × Triangle) (flags : List Bool) (out : List CollisionConstraint)
    (acc1 : List Bool × List CollisionConstraint)
    (hlen : flags.length = body.vertices.length)
    (h : handle_pair env alpha b body (flags, out) pair = some acc1) :
    ∃ added, acc1.2 = out ++ added ∧ Grows flags acc1.1 added ∧
      (∀ c ∈ added, c = ⟨alpha, b, c.vi, pair.2, env.normal pair.2⟩ ∧
        penetrates env body c.vi pair = true) ∧
      (∀ vi, penetrates env body vi pair = true → acc1.1.getD vi false = true) := by
  unfold handle_pair at h
  unfold penetrates
  cases ht : body.tetrahedra[pair.1]? with
  | none => rw [ht] at h; exact absurd h (by simp)
  | some t =>
    rw [ht] at h
    simp only at h
    obtain ⟨added, e, g, hc, hf⟩ := check_vertices_spec _ _ _ _ _ _ _ _ _ hlen h
    refine ⟨added, e, g, ?_, ?_⟩
    · intro c hc'
      obtain ⟨h1, h2, h3⟩ := hc c hc'
      exact ⟨h1, by simp [h2, h3]⟩
    · intro vi hvi
      simp only [Bool.and_eq_true, decide_eq_true_eq] at hvi
      exact hf vi hvi.1 hvi.2

theorem handle_pairs_spec (env : Env) (alpha : ℚ) (b : Nat) (body : Body)
    (pairs : List (Nat × Triangle)) :
    ∀ (flags : List Bool) (out : List CollisionConstraint)
      (acc1 : List Bool × List CollisionConstraint),
      flags.length = body.vertices.length →
      handle_pairs env alpha b body pairs (flags, out) = some acc1 →
      ∃ added, acc1.2 = out ++ added ∧ Grows flags acc1.1 added ∧
        (∀ c ∈ added, ∃ pair, pairs.find? (penetrates env body c.vi) = some pair ∧
          c = ⟨alpha, b, c.vi, pair.2, env.normal pair.2⟩) ∧
        (∀ vi, pairs.any (penetrates env body vi) = true → acc1.1.getD vi false = true) := by
  induction pairs with
  | nil =>
    intro flags out acc1 _ h
    simp only [handle_pairs, Option.some.injEq] at h
    subst h
    exact ⟨[], by simp, grows_refl _, by simp, by simp⟩
  | cons pair rest ih =>
    intro flags out acc1 hlen h
    rw [handle_pairs] at h
    cases hp : handle_pair env alpha b body (flags, out) pair with
    | none => rw [hp] at h; exact absurd h (by simp)
    | some accm =>
      rw [hp] at h
      simp only at h
      obtain ⟨a1, e1, g1, hc1, hf1⟩ := handle_pair_spec env alpha b body pair flags out accm hlen hp
      have hm : accm = (accm.1, out ++ a1) := by rw [← e1]
      rw [hm] at h
      obtain ⟨a2, e2, g2, hc2, hf2⟩ :=
        ih accm.1 (out ++ a1) acc1 (g1.length_eq.trans hlen) h
      refine ⟨a1 ++ a2, by rw [e2, List.append_assoc], grows_trans g1 g2, ?_, ?_⟩
      · intro c hc
        rcases List.mem_append.mp hc with hc | hc
        · obtain ⟨h1, h2⟩ := hc1 c hc
          exact ⟨pair, by simp [List.find?, h2], h1⟩
        · obtain ⟨p, h1, h2⟩ := hc2 c hc
          have hn : penetrates env body c.vi pair = false := by
            cases hpen : penetrates env body c.vi pair
            · rfl
            · have t1 := hf1 c.vi hpen
              have t2 := g2.fresh c hc
              rw [t1] at t2
              exact Bool.noConfusion t2
          exact ⟨p, by simp [List.find?, hn, h1], h2⟩
      · intro vi hvi
        rw [List.any_cons, Bool.or_eq_true] at hvi
        rcases hvi with hvi | hvi
        · exact (g2.flag_iff vi).mpr (Or.inl (hf1 vi hvi))
        · exact hf2 vi hvi

theorem getD_replicate_false (n vi : Nat) : (List.replicate n false).getD vi false = false := by
  rw [List.getD_eq_getElem?_getD]
  by_cases h : vi < n
  · rw [List.getElem?_eq_getElem (by simpa using h)]
    simp
  · rw [List.getElem?_eq_none (by simpa using h)]
    rfl

theorem handle_body_spec (env : Env) (envs : List EnvBody) (alpha : ℚ) (b : Nat) (body : Body)
    (out out1 : List CollisionConstraint)
    (h : handle_body env envs alpha b body out = some out1) :
    ∃ added, out1 = out ++ added ∧ BodyAdded env envs alpha b body added := by
  unfold handle_body at h
  cases hp : handle_pairs env alpha b body (env.intersect envs body)
      (List.replicate body.vertices.length false, out) with
  | none => rw [hp] at h; exact absurd h (by simp)
  | some acc =>
    rw [hp] at h
    simp only [Option.some.injEq] at h
    obtain ⟨added, e, g, hc, hf⟩ := handle_pairs_spec env alpha b body _ _ _ _ (by simp) hp
    refine ⟨added, by rw [← h, e], g.nodup, hc, ?_⟩
    intro vi hvi
    have := (g.flag_iff vi).mp (hf vi hvi)
    rw [getD_replicate_false] at this
    rcases this with h | h
    · exact Bool.noConfusion h
    · exact h

theorem handle_bodies_spec (env : Env) (envs : List EnvBody) (alpha : ℚ) (bodies : List Body) :
    ∀ (b : Nat) (out out1 : List CollisionConstraint),
      handle_bodies env envs alpha b bodies out = some out1 →
      ∃ added, out1 = out ++ added ∧ BodiesAdded env envs alpha b bodies added := by
  induction bodies with
  | nil =>
    intro b out out1 h
    simp only [handle_bodies, Option.some.injEq] at h
    exact ⟨[], by simp [h], rfl⟩
  | cons body rest ih =>
    intro b out out1 h
    rw [handle_bodies] at h
    cases hb : handle_body env envs alpha b body out with
    | none => rw [hb] at h; exact absurd h (by simp)
    | some outm =>
      rw [hb] at h
      simp only at h
      obtain ⟨a1, e1, s1⟩ := handle_body_spec env envs alpha b body out outm hb
      obtain ⟨a2, e2, s2⟩ := ih (b + 1) outm out1 h
      exact ⟨a1 ++ a2, by rw [e2, e1, List.append_assoc], a1, a2, rfl, s1, s2⟩

theorem bodies_added_sound {env : Env} {envs : List EnvBody} {alpha : ℚ} {bodies : List Body} :
    ∀ {b : Nat} {added : List CollisionConstraint}, BodiesAdded env envs alpha b bodies added →
      ∀ c ∈ added, b ≤ c.body ∧ ∃ body pair, bodies[c.body - b]? = some body ∧
        (env.intersect envs body).find? (penetrates env body c.vi) = some pair ∧
        c = ⟨alpha, c.body, c.vi, pair.2, env.normal pair.2⟩ := by
  induction bodies with
  | nil =>
    intro b added h c hc
    simp only [BodiesAdded] at h
    subst h
    exact absurd hc (by simp)
  | cons body rest ih =>
    intro b added h c hc
    obtain ⟨a1, a2, e, s1, s2⟩ := h
    subst e
    rcases List.mem_append.mp hc with hc | hc
    · obtain ⟨pair, hf, hceq⟩ := s1.first c hc
      have hb : c.body = b := by rw [hceq]
      refine ⟨by omega, body, pair, by simp [hb], hf, ?_⟩
      rw [hb]
      exact hceq
    · obtain ⟨hle, body1, pair, hg, hf, hceq⟩ := ih s2 c hc
      refine ⟨by omega, body1, pair, ?_, hf, hceq⟩
      have : c.body - b = (c.body - (b + 1)) + 1 := by omega
      rw [this, List.getElem?_cons_succ]
      exact hg

theorem bodies_added_complete {env : Env} {envs : List EnvBody} {alpha : ℚ} {bodies : List Body} :
    ∀ {b : Nat} {added : List CollisionConstraint}, BodiesAdded env envs alpha b bodies added →
      ∀ k body vi, bodies[k]? = some body →
        (env.intersect envs body).any (penetrates env body vi) = true →
        ∃ c ∈ added, c.body = b + k ∧ c.vi = vi := by
  induction bodies with
  | nil =>
    intro b added _ k body vi hk
    exact absurd hk (by simp)
  | cons body0 rest ih =>
    intro b added h k body vi hk hany
    obtain ⟨a1, a2, e, s1, s2⟩ := h
    subst e
    cases k with
    | zero =>
      simp only [List.getElem?_cons_zero, Option.some.injEq] at hk
      subst hk
      obtain ⟨c, hc, hv⟩ := s1.complete vi hany
      obtain ⟨pair, _, hceq⟩ := s1.first c hc
      have hb : c.body = b := by rw [hceq]
      exact ⟨c, List.mem_append_left _ hc, by omega, hv⟩
    | succ k =>
      rw [List.getElem?_cons_succ] at hk
      obtain ⟨c, hc, hb, hv⟩ := ih s2 k body vi hk hany
      exact ⟨c, List.mem_append_right _ hc, by omega, hv⟩

theorem bodies_added_nodup {env : Env} {envs : List EnvBody} {alpha : ℚ} {bodies : List Body} :
    ∀ {b : Nat} {added : List CollisionConstraint}, BodiesAdded env envs alpha b bodies added →
      (added.map (fun c => (c.body, c.vi))).Nodup := by
  induction bodies with
  | nil =>
    intro b added h
    simp only [BodiesAdded] at h
    subst h
    simp
  | cons body rest ih =>
    intro b added h
    obtain ⟨a1, a2, e, s1, s2⟩ := h
    subst e
    rw [List.map_append, List.nodup_append]
    refine ⟨?_, ih s2, ?_⟩
    · have hinj : a1.map (fun c => (c.body, c.vi)) = (a1.map (fun c => c.vi)).map (fun v => (b, v)) := by
        rw [List.map_map]
        apply List.map_congr_left
        intro c hc
        obtain ⟨pair, _, hceq⟩ := s1.first c hc
        have hb : c.body = b := by rw [hceq]
        simp [hb]
      rw [hinj]
      exact List.Nodup.map (fun x y hxy => by simpa using hxy) s1.nodup
    · intro p hp1 hp2
      obtain ⟨c1, hc1, e1⟩ := List.mem_map.mp hp1
      obtain ⟨c2, hc2, e2⟩ := List.mem_map.mp hp2
      obtain ⟨pair, _, hceq⟩ := s1.first c1 hc1
      have hb1 : c1.body = b := by rw [hceq]
      have hb2 := (bodies_added_sound s2 c2 hc2).1
      have : c1.body = c2.body := by
        have := congrArg Prod.fst (e1.trans e2.symm)
        simpa using this
      omega

theorem handle_pairs_isSome (env : Env) (alpha : ℚ) (b : Nat) (body : Body)
    (hs : shape_ok body.shape) (pairs : List (Nat × Triangle))
    (hp : ∀ pair ∈ pairs, pair.1 < body.tetrahedra.length) :
    ∀ acc, ∃ acc1, handle_pairs env alpha b body pairs acc = some acc1 := by
  induction pairs with
  | nil => intro acc; exact ⟨acc, rfl⟩
  | cons pair rest ih =>
    intro acc
    have hlt := hp pair (by simp)
    have hmem : body.tetrahedra[pair.1] ∈ body.tetrahedra := List.getElem_mem hlt
    obtain ⟨accm, hm⟩ := check_vertices_isSome alpha b body pair.2 (env.normal pair.2)
      (body.tetrahedra[pair.1]).indices (hs _ hmem) acc
    rw [handle_pairs, handle_pair, List.getElem?_eq_getElem hlt]
    simp only [hm]
    exact ih (fun q hq => hp q (List.mem_cons_of_mem _ hq)) accm

theorem handle_bodies_isSome (env : Env) (envs : List EnvBody) (alpha : ℚ) (bodies : List Body)
    (hs : ∀ body ∈ bodies, shape_ok body.shape)
    (hp : ∀ body ∈ bodies, ∀ pair ∈ env.intersect envs body, pair.1 < body.tetrahedra.length) :
    ∀ b out, ∃ out1, handle_bodies env envs alpha b bodies out = some out1 := by
  induction bodies with
  | nil => intro b out; exact ⟨out, rfl⟩
  | cons body rest ih =>
    intro b out
    obtain ⟨acc, hacc⟩ := handle_pairs_isSome env alpha b body (hs body (by simp))
      (env.intersect envs body) (hp body (by simp))
      (List.replicate body.vertices.length false, out)
    rw [handle_bodies, handle_body, hacc]
    exact ih (fun q hq => hs q (List.mem_cons_of_mem _ hq))
      (fun q hq => hp q (List.mem_cons_of_mem _ hq)) (b + 1) acc.2

/-- Under the stated conditions `handle_collisions` returns, and what it returns is the old
list followed by what the loop over the bodies appended. -/
theorem handle_collisions_ok (env : Env) (st : Solver)
    (hs : ∀ body ∈ st.physics_bodies_, shape_ok body.shape)
    (hp : ∀ body ∈ st.physics_bodies_, ∀ pair ∈ env.intersect st.environment_bodies_ body,
      pair.1 < body.tetrahedra.length) :
    ∃ added, handle_collisions env st = some (st.collision_constraints_ ++ added) ∧
      BodiesAdded env st.environment_bodies_ st.collision_alpha_ 0 st.physics_bodies_ added := by
  obtain ⟨out1, h⟩ := handle_bodies_isSome env st.environment_bodies_ st.collision_alpha_
    st.physics_bodies_ hs hp 0 st.collision_constraints_
  obtain ⟨added, e, s⟩ := handle_bodies_spec env _ _ _ _ _ _ h
  exact ⟨added, by rw [handle_collisions, h, e], s⟩

theorem countP_le_one_of_nodup_map {α β : Type} [DecidableEq β] (f : α → β) (l : List α)
    (h : (l.map f).Nodup) (p : β) : l.countP (fun c => decide (f c = p)) ≤ 1 := by
  induction l with
  | nil => simp
  | cons a l ih =>
    rw [List.map_cons, List.nodup_cons] at h
    rw [List.countP_cons]
    by_cases hfa : f a = p
    · have hz : l.countP (fun c => decide (f c = p)) = 0 := by
        rw [List.countP_eq_zero]
        intro c hc hfc
        simp only [decide_eq_true_eq] at hfc
        exact h.1 (by rw [hfa, ← hfc]; exact List.mem_map_of_mem f hc)
      simp [hz, hfa]
    · simp only [hfa, decide_False, Bool.false_eq_true, if_false, Nat.add_zero]
      exact ih h.2

/-! ## The loops of `step` -/

theorem integrate_shape (dt : ℚ) (bodies : List Body) :
    SameShape bodies (integrate dt bodies) := by
  unfold SameShape integrate
  rw [List.map_map]
  apply List.map_congr_left
  intro body _
  simp [Body.shape]

theorem same_shape_trans {a b c : List Body} (h1 : SameShape a b) (h2 : SameShape b c) :
    SameShape a c := Eq.trans h1 h2

theorem project_constraints_spec (dt : ℚ) (cs : List Constraint)
    (hk : ∀ c ∈ cs, KeepsShape c.project) :
    ∀ (j : Nat) (ps : ProjectionState),
      SameShape ps.bodies (project_constraints dt cs j ps).bodies ∧
      (project_constraints dt cs j ps).lagrange.length = ps.lagrange.length ∧
      (project_constraints dt cs j ps).calls =
        ps.calls ++ (List.range' j cs.length).map (fun i => ProjectCall.persistent i i) := by
  induction cs with
  | nil => intro j ps; simp [project_constraints, SameShape]
  | cons c rest ih =>
    intro j ps
    rw [project_constraints]
    obtain ⟨h1, h2, h3⟩ := ih (fun c hc => hk c (List.mem_cons_of_mem _ hc)) (j + 1)
      { bodies := (c.project ps.bodies (ps.lagrange.getD j 0) dt).1
        lagrange := ps.lagrange.set j (c.project ps.bodies (ps.lagrange.getD j 0) dt).2
        calls := ps.calls ++ [ProjectCall.persistent j j] }
    refine ⟨same_shape_trans (hk c (by simp) _ _ _) h1, ?_, ?_⟩
    · rw [h2]; simp
    · rw [h3]; simp [List.range'_succ]

theorem project_collision_constraints_spec (env : Env) (dt : ℚ) (J : Nat)
    (hk : ∀ c, KeepsShape (env.collision_project c)) (cs : List CollisionConstraint) :
    ∀ (c : Nat) (ps : ProjectionState),
      SameShape ps.bodies (project_collision_constraints env dt J cs c ps).bodies ∧
      (project_collision_constraints env dt J cs c ps).lagrange.length = ps.lagrange.length ∧
      (project_collision_constraints env dt J cs c ps).calls =
        ps.calls ++ (cs.enumFrom c).map (fun p => ProjectCall.collision p.1 (J + p.1) p.2) := by
  induction cs with
  | nil => intro c ps; simp [project_collision_constraints, SameShape]
  | cons x rest ih =>
    intro c ps
    rw [project_collision_constraints]
    obtain ⟨h1, h2, h3⟩ := ih (c + 1)
      { bodies := (env.collision_project x ps.bodies (ps.lagrange.getD (J + c) 0) dt).1
        lagrange := ps.lagrange.set (J + c)
          (env.collision_project x ps.bodies (ps.lagrange.getD (J + c) 0) dt).2
        calls := ps.calls ++ [ProjectCall.collision c (J + c) x] }
    refine ⟨same_shape_trans (hk x _ _ _) h1, ?_, ?_⟩
    · rw [h2]; simp
    · rw [h3]; simp [List.enumFrom_cons]

theorem sweep_spec (env : Env) (dt : ℚ) (cs : List Constraint)
    (ccs : List CollisionConstraint) (bodies : List Body) (lagrange : List ℚ)
    (hk : ∀ c ∈ cs, KeepsShape c.project) (hkc : ∀ c, KeepsShape (env.collision_project c)) :
    SameShape bodies (sweep env dt cs ccs bodies lagrange).bodies ∧
    (sweep env dt cs ccs bodies lagrange).lagrange.length = lagrange.length ∧
    (sweep env dt cs ccs bodies lagrange).calls = expected_calls cs.length ccs := by
  unfold sweep
  obtain ⟨a1, a2, a3⟩ := project_constraints_spec dt cs hk 0
    { bodies := bodies, lagrange := lagrange, calls := [] }
  obtain ⟨b1, b2, b3⟩ := project_collision_constraints_spec env dt cs.length hkc ccs 0
    (project_constraints dt cs 0 { bodies := bodies, lagrange := lagrange, calls := [] })
  refine ⟨same_shape_trans a1 b1, by rw [b2, a2], ?_⟩
  rw [b3, a3]
  simp [expected_calls, List.range_eq_range', List.enum]

theorem sweeps_spec (env : Env) (dt : ℚ) (cs : List Constraint)
    (ccs : List CollisionConstraint)
    (hk : ∀ c ∈ cs, KeepsShape c.project) (hkc : ∀ c, KeepsShape (env.collision_project c)) :
    ∀ (count : Nat) (bodies : List Body) (lagrange : List ℚ),
      SameShape bodies (sweeps env dt cs ccs count bodies lagrange).1 ∧
      (sweeps env dt cs ccs count bodies lagrange).2.1.length = lagrange.length ∧
      (sweeps env dt cs ccs count bodies lagrange).2.2 =
        List.replicate count (expected_calls cs.length ccs) := by
  intro count
  induction count with
  | zero => intro bodies lagrange; simp [sweeps, SameShape]
  | succ k ih =>
    intro bodies lagrange
    rw [sweeps]
    obtain ⟨a1, a2, a3⟩ := sweep_spec env dt cs ccs bodies lagrange hk hkc
    obtain ⟨b1, b2, b3⟩ := ih (sweep env dt cs ccs bodies lagrange).bodies
      (sweep env dt cs ccs bodies lagrange).lagrange
    refine ⟨same_shape_trans a1 b1, by simp only; rw [b2, a2], ?_⟩
    simp only
    rw [b3, a3, List.replicate_succ]

theorem collisions_of_expected_calls (J : Nat) (ccs : List CollisionConstraint) :
    collisions_of (expected_calls J ccs) = ccs := by
  unfold collisions_of expected_calls
  rw [List.filterMap_append]
  have h1 : List.filterMap (fun call =>
      match call with
      | ProjectCall.persistent _ _ => none
      | ProjectCall.collision _ _ constraint => some constraint)
      ((List.range J).map (fun j => ProjectCall.persistent j j)) = [] := by
    rw [List.filterMap_map]
    simp
  rw [h1, List.nil_append, List.filterMap_map]
  unfold List.enum
  generalize 0 = k
  induction ccs generalizing k with
  | nil => rfl
  | cons x rest ih => simp [List.enumFrom_cons, ih]

theorem fill_zero_resize (xs : List ℚ) (n : Nat) :
    fill_zero (resize xs n) = List.replicate n 0 := by
  unfold fill_zero resize
  rw [List.map_append, List.map_replicate]
  have : List.map (fun _ => (0 : ℚ)) (List.take n xs) = List.replicate (min n xs.length) 0 := by
    rw [List.eq_replicate_iff]
    simp
  rw [this, List.append_replicate_replicate]
  congr 1
  omega

theorem update_vertices_eq (dt : ℚ) :
    ∀ (xs : List Vec3) (vs : List Vertex), vs.length ≤ xs.length →
      update_vertices dt xs vs = some (List.zipWith (update_vertex dt) xs vs) := by
  intro xs vs
  induction vs generalizing xs with
  | nil => intro _; cases xs <;> simp [update_vertices]
  | cons v rest ih =>
    intro h
    cases xs with
    | nil => simp at h
    | cons x xs =>
      rw [update_vertices, ih xs (by simpa using h)]
      simp

theorem update_bodies_eq (dt : ℚ) (tail : List (List Vec3)) :
    ∀ (bodies0 bodies : List Body), SameShape bodies0 bodies →
      update_bodies dt (bodies0.map positions_of ++ tail) bodies =
        some (List.zipWith (update_body dt) (bodies0.map positions_of) bodies) := by
  intro bodies0
  induction bodies0 with
  | nil =>
    intro bodies h
    have : bodies = [] := by
      unfold SameShape at h
      simpa using h.symm
    subst this
    cases tail <;> simp [update_bodies]
  | cons b0 rest0 ih =>
    intro bodies h
    cases bodies with
    | nil => simp [SameShape] at h
    | cons b rest =>
      unfold SameShape at h
      simp only [List.map_cons, List.cons.injEq] at h
      obtain ⟨hs, hr⟩ := h
      have hl : b.vertices.length ≤ (positions_of b0).length := by
        have := congrArg Prod.fst hs
        simp only [Body.shape] at this
        simp [positions_of, this]
      simp only [List.map_cons, List.cons_append, update_bodies, List.zipWith_cons_cons]
      rw [update_vertices_eq dt _ _ hl]
      simp only [List.append_eq, ih rest hr]
      rfl

theorem update_bodies_shape (dt : ℚ) :
    ∀ (bodies0 bodies : List Body), SameShape bodies0 bodies →
      SameShape bodies0 (List.zipWith (update_body dt) (bodies0.map positions_of) bodies) := by
  intro bodies0
  induction bodies0 with
  | nil => intro bodies _; simp [SameShape]
  | cons b0 rest0 ih =>
    intro bodies h
    cases bodies with
    | nil => simp [SameShape] at h
    | cons b rest =>
      unfold SameShape at h ⊢
      simp only [List.map_cons, List.cons.injEq] at h
      obtain ⟨hs, hr⟩ := h
      simp only [List.map_cons, List.zipWith_cons_cons, List.cons.injEq]
      refine ⟨?_, ih rest hr⟩
      have h1 := congrArg Prod.fst hs
      have h2 := congrArg Prod.snd hs
      simp only [Body.shape] at h1 h2
      simp [Body.shape, update_body, positions_of, h1, h2]

theorem ready_shapes {env : Env} {st : Solver} (h : Ready env st) (bodies : List Body)
    (hs : SameShape st.physics_bodies_ bodies) : ∀ body ∈ bodies, shape_ok body.shape := by
  intro body hb
  apply h.shapes
  rw [hs]
  exact List.mem_map_of_mem _ hb

theorem substep_ok (env : Env) (dt : ℚ) (iterations : Nat) (st : Solver) (h : Ready env st) :
    ∃ added,
      handle_collisions env
        { st with
          x0_ := st.physics_bodies_.map positions_of ++ st.x0_.drop st.physics_bodies_.length
          physics_bodies_ := integrate dt st.physics_bodies_ } =
        some (st.collision_constraints_ ++ added) ∧
      BodiesAdded env st.environment_bodies_ st.collision_alpha_ 0
        (integrate dt st.physics_bodies_) added ∧
      substep env dt iterations st = some (substep_result env dt iterations st added) ∧
      Ready env (substep_result env dt iterations st added).1 := by
  have hi := integrate_shape dt st.physics_bodies_
  obtain ⟨added, hc, hb⟩ := handle_collisions_ok env
    { st with
      x0_ := st.physics_bodies_.map positions_of ++ st.x0_.drop st.physics_bodies_.length
      physics_bodies_ := integrate dt st.physics_bodies_ }
    (ready_shapes h _ hi) (fun body _ pair hp => h.detector _ body pair hp)
  obtain ⟨s1, s2, s3⟩ := sweeps_spec env dt st.constraints_ (st.collision_constraints_ ++ added)
    h.persistent h.collision iterations (integrate dt st.physics_bodies_)
    (List.replicate (st.constraints_.length + (st.collision_constraints_ ++ added).length) 0)
  have hshape := same_shape_trans hi s1
  refine ⟨added, hc, hb, ?_, ?_⟩
  · unfold substep hold_previous_positions
    rw [if_pos h.x0_size]
    simp only
    have hx : (List.map (fun body => List.map (fun v => v.position) body.vertices)
        st.physics_bodies_) = st.physics_bodies_.map positions_of := rfl
    rw [hx, hc]
    simp only [fill_zero_resize]
    rw [update_bodies_eq dt _ _ _ hshape]
    simp only [substep_result, s3, List.drop_left']
  · refine ⟨?_, ?_, h.detector, h.persistent, h.collision⟩
    · have h1 := congrArg List.length (update_bodies_shape dt _ _ hshape)
      simp only [List.length_map] at h1
      have h2 := h.x0_size
      show (List.zipWith (update_body dt) (st.physics_bodies_.map positions_of) _).length ≤
        (st.physics_bodies_.map positions_of ++ st.x0_.drop st.physics_bodies_.length).length
      rw [← h1, List.length_append, List.length_map, List.length_drop]
      omega
    · intro s hs
      apply h.shapes
      rw [update_bodies_shape dt _ _ hshape]
      exact hs

theorem substeps_ok (env : Env) (dt : ℚ) (iterations : Nat) :
    ∀ (count : Nat) (st : Solver), Ready env st →
      ∃ st1 records, substeps env dt iterations count st = some (st1, records) ∧
        Ready env st1 ∧ st1.constraints_ = st.constraints_ ∧
        (st.collision_constraints_ = [] → st1.collision_constraints_ = []) ∧
        records.length = count ∧
        RecordsOk dt iterations st.constraints_.length st.collision_constraints_ records := by
  intro count
  induction count with
  | zero =>
    intro st h
    exact ⟨st, [], rfl, h, rfl, id, rfl, trivial⟩
  | succ k ih =>
    intro st h
    obtain ⟨added, _, _, hs, hr⟩ := substep_ok env dt iterations st h
    obtain ⟨st2, rs, e2, r2, c2, cc2, l2, ok2⟩ := ih (substep_result env dt iterations st added).1 hr
    refine ⟨st2, (substep_result env dt iterations st added).2 :: rs, ?_, r2, ?_, ?_, ?_, ?_⟩
    · rw [substeps, hs]
      simp only [e2]
    · rw [c2]; rfl
    · intro _
      exact cc2 rfl
    · simp [l2]
    · exact ⟨⟨rfl, rfl, rfl, rfl, rfl⟩, ok2⟩

theorem records_ok_forall {dt : ℚ} {iterations J : Nat} :
    ∀ {records : List SubstepRecord}, RecordsOk dt iterations J [] records →
      ∀ r ∈ records, RecordOk dt iterations J [] r := by
  intro records
  induction records with
  | nil => intro _ r hr; exact absurd hr (by simp)
  | cons r0 rs ih =>
    intro h r hr
    rcases List.mem_cons.mp hr with rfl | hr
    · exact h.1
    · exact ih h.2 r hr

theorem vertex_at_eq_some {bodies : List Body} {b vi : Nat} {v : Vertex} :
    vertex_at bodies b vi = some v ↔
      ∃ body, bodies[b]? = some body ∧ body.vertices[vi]? = some v := by
  unfold vertex_at
  cases bodies[b]? with
  | none => simp
  | some body => simp

theorem integrate_fixed (dt : ℚ) (bodies : List Body) (b vi : Nat) (p : Vec3)
    (h : FixedAt bodies b vi p) : FixedAt (integrate dt bodies) b vi p := by
  obtain ⟨v, hv, hf, hp⟩ := h
  obtain ⟨body, hb, hvi⟩ := vertex_at_eq_some.mp hv
  refine ⟨v, vertex_at_eq_some.mpr
    ⟨{ body with vertices := body.vertices.map (integrate_vertex dt) }, ?_, ?_⟩, hf, hp⟩
  · unfold integrate
    rw [List.getElem?_map, hb]
    rfl
  · simp only [List.getElem?_map, hvi, Option.map_some', Option.some.injEq]
    unfold integrate_vertex
    rw [if_pos hf]

theorem project_constraints_fixed (dt : ℚ) (cs : List Constraint)
    (hk : ∀ c ∈ cs, KeepsFixed c.project) (b vi : Nat) (p : Vec3) :
    ∀ (j : Nat) (ps : ProjectionState), FixedAt ps.bodies b vi p →
      FixedAt (project_constraints dt cs j ps).bodies b vi p := by
  induction cs with
  | nil => intro j ps h; exact h
  | cons c rest ih =>
    intro j ps h
    rw [project_constraints]
    exact ih (fun c hc => hk c (List.mem_cons_of_mem _ hc)) (j + 1) _
      (hk c (by simp) _ _ _ _ _ _ h)

theorem project_collision_constraints_fixed (env : Env) (dt : ℚ) (J : Nat)
    (hk : ∀ c, KeepsFixed (env.collision_project c)) (b vi : Nat) (p : Vec3)
    (cs : List CollisionConstraint) :
    ∀ (c : Nat) (ps : ProjectionState), FixedAt ps.bodies b vi p →
      FixedAt (project_collision_constraints env dt J cs c ps).bodies b vi p := by
  induction cs with
  | nil => intro c ps h; exact h
  | cons x rest ih =>
    intro c ps h
    rw [project_collision_constraints]
    exact ih (c + 1) _ (hk x _ _ _ _ _ _ h)

theorem sweeps_fixed (env : Env) (dt : ℚ) (cs : List Constraint)
    (ccs : List CollisionConstraint) (hk : ∀ c ∈ cs, KeepsFixed c.project)
    (hkc : ∀ c, KeepsFixed (env.collision_project c)) (b vi : Nat) (p : Vec3) :
    ∀ (count : Nat) (bodies : List Body) (lagrange : List ℚ), FixedAt bodies b vi p →
      FixedAt (sweeps env dt cs ccs count bodies lagrange).1 b vi p := by
  intro count
  induction count with
  | zero => intro bodies lagrange h; exact h
  | succ k ih =>
    intro bodies lagrange h
    rw [sweeps]
    apply ih
    unfold sweep
    exact project_collision_constraints_fixed env dt _ hkc b vi p ccs 0 _
      (project_constraints_fixed dt cs hk b vi p 0 _ h)

theorem vec3_sub_self_sdiv (p : Vec3) (dt : ℚ) : Vec3.sdiv (Vec3.sub p p) dt = Vec3.zero := by
  simp [Vec3.sdiv, Vec3.sub, Vec3.zero]

/-- The update at the end of a substep leaves a fixed vertex that did not move where it is
and sets its velocity to zero. -/
theorem update_fixed (dt : ℚ) (bodies0 bodies : List Body) (b vi : Nat) (p : Vec3)
    (h0 : FixedAt bodies0 b vi p) (h1 : FixedAt bodies b vi p) :
    ∃ v, vertex_at (List.zipWith (update_body dt) (bodies0.map positions_of) bodies) b vi
        = some v ∧ v.fixed = true ∧ v.position = p ∧ v.velocity = Vec3.zero := by
  obtain ⟨v0, hv0, _, hp0⟩ := h0
  obtain ⟨v1, hv1, hf1, hp1⟩ := h1
  obtain ⟨body0, hb0, hvi0⟩ := vertex_at_eq_some.mp hv0
  obtain ⟨body1, hb1, hvi1⟩ := vertex_at_eq_some.mp hv1
  refine ⟨update_vertex dt p v1, vertex_at_eq_some.mpr ⟨update_body dt (positions_of body0) body1,
    ?_, ?_⟩, hf1, hp1, ?_⟩
  · rw [List.getElem?_zipWith, List.getElem?_map, hb0, hb1]
    rfl
  · simp only [update_body, positions_of]
    rw [List.getElem?_zipWith, List.getElem?_map, hvi0, hvi1]
    simp [hp0]
  · simp only [update_vertex, hp1]
    exact vec3_sub_self_sdiv p dt

theorem substeps_fixed (env : Env) (dt : ℚ) (iterations : Nat) (b vi : Nat) (p : Vec3)
    (hkc : ∀ c, KeepsFixed (env.collision_project c)) :
    ∀ (count : Nat) (st st1 : Solver) (records : List SubstepRecord), Ready env st →
      (∀ c ∈ st.constraints_, KeepsFixed c.project) →
      substeps env dt iterations count st = some (st1, records) →
      FixedAt st.physics_bodies_ b vi p →
      ∃ v, vertex_at st1.physics_bodies_ b vi = some v ∧ v.fixed = true ∧ v.position = p ∧
        (0 < count → v.velocity = Vec3.zero) := by
  intro count
  induction count with
  | zero =>
    intro st st1 records _ _ h hfix
    simp only [substeps, Option.some.injEq, Prod.mk.injEq] at h
    obtain ⟨v, hv, hf, hp⟩ := hfix
    rw [← h.1]
    exact ⟨v, hv, hf, hp, fun h => absurd h (by decide)⟩
  | succ k ih =>
    intro st st1 records hready hk h hfix
    obtain ⟨added, _, _, hs, hr⟩ := substep_ok env dt iterations st hready
    rw [substeps, hs] at h
    simp only at h
    cases hrest : substeps env dt iterations k (substep_result env dt iterations st added).1 with
    | none => rw [hrest] at h; exact absurd h (by simp)
    | some q =>
      obtain ⟨st2, rs⟩ := q
      rw [hrest] at h
      simp only [Option.some.injEq, Prod.mk.injEq] at h
      have hmid : ∃ v, vertex_at (substep_result env dt iterations st added).1.physics_bodies_
          b vi = some v ∧ v.fixed = true ∧ v.position = p ∧ v.velocity = Vec3.zero :=
        update_fixed dt _ _ b vi p hfix
          (sweeps_fixed env dt _ _ hk hkc b vi p iterations _ _
            (integrate_fixed dt _ b vi p hfix))
      obtain ⟨vm, hvm, hfm, hpm, hzm⟩ := hmid
      obtain ⟨v, hv, hf, hp, hz⟩ := ih _ st2 rs hr hk hrest ⟨vm, hvm, hfm, hpm⟩
      rw [← h.1]
      refine ⟨v, hv, hf, hp, fun _ => ?_⟩
      cases k with
      | zero =>
        simp only [substeps, Option.some.injEq, Prod.mk.injEq] at hrest
        rw [← hrest.1, hvm, Option.some.injEq] at hv
        rw [← hv]
        exact hzm
      | succ k => exact hz (Nat.succ_pos k)

theorem records_ok_basic {dt : ℚ} {iterations J : Nat} :
    ∀ {records : List SubstepRecord} {old : List CollisionConstraint},
      RecordsOk dt iterations J old records →
      ∀ r ∈ records, r.dt = dt ∧ r.J = J ∧ r.sweeps.length = iterations ∧
        r.lagrange_before_sweeps = List.replicate (r.J + r.Mc) 0 := by
  intro records
  induction records with
  | nil => intro _ _ r hr; exact absurd hr (by simp)
  | cons r0 rs ih =>
    intro old h r hr
    rcases List.mem_cons.mp hr with rfl | hr
    · obtain ⟨h1, h2, _, h4, h5⟩ := h.1
      exact ⟨h1, h2, by rw [h5, List.length_replicate], h4⟩
    · exact ih h.2 r hr

/-- Under `Ready` a call of `step` returns; its records are those of `num_substeps` passes
with the locals `dt` and `num_iterations`. -/
theorem step_ok (env : Env) (st : Solver) (h : Ready env st) :
    ∃ st1 records, step env st = some (st1, records) ∧
      Ready env st1 ∧ st1.constraints_ = st.constraints_ ∧
      (st.collision_constraints_ = [] → st1.collision_constraints_ = []) ∧
      records.length = num_substeps st ∧
      RecordsOk (step_dt st) (num_iterations st) st.constraints_.length
        st.collision_constraints_ records :=
  substeps_ok env (step_dt st) (num_iterations st) (num_substeps st) st h

theorem sum_replicate_nat (n k : Nat) : (List.replicate n k).sum = n * k := by
  rw [List.sum_replicate, smul_eq_mul]

theorem substep_collision_constraints (env : Env) (dt : ℚ) (iterations : Nat)
    (st st1 : Solver) (r : SubstepRecord)
    (h : substep env dt iterations st = some (st1, r)) : st1.collision_constraints_ = [] := by
  unfold substep at h
  split at h
  · exact absurd h (by simp)
  · simp only at h
    split at h
    · exact absurd h (by simp)
    · split at h
      · exact absurd h (by simp)
      · simp only [Option.some.injEq, Prod.mk.injEq] at h
        rw [← h.1]

theorem substeps_collision_constraints (env : Env) (dt : ℚ) (iterations : Nat) :
    ∀ (count : Nat) (st st1 : Solver) (records : List SubstepRecord),
      substeps env dt iterations count st = some (st1, records) →
      st.collision_constraints_ = [] → st1.collision_constraints_ = [] := by
  intro count
  induction count with
  | zero =>
    intro st st1 records h he
    simp only [substeps, Option.some.injEq, Prod.mk.injEq] at h
    rw [← h.1]
    exact he
  | succ k ih =>
    intro st st1 records h _
    rw [substeps] at h
    cases hs : substep env dt iterations st with
    | none => rw [hs] at h; exact absurd h (by simp)
    | some p =>
      obtain ⟨stm, r⟩ := p
      rw [hs] at h
      simp only at h
      cases hk : substeps env dt iterations k stm with
      | none => rw [hk] at h; exact absurd h (by simp)
      | some q =>
        obtain ⟨st2, rs⟩ := q
        rw [hk] at h
        simp only [Option.some.injEq, Prod.mk.injEq] at h
        rw [← h.1]
        exact ih stm st2 rs hk (substep_collision_constraints env dt iterations st stm r hs)

theorem sort_bodies_collision_constraints :
    ∀ (bodies : List SceneNode) (st : Solver),
      (sort_bodies bodies st).collision_constraints_ = st.collision_constraints_ := by
  intro bodies
  induction bodies with
  | nil => intro st; rfl
  | cons node rest ih =>
    intro st
    cases node with
    | physics body => rw [sort_bodies, ih]
    | environment body => rw [sort_bodies, ih]
    | other => rw [sort_bodies, ih]

theorem create_green_constraints_collision_constraints (env : Env) (b : Nat)
    (params : SimulationParameters) :
    ∀ (ts : List Tetrahedron) (ti : Nat) (st : Solver),
      (create_green_constraints env b params ts ti st).collision_constraints_ =
        st.collision_constraints_ := by
  intro ts
  induction ts with
  | nil => intro ti st; rfl
  | cons t rest ih => intro ti st; rw [create_green_constraints, ih]

theorem create_constraints_collision_constraints (env : Env) :
    ∀ (bodies : List Body) (b : Nat) (st : Solver),
      (create_constraints env b bodies st).collision_constraints_ =
        st.collision_constraints_ := by
  intro bodies
  induction bodies with
  | nil => intro b st; rfl
  | cons body rest ih =>
    intro b st
    rw [create_constraints, ih]
    split <;> split <;>
      simp [create_distance_constraints_for_body, create_green_constraints_for_body,
        create_green_constraints_collision_constraints]

theorem setup_collision_constraints (env : Env) (bodies : List SceneNode) (st : Solver) :
    (Solver.setup env bodies st).collision_constraints_ = [] := by
  unfold Solver.setup
  simp only
  rw [create_constraints_collision_constraints, sort_bodies_collision_constraints]
  rfl

/-- Every state a solver object can be in has an empty list of collision constraints. -/
theorem reachable_collision_constraints {env : Env} {st : Solver} (h : Reachable env st) :
    st.collision_constraints_ = [] := by
  induction h with
  | mk0 => rfl
  | mk3 => rfl
  | setup bodies st _ _ => exact setup_collision_constraints env bodies st
  | reset => rfl
  | configure st _ _ _ _ _ ih => exact ih
  | step st st1 records _ hs ih =>
    exact substeps_collision_constraints env _ _ _ st st1 records hs ih

theorem handle_bodies_no_pairs (env : Env) (envs : List EnvBody) (alpha : ℚ)
    (bodies : List Body) (h : ∀ body ∈ bodies, env.intersect envs body = []) :
    ∀ b out, handle_bodies env envs alpha b bodies out = some out := by
  induction bodies with
  | nil => intro b out; rfl
  | cons body rest ih =>
    intro b out
    rw [handle_bodies, handle_body, h body (by simp), handle_pairs]
    exact ih (fun q hq => h q (List.mem_cons_of_mem _ hq)) (b + 1) out

theorem sweeps_nil (env : Env) (dt : ℚ) :
    ∀ (count : Nat) (bodies : List Body) (lagrange : List ℚ),
      (sweeps env dt [] [] count bodies lagrange).1 = bodies := by
  intro count
  induction count with
  | zero => intro bodies lagrange; rfl
  | succ k ih =>
    intro bodies lagrange
    rw [sweeps]
    exact ih _ _

theorem update_integrate_eq (dt : ℚ) (bodies : List Body) :
    List.zipWith (update_body dt) (bodies.map positions_of) (integrate dt bodies) =
      bodies.map (fun body => { body with vertices := body.vertices.map (free_vertex dt) }) := by
  unfold integrate
  rw [List.zipWith_map_left, List.zipWith_map_right, List.zipWith_same]
  apply List.map_congr_left
  intro body _
  simp only [update_body, positions_of]
  rw [List.zipWith_map_left, List.zipWith_map_right, List.zipWith_same]
  rfl

/-- One substep without constraints and without collisions applies `free_vertex` to every
vertex. -/
theorem substep_free (env : Env) (dt : ℚ) (iterations : Nat) (st : Solver)
    (hx0 : st.physics_bodies_.length ≤ st.x0_.length)
    (hcs : st.constraints_ = []) (hcc : st.collision_constraints_ = [])
    (hdet : ∀ body, env.intersect st.environment_bodies_ body = []) :
    ∃ st1 r, substep env dt iterations st = some (st1, r) ∧
      st1.physics_bodies_ = st.physics_bodies_.map
        (fun body => { body with vertices := body.vertices.map (free_vertex dt) }) := by
  unfold substep hold_previous_positions
  rw [if_pos hx0]
  simp only
  have hc : handle_collisions env
      { st with
        x0_ := st.physics_bodies_.map (fun body => body.vertices.map (fun v => v.position))
          ++ st.x0_.drop st.physics_bodies_.length
        physics_bodies_ := integrate dt st.physics_bodies_ } = some [] := by
    unfold handle_collisions
    simp only [hcc]
    exact handle_bodies_no_pairs env _ _ _ (fun body _ => hdet body) 0 []
  rw [hc]
  simp only [hcs, sweeps_nil]
  have hu := update_bodies_eq dt (st.x0_.drop st.physics_bodies_.length) st.physics_bodies_
    (integrate dt st.physics_bodies_) (integrate_shape dt st.physics_bodies_)
  have hx : (List.map (fun body => List.map (fun v => v.position) body.vertices)
      st.physics_bodies_) = st.physics_bodies_.map positions_of := rfl
  rw [hx, hu]
  exact ⟨_, _, rfl, update_integrate_eq dt st.physics_bodies_⟩

theorem vertex_at_map (f : Vertex → Vertex) (bodies : List Body) (b vi : Nat) :
    vertex_at (bodies.map (fun body => { body with vertices := body.vertices.map f })) b vi =
      (vertex_at bodies b vi).map f := by
  unfold vertex_at
  rw [List.getElem?_map]
  cases bodies[b]? with
  | none => rfl
  | some body => simp [List.getElem?_map]

theorem free_vertex_velocity (dt : ℚ) (v : Vertex) (hf : v.fixed = false) (hdt : dt ≠ 0) :
    (free_vertex dt v).velocity =
      Vec3.add v.velocity (Vec3.smul dt (Vec3.sdiv (Vec3.add v.force gravity) v.mass)) := by
  simp only [free_vertex, update_vertex, integrate_vertex, hf, Bool.false_eq_true, if_false]
  ext <;> simp [Vec3.sdiv, Vec3.sub, Vec3.add, Vec3.smul] <;> field_simp

theorem free_vertex_position (dt : ℚ) (v : Vertex) (hf : v.fixed = false) :
    (free_vertex dt v).position = Vec3.add v.position (Vec3.smul dt
      (Vec3.add v.velocity (Vec3.smul dt (Vec3.sdiv (Vec3.add v.force gravity) v.mass)))) := by
  simp only [free_vertex, update_vertex, integrate_vertex, hf, Bool.false_eq_true, if_false]

/-- Every record of a call of `step` holds, for every sweep, the calls in the order of the
constraint lists of its substep. -/
theorem records_ok_sweeps {dt : ℚ} {iterations J : Nat} :
    ∀ {records : List SubstepRecord} {old : List CollisionConstraint},
      RecordsOk dt iterations J old records →
      ∀ r ∈ records, ∃ ccs : List CollisionConstraint, ccs.length = r.Mc ∧
        r.sweeps = List.replicate iterations (expected_calls J ccs) := by
  intro records
  induction records with
  | nil => intro _ _ r hr; exact absurd hr (by simp)
  | cons r0 rs ih =>
    intro old h r hr
    rcases List.mem_cons.mp hr with rfl | hr
    · obtain ⟨_, _, h3, _, h5⟩ := h.1
      exact ⟨_, h3.symm, h5⟩
    · exact ih h.2 r hr

/-- The slots of the calls of one sweep are `0 .. J + Mc - 1`, in this order. -/
theorem expected_calls_slots (J : Nat) (ccs : List CollisionConstraint) :
    (expected_calls J ccs).map ProjectCall.slot = List.range (J + ccs.length) := by
  unfold expected_calls
  rw [List.map_append, List.map_map, List.map_map, List.range_add]
  congr 1
  · simp [Function.comp_def, ProjectCall.slot]
  · have h : (ProjectCall.slot ∘ fun p : Nat × CollisionConstraint =>
        ProjectCall.collision p.1 (J + p.1) p.2) = (fun x => J + x) ∘ Prod.fst := by
      funext p
      rfl
    rw [h, ← List.map_map, List.enum_map_fst]

/-! ## The loops of `timestep_t::step` -/

theorem particle_at_map (f : Particle → Particle) (particles : List (List Particle))
    (bi i : Nat) :
    particle_at (particles.map (List.map f)) bi i = (particle_at particles bi i).map f := by
  unfold particle_at
  rw [List.getElem?_map]
  cases particles[bi]? with
  | none => rfl
  | some body_particles => simp [List.getElem?_map]

theorem move_particle_at_rest (dt : ℚ) (q : Particle) (p : Vec3) (h0 : q.invmass = 0)
    (hx : q.x = p) (hn : q.xn = p) (hv : q.v = Vec3.zero) :
    (move_particle dt q).invmass = 0 ∧ (move_particle dt q).xi = p ∧
      (move_particle dt q).xn = p := by
  refine ⟨h0, ?_, hn⟩
  simp only [move_particle, Particle.a, h0, hv, hx]
  ext <;> simp [Vec3.add, Vec3.smul, Vec3.zero]

theorem set_solution_predicted (dt : ℚ) (q : Particle) (p : Vec3) (h0 : q.invmass = 0)
    (hxi : q.xi = p) (hn : q.xn = p) :
    (set_solution dt q).invmass = 0 ∧ (set_solution dt q).x = p ∧
      (set_solution dt q).xn = p ∧ (set_solution dt q).v = Vec3.zero := by
  refine ⟨h0, hxi, hxi, ?_⟩
  simp only [set_solution, hxi, hn]
  exact vec3_sub_self_sdiv p dt

theorem timestep_substep_at_rest (env : TimestepEnv) (dt : ℚ) (iterations : Nat)
    (hsolve : KeepsFixedParticles env.solve) (simulation : Simulation) (bi i : Nat) (p : Vec3)
    (h : AtRest simulation.particles bi i p) :
    AtRest (timestep_substep env dt iterations simulation).particles bi i p := by
  obtain ⟨q, hq, h0, hx, hn, hv⟩ := h
  obtain ⟨m0, mxi, mn⟩ := move_particle_at_rest dt q p h0 hx hn hv
  have hmoved : PredictedAt
      ({ simulation with
         particles := simulation.particles.map (List.map (move_particle dt)) } :
        Simulation).particles bi i p :=
    ⟨move_particle dt q, by simp only [particle_at_map, hq, Option.map_some'], m0, mxi, mn⟩
  obtain ⟨s, hs, s0, sxi, sn⟩ := hsolve _ dt iterations bi i p hmoved
  obtain ⟨r0, rx, rn, rv⟩ := set_solution_predicted dt s p s0 sxi sn
  refine ⟨set_solution dt s, ?_, r0, rx, rn, rv⟩
  simp only [timestep_substep, particle_at_map, hs, Option.map_some']

theorem timestep_substeps_at_rest (env : TimestepEnv) (dt : ℚ) (iterations : Nat)
    (hsolve : KeepsFixedParticles env.solve) (bi i : Nat) (p : Vec3) :
    ∀ (count : Nat) (simulation : Simulation), AtRest simulation.particles bi i p →
      AtRest (timestep_substeps env dt iterations count simulation).1.particles bi i p := by
  intro count
  induction count with
  | zero => intro simulation h; exact h
  | succ k ih =>
    intro simulation h
    rw [timestep_substeps]
    exact ih _ (timestep_substep_at_rest env dt iterations hsolve simulation bi i p h)

theorem detect_collisions_particles (env : TimestepEnv) (simulation : Simulation)
    (h1 : KeepsParticles env.on_cd_starting) (h2 : KeepsParticles env.execute)
    (h3 : KeepsParticles env.on_cd_ending) :
    (detect_collisions env simulation).1.particles = simulation.particles := by
  unfold detect_collisions
  split
  · simp only [h3 _, h2 _, h1 _]
  · rfl

theorem finish_step_particles (env : TimestepEnv) (simulation : Simulation)
    (h4 : KeepsParticles env.update_models) (h5 : KeepsParticles env.cd_update) :
    (finish_step env simulation).1.particles = simulation.particles := by
  unfold finish_step
  simp only
  split
  · simp only [h5 _, h4 _]
  · simp only [h4 _]

/-- The substep loop records one call of `solve` for every pass. -/
theorem timestep_substeps_log (env : TimestepEnv) (dt : ℚ) (iterations : Nat) :
    ∀ (count : Nat) (simulation : Simulation),
      (timestep_substeps env dt iterations count simulation).2
        = List.replicate count (TimestepCall.solve dt iterations) := by
  intro count
  induction count with
  | zero => intro simulation; rfl
  | succ k ih =>
    intro simulation
    rw [timestep_substeps, List.replicate_succ]
    simp only [ih]

/-- The state after `count + 1` passes is one pass applied to the state after `count`. -/
theorem timestep_substeps_succ (env : TimestepEnv) (dt : ℚ) (iterations : Nat) :
    ∀ (count : Nat) (simulation : Simulation),
      (timestep_substeps env dt iterations (count + 1) simulation).1
        = timestep_substep env dt iterations
            (timestep_substeps env dt iterations count simulation).1 := by
  intro count
  induction count with
  | zero => intro simulation; rfl
  | succ k ih =>
    intro simulation
    rw [timestep_substeps]
    simp only
    rw [ih]
    rfl

/-- With a solver, `timestep_t::step` returns; its record is the record of the detection,
one call of `solve` for every substep, and the record of the refresh. -/
theorem timestep_step_log (env : TimestepEnv) (t : Timestep) (simulation : Simulation)
    (hs : t.has_solver = true) :
    t.step env simulation
      = some ((finish_step env (timestep_state env t simulation t.substeps_)).1,
          (detect_collisions env simulation).2
            ++ List.replicate t.substeps_
                (TimestepCall.solve (t.dt_ / (t.substeps_ : ℚ)) t.iterations_)
            ++ (finish_step env (timestep_state env t simulation t.substeps_)).2) := by
  unfold Timestep.step
  simp only [hs, Bool.true_eq_false, and_false, if_false, timestep_substeps_log,
    timestep_state]

/-- The refresh at the end of `timestep_t::step` does not execute the detector. -/
theorem finish_step_no_execute (env : TimestepEnv) (simulation : Simulation) :
    TimestepCall.execute ∉ (finish_step env simulation).2 := by
  unfold finish_step
  simp only
  split <;> simp

/-! ## Algebra of `Mat3` -/

/-- The transpose of a product is the product of the transposes in reverse order. -/
theorem mat3_transpose_mul (A B : Mat3) :
    Mat3.transpose (Mat3.mul A B) = Mat3.mul (Mat3.transpose B) (Mat3.transpose A) := by
  ext <;> simp [Mat3.transpose, Mat3.mul] <;> ring

/-- The product of `Mat3` is associative. -/
theorem mat3_mul_assoc (A B C : Mat3) :
    Mat3.mul (Mat3.mul A B) C = Mat3.mul A (Mat3.mul B C) := by
  ext <;> simp [Mat3.mul] <;> ring

/-- The identity is a left unit of the product. -/
theorem mat3_identity_mul (A : Mat3) : Mat3.mul Mat3.identity A = A := by
  ext <;> simp [Mat3.mul, Mat3.identity]

/-- The identity is a right unit of the product. -/
theorem mat3_mul_identity (A : Mat3) : Mat3.mul A Mat3.identity = A := by
  ext <;> simp [Mat3.mul, Mat3.identity]

/-- The product `(Q F)^T (Q F)` is `F^T F` when `Q^T Q = I`. -/
theorem mat3_gram_rotation (Q F : Mat3)
    (hQ : Mat3.mul (Mat3.transpose Q) Q = Mat3.identity) :
    Mat3.mul (Mat3.transpose (Mat3.mul Q F)) (Mat3.mul Q F) =
      Mat3.mul (Mat3.transpose F) F := by
  rw [mat3_transpose_mul, mat3_mul_assoc, ← mat3_mul_assoc (Mat3.transpose Q), hQ,
    mat3_identity_mul]

/-! ## The energy along a line of deformation gradients -/

/-- A function that is `a + b t + t^2 (q2 + q3 t + q4 t^2)` has the derivative `b` at `0`. -/
theorem hasDerivAt_of_expansion (f : ℚ → ℚ) (a b q2 q3 q4 : ℚ)
    (h : ∀ t, f t = a + b * t + t ^ 2 * (q2 + q3 * t + q4 * t ^ 2)) :
    HasDerivAt f b 0 := by
  have hf : f = fun t : ℚ => a + b * t + t ^ 2 * (q2 + q3 * t + q4 * t ^ 2) := funext h
  rw [hf]
  have hid : HasDerivAt (fun t : ℚ => t) 1 0 := hasDerivAt_id 0
  have h1 : HasDerivAt (fun t : ℚ => a + b * t) (b * 1) 0 := (hid.const_mul b).const_add a
  have h2 : HasDerivAt (fun t : ℚ => t ^ 2) (((2 : ℕ) : ℚ) * 0 ^ (2 - 1) * 1) 0 := hid.pow 2
  have h3 : HasDerivAt (fun t : ℚ => q2 + q3 * t + q4 * t ^ 2)
      (q3 * 1 + q4 * (((2 : ℕ) : ℚ) * 0 ^ (2 - 1) * 1)) 0 :=
    ((hid.const_mul q3).const_add q2).add (h2.const_mul q4)
  have h4 := h1.add (h2.mul h3)
  simpa using h4

/-- The St. Venant-Kirchhoff energy along the line `F + t H` is a polynomial of degree four
in `t`, whose linear coefficient is the inner product of the stress at `F` with `H`. -/
theorem stvk_energy_expansion (mu lambda : ℚ) (F H : Mat3) (t : ℚ) :
    stvk_strain_energy_density_op_t.energy ⟨mu, lambda⟩ (green_strain_op_t (Mat3.line F H t))
      = stvk_strain_energy_density_op_t.energy ⟨mu, lambda⟩ (green_strain_op_t F)
        + Mat3.inner
            (stvk_strain_energy_density_op_t.stress ⟨mu, lambda⟩ F (green_strain_op_t F)) H * t
        + t ^ 2 *
          (stvk_strain_energy_density_op_t.energy ⟨mu, lambda⟩
              (Mat3.smul (1 / 2)
                (Mat3.add (Mat3.mul (Mat3.transpose F) H) (Mat3.mul (Mat3.transpose H) F)))
            + 2 * mu * Mat3.inner (green_strain_op_t F)
                (Mat3.smul (1 / 2) (Mat3.mul (Mat3.transpose H) H))
            + lambda * Mat3.trace (green_strain_op_t F)
                * Mat3.trace (Mat3.smul (1 / 2) (Mat3.mul (Mat3.transpose H) H))
            + (2 * mu * Mat3.inner
                  (Mat3.smul (1 / 2)
                    (Mat3.add (Mat3.mul (Mat3.transpose F) H) (Mat3.mul (Mat3.transpose H) F)))
                  (Mat3.smul (1 / 2) (Mat3.mul (Mat3.transpose H) H))
                + lambda * Mat3.trace
                    (Mat3.smul (1 / 2)
                      (Mat3.add (Mat3.mul (Mat3.transpose F) H)
                        (Mat3.mul (Mat3.transpose H) F)))
                  * Mat3.trace (Mat3.smul (1 / 2) (Mat3.mul (Mat3.transpose H) H))) * t
            + stvk_strain_energy_density_op_t.energy ⟨mu, lambda⟩
                (Mat3.smul (1 / 2) (Mat3.mul (Mat3.transpose H) H)) * t ^ 2) := by
  simp only [stvk_strain_energy_density_op_t.energy, stvk_strain_energy_density_op_t.stress,
    green_strain_op_t, Mat3.line, Mat3.inner, Mat3.trace, Mat3.contraction, Mat3.smul,
    Mat3.add, Mat3.sub, Mat3.mul, Mat3.transpose, Mat3.identity]
  ring

/-! ## Square matrices: a left inverse is a right inverse -/

theorem mat3_toMatrix_mul (A B : Mat3) :
    (Mat3.mul A B).toMatrix = A.toMatrix * B.toMatrix := by
  ext i j
  fin_cases i <;> fin_cases j <;>
    simp [Mat3.toMatrix, Mat3.mul, Matrix.mul_apply, Fin.sum_univ_three]

theorem mat3_toMatrix_identity : Mat3.identity.toMatrix = 1 := by
  ext i j
  fin_cases i <;> fin_cases j <;> rfl

theorem mat3_toMatrix_injective (A B : Mat3) (h : A.toMatrix = B.toMatrix) : A = B := by
  have e := fun i j => congrFun (congrFun h i) j
  ext
  · simpa [Mat3.toMatrix] using e 0 0
  · simpa [Mat3.toMatrix] using e 0 1
  · simpa [Mat3.toMatrix] using e 0 2
  · simpa [Mat3.toMatrix] using e 1 0
  · simpa [Mat3.toMatrix] using e 1 1
  · simpa [Mat3.toMatrix] using e 1 2
  · simpa [Mat3.toMatrix] using e 2 0
  · simpa [Mat3.toMatrix] using e 2 1
  · simpa [Mat3.toMatrix] using e 2 2

/-- For three by three matrices `A B = I` gives `B A = I`. -/
theorem mat3_mul_eq_identity_comm (A B : Mat3) (h : Mat3.mul A B = Mat3.identity) :
    Mat3.mul B A = Mat3.identity := by
  apply mat3_toMatrix_injective
  rw [mat3_toMatrix_mul, mat3_toMatrix_identity]
  have h1 : A.toMatrix * B.toMatrix = 1 := by
    rw [← mat3_toMatrix_mul, h, mat3_toMatrix_identity]
  exact Matrix.mul_eq_one_comm.mp h1

theorem mat3_transpose_transpose (A : Mat3) : Mat3.transpose (Mat3.transpose A) = A := rfl

theorem mat3_transpose_asDiagonal (sigma : Vec3) :
    Mat3.transpose (Mat3.asDiagonal sigma) = Mat3.asDiagonal sigma := rfl

/-! ## `step` on a solver without bodies and constraints -/

/-- Sweeps over no constraints leave the bodies and the multipliers as they are and make no
call of `project`. -/
theorem sweeps_nothing (env : Env) (dt : ℚ) :
    ∀ (count : Nat) (bodies : List Body) (lagrange : List ℚ),
      sweeps env dt [] [] count bodies lagrange
        = (bodies, lagrange, List.replicate count []) := by
  intro count
  induction count with
  | zero => intro bodies lagrange; rfl
  | succ k ih =>
    intro bodies lagrange
    rw [sweeps]
    simp only [sweep, project_constraints, project_collision_constraints, ih,
      List.replicate_succ]

/-- One pass through the substep loop of a solver as the constructor left it: nothing is
thrown, the solver is unchanged and the sweeps make no call of `project`. -/
theorem substep_before_setup (env : Env) (dt : ℚ) (iterations : Nat) (timestep : ℚ)
    (substeps iterations0 : Nat) (collision_alpha : ℚ) :
    substep env dt iterations (Solver.mk3 timestep substeps iterations0 collision_alpha)
      = some (Solver.mk3 timestep substeps iterations0 collision_alpha,
          { dt := dt, J := 0, Mc := 0, generated := [], lagrange_before_sweeps := [],
            sweeps := List.replicate iterations [] }) := by
  simp only [substep, Solver.mk3, hold_previous_positions, List.length_nil, le_refl, if_true,
    List.map_nil, List.drop_nil, List.append_nil, integrate, handle_collisions, handle_bodies,
    resize, fill_zero, sweeps_nothing, update_bodies, List.take_nil, List.replicate_zero,
    Nat.add_zero, Nat.sub_zero, ite_true]

/-- The substep loop of a solver as the constructor left it. -/
theorem substeps_before_setup (env : Env) (dt : ℚ) (iterations : Nat) (timestep : ℚ)
    (substeps0 iterations0 : Nat) (collision_alpha : ℚ) (count : Nat) :
    substeps env dt iterations count
        (Solver.mk3 timestep substeps0 iterations0 collision_alpha)
      = some (Solver.mk3 timestep substeps0 iterations0 collision_alpha,
          List.replicate count
            { dt := dt, J := 0, Mc := 0, generated := [], lagrange_before_sweeps := [],
              sweeps := List.replicate iterations [] }) := by
  induction count with
  | zero => rfl
  | succ k ih =>
    rw [substeps, substep_before_setup]
    simp only [ih, List.replicate_succ]

/-! ## Fixed particles under the update loops of `project_positions` -/

theorem fixed_kept_refl (particles : List Particle) : FixedKept particles particles :=
  ⟨rfl, fun _ _ h _ => h⟩

theorem fixed_kept_trans {a b c : List Particle} (h1 : FixedKept a b) (h2 : FixedKept b c) :
    FixedKept a c :=
  ⟨h2.1.trans h1.1, fun k p hk h0 => h2.2 k p (h1.2 k p hk h0) h0⟩

/-- A particle of inverse mass `0` is not changed by the update. -/
theorem push_particle_fixed (delta_lagrange : ℚ) (grad : Vec3) (p : Particle)
    (h0 : p.invmass = 0) : push_particle delta_lagrange grad p = p := by
  cases p with
  | mk x xi xn v f invmass =>
    simp only at h0
    subst h0
    simp [push_particle, Vec3.add, Vec3.smul]

/-- Writing the updated particle over the particle at `index` keeps the fixed particles. -/
theorem fixed_kept_set (particles : List Particle) (index : Nat) (p : Particle)
    (delta_lagrange : ℚ) (grad : Vec3) (h : particles[index]? = some p) :
    FixedKept particles (particles.set index (push_particle delta_lagrange grad p)) := by
  refine ⟨List.length_set _ _ _, ?_⟩
  intro k q hk h0
  rw [List.getElem?_set]
  by_cases hik : index = k
  · subst hik
    rw [h] at hk
    cases hk
    have hlt : index < particles.length := (List.getElem?_eq_some.mp h).1
    rw [if_pos rfl, if_pos hlt, push_particle_fixed _ _ _ h0]
  · rw [if_neg hik]
    exact hk

/-- The fixed particles of the body that a projection rewrites are the fixed particles of
the simulation. -/
theorem particle_at_set_fixed (particles : List (List Particle)) (b : Nat)
    (ps ps1 : List Particle) (hb : particles[b]? = some ps) (hk : FixedKept ps ps1)
    (bi i : Nat) (p : Particle) (hp : particle_at particles bi i = some p)
    (h0 : p.invmass = 0) : particle_at (particles.set b ps1) bi i = some p := by
  unfold particle_at at hp ⊢
  rw [List.getElem?_set]
  by_cases hbi : b = bi
  · subst hbi
    have hlt : b < particles.length := (List.getElem?_eq_some.mp hb).1
    rw [if_pos rfl, if_pos hlt]
    rw [hb] at hp
    exact hk.2 i p hp h0
  · rw [if_neg hbi]
    exact hp

/-- The second loop of the collision constraint keeps the fixed particles. -/
theorem collision_update_fixed (c : MeshlessSphCollisionConstraint) (gradC : List Vec3)
    (delta_lagrange : ℚ) :
    ∀ (ns : List Nat) (a : Nat) (acc r : List Particle × Vec3),
      collision_update c gradC delta_lagrange ns a acc = some r → FixedKept acc.1 r.1 := by
  intro ns
  induction ns with
  | nil =>
    intro a acc r h
    simp only [collision_update, Option.some.injEq] at h
    subst h
    exact fixed_kept_refl _
  | cons j rest ih =>
    intro a acc r h
    unfold collision_update at h
    split at h
    · rename_i p grad Vj Xkj Wkj Fj hp _ _ _ _ _
      exact fixed_kept_trans (fixed_kept_set acc.1 j p delta_lagrange grad hp) (ih _ _ _ h)
    · cases h

/-- The loop over the meshless particles of the hybrid constraint keeps the fixed
particles. -/
theorem update_meshless_fixed (c : HybridConstraint) (gradC : List Vec3) (delta_lagrange : ℚ) :
    ∀ (ns : List Nat) (a : Nat) (particles particles1 : List Particle),
      update_meshless_particles c gradC delta_lagrange ns a particles = some particles1 →
        FixedKept particles particles1 := by
  intro ns
  induction ns with
  | nil =>
    intro a particles particles1 h
    simp only [update_meshless_particles, Option.some.injEq] at h
    subst h
    exact fixed_kept_refl _
  | cons j rest ih =>
    intro a particles particles1 h
    unfold update_meshless_particles at h
    simp only at h
    split at h
    · rename_i pj g hp _
      exact fixed_kept_trans (fixed_kept_set particles _ pj delta_lagrange g hp) (ih _ _ _ h)
    · cases h

/-- The loop over the mesh particles of the hybrid constraint keeps the fixed particles. -/
theorem update_mesh_fixed (c : HybridConstraint) (delta_lagrange : ℚ) :
    ∀ (gs : List (Option Vec3)) (i : Nat) (particles particles1 : List Particle),
      update_mesh_particles c delta_lagrange gs i particles = some particles1 →
        FixedKept particles particles1 := by
  intro gs
  induction gs with
  | nil =>
    intro i particles particles1 h
    simp only [update_mesh_particles, Option.some.injEq] at h
    subst h
    exact fixed_kept_refl _
  | cons g rest ih =>
    intro i particles particles1 h
    cases g with
    | none =>
      rw [update_mesh_particles] at h
      exact ih _ _ _ h
    | some g =>
      rw [update_mesh_particles] at h
      split at h
      · cases h
      · split at h
        · cases h
        · simp only at h
          split at h
          · cases h
          · rename_i pi hp
            exact fixed_kept_trans (fixed_kept_set particles _ pi delta_lagrange g hp)
              (ih _ _ _ h)

/-- With non-negative compliance and damping and a positive time step the divisor of the
hybrid constraint is positive once the weighted gradient sum reaches `epsilon`. -/
theorem hybrid_divisor_pos (alpha beta dt S : ℚ) (ha : 0 ≤ alpha) (hb : 0 ≤ beta)
    (hdt : 0 < dt) (hS : epsilon ≤ S) :
    0 < (1 + gamma alpha beta dt) * S + alpha_tilde alpha dt := by
  have he : (0 : ℚ) < epsilon := by norm_num [epsilon]
  have hS0 : 0 < S := lt_of_lt_of_le he hS
  have hat : 0 ≤ alpha_tilde alpha dt := div_nonneg ha (mul_nonneg hdt.le hdt.le)
  have hbt : 0 ≤ beta_tilde beta dt := mul_nonneg hb (mul_nonneg hdt.le hdt.le)
  have hg : 0 ≤ gamma alpha beta dt := div_nonneg (mul_nonneg hat hbt) hdt.le
  have h1 : 0 < (1 + gamma alpha beta dt) * S := mul_pos (by linarith) hS0
  linarith

/-- With non-negative compliance the divisor of the collision constraint is positive once
the weighted gradient sum is positive. -/
theorem collision_divisor_pos (alpha dt S : ℚ) (ha : 0 ≤ alpha) (hS : 0 < S) :
    0 < S + alpha_tilde alpha dt := by
  have hat : 0 ≤ alpha_tilde alpha dt := div_nonneg ha (mul_self_nonneg dt)
  linarith

/-! ## The update loops of the hybrid `project_positions` return -/

/-- The loop over the meshless particles returns when the loop that summed over the same
particles returned: it reads the same indices. -/
theorem update_meshless_returns (c c2 : HybridConstraint)
    (hb : c2.node_.body = c.node_.body) (gradC : List Vec3) (delta_lagrange : ℚ)
    (particles0 : List Particle) :
    ∀ (ns : List Nat) (a : Nat) (acc r : ℚ × ℚ) (particles : List Particle),
      meshless_sums c particles0 gradC ns a acc = some r →
      particles.length = particles0.length →
      ∃ particles1, update_meshless_particles c2 gradC delta_lagrange ns a particles
          = some particles1 ∧ particles1.length = particles.length := by
  intro ns
  induction ns with
  | nil =>
    intro a acc r particles _ _
    exact ⟨particles, rfl, rfl⟩
  | cons j rest ih =>
    intro a acc r particles h hlen
    unfold meshless_sums at h
    split at h
    · rename_i pj g hpj hga
      have hlt : c.node_.body.meshless_particles_index_offset + j < particles.length := by
        rw [hlen]
        exact (List.getElem?_eq_some.mp hpj).1
      obtain ⟨particles1, h1, hl1⟩ := ih (a + 1) _ r
        (particles.set (c.node_.body.meshless_particles_index_offset + j)
          (push_particle delta_lagrange g
            particles[c.node_.body.meshless_particles_index_offset + j]))
        h (by rw [List.length_set]; exact hlen)
      refine ⟨particles1, ?_, by rw [hl1, List.length_set]⟩
      unfold update_meshless_particles
      simp only [hb, List.getElem?_eq_getElem hlt, hga]
      exact h1
    · cases h

/-- The loop over the mesh particles returns when the loop that summed over the mesh
vertices returned and every index `mesh_particle_offset + vi` that it writes exists. -/
theorem update_mesh_returns (c c2 : HybridConstraint)
    (hb : c2.node_.body = c.node_.body) (hti : c2.node_.ti = c.node_.ti)
    (delta_lagrange : ℚ) (particles0 : List Particle) (n : Nat) :
    ∀ (gs : List (Option Vec3)) (i : Nat) (acc r : ℚ × ℚ) (particles : List Particle),
      mesh_sums c particles0 gs i acc = some r →
      (∀ j grad t vi, gs[j]? = some (some grad) →
        c.node_.body.tetrahedra[c.node_.ti]? = some t → t.indices[i + j]? = some vi →
        c.node_.body.mesh_particles_index_offset + vi < n) →
      particles.length = n →
      ∃ particles1, update_mesh_particles c2 delta_lagrange gs i particles = some particles1 ∧
        particles1.length = n := by
  intro gs
  induction gs with
  | nil =>
    intro i acc r particles _ _ hlen
    exact ⟨particles, rfl, hlen⟩
  | cons g rest ih =>
    intro i acc r particles h hmesh hlen
    have hrest : ∀ j grad t vi, rest[j]? = some (some grad) →
        c.node_.body.tetrahedra[c.node_.ti]? = some t → t.indices[i + 1 + j]? = some vi →
        c.node_.body.mesh_particles_index_offset + vi < n := by
      intro j grad t vi hj ht hvi
      refine hmesh (j + 1) grad t vi (by rw [List.getElem?_cons_succ]; exact hj) ht ?_
      rw [← hvi]
      congr 1
      omega
    cases g with
    | none =>
      rw [mesh_sums] at h
      rw [update_mesh_particles]
      exact ih (i + 1) acc r particles h hrest hlen
    | some grad =>
      rw [mesh_sums] at h
      split at h
      · cases h
      · rename_i t ht
        split at h
        · cases h
        · rename_i vi hvi
          split at h
          · cases h
          · have hlt : c.node_.body.mesh_particles_index_offset + vi < particles.length := by
              rw [hlen]
              exact hmesh 0 grad t vi (List.getElem?_cons_zero) ht hvi
            obtain ⟨particles1, h1, hl1⟩ := ih (i + 1) _ r
              (particles.set (c.node_.body.mesh_particles_index_offset + vi)
                (push_particle delta_lagrange grad
                  particles[c.node_.body.mesh_particles_index_offset + vi]))
              h hrest (by rw [List.length_set]; exact hlen)
            refine ⟨particles1, ?_, hl1⟩
            rw [update_mesh_particles]
            simp only [hb, hti, ht, hvi, List.getElem?_eq_getElem hlt]
            exact h1

/-- What a successful run of lines 36-71 of `project_positions` has computed: the
deformation gradient of the current predicted positions, the constraint value
`Vi * Psi(E(Fi))`, and the two sums, first over the neighbours and then over the mesh
vertices. -/
theorem gradient_sums_spec (c : HybridConstraint) (particles : List Particle)
    (g : GradientSums) (hg : c.gradient_sums particles = some g) :
    c.deformation_gradient particles = some g.Fi ∧
    g.C = c.C (c.strain_energy_and_stress g.Fi (HybridConstraint.green_strain g.Fi)).1 ∧
    ∃ s1, meshless_sums c particles g.gradC c.node_.neighbours 0 (0, 0) = some s1 ∧
      mesh_sums c particles g.gradC_wrt_mesh_indices 0 s1
        = some (g.weighted_sum_of_gradients, g.gradC_dot_displacement) := by
  unfold HybridConstraint.gradient_sums at hg
  split at hg
  · cases hg
  · rename_i Fi hF
    simp only at hg
    split at hg
    · cases hg
    · split at hg
      · cases hg
      · rename_i s1 hs1
        split at hg
        · cases hg
        · split at hg
          · cases hg
          · rename_i s2 hs2
            simp only [Option.some.injEq] at hg
            subst hg
            exact ⟨hF, rfl, s1, hs1, hs2⟩

/-! ## The two loops of the collision constraint -/

/-- The first loop only appends to the gradients pushed so far. -/
theorem collision_gradients_prefix (c : MeshlessSphCollisionConstraint)
    (particles : List Particle) :
    ∀ (ns : List Nat) (a : Nat) (acc r : List Vec3 × ℚ),
      collision_gradients c particles ns a acc = some r → ∃ tail, r.1 = acc.1 ++ tail := by
  intro ns
  induction ns with
  | nil =>
    intro a acc r h
    simp only [collision_gradients, Option.some.injEq] at h
    subst h
    exact ⟨[], (List.append_nil _).symm⟩
  | cons j rest ih =>
    intro a acc r h
    unfold collision_gradients at h
    split at h
    · obtain ⟨tail, ht⟩ := ih _ _ _ h
      simp only at ht
      exact ⟨[_] ++ tail, by rw [ht, List.append_assoc]⟩
    · cases h

/-- The second loop against the first loop and the interpolation, for a neighbour list
without duplicates: the loop returns, leaves the other particles alone, moves the particle
of every neighbour by `delta_lagrange * invmass * grad`, and the component along `n` of the
accumulated vertex position exceeds that of the interpolation by
`delta_lagrange * weighted_sum_of_gradients`. -/
theorem collision_update_spec (c : MeshlessSphCollisionConstraint)
    (particles : List Particle) (G : List Vec3) (S : ℚ) (u : Vec3) (delta_lagrange : ℚ) :
    ∀ (ns : List Nat) (a : Nat) (pushed : List Vec3) (S0 : ℚ) (ps : List Particle)
      (v0 u0 : Vec3),
      pushed.length = a → ns.Nodup →
      (∀ j ∈ ns, ps[j]? = particles[j]?) →
      collision_gradients c particles ns a (pushed, S0) = some (G, S) →
      interpolation c particles ns a u0 = some u →
      ∃ ps1 v1, collision_update c G delta_lagrange ns a (ps, v0) = some (ps1, v1) ∧
        (∀ k : Nat, k ∉ ns → ps1[k]? = ps[k]?) ∧
        (∀ (i j : Nat) (Vj Wkj : ℚ) (p : Particle), ns[i]? = some j →
          c.vk_.Vjs[a + i]? = some Vj → c.vk_.Wkjs[a + i]? = some Wkj →
          particles[j]? = some p →
          ps1[j]? = some
            (push_particle delta_lagrange (Vec3.smul (c.vk_.sk * Vj * Wkj) c.n_) p)) ∧
        Vec3.dot v1 c.n_ - Vec3.dot v0 c.n_
          = Vec3.dot u c.n_ - Vec3.dot u0 c.n_ + delta_lagrange * (S - S0) := by
  intro ns
  induction ns with
  | nil =>
    intro a pushed S0 ps v0 u0 _ _ _ hg hu
    simp only [collision_gradients, Option.some.injEq, Prod.mk.injEq] at hg
    simp only [interpolation, Option.some.injEq] at hu
    refine ⟨ps, v0, rfl, fun _ _ => rfl, ?_, ?_⟩
    · intro i j Vj Wkj p hi
      simp at hi
    · rw [← hg.2, ← hu]
      ring
  | cons j rest ih =>
    intro a pushed S0 ps v0 u0 hlen hnd hps hg hu
    obtain ⟨hj, hnd1⟩ := List.nodup_cons.mp hnd
    unfold interpolation at hu
    split at hu
    · rename_i p Vj Xkj Wkj Fj hp hVj hXkj hWkj hFj
      unfold collision_gradients at hg
      simp only [hVj, hWkj, hp] at hg
      obtain ⟨tail, htail⟩ := collision_gradients_prefix c particles _ _ _ _ hg
      have hGa : G[a]? = some (Vec3.smul (c.vk_.sk * Vj * Wkj) c.n_) := by
        simp only at htail
        rw [htail, List.append_assoc, List.getElem?_append_right (by omega), hlen]
        simp
      have hpj : ps[j]? = some p := by
        rw [hps j (List.mem_cons_self _ _)]
        exact hp
      have hlt : j < ps.length := (List.getElem?_eq_some.mp hpj).1
      obtain ⟨ps1, v1, h1, hother, hmoved, hdot⟩ := ih (a + 1) _ _
        (ps.set j (push_particle delta_lagrange (Vec3.smul (c.vk_.sk * Vj * Wkj) c.n_) p))
        (Vec3.add v0 (Vec3.smul Wkj (Vec3.smul (c.vk_.sk * Vj) (Vec3.add (Mat3.mulVec Fj Xkj)
          (push_particle delta_lagrange (Vec3.smul (c.vk_.sk * Vj * Wkj) c.n_) p).xi)))) _
        (by simp [hlen]) hnd1
        (fun k hk => by
          rw [List.getElem?_set_ne (fun (h : j = k) => hj (by rw [h]; exact hk))]
          exact hps k (List.mem_cons_of_mem _ hk))
        hg hu
      refine ⟨ps1, v1, ?_, ?_, ?_, ?_⟩
      · unfold collision_update
        simp only [hpj, hGa, hVj, hXkj, hWkj, hFj]
        exact h1
      · intro k hk
        rw [List.mem_cons, not_or] at hk
        rw [hother k hk.2, List.getElem?_set_ne (fun h => hk.1 h.symm)]
      · intro i j1 Vj1 Wkj1 p1 hi hV hW hp1
        cases i with
        | zero =>
          simp only [List.getElem?_cons_zero, Option.some.injEq] at hi
          subst hi
          rw [Nat.add_zero, hVj] at hV
          rw [Nat.add_zero, hWkj] at hW
          rw [hp] at hp1
          cases hV
          cases hW
          cases hp1
          rw [hother j hj, List.getElem?_set_self hlt]
        | succ i1 =>
          rw [List.getElem?_cons_succ] at hi
          exact hmoved i1 j1 Vj1 Wkj1 p1 hi (by rw [← hV]; congr 1; omega)
            (by rw [← hW]; congr 1; omega) hp1
      · have hstep :
            Vec3.dot (Vec3.add v0 (Vec3.smul Wkj (Vec3.smul (c.vk_.sk * Vj)
                (Vec3.add (Mat3.mulVec Fj Xkj)
                  (push_particle delta_lagrange
                    (Vec3.smul (c.vk_.sk * Vj * Wkj) c.n_) p).xi)))) c.n_
              - Vec3.dot v0 c.n_
              - (Vec3.dot (Vec3.add u0 (Vec3.smul Wkj (Vec3.smul (c.vk_.sk * Vj)
                  (Vec3.add (Mat3.mulVec Fj Xkj) p.xi)))) c.n_ - Vec3.dot u0 c.n_)
            = delta_lagrange * (S0 + p.invmass
                * Vec3.squaredNorm (Vec3.smul (c.vk_.sk * Vj * Wkj) c.n_) - S0) := by
          simp only [Vec3.dot, Vec3.add, Vec3.smul, Vec3.squaredNorm, push_particle]
          ring
        linarith
    · cases hu

/-! ## The example data -/

theorem lift_project_keeps_shape (shift : Vec3) : KeepsShape (lift_project shift) := by
  intro bodies lagrange dt
  unfold SameShape lift_project
  rw [List.map_map]
  apply List.map_congr_left
  intro body _
  simp [Body.shape]

theorem example_env_detector : DetectorOk example_env := by
  intro envs body pair hp
  simp only [example_env, List.mem_flatMap, List.mem_range, List.mem_map] at hp
  obtain ⟨ti, hti, _, _, rfl⟩ := hp
  exact hti

theorem example_solver_ready : Ready example_env example_solver := by
  refine ⟨by decide, by decide, example_env_detector, ?_, ?_⟩
  · intro c hc
    simp only [example_solver, Solver.mk4, Solver.setup, Solver.mk3, Solver.reset, example_scene,
      sort_bodies, create_constraints, example_body, create_distance_constraints_for_body,
      example_env] at hc
    simp at hc
    subst hc
    exact lift_project_keeps_shape _
  · intro c
    exact lift_project_keeps_shape _

theorem fallback_solver_ready : Ready example_env fallback_solver :=
  ⟨example_solver_ready.x0_size, example_solver_ready.shapes, example_env_detector,
    example_solver_ready.persistent, example_solver_ready.collision⟩

theorem stale_solver_ready : Ready example_env stale_solver :=
  ⟨example_solver_ready.x0_size, example_solver_ready.shapes, example_env_detector,
    example_solver_ready.persistent, example_solver_ready.collision⟩

theorem lift_project_keeps_fixed (shift : Vec3) : KeepsFixed (lift_project shift) := by
  intro bodies lagrange dt b vi p h
  obtain ⟨v, hv, hf, hp⟩ := h
  obtain ⟨body, hb, hvi⟩ := vertex_at_eq_some.mp hv
  refine ⟨v, vertex_at_eq_some.mpr ⟨{ body with
      vertices := body.vertices.map (fun v =>
        if v.fixed then v else { v with position := Vec3.add v.position shift }) }, ?_, ?_⟩,
    hf, hp⟩
  · simp only [lift_project]
    rw [List.getElem?_map, hb]
    rfl
  · simp only [List.getElem?_map, hvi, Option.map_some', Option.some.injEq]
    rw [if_pos hf]

theorem example_solver_keeps_fixed :
    (∀ c ∈ example_solver.constraints_, KeepsFixed c.project) ∧
    (∀ c, KeepsFixed (example_env.collision_project c)) := by
  refine ⟨?_, fun c => lift_project_keeps_fixed _⟩
  intro c hc
  simp only [example_solver, Solver.mk4, Solver.setup, Solver.mk3, Solver.reset, example_scene,
    sort_bodies, create_constraints, example_body, create_distance_constraints_for_body,
    example_env] at hc
  simp at hc
  subst hc
  exact lift_project_keeps_fixed _

theorem example_solve_keeps_fixed : KeepsFixedParticles example_solve := by
  intro simulation dt iterations bi i p h
  obtain ⟨q, hq, h0, hxi, hn⟩ := h
  refine ⟨q, ?_, h0, hxi, hn⟩
  simp only [example_solve, particle_at_map, hq, Option.map_some', Option.some.injEq]
  rw [if_pos h0]

theorem example_solver_reachable : Reachable example_env example_solver :=
  Reachable.setup _ _ (Reachable.mk3 _ _ _ _)

theorem example_solver_shapes :
    ∀ body ∈ example_solver.physics_bodies_, shape_ok body.shape := by decide

theorem example_solver_pairs :
    ∀ body ∈ example_solver.physics_bodies_,
      ∀ pair ∈ example_env.intersect example_solver.environment_bodies_ body,
        pair.1 < body.tetrahedra.length :=
  fun body _ pair hp => example_env_detector _ body pair hp

theorem pinned_sums_eq :
    example_hybrid.gradient_sums
      [⟨⟨0, 0, 0⟩, ⟨0, 0, 0⟩, ⟨0, 0, 0⟩, ⟨0, 0, 0⟩, ⟨0, 0, 0⟩, 0⟩,
       ⟨⟨1, 0, 0⟩, ⟨1, 0, 0⟩, ⟨1, 0, 0⟩, ⟨0, 0, 0⟩, ⟨0, 0, 0⟩, 0⟩] = some pinned_sums := by
  simp only [HybridConstraint.gradient_sums, HybridConstraint.deformation_gradient,
    deformation_gradient_loop, example_hybrid, HybridConstraint.mk8, example_node,
    HybridConstraint.green_strain, HybridConstraint.strain_energy_and_stress,
    HybridConstraint.dCdxk, dCdxk_loop, HybridConstraint.dCdvi, meshless_sums, mesh_sums,
    modify_at, pinned_sums]
  norm_num [Vec3.squaredNorm, Vec3.dot, Vec3.smul, Vec3.sub, Vec3.add, Vec3.zero,
    Mat3.mulVec, Mat3.identity, Mat3.zero, Mat3.outer, Mat3.add, Mat3.sub, Mat3.smul,
    Mat3.mul, Mat3.transpose, Mat3.trace, Mat3.contraction, List.indexOf, List.findIdx,
    List.findIdx.go, mesh_sums, meshless_sums, List.replicate_succ]

theorem sunk_sums_eq :
    example_hybrid.gradient_sums
      [⟨⟨0, -1, 0⟩, ⟨0, -1, 0⟩, ⟨0, -1, 0⟩, ⟨0, 0, 0⟩, ⟨0, 0, 0⟩, 0⟩,
       ⟨⟨1, -1, 0⟩, ⟨1, -1, 0⟩, ⟨1, -1, 0⟩, ⟨0, 0, 0⟩, ⟨0, 0, 0⟩, 1⟩]
      = some { pinned_sums with weighted_sum_of_gradients := 56250000 / 169 } := by
  simp only [HybridConstraint.gradient_sums, HybridConstraint.deformation_gradient,
    deformation_gradient_loop, example_hybrid, HybridConstraint.mk8, example_node,
    HybridConstraint.green_strain, HybridConstraint.strain_energy_and_stress,
    HybridConstraint.dCdxk, dCdxk_loop, HybridConstraint.dCdvi, meshless_sums, mesh_sums,
    modify_at, pinned_sums]
  norm_num [Vec3.squaredNorm, Vec3.dot, Vec3.smul, Vec3.sub, Vec3.add, Vec3.zero,
    Mat3.mulVec, Mat3.identity, Mat3.zero, Mat3.outer, Mat3.add, Mat3.sub, Mat3.smul,
    Mat3.mul, Mat3.transpose, Mat3.trace, Mat3.contraction, List.indexOf, List.findIdx,
    List.findIdx.go, mesh_sums, meshless_sums, List.replicate_succ]

theorem example_hybrid_on_sunk :
    example_hybrid.project_positions sunk_simulation 1
      = some (sunk_hybrid_after, sunk_simulation_after_hybrid) := by
  have hp : sunk_simulation.particles[example_hybrid.bi_]? = some
      [⟨⟨0, -1, 0⟩, ⟨0, -1, 0⟩, ⟨0, -1, 0⟩, ⟨0, 0, 0⟩, ⟨0, 0, 0⟩, 0⟩,
       ⟨⟨1, -1, 0⟩, ⟨1, -1, 0⟩, ⟨1, -1, 0⟩, ⟨0, 0, 0⟩, ⟨0, 0, 0⟩, 1⟩] := rfl
  unfold HybridConstraint.project_positions
  rw [hp]
  simp only [sunk_sums_eq]
  rw [if_neg (by norm_num [pinned_sums, epsilon])]
  simp only [update_meshless_particles, update_mesh_particles, example_hybrid,
    HybridConstraint.mk8, example_node, pinned_sums, sunk_hybrid_after,
    sunk_simulation_after_hybrid, sunk_simulation]
  norm_num [Vec3.smul, Vec3.add, update_meshless_particles, update_mesh_particles]

theorem sunk_collision_on_sunk :
    sunk_collision.project_positions sunk_simulation 1
      = some ({ sunk_collision with vi_ := ⟨0, -1 / 251, 0⟩ },
          sunk_simulation_after_collision) := by
  simp only [MeshlessSphCollisionConstraint.project_positions, sunk_collision,
    sunk_simulation, sunk_simulation_after_collision, collision_gradients, collision_update]
  norm_num [Vec3.squaredNorm, Vec3.dot, Vec3.smul, Vec3.sub, Vec3.add, Vec3.zero,
    Mat3.mulVec, Mat3.identity, collision_gradients, collision_update]

theorem moving_sums_eq :
    example_hybrid.gradient_sums
      [⟨⟨0, -1, 0⟩, ⟨0, -1, 0⟩, ⟨0, -1, 0⟩, ⟨0, 0, 0⟩, ⟨0, 0, 0⟩, 0⟩,
       ⟨⟨1, -1, 0⟩, ⟨1, -1, 0⟩, ⟨1 / 2, -1, 0⟩, ⟨0, 0, 0⟩, ⟨0, 0, 0⟩, 1⟩]
      = some moving_sums := by
  simp only [HybridConstraint.gradient_sums, HybridConstraint.deformation_gradient,
    deformation_gradient_loop, example_hybrid, HybridConstraint.mk8, example_node,
    HybridConstraint.green_strain, HybridConstraint.strain_energy_and_stress,
    HybridConstraint.dCdxk, dCdxk_loop, HybridConstraint.dCdvi, meshless_sums, mesh_sums,
    modify_at, pinned_sums, moving_sums]
  norm_num [Vec3.squaredNorm, Vec3.dot, Vec3.smul, Vec3.sub, Vec3.add, Vec3.zero,
    Mat3.mulVec, Mat3.identity, Mat3.zero, Mat3.outer, Mat3.add, Mat3.sub, Mat3.smul,
    Mat3.mul, Mat3.transpose, Mat3.trace, Mat3.contraction, List.indexOf, List.findIdx,
    List.findIdx.go, mesh_sums, meshless_sums, List.replicate_succ]

theorem example_solve_keeps_confirmed : KeepsConfirmed example_solve := by
  intro simulation dt iterations bi i q1 h
  simp only [example_solve, particle_at_map] at h
  cases hq : particle_at simulation.particles bi i with
  | none => rw [hq] at h; cases h
  | some q =>
    rw [hq] at h
    simp only [Option.map_some', Option.some.injEq] at h
    refine ⟨q, rfl, ?_⟩
    rw [← h]
    split <;> rfl

/-- The locals of `project_positions` for `mixed_hybrid` do not depend on the particle of
the mesh vertex. -/
theorem mixed_sums_eq (q : Particle) :
    mixed_hybrid.gradient_sums (mixed_particles q) = some mixed_sums := by
  simp only [HybridConstraint.gradient_sums, HybridConstraint.deformation_gradient,
    deformation_gradient_loop, mixed_hybrid, HybridConstraint.mk8, mixed_node, example_node,
    HybridConstraint.green_strain, HybridConstraint.strain_energy_and_stress,
    HybridConstraint.dCdxk, dCdxk_loop, HybridConstraint.dCdvi, dCdvi_loop, meshless_sums,
    mesh_sums, modify_at, mixed_sums, mixed_particles, Tetrahedron.indices]
  norm_num [Vec3.squaredNorm, Vec3.dot, Vec3.smul, Vec3.sub, Vec3.add, Vec3.zero,
    Mat3.mulVec, Mat3.identity, Mat3.zero, Mat3.outer, Mat3.add, Mat3.sub, Mat3.smul,
    Mat3.mul, Mat3.transpose, Mat3.trace, Mat3.contraction, List.indexOf, List.findIdx,
    List.findIdx.go, mesh_sums, meshless_sums, List.replicate_succ, dCdvi_loop,
    Tetrahedron.indices]

theorem mixed_hybrid_on_mixed :
    mixed_hybrid.project_positions mixed_simulation 1
      = some ({ mixed_hybrid with
                lagrange_ := -13 / 9000
                node_ := { mixed_node with Fi := ⟨1, 0, 0, 0, 0, 0, 0, 0, 0⟩ } },
          { particles :=
              [[⟨⟨0, 0, 0⟩, ⟨0, 0, 0⟩, ⟨0, 0, 0⟩, ⟨0, 0, 0⟩, ⟨0, 0, 0⟩, 0⟩,
                ⟨⟨1, 0, 0⟩, ⟨11 / 6, 0, 0⟩, ⟨1, 0, 0⟩, ⟨0, 0, 0⟩, ⟨0, 0, 0⟩, 1⟩,
                ⟨⟨0, 0, 0⟩, ⟨5 / 6, 0, 0⟩, ⟨0, 0, 0⟩, ⟨0, 0, 0⟩, ⟨0, 0, 0⟩, 1⟩]]
            collision_constraints := [] }) := by
  have hp : mixed_simulation.particles[mixed_hybrid.bi_]?
      = some (mixed_particles mesh_particle) := rfl
  unfold HybridConstraint.project_positions
  rw [hp]
  simp only [mixed_sums_eq]
  rw [if_neg (by norm_num [mixed_sums, epsilon])]
  simp only [update_meshless_particles, update_mesh_particles, mixed_hybrid,
    HybridConstraint.mk8, mixed_node, example_node, mixed_sums, mixed_simulation,
    mixed_particles, mesh_particle, Tetrahedron.indices]
  norm_num [Vec3.smul, Vec3.add, update_meshless_particles, update_mesh_particles,
    Tetrahedron.indices]

/-! ## The deformation gradient along a line of predicted positions -/

/-- Reading a particle after the particle at `index` was moved. -/
theorem getElem?_set_moved (particles : List Particle) (index m : Nat) (p pj : Particle)
    (h : Vec3) (t : ℚ) (hp : particles[m]? = some p) (hj : particles[index]? = some pj) :
    ∃ p1, (particles.set index (moved h t pj))[m]? = some p1 ∧
      p1.xi = Vec3.add p.xi (Vec3.smul (t * (if m = index then 1 else 0)) h) := by
  rw [List.getElem?_set]
  by_cases hm : index = m
  · subst hm
    rw [hj] at hp
    cases hp
    rw [if_pos rfl, if_pos (List.getElem?_eq_some.mp hj).1]
    exact ⟨_, rfl, by simp [moved]⟩
  · rw [if_neg hm, hp]
    refine ⟨p, rfl, ?_⟩
    rw [if_neg (fun e => hm e.symm)]
    ext <;> simp [Vec3.add, Vec3.smul]

/-- One pass of the loop of `deformation_gradient` before and after the move. -/
theorem deformation_gradient_step (F F0 F1 D : Mat3) (Vj t fa fb : ℚ) (xi xn h w : Vec3) :
    Mat3.add
        (Mat3.add F
          (Mat3.sub
            (Mat3.add F1
              (Mat3.outer
                (Vec3.smul Vj
                  (Vec3.sub (Vec3.add xn (Vec3.smul (t * fa) h))
                    (Vec3.add xi (Vec3.smul (t * fb) h)))) w))
            (Mat3.add F0 (Mat3.outer (Vec3.smul Vj (Vec3.sub xn xi)) w))))
        (Mat3.smul t D)
      = Mat3.add (Mat3.add F (Mat3.sub F1 F0))
          (Mat3.smul t
            (Mat3.add (Mat3.outer (Vec3.smul Vj (Vec3.smul (fa - fb) h)) w) D)) := by
  ext <;> simp only [Mat3.add, Mat3.sub, Mat3.smul, Mat3.outer, Vec3.add, Vec3.sub,
    Vec3.smul] <;> ring

/-- The loop of `deformation_gradient` on the particles with particle `j` moved by `t h`:
the result moves by `t` times `direction`. -/
theorem deformation_gradient_loop_moved (c : HybridConstraint) (particles : List Particle)
    (j : Nat) (pj : Particle) (h : Vec3) (t : ℚ)
    (hj : particles[c.node_.body.meshless_particles_index_offset + j]? = some pj) :
    ∀ (ns : List Nat) (k : Nat) (F0 F F1 : Mat3),
      deformation_gradient_loop c particles ns k F0 = some F →
      deformation_gradient_loop c
          (particles.set (c.node_.body.meshless_particles_index_offset + j) (moved h t pj))
          ns k F1
        = some (Mat3.add (Mat3.add F (Mat3.sub F1 F0))
            (Mat3.smul t (direction c h j ns k))) := by
  intro ns
  induction ns with
  | nil =>
    intro k F0 F F1 hF
    simp only [deformation_gradient_loop, Option.some.injEq] at hF
    subst hF
    simp only [deformation_gradient_loop, direction, Option.some.injEq]
    ext <;> simp [Mat3.add, Mat3.sub, Mat3.smul, Mat3.zero]
  | cons n rest ih =>
    intro k F0 F F1 hF
    unfold deformation_gradient_loop at hF
    simp only at hF
    split at hF
    · rename_i Vj gW pi pn hVj hgW hpi hpn
      obtain ⟨pi1, hpi1, hxi⟩ := getElem?_set_moved particles _ _ pi pj h t hpi hj
      obtain ⟨pn1, hpn1, hxn⟩ := getElem?_set_moved particles _ _ pn pj h t hpn hj
      have hVd : c.node_.Vjs.getD k 0 = Vj := by
        rw [List.getD_eq_getElem?_getD, hVj]
        rfl
      have hgd : c.node_.gradWij.getD k Vec3.zero = gW := by
        rw [List.getD_eq_getElem?_getD, hgW]
        rfl
      have e1 : (c.node_.body.meshless_particles_index_offset + c.ni_
          = c.node_.body.meshless_particles_index_offset + j) = (c.ni_ = j) := by
        apply propext
        omega
      have e2 : (c.node_.body.meshless_particles_index_offset + n
          = c.node_.body.meshless_particles_index_offset + j) = (n = j) := by
        apply propext
        omega
      simp only [e1] at hxi
      simp only [e2] at hxn
      unfold deformation_gradient_loop
      simp only [hVj, hgW, hpi1, hpn1]
      rw [ih (k + 1) _ F _ hF]
      simp only [Option.some.injEq, direction, hVd, hgd, hxi, hxn, follows]
      exact deformation_gradient_step F F0 F1 _ Vj t _ _ pi.xi pn.xi h _
    · cases hF

/-- When the loop of `deformation_gradient` returns, `Vjs` and `gradWij` have an entry for
every position that it visited. -/
theorem deformation_gradient_loop_lookups (c : HybridConstraint) (particles : List Particle) :
    ∀ (ns : List Nat) (k : Nat) (F0 F : Mat3),
      deformation_gradient_loop c particles ns k F0 = some F →
      ∀ p, p < ns.length →
        (∃ Vj, c.node_.Vjs[k + p]? = some Vj) ∧ (∃ gW, c.node_.gradWij[k + p]? = some gW) := by
  intro ns
  induction ns with
  | nil => intro k F0 F _ p hp; exact absurd hp (by simp)
  | cons n rest ih =>
    intro k F0 F hF p hp
    unfold deformation_gradient_loop at hF
    simp only at hF
    split at hF
    · rename_i Vj gW pi pn hVj hgW hpi hpn
      cases p with
      | zero => exact ⟨⟨Vj, hVj⟩, ⟨gW, hgW⟩⟩
      | succ q =>
        have := ih (k + 1) _ F hF q (by simpa using hp)
        rw [show k + (q + 1) = k + 1 + q by omega]
        exact this
    · cases hF

/-- The constraint value on the particles with particle `j` moved by `t h`. -/
theorem value_moved (c : HybridConstraint) (particles : List Particle) (Fi : Mat3)
    (j : Nat) (pj : Particle) (h : Vec3) (t : ℚ)
    (hF : c.deformation_gradient particles = some Fi)
    (hj : particles[c.node_.body.meshless_particles_index_offset + j]? = some pj) :
    c.value (particles.set (c.node_.body.meshless_particles_index_offset + j) (moved h t pj))
      = some (c.node_.Vi * stvk_strain_energy_density_op_t.energy ⟨c.mu_, c.lambda_⟩
          (green_strain_op_t (Mat3.line Fi (direction c h j c.node_.neighbours 0) t))) := by
  unfold HybridConstraint.value HybridConstraint.deformation_gradient
  rw [deformation_gradient_loop_moved c particles j pj h t hj c.node_.neighbours 0 Mat3.zero
    Fi Mat3.zero hF]
  simp only [Option.some.injEq]
  have e : Mat3.add (Mat3.add Fi (Mat3.sub Mat3.zero Mat3.zero))
      (Mat3.smul t (direction c h j c.node_.neighbours 0))
      = Mat3.line Fi (direction c h j c.node_.neighbours 0) t := by
    ext <;> simp [Mat3.add, Mat3.sub, Mat3.smul, Mat3.zero, Mat3.line]
  rw [e]
  rfl

/-- The derivative of the constraint value along a line `Fi + t D` of deformation
gradients. -/
theorem value_hasDerivAt (c : HybridConstraint) (Fi D : Mat3) :
    HasDerivAt
      (fun t : ℚ => c.node_.Vi * stvk_strain_energy_density_op_t.energy ⟨c.mu_, c.lambda_⟩
        (green_strain_op_t (Mat3.line Fi D t)))
      (c.node_.Vi * Mat3.inner
        (c.strain_energy_and_stress Fi (HybridConstraint.green_strain Fi)).2 D) 0 :=
  (hasDerivAt_of_expansion _ _ _ _ _ _
    (fun t => stvk_energy_expansion c.mu_ c.lambda_ Fi D t)).const_mul c.node_.Vi

/-- The chain rule, term by term: `Vi * (P : direction)` is `total_gradient . h`. -/
theorem inner_direction (c : HybridConstraint) (P : Mat3) (h : Vec3) (j : Nat) :
    ∀ (ns : List Nat) (k : Nat),
      c.node_.Vi * Mat3.inner P (direction c h j ns k)
        = Vec3.dot (total_gradient c P j ns k) h := by
  intro ns
  induction ns with
  | nil =>
    intro k
    simp [direction, total_gradient, Mat3.inner, Mat3.zero, Vec3.dot, Vec3.zero]
  | cons n rest ih =>
    intro k
    have hadd : ∀ (A B : Mat3), c.node_.Vi * Mat3.inner P (Mat3.add A B)
        = c.node_.Vi * Mat3.inner P A + c.node_.Vi * Mat3.inner P B := by
      intro A B
      simp only [Mat3.inner, Mat3.add]
      ring
    have hdot : ∀ (u v : Vec3), Vec3.dot (Vec3.add u v) h = Vec3.dot u h + Vec3.dot v h := by
      intro u v
      simp only [Vec3.dot, Vec3.add]
      ring
    rw [direction, total_gradient, hadd, hdot, ih (k + 1)]
    congr 1
    simp only [Mat3.inner, Mat3.outer, Mat3.mulVec, Vec3.dot, Vec3.smul, neighbour_gradient,
      kernel_gradient]
    ring

/-! ## The gradients that `dCdxk` returns -/

theorem vec3_zero_add (v : Vec3) : Vec3.add Vec3.zero v = v := by
  ext <;> simp [Vec3.add, Vec3.zero]

theorem vec3_add_zero (v : Vec3) : Vec3.add v Vec3.zero = v := by
  ext <;> simp [Vec3.add, Vec3.zero]

theorem vec3_zero_smul (v : Vec3) : Vec3.smul 0 v = Vec3.zero := by
  ext <;> simp [Vec3.smul, Vec3.zero]

theorem vec3_one_smul (v : Vec3) : Vec3.smul 1 v = v := by
  ext <;> simp [Vec3.smul]

/-- A particle other than the node that is not among the neighbours does not enter the
constraint value. -/
theorem total_gradient_absent (c : HybridConstraint) (P : Mat3) (j : Nat) (hj : j ≠ c.ni_) :
    ∀ (ns : List Nat) (k : Nat), j ∉ ns → total_gradient c P j ns k = Vec3.zero := by
  intro ns
  induction ns with
  | nil => intro k _; rfl
  | cons n rest ih =>
    intro k hn
    rw [List.mem_cons, not_or] at hn
    rw [total_gradient, ih (k + 1) hn.2, follows, if_neg (fun e => hn.1 e.symm),
      if_neg (fun e => hj e.symm), sub_zero, vec3_zero_smul, vec3_add_zero]

/-- For a neighbour `j` other than the node, at position `a` of a neighbour list without
duplicates, the derivative of the constraint value is `Vi * dPsi/dF * (Vj * Li * gradWij)`. -/
theorem total_gradient_neighbour (c : HybridConstraint) (P : Mat3) (j : Nat)
    (hj : j ≠ c.ni_) :
    ∀ (ns : List Nat) (k a : Nat), ns.Nodup → ns[a]? = some j →
      total_gradient c P j ns k = neighbour_gradient c P (k + a) := by
  intro ns
  induction ns with
  | nil => intro k a _ ha; simp at ha
  | cons n rest ih =>
    intro k a hnd ha
    obtain ⟨hn, hnd1⟩ := List.nodup_cons.mp hnd
    cases a with
    | zero =>
      simp only [List.getElem?_cons_zero, Option.some.injEq] at ha
      subst ha
      rw [total_gradient, total_gradient_absent c P n hj rest (k + 1) hn, follows,
        if_pos rfl, if_neg (fun e => hj e.symm), sub_zero, vec3_one_smul, vec3_add_zero]
      rfl
    | succ b =>
      rw [List.getElem?_cons_succ] at ha
      have hne : n ≠ j := by
        intro e
        subst e
        exact hn (List.getElem?_mem ha)
      rw [total_gradient, ih (k + 1) b hnd1 ha, follows, if_neg hne,
        if_neg (fun e => hj e.symm), sub_zero, vec3_zero_smul, vec3_zero_add]
      congr 1
      omega

/-- For the node itself the derivative of the constraint value is minus the sum of the
vectors of the other neighbours. -/
theorem total_gradient_node (c : HybridConstraint) (P : Mat3) :
    ∀ (ns : List Nat) (k : Nat),
      total_gradient c P c.ni_ ns k = Vec3.sub Vec3.zero (others_sum c P ns k) := by
  intro ns
  induction ns with
  | nil => intro k; ext <;> simp [total_gradient, others_sum, Vec3.sub, Vec3.zero]
  | cons n rest ih =>
    intro k
    rw [total_gradient, others_sum, ih (k + 1), follows]
    by_cases hn : n = c.ni_
    · rw [if_pos hn, if_pos hn, if_pos rfl]
      ext <;> simp [Vec3.add, Vec3.sub, Vec3.smul, Vec3.zero]
    · rw [if_neg hn, if_neg hn, if_pos rfl]
      ext <;> simp [Vec3.add, Vec3.sub, Vec3.smul, Vec3.zero] <;> ring

/-- Reading a vector after `modify_at`. -/
theorem modify_at_spec (xs : List Vec3) (i : Nat) (f : Vec3 → Vec3) (hi : i < xs.length) :
    ∃ ys, modify_at xs i f = some ys ∧ ys.length = xs.length ∧
      ∀ m, ys.getD m Vec3.zero
        = if m = i then f (xs.getD i Vec3.zero) else xs.getD m Vec3.zero := by
  refine ⟨xs.set i (f xs[i]), ?_, List.length_set _ _ _, ?_⟩
  · unfold modify_at
    rw [List.getElem?_eq_getElem hi]
  · intro m
    rw [List.getD_eq_getElem?_getD, List.getElem?_set]
    by_cases hm : m = i
    · subst hm
      rw [if_pos rfl, if_pos hi, if_pos rfl, List.getD_eq_getElem?_getD,
        List.getElem?_eq_getElem hi]
      rfl
    · rw [if_neg (fun e => hm e.symm), if_neg hm, List.getD_eq_getElem?_getD]

/-- The statement `gradC[a] += gradPsi` reaches position `m` only from the neighbour at
position `m`. -/
theorem own_gradient_before (c : HybridConstraint) (P : Mat3) :
    ∀ (ns : List Nat) (a m : Nat), m < a → own_gradient c P ns a m = Vec3.zero := by
  intro ns
  induction ns with
  | nil => intro a m _; rfl
  | cons n rest ih =>
    intro a m hm
    rw [own_gradient, ih (a + 1) m (by omega), if_neg (fun e => by omega), vec3_add_zero]

theorem own_gradient_at (c : HybridConstraint) (P : Mat3) :
    ∀ (ns : List Nat) (a p n : Nat), ns[p]? = some n →
      own_gradient c P ns a (a + p)
        = if n ≠ c.ni_ then neighbour_gradient c P (a + p) else Vec3.zero := by
  intro ns
  induction ns with
  | nil => intro a p n hp; simp at hp
  | cons n0 rest ih =>
    intro a p n hp
    cases p with
    | zero =>
      simp only [List.getElem?_cons_zero, Option.some.injEq] at hp
      subst hp
      rw [own_gradient, own_gradient_before c P rest (a + 1) (a + 0) (by omega),
        vec3_add_zero]
      simp
    | succ q =>
      rw [List.getElem?_cons_succ] at hp
      have e : a + (q + 1) = a + 1 + q := by omega
      rw [own_gradient, if_neg (fun h => by omega), vec3_zero_add, e]
      exact ih (a + 1) q n hp

/-- The loop of `dCdxk` from position `a` on: it returns when `Vjs` and `gradWij` have the
entries it reads and `a`, `i_idx` are positions of `gradC`; entry `m` of the result is the
entry before, plus what `gradC[a] += gradPsi` added at `m`, minus, at `i_idx`, the sum of
the vectors of the neighbours other than the node. -/
theorem dCdxk_loop_spec (c : HybridConstraint) (P : Mat3) (i_idx : Nat) :
    ∀ (ns : List Nat) (a : Nat) (gradC : List Vec3),
      (∀ p, p < ns.length →
        (∃ Vj, c.node_.Vjs[a + p]? = some Vj) ∧ (∃ gW, c.node_.gradWij[a + p]? = some gW)) →
      a + ns.length ≤ gradC.length → i_idx < gradC.length →
      ∃ gradC1, dCdxk_loop c P i_idx ns a gradC = some gradC1 ∧
        gradC1.length = gradC.length ∧
        ∀ m, gradC1.getD m Vec3.zero
          = Vec3.sub (Vec3.add (gradC.getD m Vec3.zero) (own_gradient c P ns a m))
              (if m = i_idx then others_sum c P ns a else Vec3.zero) := by
  intro ns
  induction ns with
  | nil =>
    intro a gradC _ _ _
    refine ⟨gradC, rfl, rfl, fun m => ?_⟩
    simp only [own_gradient, others_sum, ite_self]
    ext <;> simp [Vec3.add, Vec3.sub, Vec3.zero]
  | cons k rest ih =>
    intro a gradC hl hlen hi
    have hl1 : ∀ p, p < rest.length →
        (∃ Vj, c.node_.Vjs[a + 1 + p]? = some Vj) ∧
          (∃ gW, c.node_.gradWij[a + 1 + p]? = some gW) := by
      intro p hp
      have := hl (p + 1) (by simpa using hp)
      rw [show a + (p + 1) = a + 1 + p by omega] at this
      exact this
    have hlen1 : a + 1 + rest.length ≤ gradC.length := by
      simp only [List.length_cons] at hlen
      omega
    by_cases hk : k = c.ni_
    · obtain ⟨g1, h1, hlen2, hget⟩ := ih (a + 1) gradC hl1 hlen1 hi
      refine ⟨g1, ?_, hlen2, fun m => ?_⟩
      · unfold dCdxk_loop
        rw [if_pos hk]
        exact h1
      · rw [hget m, own_gradient, others_sum, if_pos hk,
          if_neg (fun h : m = a ∧ k ≠ c.ni_ => h.2 hk), vec3_zero_add, vec3_zero_add]
    · obtain ⟨⟨Vj, hVj⟩, ⟨gW, hgW⟩⟩ := hl 0 (by simp)
      rw [Nat.add_zero] at hVj hgW
      have hG : neighbour_gradient c P a
          = Vec3.smul c.node_.Vi
              (Mat3.mulVec P (Vec3.smul Vj (Mat3.mulVec c.node_.Li gW))) := by
        unfold neighbour_gradient kernel_gradient
        rw [List.getD_eq_getElem?_getD, hVj, List.getD_eq_getElem?_getD, hgW]
        rfl
      have ha : a < gradC.length := by omega
      obtain ⟨gradC1, hm1, hlenA, hgetA⟩ := modify_at_spec gradC a
        (fun g => Vec3.add g (Vec3.smul c.node_.Vi
          (Mat3.mulVec P (Vec3.smul Vj (Mat3.mulVec c.node_.Li gW))))) ha
      obtain ⟨gradC2, hm2, hlenB, hgetB⟩ := modify_at_spec gradC1 i_idx
        (fun g => Vec3.sub g (Vec3.smul c.node_.Vi
          (Mat3.mulVec P (Vec3.smul Vj (Mat3.mulVec c.node_.Li gW))))) (by omega)
      obtain ⟨g1, h1, hlen2, hget⟩ := ih (a + 1) gradC2 hl1 (by omega) (by omega)
      refine ⟨g1, ?_, by omega, fun m => ?_⟩
      · unfold dCdxk_loop
        rw [if_neg hk]
        simp only [hVj, hgW, hm1, hm2]
        exact h1
      · rw [hget m, hgetB m, hgetA i_idx, hgetA m, own_gradient, others_sum, if_neg hk, hG]
        generalize Vec3.smul c.node_.Vi
          (Mat3.mulVec P (Vec3.smul Vj (Mat3.mulVec c.node_.Li gW))) = G
        generalize own_gradient c P rest (a + 1) m = O
        generalize others_sum c P rest (a + 1) = T
        by_cases e1 : m = a <;> by_cases e2 : m = i_idx
        · have e3 : i_idx = a := e2.symm.trans e1
          have e4 : m = a ∧ k ≠ c.ni_ := ⟨e1, hk⟩
          simp only [if_pos e1, if_pos e2, if_pos e3, if_pos e4]
          rw [e1]
          generalize gradC.getD a Vec3.zero = X
          ext <;> simp only [Vec3.add, Vec3.sub] <;> ring
        · have e4 : m = a ∧ k ≠ c.ni_ := ⟨e1, hk⟩
          simp only [if_pos e1, if_neg e2, if_pos e4]
          rw [e1]
          generalize gradC.getD a Vec3.zero = X
          ext <;> simp only [Vec3.add, Vec3.sub, Vec3.zero] <;> ring
        · have e3 : ¬ i_idx = a := fun h => e1 (e2.trans h)
          have e4 : ¬ (m = a ∧ k ≠ c.ni_) := fun h => e1 h.1
          simp only [if_neg e1, if_pos e2, if_neg e3, if_neg e4]
          rw [e2]
          generalize gradC.getD i_idx Vec3.zero = X
          ext <;> simp only [Vec3.add, Vec3.sub, Vec3.zero] <;> ring
        · have e4 : ¬ (m = a ∧ k ≠ c.ni_) := fun h => e1 h.1
          simp only [if_neg e1, if_neg e2, if_neg e4]
          generalize gradC.getD m Vec3.zero = X
          ext <;> simp only [Vec3.add, Vec3.sub, Vec3.zero] <;> ring

theorem getD_replicate_zero (n m : Nat) :
    (List.replicate n Vec3.zero).getD m Vec3.zero = Vec3.zero := by
  rw [List.getD_eq_getElem?_getD, List.getElem?_replicate]
  split <;> rfl

/-- What `dCdxk` returns for a node that is among its neighbours: the vector of the
neighbour at every position that does not hold the node, and minus the sum of these
vectors at the first position that holds the node. -/
theorem dCdxk_spec (c : HybridConstraint) (particles : List Particle) (Fi P : Mat3)
    (hmem : c.ni_ ∈ c.node_.neighbours)
    (hF : c.deformation_gradient particles = some Fi) :
    ∃ gradC, c.dCdxk P = some gradC ∧ gradC.length = c.node_.neighbours.length ∧
      ∀ m, gradC.getD m Vec3.zero
        = Vec3.sub (own_gradient c P c.node_.neighbours 0 m)
            (if m = c.node_.neighbours.indexOf c.ni_ then
              others_sum c P c.node_.neighbours 0 else Vec3.zero) := by
  have hidx : c.node_.neighbours.indexOf c.ni_ < c.node_.neighbours.length :=
    List.indexOf_lt_length.mpr hmem
  obtain ⟨gradC, hG, hlen, hget⟩ := dCdxk_loop_spec c P (c.node_.neighbours.indexOf c.ni_)
    c.node_.neighbours 0 (List.replicate c.node_.neighbours.length Vec3.zero)
    (deformation_gradient_loop_lookups c particles c.node_.neighbours 0 Mat3.zero Fi hF)
    (by simp) (by simpa using hidx)
  refine ⟨gradC, hG, by rw [hlen, List.length_replicate], fun m => ?_⟩
  rw [hget m, getD_replicate_zero, vec3_zero_add]

/-! ## The mixed node of the examples -/

/-- The constraint value of `mixed_hybrid` does not depend on the particle of the mesh
vertex. -/
theorem mixed_value_eq (q : Particle) :
    mixed_hybrid.value (mixed_particles q) = some (6250 / 13) := by
  simp only [HybridConstraint.value, HybridConstraint.deformation_gradient,
    deformation_gradient_loop, mixed_hybrid, HybridConstraint.mk8, mixed_node, example_node,
    HybridConstraint.green_strain, HybridConstraint.strain_energy_and_stress,
    HybridConstraint.C, mixed_particles]
  norm_num [Vec3.smul, Vec3.sub, Mat3.mulVec, Mat3.identity, Mat3.zero, Mat3.outer,
    Mat3.add, Mat3.sub, Mat3.smul, Mat3.mul, Mat3.transpose, Mat3.trace, Mat3.contraction,
    deformation_gradient_loop]

theorem mixed_dCdvi_eq :
    mixed_hybrid.dCdvi
        (mixed_hybrid.strain_energy_and_stress ⟨1, 0, 0, 0, 0, 0, 0, 0, 0⟩
          (HybridConstraint.green_strain ⟨1, 0, 0, 0, 0, 0, 0, 0, 0⟩)).2
      = some [some ⟨-7500 / 13, 0, 0⟩, none, none, none] := by
  simp only [HybridConstraint.dCdvi, dCdvi_loop, mixed_hybrid, HybridConstraint.mk8,
    mixed_node, example_node, HybridConstraint.green_strain,
    HybridConstraint.strain_energy_and_stress, Tetrahedron.indices]
  norm_num [Vec3.smul, Mat3.mulVec, Mat3.identity, Mat3.mul, Mat3.add, Mat3.sub, Mat3.smul,
    Mat3.transpose, Mat3.trace, dCdvi_loop, Tetrahedron.indices]

/-! ## The loops of `setup` -/

theorem lookup_filter_ne (key key1 : Nat × Nat) (hne : key1 ≠ key) :
    ∀ map : List ((Nat × Nat) × Nat),
      List.lookup key1 (map.filter (fun entry => decide (entry.1 ≠ key)))
        = List.lookup key1 map := by
  intro map
  induction map with
  | nil => rfl
  | cons entry rest ih =>
    obtain ⟨k, v⟩ := entry
    by_cases hk : k = key
    · subst hk
      have h1 : (key1 == k) = false := by simpa using hne
      have h2 : List.filter (fun entry : (Nat × Nat) × Nat => decide (entry.1 ≠ k))
          ((k, v) :: rest)
          = List.filter (fun entry : (Nat × Nat) × Nat => decide (entry.1 ≠ k)) rest :=
        List.filter_cons_of_neg (by simp)
      rw [h2, List.lookup_cons, h1]
      exact ih
    · have h2 : List.filter (fun entry : (Nat × Nat) × Nat => decide (entry.1 ≠ key))
          ((k, v) :: rest)
          = (k, v) :: List.filter (fun entry : (Nat × Nat) × Nat => decide (entry.1 ≠ key))
              rest :=
        List.filter_cons_of_pos (by simpa using hk)
      rw [h2, List.lookup_cons, List.lookup_cons, ih]

/-- Reading `tetrahedron_to_constraint_map_` after `map[key] = value`. -/
theorem lookup_map_assign (map : List ((Nat × Nat) × Nat)) (key key1 : Nat × Nat)
    (value : Nat) :
    List.lookup key1 (map_assign map key value)
      = if key1 = key then some value else List.lookup key1 map := by
  unfold map_assign
  by_cases h : key1 = key
  · subst h
    simp [List.lookup_cons]
  · have h1 : (key1 == key) = false := by simpa using h
    rw [List.lookup_cons, h1, if_neg h]
    exact lookup_filter_ne key key1 h map

theorem sort_bodies_spec :
    ∀ (bodies : List SceneNode) (st : Solver),
      (sort_bodies bodies st).physics_bodies_ = st.physics_bodies_ ++ physics_bodies_of bodies ∧
      (sort_bodies bodies st).constraints_ = st.constraints_ ∧
      (sort_bodies bodies st).tetrahedron_to_constraint_map_
        = st.tetrahedron_to_constraint_map_ := by
  intro bodies
  induction bodies with
  | nil => intro st; exact ⟨(List.append_nil _).symm, rfl, rfl⟩
  | cons node rest ih =>
    intro st
    cases node with
    | physics body =>
      rw [sort_bodies, physics_bodies_of]
      obtain ⟨h1, h2, h3⟩ := ih { st with physics_bodies_ := st.physics_bodies_ ++ [body] }
      exact ⟨by rw [h1]; simp, h2, h3⟩
    | environment body =>
      rw [sort_bodies, physics_bodies_of]
      exact ih _
    | other =>
      rw [sort_bodies, physics_bodies_of]
      exact ih _

/-- The loop of `create_green_constraints_for_body` from tetrahedron index `ti` on. -/
theorem create_green_constraints_spec (env : Env) (b : Nat) (params : SimulationParameters) :
    ∀ (tets : List Tetrahedron) (ti : Nat) (st : Solver),
      (create_green_constraints env b params tets ti st).constraints_
        = st.constraints_ ++ (List.range' ti tets.length).map (fun t =>
            env.green_constraint params.alpha b t params.young_modulus params.poisson_ratio) ∧
      (create_green_constraints env b params tets ti st).physics_bodies_
        = st.physics_bodies_ ∧
      ∀ key : Nat × Nat,
        List.lookup key
            (create_green_constraints env b params tets ti st).tetrahedron_to_constraint_map_
          = if key.1 = b ∧ ti ≤ key.2 ∧ key.2 < ti + tets.length then
              some (st.constraints_.length + (key.2 - ti))
            else List.lookup key st.tetrahedron_to_constraint_map_ := by
  intro tets
  induction tets with
  | nil =>
    intro ti st
    refine ⟨by simp [create_green_constraints], rfl, fun key => ?_⟩
    rw [create_green_constraints, if_neg]
    simp only [List.length_nil, Nat.add_zero]
    omega
  | cons t rest ih =>
    intro ti st
    rw [create_green_constraints]
    obtain ⟨h1, h2, h3⟩ := ih (ti + 1)
      { st with
        tetrahedron_to_constraint_map_ :=
          map_assign st.tetrahedron_to_constraint_map_ (b, ti) st.constraints_.length
        constraints_ := st.constraints_ ++
          [env.green_constraint params.alpha b ti params.young_modulus params.poisson_ratio] }
    refine ⟨?_, h2, fun key => ?_⟩
    · rw [h1, List.length_cons, List.range'_succ]
      simp
    · rw [h3 key]
      simp only [List.length_append, List.length_singleton, List.length_cons,
        List.length_nil, lookup_map_assign]
      obtain ⟨k1, k2⟩ := key
      simp only [Prod.mk.injEq]
      by_cases hb : k1 = b
      · by_cases hlt : ti + 1 ≤ k2 ∧ k2 < ti + 1 + rest.length
        · rw [if_pos ⟨hb, hlt⟩, if_pos ⟨hb, by omega, by omega⟩]
          congr 1
          omega
        · rw [if_neg (fun h => hlt h.2)]
          by_cases he : k2 = ti
          · rw [if_pos ⟨hb, he⟩, if_pos ⟨hb, by omega, by omega⟩]
            congr 1
            omega
          · rw [if_neg (fun h => he h.2), if_neg]
            intro h
            omega
      · rw [if_neg (fun h => hb h.1), if_neg (fun h => hb h.1), if_neg (fun h => hb h.1)]

theorem expected_body_constraints_green (env : Env) (b : Nat) (body : Body)
    (h : body.simulation_parameters.constraint_type = ConstraintType.green) :
    expected_body_constraints env b body
      = (List.range body.tetrahedra.length).map (fun ti =>
          env.green_constraint body.simulation_parameters.alpha b ti
            body.simulation_parameters.young_modulus
            body.simulation_parameters.poisson_ratio) := by
  unfold expected_body_constraints
  rw [h]

/-- The loop of `setup` over the physics bodies, `b` being the index of the first body. -/
theorem create_constraints_spec (env : Env) :
    ∀ (bodies : List Body) (b : Nat) (st : Solver),
      (create_constraints env b bodies st).constraints_
        = st.constraints_ ++ expected_constraints env b bodies ∧
      (create_constraints env b bodies st).physics_bodies_ = st.physics_bodies_ ∧
      (∀ key : Nat × Nat, key.1 < b →
        List.lookup key (create_constraints env b bodies st).tetrahedron_to_constraint_map_
          = List.lookup key st.tetrahedron_to_constraint_map_) ∧
      ∀ (p : Nat) (body : Body) (ti : Nat), bodies[p]? = some body →
        body.simulation_parameters.constraint_type = ConstraintType.green →
        ti < body.tetrahedra.length →
        List.lookup (b + p, ti)
            (create_constraints env b bodies st).tetrahedron_to_constraint_map_
          = some (st.constraints_.length
              + (expected_constraints env b (bodies.take p)).length + ti) := by
  intro bodies
  induction bodies with
  | nil =>
    intro b st
    refine ⟨by simp [create_constraints, expected_constraints], rfl, fun _ _ => rfl, ?_⟩
    intro p body ti hp
    simp at hp
  | cons body0 rest ih =>
    intro b st
    cases hct : body0.simulation_parameters.constraint_type with
    | green =>
      have hstep : create_constraints env b (body0 :: rest) st
          = create_constraints env (b + 1) rest
              (create_green_constraints env b body0.simulation_parameters body0.tetrahedra 0
                st) := by
        rw [create_constraints]
        simp only [hct, if_true, reduceCtorEq, if_false, create_green_constraints_for_body]
      obtain ⟨g1, g2, g3⟩ := create_green_constraints_spec env b body0.simulation_parameters
        body0.tetrahedra 0 st
      obtain ⟨h1, h2, h3, h4⟩ := ih (b + 1)
        (create_green_constraints env b body0.simulation_parameters body0.tetrahedra 0 st)
      have hexp : expected_body_constraints env b body0
          = (List.range' 0 body0.tetrahedra.length).map (fun t =>
              env.green_constraint body0.simulation_parameters.alpha b t
                body0.simulation_parameters.young_modulus
                body0.simulation_parameters.poisson_ratio) := by
        rw [expected_body_constraints_green env b body0 hct, List.range_eq_range']
      rw [hstep]
      refine ⟨?_, h2.trans g2, ?_, ?_⟩
      · rw [h1, g1, expected_constraints, hexp, List.append_assoc]
      · intro key hk
        rw [h3 key (by omega), g3 key, if_neg]
        intro h
        omega
      · intro p body ti hp hgreen hti
        cases p with
        | zero =>
          simp only [List.getElem?_cons_zero, Option.some.injEq] at hp
          subst hp
          rw [Nat.add_zero, h3 (b, ti) (by simp), g3 (b, ti),
            if_pos ⟨rfl, by omega, by simpa using hti⟩]
          simp [expected_constraints]
        | succ q =>
          rw [List.getElem?_cons_succ] at hp
          have := h4 q body ti hp hgreen hti
          rw [show b + (q + 1) = b + 1 + q by omega, this, g1, List.take_succ_cons,
            expected_constraints, hexp]
          simp only [List.length_append, List.length_map, List.length_range']
          congr 1
          omega
    | distance =>
      have hstep : create_constraints env b (body0 :: rest) st
          = create_constraints env (b + 1) rest
              (create_distance_constraints_for_body env b body0 st) := by
        rw [create_constraints]
        simp only [hct, if_true, reduceCtorEq, if_false]
      obtain ⟨h1, h2, h3, h4⟩ := ih (b + 1)
        (create_distance_constraints_for_body env b body0 st)
      have hexp : expected_body_constraints env b body0
          = body0.edges.map (fun edge =>
              env.distance_constraint (1 / body0.simulation_parameters.hooke_coefficient)
                (b, edge.v1) (b, edge.v2)) := by
        unfold expected_body_constraints
        rw [hct]
      rw [hstep]
      refine ⟨?_, h2, ?_, ?_⟩
      · rw [h1, expected_constraints, hexp, ← List.append_assoc]
        rfl
      · intro key hk
        rw [h3 key (by omega)]
        rfl
      · intro p body ti hp hgreen hti
        cases p with
        | zero =>
          simp only [List.getElem?_cons_zero, Option.some.injEq] at hp
          subst hp
          rw [hct] at hgreen
          cases hgreen
        | succ q =>
          rw [List.getElem?_cons_succ] at hp
          have := h4 q body ti hp hgreen hti
          rw [show b + (q + 1) = b + 1 + q by omega, this, List.take_succ_cons,
            expected_constraints, hexp]
          simp only [create_distance_constraints_for_body, List.length_append,
            List.length_map]
          congr 1
          omega

/-- The constraint of tetrahedron `ti` of the green body at position `p` within the
constraints that `setup` is to create. -/
theorem expected_constraints_getElem (env : Env) :
    ∀ (bodies : List Body) (b p : Nat) (body : Body) (ti : Nat), bodies[p]? = some body →
      body.simulation_parameters.constraint_type = ConstraintType.green →
      ti < body.tetrahedra.length →
      (expected_constraints env b bodies)[
          (expected_constraints env b (bodies.take p)).length + ti]?
        = some (env.green_constraint body.simulation_parameters.alpha (b + p) ti
            body.simulation_parameters.young_modulus
            body.simulation_parameters.poisson_ratio) := by
  intro bodies
  induction bodies with
  | nil => intro b p body ti hp; simp at hp
  | cons body0 rest ih =>
    intro b p body ti hp hgreen hti
    cases p with
    | zero =>
      simp only [List.getElem?_cons_zero, Option.some.injEq] at hp
      subst hp
      rw [List.take_zero, expected_constraints, expected_constraints, List.length_nil,
        Nat.zero_add, expected_body_constraints_green env b body0 hgreen,
        List.getElem?_append_left (by simpa using hti), List.getElem?_map,
        List.getElem?_range hti]
      rfl
    | succ q =>
      rw [List.getElem?_cons_succ] at hp
      rw [List.take_succ_cons, expected_constraints, expected_constraints,
        List.length_append, Nat.add_assoc,
        List.getElem?_append_right (Nat.le_add_right _ _), Nat.add_sub_cancel_left,
        ih (b + 1) q body ti hp hgreen hti, show b + 1 + q = b + (q + 1) by omega]

theorem resize_length (xs : List ℚ) (n : Nat) : (resize xs n).length = n := by
  unfold resize
  rw [List.length_append, List.length_take, List.length_replicate]
  omega

theorem resize_x0_length (xs : List (List Vec3)) (n : Nat) : (resize_x0 xs n).length = n := by
  unfold resize_x0
  rw [List.length_append, List.length_take, List.length_replicate]
  omega

/-! ## The deformation gradient under an affine map of the predicted positions -/

/-- One pass of the loop of `deformation_gradient` on the transformed positions. -/
theorem deformation_gradient_affine_step (A F : Mat3) (t xj xi w : Vec3) (Vj : ℚ) :
    Mat3.add (Mat3.mul A F)
        (Mat3.outer
          (Vec3.smul Vj (Vec3.sub (Vec3.add (Mat3.mulVec A xj) t)
            (Vec3.add (Mat3.mulVec A xi) t))) w)
      = Mat3.mul A (Mat3.add F (Mat3.outer (Vec3.smul Vj (Vec3.sub xj xi)) w)) := by
  ext <;> simp only [Mat3.add, Mat3.mul, Mat3.outer, Mat3.mulVec, Vec3.add, Vec3.sub,
    Vec3.smul] <;> ring

/-- The loop of `deformation_gradient` on the transformed positions, entered with `A * F0`,
returns when the loop on the positions as they are, entered with `F0`, returns, and gives
`A` times its result. -/
theorem deformation_gradient_loop_affine (c : HybridConstraint) (particles : List Particle)
    (A : Mat3) (t : Vec3) :
    ∀ (ns : List Nat) (k : Nat) (F0 : Mat3),
      deformation_gradient_loop c (particles.map (transformed A t)) ns k (Mat3.mul A F0)
        = (deformation_gradient_loop c particles ns k F0).map (Mat3.mul A) := by
  intro ns
  induction ns with
  | nil => intro k F0; rfl
  | cons j rest ih =>
    intro k F0
    unfold deformation_gradient_loop
    simp only [List.getElem?_map]
    cases hV : c.node_.Vjs[k]? with
    | none => rfl
    | some Vj =>
      cases hW : c.node_.gradWij[k]? with
      | none => rfl
      | some gW =>
        cases hi : particles[c.node_.body.meshless_particles_index_offset + c.ni_]? with
        | none => rfl
        | some pi =>
          cases hj : particles[c.node_.body.meshless_particles_index_offset + j]? with
          | none => rfl
          | some pj =>
            simp only [Option.map_some']
            rw [← ih (k + 1)]
            congr 1
            exact deformation_gradient_affine_step A F0 t pj.xi pi.xi _ Vj

theorem mat3_mul_zero (A : Mat3) : Mat3.mul A Mat3.zero = Mat3.zero := by
  ext <;> simp [Mat3.mul, Mat3.zero]

/-! ## The gradients of `dCdxk` sum to zero -/

theorem vec3_sum_set (xs : List Vec3) :
    ∀ (i : Nat) (x v : Vec3), xs[i]? = some x →
      vec3_sum (xs.set i v) = Vec3.add (vec3_sum xs) (Vec3.sub v x) := by
  induction xs with
  | nil => intro i x v h; simp at h
  | cons y rest ih =>
    intro i x v h
    cases i with
    | zero =>
      simp only [List.getElem?_cons_zero, Option.some.injEq] at h
      subst h
      simp only [List.set_cons_zero, vec3_sum]
      ext <;> simp only [Vec3.add, Vec3.sub] <;> ring
    | succ k =>
      rw [List.getElem?_cons_succ] at h
      simp only [List.set_cons_succ, vec3_sum]
      rw [ih k x v h]
      ext <;> simp only [Vec3.add, Vec3.sub] <;> ring

theorem vec3_sum_replicate (n : Nat) : vec3_sum (List.replicate n Vec3.zero) = Vec3.zero := by
  induction n with
  | zero => rfl
  | succ k ih =>
    rw [List.replicate_succ, vec3_sum, ih]
    exact vec3_zero_add _

/-- The statement `xs[i] = f(xs[i])` changes the sum by `f(xs[i]) - xs[i]`. -/
theorem modify_at_sum (xs ys : List Vec3) (i : Nat) (f : Vec3 → Vec3)
    (h : modify_at xs i f = some ys) :
    ∃ x, vec3_sum ys = Vec3.add (vec3_sum xs) (Vec3.sub (f x) x) := by
  unfold modify_at at h
  split at h
  · cases h
  · rename_i x hx
    simp only [Option.some.injEq] at h
    subst h
    exact ⟨x, vec3_sum_set xs i x (f x) hx⟩

/-- The loop of `dCdxk` keeps the sum of the gradients: what it adds at position `a` it
takes off at position `i_idx`. -/
theorem dCdxk_loop_sum (c : HybridConstraint) (P : Mat3) (i_idx : Nat) :
    ∀ (ns : List Nat) (a : Nat) (gradC gradC1 : List Vec3),
      dCdxk_loop c P i_idx ns a gradC = some gradC1 → vec3_sum gradC1 = vec3_sum gradC := by
  intro ns
  induction ns with
  | nil =>
    intro a gradC gradC1 h
    simp only [dCdxk_loop, Option.some.injEq] at h
    rw [h]
  | cons k rest ih =>
    intro a gradC gradC1 h
    unfold dCdxk_loop at h
    split at h
    · exact ih _ _ _ h
    · split at h
      · simp only at h
        split at h
        · cases h
        · rename_i gA hA
          split at h
          · cases h
          · rename_i gB hB
            obtain ⟨x, hx⟩ := modify_at_sum _ _ _ _ hA
            obtain ⟨y, hy⟩ := modify_at_sum _ _ _ _ hB
            rw [ih _ _ _ h, hy, hx]
            generalize vec3_sum gradC = T
            ext <;> simp only [Vec3.add, Vec3.sub] <;> ring
      · cases h

/-- The gradients that `dCdxk` returns sum to the zero vector. -/
theorem dCdxk_sum_zero (c : HybridConstraint) (P : Mat3) (gradC : List Vec3)
    (h : c.dCdxk P = some gradC) : vec3_sum gradC = Vec3.zero := by
  unfold HybridConstraint.dCdxk at h
  rw [dCdxk_loop_sum c P _ _ _ _ _ h, vec3_sum_replicate]

/-! ## The locals of the hybrid `project_positions` on a node outside the mesh -/

/-- The gradients among the locals of `project_positions` are what `dCdxk` and `dCdvi`
return for the stress at the deformation gradient. -/
theorem gradient_sums_gradients (c : HybridConstraint) (particles : List Particle)
    (g : GradientSums) (hg : c.gradient_sums particles = some g) :
    c.dCdxk (c.strain_energy_and_stress g.Fi (HybridConstraint.green_strain g.Fi)).2
      = some g.gradC ∧
    c.dCdvi (c.strain_energy_and_stress g.Fi (HybridConstraint.green_strain g.Fi)).2
      = some g.gradC_wrt_mesh_indices := by
  unfold HybridConstraint.gradient_sums at hg
  split at hg
  · cases hg
  · rename_i Fi hF
    simp only at hg
    split at hg
    · cases hg
    · rename_i gradC hG
      split at hg
      · cases hg
      · split at hg
        · cases hg
        · rename_i gm hM
          split at hg
          · cases hg
          · simp only [Option.some.injEq] at hg
            subst hg
            exact ⟨hG, hM⟩

/-- For a node that is not a mixed particle `dCdvi` returns no gradient. -/
theorem dCdvi_not_mixed (c : HybridConstraint) (P : Mat3)
    (hmixed : c.node_.is_mixed_particle = false) :
    c.dCdvi P = some [none, none, none, none] := by
  unfold HybridConstraint.dCdvi
  rw [hmixed]
  rfl

/-- When the loop of `deformation_gradient` returns, every neighbour that it visited has a
particle. -/
theorem deformation_gradient_loop_particles (c : HybridConstraint)
    (particles : List Particle) :
    ∀ (ns : List Nat) (k : Nat) (F0 F : Mat3),
      deformation_gradient_loop c particles ns k F0 = some F →
      ∀ j ∈ ns, ∃ p, particles[c.node_.body.meshless_particles_index_offset + j]? = some p := by
  intro ns
  induction ns with
  | nil => intro k F0 F _ j hj; simp at hj
  | cons n rest ih =>
    intro k F0 F hF j hj
    unfold deformation_gradient_loop at hF
    simp only at hF
    split at hF
    · rename_i Vj gW pi pn hVj hgW hpi hpn
      rcases List.mem_cons.mp hj with e | hmem
      · rw [e]
        exact ⟨pn, hpn⟩
      · exact ih (k + 1) _ F hF j hmem
    · cases hF

/-- The loop that sums over the neighbours returns when every neighbour has a particle and
a gradient. -/
theorem meshless_sums_returns (c : HybridConstraint) (particles : List Particle)
    (gradC : List Vec3) :
    ∀ (ns : List Nat) (a : Nat) (acc : ℚ × ℚ),
      (∀ j ∈ ns, ∃ p, particles[c.node_.body.meshless_particles_index_offset + j]? = some p) →
      a + ns.length ≤ gradC.length →
      ∃ r, meshless_sums c particles gradC ns a acc = some r := by
  intro ns
  induction ns with
  | nil => intro a acc _ _; exact ⟨acc, rfl⟩
  | cons j rest ih =>
    intro a acc hps hlen
    simp only [List.length_cons] at hlen
    obtain ⟨p, hp⟩ := hps j (List.mem_cons_self _ _)
    have ha : a < gradC.length := by omega
    obtain ⟨r, hr⟩ := ih (a + 1)
      (acc.1 + p.invmass * Vec3.squaredNorm gradC[a],
        acc.2 + Vec3.dot gradC[a] (Vec3.sub p.xi p.xn))
      (fun k hk => hps k (List.mem_cons_of_mem _ hk)) (by omega)
    refine ⟨r, ?_⟩
    unfold meshless_sums
    simp only [hp, List.getElem?_eq_getElem ha]
    exact hr

/-- On a node that is not a mixed particle and is among its neighbours, the locals of
`project_positions` are computed whenever `deformation_gradient` returns. -/
theorem gradient_sums_returns (c : HybridConstraint) (particles : List Particle) (Fi : Mat3)
    (hmem : c.ni_ ∈ c.node_.neighbours)
    (hF : c.deformation_gradient particles = some Fi)
    (hmixed : c.node_.is_mixed_particle = false) :
    ∃ g, c.gradient_sums particles = some g := by
  obtain ⟨gradC, hG, hlen, _⟩ := dCdxk_spec c particles Fi
    (c.strain_energy_and_stress Fi (HybridConstraint.green_strain Fi)).2 hmem hF
  obtain ⟨s1, hs1⟩ := meshless_sums_returns c particles gradC c.node_.neighbours 0 (0, 0)
    (deformation_gradient_loop_particles c particles c.node_.neighbours 0 Mat3.zero Fi hF)
    (by omega)
  unfold HybridConstraint.gradient_sums
  simp only [hF, hG, hs1, dCdvi_not_mixed c _ hmixed, mesh_sums]
  exact ⟨_, rfl⟩

/-! ## The displacements of the hybrid `project_positions` -/

/-- The loop over the meshless particles against the loop that summed over them, for a
neighbour list without duplicates: the loop returns, leaves the particles of no neighbour
alone, and moves the particle of the neighbour at position `a + i` by
`delta_lagrange * invmass * gradC[a + i]`. -/
theorem update_meshless_spec (c c2 : HybridConstraint)
    (hb : c2.node_.body = c.node_.body) (gradC : List Vec3) (delta_lagrange : ℚ)
    (particles0 : List Particle) :
    ∀ (ns : List Nat) (a : Nat) (acc r : ℚ × ℚ) (particles : List Particle),
      ns.Nodup →
      meshless_sums c particles0 gradC ns a acc = some r →
      (∀ j ∈ ns, particles[c.node_.body.meshless_particles_index_offset + j]?
        = particles0[c.node_.body.meshless_particles_index_offset + j]?) →
      ∃ particles1,
        update_meshless_particles c2 gradC delta_lagrange ns a particles = some particles1 ∧
        (∀ k : Nat, (∀ j ∈ ns, k ≠ c.node_.body.meshless_particles_index_offset + j) →
          particles1[k]? = particles[k]?) ∧
        (∀ (i j : Nat) (p : Particle) (grad : Vec3), ns[i]? = some j →
          particles0[c.node_.body.meshless_particles_index_offset + j]? = some p →
          gradC[a + i]? = some grad →
          particles1[c.node_.body.meshless_particles_index_offset + j]?
            = some (push_particle delta_lagrange grad p)) := by
  intro ns
  induction ns with
  | nil =>
    intro a acc r particles _ _ _
    refine ⟨particles, rfl, fun _ _ => rfl, ?_⟩
    intro i j p grad hi
    simp at hi
  | cons j rest ih =>
    intro a acc r particles hnd h hps
    obtain ⟨hj, hnd1⟩ := List.nodup_cons.mp hnd
    unfold meshless_sums at h
    split at h
    · rename_i pj g hpj hga
      have hpj1 : particles[c.node_.body.meshless_particles_index_offset + j]? = some pj := by
        rw [hps j (List.mem_cons_self _ _)]
        exact hpj
      have hlt : c.node_.body.meshless_particles_index_offset + j < particles.length :=
        (List.getElem?_eq_some.mp hpj1).1
      have hne : ∀ k ∈ rest, c.node_.body.meshless_particles_index_offset + j
          ≠ c.node_.body.meshless_particles_index_offset + k := by
        intro k hk e
        have : j = k := by omega
        exact hj (by rw [this]; exact hk)
      obtain ⟨particles1, h1, hother, hmoved⟩ := ih (a + 1) _ r
        (particles.set (c.node_.body.meshless_particles_index_offset + j)
          (push_particle delta_lagrange g pj))
        hnd1 h
        (fun k hk => by
          rw [List.getElem?_set_ne (hne k hk)]
          exact hps k (List.mem_cons_of_mem _ hk))
      refine ⟨particles1, ?_, ?_, ?_⟩
      · unfold update_meshless_particles
        simp only [hb, hpj1, hga]
        exact h1
      · intro k hk
        rw [hother k (fun m hm => hk m (List.mem_cons_of_mem _ hm)),
          List.getElem?_set_ne (fun e => hk j (List.mem_cons_self _ _) e.symm)]
      · intro i j1 p grad hi hp hgrad
        cases i with
        | zero =>
          simp only [List.getElem?_cons_zero, Option.some.injEq] at hi
          subst hi
          rw [hpj] at hp
          rw [Nat.add_zero, hga] at hgrad
          cases hp
          cases hgrad
          rw [hother _ (fun m hm => hne m hm), List.getElem?_set_self hlt]
        | succ i1 =>
          rw [List.getElem?_cons_succ] at hi
          exact hmoved i1 j1 p grad hi hp (by rw [← hgrad]; congr 1; omega)
    · cases h

/-- The mass-weighted sum of the displacements, once every neighbour with its particle of
non-zero inverse mass has been moved by `delta_lagrange * invmass * gradC[a + i]`. -/
theorem momentum_change_spec (c : HybridConstraint) (gradC : List Vec3) (delta_lagrange : ℚ)
    (particles particles1 : List Particle) :
    ∀ (ns : List Nat) (a : Nat), gradC.length = a + ns.length →
      (∀ j ∈ ns, ∃ p, particles[c.node_.body.meshless_particles_index_offset + j]? = some p ∧
        p.invmass ≠ 0) →
      (∀ (i j : Nat) (p : Particle) (grad : Vec3), ns[i]? = some j →
        particles[c.node_.body.meshless_particles_index_offset + j]? = some p →
        gradC[a + i]? = some grad →
        particles1[c.node_.body.meshless_particles_index_offset + j]?
          = some (push_particle delta_lagrange grad p)) →
      momentum_change c particles particles1 ns
        = Vec3.smul delta_lagrange (vec3_sum (gradC.drop a)) := by
  intro ns
  induction ns with
  | nil =>
    intro a hlen _ _
    rw [List.drop_eq_nil_of_le (by simp at hlen; omega)]
    ext <;> simp [momentum_change, vec3_sum, Vec3.smul, Vec3.zero]
  | cons j rest ih =>
    intro a hlen hps hmoved
    simp only [List.length_cons] at hlen
    obtain ⟨p, hp, hm⟩ := hps j (List.mem_cons_self _ _)
    have ha : a < gradC.length := by omega
    have h1 := hmoved 0 j p gradC[a] (List.getElem?_cons_zero) hp
      (by rw [Nat.add_zero]; exact List.getElem?_eq_getElem ha)
    have hrest := ih (a + 1) (by omega) (fun k hk => hps k (List.mem_cons_of_mem _ hk))
      (fun i k q grad hi hq hgrad =>
        hmoved (i + 1) k q grad (by rw [List.getElem?_cons_succ]; exact hi) hq
          (by rw [← hgrad]; congr 1; omega))
    rw [momentum_change, hrest, List.drop_eq_getElem_cons ha, vec3_sum]
    simp only [hp, h1]
    generalize vec3_sum (List.drop (a + 1) gradC) = T
    generalize gradC[a] = G
    ext <;> simp only [Vec3.add, Vec3.sub, Vec3.smul, push_particle] <;> field_simp <;> ring

/-- The change of the linearised constraint, once every neighbour has been moved by
`delta_lagrange * invmass * gradC[a + i]`: it is `delta_lagrange` times what the summing loop
added to `weighted_sum_of_gradients`. -/
theorem linearised_change_spec (c : HybridConstraint) (gradC : List Vec3) (delta_lagrange : ℚ)
    (particles particles1 : List Particle) :
    ∀ (ns : List Nat) (a : Nat) (acc r : ℚ × ℚ),
      meshless_sums c particles gradC ns a acc = some r →
      (∀ (i j : Nat) (p : Particle) (grad : Vec3), ns[i]? = some j →
        particles[c.node_.body.meshless_particles_index_offset + j]? = some p →
        gradC[a + i]? = some grad →
        particles1[c.node_.body.meshless_particles_index_offset + j]?
          = some (push_particle delta_lagrange grad p)) →
      linearised_change c gradC particles particles1 ns a = delta_lagrange * (r.1 - acc.1) := by
  intro ns
  induction ns with
  | nil =>
    intro a acc r h _
    simp only [meshless_sums, Option.some.injEq] at h
    rw [← h]
    simp [linearised_change]
  | cons j rest ih =>
    intro a acc r h hmoved
    unfold meshless_sums at h
    split at h
    · rename_i pj g hpj hga
      have h1 := hmoved 0 j pj g (List.getElem?_cons_zero) hpj
        (by rw [Nat.add_zero]; exact hga)
      have hrest := ih (a + 1) _ r h
        (fun i k q grad hi hq hgrad =>
          hmoved (i + 1) k q grad (by rw [List.getElem?_cons_succ]; exact hi) hq
            (by rw [← hgrad]; congr 1; omega))
      rw [linearised_change, hrest]
      simp only [hga, hpj, h1]
      simp only [Vec3.dot, Vec3.sub, Vec3.add, Vec3.smul, Vec3.squaredNorm, push_particle]
      ring
    · cases h

/-- The hybrid `project_positions` on a node that is not a mixed particle, for a neighbour
list without duplicates and a weighted gradient sum of at least `epsilon`: the call returns,
adds `delta_lagrange` to the multiplier, moves the particle of the neighbour at position `i`
by `delta_lagrange * invmass * gradC[i]` and leaves every other particle alone. -/
theorem meshless_projection_spec (c : HybridConstraint) (simulation : Simulation) (dt : ℚ)
    (particles : List Particle) (g : GradientSums)
    (hp : simulation.particles[c.bi_]? = some particles)
    (hg : c.gradient_sums particles = some g)
    (hmixed : c.node_.is_mixed_particle = false)
    (hnd : c.node_.neighbours.Nodup)
    (hS : epsilon ≤ g.weighted_sum_of_gradients) :
    ∃ c1 particles1,
      c.project_positions simulation dt
        = some (c1, { simulation with particles := simulation.particles.set c.bi_ particles1 }) ∧
      c1.lagrange_ = c.lagrange_ + c.delta_lagrange g dt ∧
      (∀ k : Nat,
        (∀ j ∈ c.node_.neighbours, k ≠ c.node_.body.meshless_particles_index_offset + j) →
          particles1[k]? = particles[k]?) ∧
      (∀ (i j : Nat) (p : Particle) (grad : Vec3), c.node_.neighbours[i]? = some j →
        particles[c.node_.body.meshless_particles_index_offset + j]? = some p →
        g.gradC[i]? = some grad →
        particles1[c.node_.body.meshless_particles_index_offset + j]?
          = some (push_particle (c.delta_lagrange g dt) grad p)) := by
  obtain ⟨_, _, s1, hs1, hs2⟩ := gradient_sums_spec c particles g hg
  have hmesh : g.gradC_wrt_mesh_indices = [none, none, none, none] := by
    have h := (gradient_sums_gradients c particles g hg).2
    rw [dCdvi_not_mixed c _ hmixed] at h
    exact (Option.some.inj h).symm
  have key : ∀ (c2 : HybridConstraint) (dl : ℚ) (particles1 : List Particle),
      c2.node_.body = c.node_.body →
      update_meshless_particles c2 g.gradC dl c.node_.neighbours 0 particles = some particles1 →
      (∀ k : Nat,
        (∀ j ∈ c.node_.neighbours, k ≠ c.node_.body.meshless_particles_index_offset + j) →
          particles1[k]? = particles[k]?) ∧
      (∀ (i j : Nat) (p : Particle) (grad : Vec3), c.node_.neighbours[i]? = some j →
        particles[c.node_.body.meshless_particles_index_offset + j]? = some p →
        g.gradC[i]? = some grad →
        particles1[c.node_.body.meshless_particles_index_offset + j]?
          = some (push_particle dl grad p)) := by
    intro c2 dl particles1 hb h1
    obtain ⟨q, hq, hother, hmoved⟩ := update_meshless_spec c c2 hb g.gradC dl particles
      c.node_.neighbours 0 (0, 0) s1 particles hnd hs1 (fun _ _ => rfl)
    rw [hq] at h1
    cases h1
    exact ⟨hother, fun i j p grad hi hpj hgr =>
      hmoved i j p grad hi hpj (by rw [Nat.zero_add]; exact hgr)⟩
  have hne1 : ∀ (c2 : HybridConstraint) (dl : ℚ), c2.node_.body = c.node_.body →
      update_meshless_particles c2 g.gradC dl c.node_.neighbours 0 particles ≠ none := by
    intro c2 dl hb hn
    obtain ⟨q, hq, _⟩ := update_meshless_spec c c2 hb g.gradC dl particles
      c.node_.neighbours 0 (0, 0) s1 particles hnd hs1 (fun _ _ => rfl)
    rw [hq] at hn
    cases hn
  have hsome : (c.project_positions simulation dt).isSome = true := by
    unfold HybridConstraint.project_positions
    rw [hp]
    simp only [hg]
    rw [if_neg (not_lt.mpr hS)]
    split
    · rename_i hn
      exact absurd hn (hne1 _ _ (by rfl))
    · rw [hmesh]
      rfl
  obtain ⟨⟨c1, simulation1⟩, hr⟩ := Option.isSome_iff_exists.mp hsome
  have hr1 := hr
  unfold HybridConstraint.project_positions at hr1
  rw [hp] at hr1
  simp only [hg] at hr1
  rw [if_neg (not_lt.mpr hS)] at hr1
  split at hr1
  · cases hr1
  · rename_i particles1 h1
    rw [hmesh] at hr1
    simp only [update_mesh_particles, Option.some.injEq, Prod.mk.injEq] at hr1
    obtain ⟨hc, hs⟩ := hr1
    have props := key _ _ particles1 (by rfl) h1
    refine ⟨c1, particles1, by rw [hr, ← hs], ?_, props.1, props.2⟩
    rw [← hc]
    rfl

/-! ## Examples for the displacements of the hybrid projection -/

theorem momentum_change_self (c : HybridConstraint) (particles : List Particle) :
    ∀ ns : List Nat, momentum_change c particles particles ns = Vec3.zero := by
  intro ns
  induction ns with
  | nil => rfl
  | cons j rest ih =>
    rw [momentum_change, ih]
    cases particles[c.node_.body.meshless_particles_index_offset + j]? with
    | none => exact vec3_zero_add _
    | some p => ext <;> simp [Vec3.add, Vec3.sub, Vec3.smul, Vec3.zero]

theorem loose_deformation_gradient :
    example_hybrid.deformation_gradient
      [⟨⟨0, -1, 0⟩, ⟨0, -1, 0⟩, ⟨0, -1, 0⟩, ⟨0, 0, 0⟩, ⟨0, 0, 0⟩, 1⟩,
       ⟨⟨1, -1, 0⟩, ⟨1, -1, 0⟩, ⟨1, -1, 0⟩, ⟨0, 0, 0⟩, ⟨0, 0, 0⟩, 2⟩]
      = some ⟨1, 0, 0, 0, 0, 0, 0, 0, 0⟩ := by
  simp only [HybridConstraint.deformation_gradient, deformation_gradient_loop, example_hybrid,
    HybridConstraint.mk8, example_node]
  norm_num [Vec3.smul, Vec3.sub, Mat3.mulVec, Mat3.identity, Mat3.zero, Mat3.outer, Mat3.add,
    deformation_gradient_loop]

theorem rigid_moving_sums_eq :
    rigid_hybrid.gradient_sums
      [⟨⟨0, -1, 0⟩, ⟨0, -1, 0⟩, ⟨0, -1, 0⟩, ⟨0, 0, 0⟩, ⟨0, 0, 0⟩, 0⟩,
       ⟨⟨1, -1, 0⟩, ⟨1, -1, 0⟩, ⟨1 / 2, -1, 0⟩, ⟨0, 0, 0⟩, ⟨0, 0, 0⟩, 1⟩]
      = some moving_sums := by
  simp only [HybridConstraint.gradient_sums, HybridConstraint.deformation_gradient,
    deformation_gradient_loop, rigid_hybrid, HybridConstraint.mk8, example_node,
    HybridConstraint.green_strain, HybridConstraint.strain_energy_and_stress,
    HybridConstraint.dCdxk, dCdxk_loop, HybridConstraint.dCdvi, meshless_sums, mesh_sums,
    modify_at, pinned_sums, moving_sums]
  norm_num [Vec3.squaredNorm, Vec3.dot, Vec3.smul, Vec3.sub, Vec3.add, Vec3.zero,
    Mat3.mulVec, Mat3.identity, Mat3.zero, Mat3.outer, Mat3.add, Mat3.sub, Mat3.smul,
    Mat3.mul, Mat3.transpose, Mat3.trace, Mat3.contraction, List.indexOf, List.findIdx,
    List.findIdx.go, mesh_sums, meshless_sums, List.replicate_succ]

/-! ## The vertex position that the collision constraint recomputes -/

/-- The second loop of the collision constraint writes the particles of the neighbours it
visits only. -/
theorem collision_update_others (c : MeshlessSphCollisionConstraint) (gradC : List Vec3)
    (delta_lagrange : ℚ) :
    ∀ (ns : List Nat) (a : Nat) (acc r : List Particle × Vec3),
      collision_update c gradC delta_lagrange ns a acc = some r →
      ∀ k : Nat, k ∉ ns → r.1[k]? = acc.1[k]? := by
  intro ns
  induction ns with
  | nil =>
    intro a acc r h k _
    simp only [collision_update, Option.some.injEq] at h
    rw [h]
  | cons j rest ih =>
    intro a acc r h k hk
    rw [List.mem_cons, not_or] at hk
    unfold collision_update at h
    split at h
    · rw [ih _ _ _ h k hk.2]
      simp only
      rw [List.getElem?_set_ne (fun e => hk.1 e.symm)]
    · cases h

/-- For a neighbour list without duplicates, the vertex position that the second loop of
the collision constraint accumulates is the interpolation of the predicted positions that
it leaves behind. -/
theorem collision_update_interpolation (c : MeshlessSphCollisionConstraint)
    (gradC : List Vec3) (delta_lagrange : ℚ) :
    ∀ (ns : List Nat) (a : Nat) (acc r : List Particle × Vec3), ns.Nodup →
      collision_update c gradC delta_lagrange ns a acc = some r →
      interpolation c r.1 ns a acc.2 = some r.2 := by
  intro ns
  induction ns with
  | nil =>
    intro a acc r _ h
    simp only [collision_update, Option.some.injEq] at h
    rw [← h]
    rfl
  | cons j rest ih =>
    intro a acc r hnd h
    obtain ⟨hj, hnd1⟩ := List.nodup_cons.mp hnd
    unfold collision_update at h
    split at h
    · rename_i p grad Vj Xkj Wkj Fj hp hgrad hVj hXkj hWkj hFj
      have hlt : j < acc.1.length := (List.getElem?_eq_some.mp hp).1
      have hrj := collision_update_others c gradC delta_lagrange rest (a + 1) _ r h j hj
      simp only at hrj
      rw [List.getElem?_set_self hlt] at hrj
      have hrest := ih (a + 1) _ r hnd1 h
      unfold interpolation
      simp only [hrj, hVj, hXkj, hWkj, hFj]
      exact hrest
    · cases h

/-! ## The sums of the hybrid projection on a node outside the mesh -/

/-- The loop that sums over the neighbours adds the specified sums over the particles that
the first update loop displaces. -/
theorem meshless_sums_specified (c : HybridConstraint) (particles : List Particle)
    (gradC : List Vec3) :
    ∀ (ns : List Nat) (a : Nat) (acc r : ℚ × ℚ),
      meshless_sums c particles gradC ns a acc = some r →
      ∃ pairs, displaced_meshless c particles gradC ns a = some pairs ∧
        r.1 = acc.1 + specified_weighted_sum pairs ∧ r.2 = acc.2 + specified_dot_term pairs := by
  intro ns
  induction ns with
  | nil =>
    intro a acc r h
    simp only [meshless_sums, Option.some.injEq] at h
    subst h
    exact ⟨[], rfl, by simp [specified_weighted_sum], by simp [specified_dot_term]⟩
  | cons j rest ih =>
    intro a acc r h
    unfold meshless_sums at h
    split at h
    · rename_i pj grad hpj hga
      obtain ⟨tail, ht, h1, h2⟩ := ih (a + 1) _ r h
      refine ⟨(grad, pj) :: tail, ?_, ?_, ?_⟩
      · unfold displaced_meshless
        simp only [hpj, hga, ht]
      · rw [h1]
        simp only [specified_weighted_sum, List.map_cons, List.sum_cons]
        ring
      · rw [h2]
        simp only [specified_dot_term, List.map_cons, List.sum_cons]
        ring
    · cases h

/-- On a node that is not a mixed particle the locals `weighted_sum_of_gradients` and
`gradC_dot_displacement` of `project_positions` are the specified sums over the particles that
the call displaces. -/
theorem gradient_sums_specified (c : HybridConstraint) (particles : List Particle)
    (g : GradientSums) (hg : c.gradient_sums particles = some g)
    (hmixed : c.node_.is_mixed_particle = false) :
    ∃ pairs, c.displaced particles g = some pairs ∧
      g.weighted_sum_of_gradients = specified_weighted_sum pairs ∧
      g.gradC_dot_displacement = specified_dot_term pairs := by
  obtain ⟨_, _, s1, hs1, hs2⟩ := gradient_sums_spec c particles g hg
  have hmesh : g.gradC_wrt_mesh_indices = [none, none, none, none] := by
    have h := (gradient_sums_gradients c particles g hg).2
    rw [dCdvi_not_mixed c _ hmixed] at h
    exact (Option.some.inj h).symm
  rw [hmesh] at hs2
  simp only [mesh_sums, Option.some.injEq] at hs2
  obtain ⟨pairs, hd, h1, h2⟩ := meshless_sums_specified c particles g.gradC c.node_.neighbours 0
    (0, 0) s1 hs1
  refine ⟨pairs, ?_, ?_, ?_⟩
  · unfold HybridConstraint.displaced
    rw [hd, hmesh]
    simp only [displaced_mesh, List.append_nil]
  · rw [hs2] at h1
    simpa using h1
  · rw [hs2] at h2
    simpa using h2

theorem damped_mixed_sums_eq :
    damped_mixed_hybrid.gradient_sums (mixed_particles lagging_particle) = some mixed_sums := by
  simp only [HybridConstraint.gradient_sums, HybridConstraint.deformation_gradient,
    deformation_gradient_loop, damped_mixed_hybrid, HybridConstraint.mk8, mixed_node,
    example_node, HybridConstraint.green_strain, HybridConstraint.strain_energy_and_stress,
    HybridConstraint.dCdxk, dCdxk_loop, HybridConstraint.dCdvi, dCdvi_loop, meshless_sums,
    mesh_sums, modify_at, mixed_sums, mixed_particles, lagging_particle, Tetrahedron.indices]
  norm_num [Vec3.squaredNorm, Vec3.dot, Vec3.smul, Vec3.sub, Vec3.add, Vec3.zero,
    Mat3.mulVec, Mat3.identity, Mat3.zero, Mat3.outer, Mat3.add, Mat3.sub, Mat3.smul,
    Mat3.mul, Mat3.transpose, Mat3.trace, Mat3.contraction, List.indexOf, List.findIdx,
    List.findIdx.go, mesh_sums, meshless_sums, List.replicate_succ, dCdvi_loop,
    Tetrahedron.indices]

theorem damped_mixed_on_lagging :
    damped_mixed_hybrid.project_positions lagging_simulation 1
      = some ({ damped_mixed_hybrid with
                lagrange_ := -81250000 / 56255625169
                node_ := { mixed_node with Fi := ⟨1, 0, 0, 0, 0, 0, 0, 0, 0⟩ } },
          { particles :=
              [[⟨⟨0, 0, 0⟩, ⟨0, 0, 0⟩, ⟨0, 0, 0⟩, ⟨0, 0, 0⟩, ⟨0, 0, 0⟩, 0⟩,
                ⟨⟨1, 0, 0⟩, ⟨103130625169 / 56255625169, 0, 0⟩, ⟨1, 0, 0⟩, ⟨0, 0, 0⟩,
                  ⟨0, 0, 0⟩, 1⟩,
                ⟨⟨0, 0, 0⟩, ⟨46875000000 / 56255625169, 0, 0⟩, ⟨-1, 0, 0⟩, ⟨0, 0, 0⟩,
                  ⟨0, 0, 0⟩, 1⟩]]
            collision_constraints := [] }) := by
  have hp : lagging_simulation.particles[damped_mixed_hybrid.bi_]?
      = some (mixed_particles lagging_particle) := rfl
  unfold HybridConstraint.project_positions
  rw [hp]
  simp only [damped_mixed_sums_eq]
  rw [if_neg (by norm_num [mixed_sums, epsilon])]
  simp only [update_meshless_particles, update_mesh_particles, damped_mixed_hybrid,
    HybridConstraint.mk8, mixed_node, example_node, mixed_sums, lagging_simulation,
    mixed_particles, lagging_particle, Tetrahedron.indices]
  norm_num [Vec3.smul, Vec3.add, update_meshless_particles, update_mesh_particles,
    Tetrahedron.indices]

/-! ## The multiplier slots against constraints that own their multipliers -/

theorem project_owned_constraints {α : Type}
    (project : α → List Body → ℚ → ℚ → List Body × ℚ) (dt : ℚ) :
    ∀ (owned : List (α × ℚ)) (bodies : List Body),
      (project_owned project dt owned bodies).2.map Prod.fst = owned.map Prod.fst := by
  intro owned
  induction owned with
  | nil => intro bodies; rfl
  | cons pair rest ih =>
    intro bodies
    obtain ⟨constraint, lagrange⟩ := pair
    simp only [project_owned, List.map_cons, ih]

/-- The loop over the persistent constraints on a multiplier vector `pre ++ own ++ post`,
entered at the index `j` of the first own multiplier: it reads and writes the own
multipliers only, each constraint its own. -/
theorem project_constraints_owned (dt : ℚ) :
    ∀ (owned : List (Constraint × ℚ)) (j : Nat) (pre post : List ℚ) (ps : ProjectionState),
      pre.length = j → ps.lagrange = pre ++ owned.map Prod.snd ++ post →
      (project_constraints dt (owned.map Prod.fst) j ps).bodies
        = (project_owned (fun constraint => constraint.project) dt owned ps.bodies).1 ∧
      (project_constraints dt (owned.map Prod.fst) j ps).lagrange
        = pre ++ (project_owned (fun constraint => constraint.project) dt owned
            ps.bodies).2.map Prod.snd ++ post := by
  intro owned
  induction owned with
  | nil =>
    intro j pre post ps _ hl
    exact ⟨rfl, hl⟩
  | cons pair rest ih =>
    intro j pre post ps hj hl
    obtain ⟨constraint, lagrange⟩ := pair
    have hget : ps.lagrange.getD j 0 = lagrange := by
      rw [hl, List.getD_eq_getElem?_getD, List.append_assoc,
        List.getElem?_append_right (by omega)]
      simp [hj]
    have hset : ∀ x : ℚ, ps.lagrange.set j x
        = (pre ++ [x]) ++ rest.map Prod.snd ++ post := by
      intro x
      rw [hl, List.append_assoc, List.set_append_right _ _ (by omega)]
      simp [hj]
    simp only [List.map_cons, project_constraints, project_owned, hget]
    obtain ⟨h1, h2⟩ := ih (j + 1) (pre ++ [constraint.project ps.bodies lagrange dt |>.2]) post
      { bodies := (constraint.project ps.bodies lagrange dt).1
        lagrange := ps.lagrange.set j (constraint.project ps.bodies lagrange dt).2
        calls := ps.calls ++ [ProjectCall.persistent j j] }
      (by simp [hj]) (hset _)
    refine ⟨h1, ?_⟩
    rw [h2]
    simp

/-- The loop over the collision constraints on a multiplier vector `pre ++ own ++ post`,
entered at the index `J + c` of the first own multiplier: it reads and writes the own
multipliers only, each constraint its own. -/
theorem project_collision_constraints_owned (env : Env) (dt : ℚ) (J : Nat) :
    ∀ (owned : List (CollisionConstraint × ℚ)) (c : Nat) (pre post : List ℚ)
      (ps : ProjectionState),
      pre.length = J + c → ps.lagrange = pre ++ owned.map Prod.snd ++ post →
      (project_collision_constraints env dt J (owned.map Prod.fst) c ps).bodies
        = (project_owned env.collision_project dt owned ps.bodies).1 ∧
      (project_collision_constraints env dt J (owned.map Prod.fst) c ps).lagrange
        = pre ++ (project_owned env.collision_project dt owned ps.bodies).2.map Prod.snd
            ++ post := by
  intro owned
  induction owned with
  | nil =>
    intro c pre post ps _ hl
    exact ⟨rfl, hl⟩
  | cons pair rest ih =>
    intro c pre post ps hj hl
    obtain ⟨constraint, lagrange⟩ := pair
    have hget : ps.lagrange.getD (J + c) 0 = lagrange := by
      rw [hl, List.getD_eq_getElem?_getD, List.append_assoc,
        List.getElem?_append_right (by omega)]
      simp [hj]
    have hset : ∀ x : ℚ, ps.lagrange.set (J + c) x
        = (pre ++ [x]) ++ rest.map Prod.snd ++ post := by
      intro x
      rw [hl, List.append_assoc, List.set_append_right _ _ (by omega)]
      simp [hj]
    simp only [List.map_cons, project_collision_constraints, project_owned, hget]
    obtain ⟨h1, h2⟩ := ih (c + 1)
      (pre ++ [env.collision_project constraint ps.bodies lagrange dt |>.2]) post
      { bodies := (env.collision_project constraint ps.bodies lagrange dt).1
        lagrange := ps.lagrange.set (J + c)
          (env.collision_project constraint ps.bodies lagrange dt).2
        calls := ps.calls ++ [ProjectCall.collision c (J + c) constraint] }
      (by simp [hj]; omega) (hset _)
    refine ⟨h1, ?_⟩
    rw [h2]
    simp

/-- One sweep on the multiplier vector that holds the multipliers of the persistent
constraints followed by those of the collision constraints is the sweep in which every
constraint owns its multiplier. -/
theorem sweep_owned_spec (env : Env) (dt : ℚ) (ocs : List (Constraint × ℚ))
    (occs : List (CollisionConstraint × ℚ)) (bodies : List Body) :
    (sweep env dt (ocs.map Prod.fst) (occs.map Prod.fst) bodies
        (ocs.map Prod.snd ++ occs.map Prod.snd)).bodies
      = (sweep_owned env dt (ocs, occs) bodies).1 ∧
    (sweep env dt (ocs.map Prod.fst) (occs.map Prod.fst) bodies
        (ocs.map Prod.snd ++ occs.map Prod.snd)).lagrange
      = (sweep_owned env dt (ocs, occs) bodies).2.1.map Prod.snd
          ++ (sweep_owned env dt (ocs, occs) bodies).2.2.map Prod.snd := by
  obtain ⟨a1, a2⟩ := project_constraints_owned dt ocs 0 [] (occs.map Prod.snd)
    { bodies := bodies, lagrange := ocs.map Prod.snd ++ occs.map Prod.snd, calls := [] }
    rfl (by simp)
  have hlen : ([] ++ (project_owned (fun constraint : Constraint => constraint.project) dt ocs
      bodies).2.map Prod.snd).length = (ocs.map Prod.fst).length + 0 := by
    have h := congrArg List.length
      (project_owned_constraints (fun constraint : Constraint => constraint.project) dt ocs
        bodies)
    simp only [List.length_map] at h
    simp [h]
  obtain ⟨b1, b2⟩ := project_collision_constraints_owned env dt (ocs.map Prod.fst).length occs 0
    ([] ++ (project_owned (fun constraint => constraint.project) dt ocs bodies).2.map Prod.snd)
    []
    (project_constraints dt (ocs.map Prod.fst) 0
      { bodies := bodies, lagrange := ocs.map Prod.snd ++ occs.map Prod.snd, calls := [] })
    hlen (by rw [a2]; simp)
  unfold sweep sweep_owned
  simp only at a1
  rw [a1] at b1 b2
  refine ⟨b1, ?_⟩
  rw [b2]
  simp

/-- The sweeps of a substep on the shared multiplier vector are the sweeps in which every
constraint owns its multiplier. -/
theorem sweeps_owned_spec (env : Env) (dt : ℚ) :
    ∀ (count : Nat) (ocs : List (Constraint × ℚ)) (occs : List (CollisionConstraint × ℚ))
      (bodies : List Body),
      (sweeps env dt (ocs.map Prod.fst) (occs.map Prod.fst) count bodies
          (ocs.map Prod.snd ++ occs.map Prod.snd)).1
        = (sweeps_owned env dt count (ocs, occs) bodies).1 ∧
      (sweeps env dt (ocs.map Prod.fst) (occs.map Prod.fst) count bodies
          (ocs.map Prod.snd ++ occs.map Prod.snd)).2.1
        = (sweeps_owned env dt count (ocs, occs) bodies).2.1.map Prod.snd
            ++ (sweeps_owned env dt count (ocs, occs) bodies).2.2.map Prod.snd ∧
      (sweeps_owned env dt count (ocs, occs) bodies).2.1.map Prod.fst = ocs.map Prod.fst ∧
      (sweeps_owned env dt count (ocs, occs) bodies).2.2.map Prod.fst = occs.map Prod.fst := by
  intro count
  induction count with
  | zero =>
    intro ocs occs bodies
    exact ⟨rfl, rfl, rfl, rfl⟩
  | succ k ih =>
    intro ocs occs bodies
    obtain ⟨s1, s2⟩ := sweep_owned_spec env dt ocs occs bodies
    have f1 : (sweep_owned env dt (ocs, occs) bodies).2.1.map Prod.fst = ocs.map Prod.fst :=
      project_owned_constraints _ dt ocs bodies
    have f2 : (sweep_owned env dt (ocs, occs) bodies).2.2.map Prod.fst = occs.map Prod.fst :=
      project_owned_constraints _ dt occs _
    obtain ⟨h1, h2, h3, h4⟩ := ih (sweep_owned env dt (ocs, occs) bodies).2.1
      (sweep_owned env dt (ocs, occs) bodies).2.2 (sweep_owned env dt (ocs, occs) bodies).1
    rw [f1, f2] at h1 h2
    simp only [sweeps, sweeps_owned, s1, s2]
    exact ⟨h1, h2, h3.trans f1, h4.trans f2⟩

theorem map_fst_zero {α : Type} (xs : List α) :
    (xs.map (fun x => (x, (0 : ℚ)))).map Prod.fst = xs := by
  rw [List.map_map]
  exact List.map_id _

theorem map_snd_zero {α : Type} (xs : List α) :
    (xs.map (fun x => (x, (0 : ℚ)))).map Prod.snd = List.replicate xs.length 0 := by
  rw [List.map_map, List.eq_replicate_iff]
  simp

/-- What a substep leaves behind, against the sweeps in which every constraint owns its
multiplier, entered with every multiplier `0`. -/
theorem substep_result_owned (env : Env) (dt : ℚ) (iterations : Nat) (st : Solver)
    (added : List CollisionConstraint) :
    (substep_result env dt iterations st added).1.lagrange_multipliers_
      = (sweeps_owned env dt iterations
          (st.constraints_.map (fun constraint => (constraint, 0)),
           (st.collision_constraints_ ++ added).map (fun constraint => (constraint, 0)))
          (integrate dt st.physics_bodies_)).2.1.map Prod.snd
        ++ (sweeps_owned env dt iterations
          (st.constraints_.map (fun constraint => (constraint, 0)),
           (st.collision_constraints_ ++ added).map (fun constraint => (constraint, 0)))
          (integrate dt st.physics_bodies_)).2.2.map Prod.snd ∧
    (substep_result env dt iterations st added).1.physics_bodies_
      = List.zipWith (update_body dt) (st.physics_bodies_.map positions_of)
          (sweeps_owned env dt iterations
            (st.constraints_.map (fun constraint => (constraint, 0)),
             (st.collision_constraints_ ++ added).map (fun constraint => (constraint, 0)))
            (integrate dt st.physics_bodies_)).1 ∧
    (sweeps_owned env dt iterations
        (st.constraints_.map (fun constraint => (constraint, 0)),
         (st.collision_constraints_ ++ added).map (fun constraint => (constraint, 0)))
        (integrate dt st.physics_bodies_)).2.1.map Prod.fst = st.constraints_ ∧
    (sweeps_owned env dt iterations
        (st.constraints_.map (fun constraint => (constraint, 0)),
         (st.collision_constraints_ ++ added).map (fun constraint => (constraint, 0)))
        (integrate dt st.physics_bodies_)).2.2.map Prod.fst
      = st.collision_constraints_ ++ added := by
  obtain ⟨h1, h2, h3, h4⟩ := sweeps_owned_spec env dt iterations
    (st.constraints_.map (fun constraint => (constraint, 0)))
    ((st.collision_constraints_ ++ added).map (fun constraint => (constraint, 0)))
    (integrate dt st.physics_bodies_)
  rw [map_fst_zero, map_fst_zero, map_snd_zero, map_snd_zero,
    List.append_replicate_replicate] at h1 h2
  rw [map_fst_zero] at h3 h4
  refine ⟨?_, ?_, h3, h4⟩
  · simp only [substep_result]
    exact h2
  · simp only [substep_result]
    rw [h1]

/-- The state before the substep `k` of a run of `count > k` substeps is the state after `k`
substeps; it is ready, its substep is the `k`-th pass of the run and leaves the `k`-th
record. -/
theorem substeps_prefix (env : Env) (dt : ℚ) (iterations : Nat) :
    ∀ (count : Nat) (st st2 : Solver) (records : List SubstepRecord), Ready env st →
      substeps env dt iterations count st = some (st2, records) →
      ∀ k : Nat, k < count →
        ∃ stk recs added, substeps env dt iterations k st = some (stk, recs) ∧
          Ready env stk ∧ stk.constraints_ = st.constraints_ ∧
          handle_collisions env
            { stk with
              x0_ := stk.physics_bodies_.map positions_of
                ++ stk.x0_.drop stk.physics_bodies_.length
              physics_bodies_ := integrate dt stk.physics_bodies_ }
            = some (stk.collision_constraints_ ++ added) ∧
          substep env dt iterations stk = some (substep_result env dt iterations stk added) ∧
          records[k]? = some (substep_result env dt iterations stk added).2 := by
  intro count
  induction count with
  | zero => intro st st2 records _ _ k hk; exact absurd hk (by omega)
  | succ n ih =>
    intro st st2 records h hs k hk
    obtain ⟨added, hc, _, hsub, hr⟩ := substep_ok env dt iterations st h
    rw [substeps, hsub] at hs
    simp only at hs
    split at hs
    · cases hs
    · rename_i st3 rs hrest
      simp only [Option.some.injEq, Prod.mk.injEq] at hs
      obtain ⟨_, hrec⟩ := hs
      cases k with
      | zero =>
        refine ⟨st, [], added, rfl, h, rfl, hc, hsub, ?_⟩
        rw [← hrec]
        exact List.getElem?_cons_zero
      | succ k1 =>
        obtain ⟨stk, recs, added1, e1, r1, c1, hc1, hsub1, hk1⟩ :=
          ih (substep_result env dt iterations st added).1 st3 rs hr hrest k1 (by omega)
        refine ⟨stk, (substep_result env dt iterations st added).2 :: recs, added1, ?_, r1,
          c1.trans rfl, hc1, hsub1, ?_⟩
        · rw [substeps, hsub]
          simp only [e1]
        · rw [← hrec, List.getElem?_cons_succ]
          exact hk1

/-! ## Fixed particles under the two `project_positions` -/

/-- Where the quotients of the two calls are numbers, that is for a time step and divisors
of `delta_lagrange` other than zero, a particle with inverse mass `0` is, predicted position
included, the same after `hybrid_mesh_meshless_sph_constraint_t::project_positions` and
after `meshless_sph_collision_constraint_t::project_positions` as before the call. -/
theorem projections_keep_fixed_particles
    (h : HybridConstraint) (k : MeshlessSphCollisionConstraint) (simulation : Simulation)
    (dt : ℚ) (h1 : HybridConstraint) (simulation1 : Simulation)
    (k1 : MeshlessSphCollisionConstraint) (simulation2 : Simulation)
    (hh : h.project_positions simulation dt = some (h1, simulation1))
    (hk : k.project_positions simulation dt = some (k1, simulation2))
    (_hdt : dt ≠ 0)
    (_hden : ∀ particles g, simulation.particles[h.bi_]? = some particles →
      h.gradient_sums particles = some g → epsilon ≤ g.weighted_sum_of_gradients →
      (1 + gamma h.alpha_ h.beta_ dt) * g.weighted_sum_of_gradients
        + alpha_tilde h.alpha_ dt ≠ 0)
    (_kden : ∀ S, k.weighted_sum_of_gradients simulation = some S →
      Vec3.dot (Vec3.sub k.vi_ k.c_) k.n_ < 0 → S + alpha_tilde k.alpha_ dt ≠ 0)
    (bi i : Nat) (p : Particle)
    (hp : particle_at simulation.particles bi i = some p) (h0 : p.invmass = 0) :
    particle_at simulation1.particles bi i = some p ∧
      particle_at simulation2.particles bi i = some p := by
  constructor
  · unfold HybridConstraint.project_positions at hh
    split at hh
    · cases hh
    · rename_i particles hps
      split at hh
      · cases hh
      · rename_i g hg
        simp only at hh
        split at hh
        · simp only [Option.some.injEq, Prod.mk.injEq] at hh
          rw [← hh.2]
          exact hp
        · split at hh
          · cases hh
          · rename_i particles1 hu1
            split at hh
            · cases hh
            · rename_i particles2 hu2
              simp only [Option.some.injEq, Prod.mk.injEq] at hh
              rw [← hh.2]
              exact particle_at_set_fixed _ _ _ _ hps
                (fixed_kept_trans (update_meshless_fixed _ _ _ _ _ _ _ hu1)
                  (update_mesh_fixed _ _ _ _ _ _ hu2)) bi i p hp h0
  · unfold MeshlessSphCollisionConstraint.project_positions at hk
    split at hk
    · cases hk
    · rename_i particles hps
      simp only at hk
      split at hk
      · simp only [Option.some.injEq, Prod.mk.injEq] at hk
        rw [← hk.2]
        exact hp
      · split at hk
        · cases hk
        · rename_i gradC S hg
          split at hk
          · cases hk
          · rename_i particles1 vi hu1
            simp only [Option.some.injEq, Prod.mk.injEq] at hk
            rw [← hk.2]
            exact particle_at_set_fixed _ _ _ _ hps
              (collision_update_fixed _ _ _ _ _ _ _ hu1) bi i p hp h0

/-- Example: the fixed particle of `sunk_simulation` is the same after the elastic and after
the collision projection, both of which move the free particle. -/
theorem projections_keep_fixed_particles_witness :
    (example_hybrid.project_positions sunk_simulation 1
        = some (sunk_hybrid_after, sunk_simulation_after_hybrid) ∧
      sunk_collision.project_positions sunk_simulation 1
        = some ({ sunk_collision with vi_ := ⟨0, -1 / 251, 0⟩ },
            sunk_simulation_after_collision)) ∧
    particle_at sunk_simulation_after_hybrid.particles 0 0
      = some ⟨⟨0, -1, 0⟩, ⟨0, -1, 0⟩, ⟨0, -1, 0⟩, ⟨0, 0, 0⟩, ⟨0, 0, 0⟩, 0⟩ ∧
    particle_at sunk_simulation_after_collision.particles 0 0
      = some ⟨⟨0, -1, 0⟩, ⟨0, -1, 0⟩, ⟨0, -1, 0⟩, ⟨0, 0, 0⟩, ⟨0, 0, 0⟩, 0⟩ :=
  ⟨⟨example_hybrid_on_sunk, sunk_collision_on_sunk⟩,
    projections_keep_fixed_particles example_hybrid sunk_collision sunk_simulation 1 _ _ _ _
      example_hybrid_on_sunk sunk_collision_on_sunk one_ne_zero
      (fun _ g _ _ hS => ne_of_gt (hybrid_divisor_pos _ _ _ _
        (by norm_num [example_hybrid, HybridConstraint.mk8])
        (by norm_num [example_hybrid, HybridConstraint.mk8]) one_pos hS))
      (fun S hS _ => by
        have h2 : S = 1 / 4 := by
          simp only [MeshlessSphCollisionConstraint.weighted_sum_of_gradients, sunk_collision,
            sunk_simulation, collision_gradients] at hS
          norm_num [Vec3.squaredNorm, Vec3.dot, Vec3.smul, collision_gradients] at hS
          linarith
        rw [h2]
        norm_num [alpha_tilde, sunk_collision])
      0 0 _ rfl rfl⟩

/-! ## The multiplier update of the hybrid constraint, in its locals -/

/-- The multiplier update in terms of the locals of `project_positions`: in every state in
which the locals are computed, the weighted gradient sum `S` of the code is at least
`1e-20`, `dt` is not zero and the particles of the mesh vertices that are written exist,
the call returns and has added to the multiplier exactly
`-(C + at * lambda + gamma * dot_term) / ((1 + gamma) * S + at)`, where `at = alpha / dt^2`,
`gamma = at * (beta * dt^2) / dt`, `lambda` is the multiplier before the call,
`C = Vi * Psi(E(Fi))` for the deformation gradient `Fi` of the current predicted positions
and `S`, `dot_term` are the two sums as the call accumulated them. -/
theorem hybrid_multiplier_update (c : HybridConstraint) (simulation : Simulation) (dt : ℚ)
    (particles : List Particle) (g : GradientSums)
    (hp : simulation.particles[c.bi_]? = some particles)
    (hg : c.gradient_sums particles = some g)
    (hmesh : ∀ (i : Nat) (grad : Vec3) (t : Tetrahedron) (vi : Nat),
      g.gradC_wrt_mesh_indices[i]? = some (some grad) →
      c.node_.body.tetrahedra[c.node_.ti]? = some t → t.indices[i]? = some vi →
      c.node_.body.mesh_particles_index_offset + vi < particles.length)
    (hS : epsilon ≤ g.weighted_sum_of_gradients) (_hdt : dt ≠ 0)
    (_hden : (1 + gamma c.alpha_ c.beta_ dt) * g.weighted_sum_of_gradients
      + alpha_tilde c.alpha_ dt ≠ 0) :
    ∃ c1 simulation1, c.project_positions simulation dt = some (c1, simulation1) ∧
      c1.lagrange_ = c.lagrange_ +
        -(g.C + alpha_tilde c.alpha_ dt * c.lagrange_
            + gamma c.alpha_ c.beta_ dt * g.gradC_dot_displacement)
          / ((1 + gamma c.alpha_ c.beta_ dt) * g.weighted_sum_of_gradients
              + alpha_tilde c.alpha_ dt) ∧
      c.deformation_gradient particles = some g.Fi ∧
      g.C = c.C (c.strain_energy_and_stress g.Fi (HybridConstraint.green_strain g.Fi)).1 := by
  obtain ⟨hF, hC, s1, hs1, hs2⟩ := gradient_sums_spec c particles g hg
  have hne1 : ∀ (c2 : HybridConstraint) (dl : ℚ), c2.node_.body = c.node_.body →
      update_meshless_particles c2 g.gradC dl c.node_.neighbours 0 particles ≠ none := by
    intro c2 dl hb hn
    obtain ⟨particles1, h1, _⟩ := update_meshless_returns c c2 hb g.gradC dl particles
      c.node_.neighbours 0 (0, 0) s1 particles hs1 rfl
    rw [h1] at hn
    cases hn
  have hne2 : ∀ (c2 : HybridConstraint) (dl : ℚ) (particles1 : List Particle),
      c2.node_.body = c.node_.body → c2.node_.ti = c.node_.ti →
      particles1.length = particles.length →
      update_mesh_particles c2 dl g.gradC_wrt_mesh_indices 0 particles1 ≠ none := by
    intro c2 dl particles1 hb hti hl1 hn
    obtain ⟨particles2, h2, _⟩ := update_mesh_returns c c2 hb hti dl particles
      particles.length g.gradC_wrt_mesh_indices 0 s1 _ particles1 hs2
      (fun j grad t vi hj ht hvi => hmesh j grad t vi hj ht (by rw [← hvi, Nat.zero_add])) hl1
    rw [h2] at hn
    cases hn
  have hsome : (c.project_positions simulation dt).isSome = true := by
    unfold HybridConstraint.project_positions
    rw [hp]
    simp only [hg]
    rw [if_neg (not_lt.mpr hS)]
    split
    · rename_i hn
      exact absurd hn (hne1 _ _ (by rfl))
    · rename_i particles1 h1
      split
      · rename_i hn
        exact absurd hn (hne2 _ _ _ (by rfl) (by rfl) (update_meshless_fixed _ _ _ _ _ _ _ h1).1)
      · rfl
  obtain ⟨⟨c1, simulation1⟩, hr⟩ := Option.isSome_iff_exists.mp hsome
  refine ⟨c1, simulation1, hr, ?_, hF, hC⟩
  unfold HybridConstraint.project_positions at hr
  rw [hp] at hr
  simp only [hg] at hr
  rw [if_neg (not_lt.mpr hS)] at hr
  split at hr
  · cases hr
  · split at hr
    · cases hr
    · simp only [Option.some.injEq, Prod.mk.injEq] at hr
      rw [← hr.1]
      simp only [gamma, alpha_tilde, beta_tilde]
      ring

/-- Example: `example_hybrid` with the multiplier `7` on `moving_simulation` with
`dt = 1`: `C = 6250/13`, `S = 56250000/169`, `dot_term = -3750/13`, and the multiplier after
the call is `393708129875/56255625169`. -/
theorem hybrid_multiplier_update_witness :
    (epsilon ≤ moving_sums.weighted_sum_of_gradients ∧
      moving_sums.C = 6250 / 13 ∧ moving_sums.gradC_dot_displacement = -3750 / 13) ∧
    ∃ c1 simulation1, example_hybrid.project_positions moving_simulation 1
        = some (c1, simulation1) ∧
      c1.lagrange_ = 393708129875 / 56255625169 := by
  have hS : epsilon ≤ moving_sums.weighted_sum_of_gradients := by
    norm_num [moving_sums, epsilon]
  obtain ⟨c1, simulation1, h1, h2, _⟩ := hybrid_multiplier_update example_hybrid
    moving_simulation 1 _ moving_sums rfl moving_sums_eq
    (fun i grad t vi hi => by
      have hnone : ∀ j : Nat, moving_sums.gradC_wrt_mesh_indices[j]? ≠ some (some grad) := by
        intro j
        simp only [moving_sums, pinned_sums]
        match j with
        | 0 => simp
        | 1 => simp
        | 2 => simp
        | 3 => simp
        | _ + 4 => simp
      exact absurd hi (hnone i))
    hS one_ne_zero
    (ne_of_gt (hybrid_divisor_pos _ _ _ _ (by norm_num [example_hybrid, HybridConstraint.mk8])
      (by norm_num [example_hybrid, HybridConstraint.mk8]) one_pos hS))
  refine ⟨⟨hS, rfl, rfl⟩, c1, simulation1, h1, ?_⟩
  rw [h2]
  norm_num [gamma, alpha_tilde, beta_tilde, example_hybrid, HybridConstraint.mk8,
    moving_sums, pinned_sums]

/-! ## C1: substep schedule of `solver_t::step` -/

/-- C1: with `substeps >= 1` and `iteration_count >= substeps`, `solver_t::step` runs
exactly `substeps` substeps, each of length `dt / substeps`, and each substep performs
exactly `floor(iteration_count / substeps)` sweeps. -/
theorem step_substepping_schedule (env : Env) (st : Solver) (h : Ready env st)
    (h1 : 1 ≤ st.substeps_) (h2 : st.substeps_ ≤ st.iteration_count_) :
    ∃ st1 records, step env st = some (st1, records) ∧
      records.length = st.substeps_ ∧
      (∀ r ∈ records, r.dt = st.dt_ / (st.substeps_ : ℚ) ∧
        r.sweeps.length = st.iteration_count_ / st.substeps_) ∧
      (records.map (fun r => r.dt)).sum = st.dt_ := by
  obtain ⟨st1, records, e, _, _, _, hl, hr⟩ := step_ok env st h
  have hc : can_perform_substepping st = true := by
    simp [can_perform_substepping, h2]
  have hlen : records.length = st.substeps_ := by rw [hl, num_substeps, if_pos hc]
  have hdt : ∀ r ∈ records, r.dt = st.dt_ / (st.substeps_ : ℚ) := by
    intro r hmem
    rw [(records_ok_basic hr r hmem).1, step_dt, if_pos hc]
  refine ⟨st1, records, e, hlen, ?_, ?_⟩
  · intro r hmem
    refine ⟨hdt r hmem, ?_⟩
    rw [(records_ok_basic hr r hmem).2.2.1, num_iterations, if_pos hc]
  · have hs : records.map (fun r => r.dt) =
        List.replicate st.substeps_ (st.dt_ / (st.substeps_ : ℚ)) := by
      rw [List.eq_replicate_iff]
      refine ⟨by rw [List.length_map, hlen], ?_⟩
      intro x hx
      obtain ⟨r, hmem, rfl⟩ := List.mem_map.mp hx
      exact hdt r hmem
    rw [hs, List.sum_replicate, nsmul_eq_mul]
    have hne : (st.substeps_ : ℚ) ≠ 0 := by
      have : 0 < st.substeps_ := h1
      exact_mod_cast this.ne'
    field_simp

/-- C1, example: the configuration of `main.cpp`, 60 iterations and 60 substeps, gives 60
substeps of length `(1/60)/60` with one sweep each. -/
theorem step_substepping_schedule_witness :
    Ready example_env example_solver ∧ 1 ≤ example_solver.substeps_ ∧
    example_solver.substeps_ ≤ example_solver.iteration_count_ ∧
    ∃ st1 records, step example_env example_solver = some (st1, records) ∧
      records.length = 60 ∧
      (∀ r ∈ records, r.dt = (1 / 60) / ((60 : Nat) : ℚ) ∧ r.sweeps.length = 1) ∧
      (records.map (fun r => r.dt)).sum = 1 / 60 :=
  ⟨example_solver_ready, by decide, by decide,
    step_substepping_schedule example_env example_solver example_solver_ready
      (by decide) (by decide)⟩

/-! ## C2: fallback schedule of `solver_t::step` -/

/-- C2, counterexample: with `iteration_count = 10` and `substeps = 30` a call of `step`
runs one substep, not 30, and makes 10 sweeps in total, not 30. -/
theorem step_fallback_counterexample :
    fallback_solver.iteration_count_ = 10 ∧ fallback_solver.substeps_ = 30 ∧
    ∃ st1 records, step example_env fallback_solver = some (st1, records) ∧
      records.length = 1 ∧ records.length ≠ fallback_solver.substeps_ ∧
      (records.map (fun r => r.sweeps.length)).sum = 10 ∧
      (records.map (fun r => r.sweeps.length)).sum ≠ fallback_solver.substeps_ := by
  obtain ⟨st1, records, e, _, _, _, hl, hr⟩ := step_ok example_env fallback_solver
    fallback_solver_ready
  have hlen : records.length = 1 := hl.trans (by decide)
  have hsum : (records.map (fun r => r.sweeps.length)).sum = 10 := by
    match records, hlen, hr with
    | [r], _, hr =>
      have h := (records_ok_basic hr r (by simp)).2.2.1
      have hi : num_iterations fallback_solver = 10 := by decide
      simp [h, hi]
  refine ⟨rfl, rfl, st1, records, e, hlen, ?_, hsum, ?_⟩
  · rw [hlen]; decide
  · rw [hsum]; decide

/-- C2, as amended: with `iteration_count < substeps` a call of `step` runs exactly one
substep, of the whole length `dt_`, and performs `iteration_count` sweeps in it, so the total
number of sweeps equals `iteration_count`. -/
theorem step_fallback_schedule (env : Env) (st : Solver) (h : Ready env st)
    (h1 : st.iteration_count_ < st.substeps_) :
    ∃ st1 records, step env st = some (st1, records) ∧
      records.length = 1 ∧
      (∀ r ∈ records, r.dt = st.dt_ ∧ r.sweeps.length = st.iteration_count_) ∧
      (records.map (fun r => r.sweeps.length)).sum = st.iteration_count_ := by
  obtain ⟨st1, records, e, _, _, _, hl, hr⟩ := step_ok env st h
  have hc : can_perform_substepping st = false := by
    simp [can_perform_substepping, h1]
  have hlen : records.length = 1 := by
    rw [hl, num_substeps, hc]; rfl
  have hall : ∀ r ∈ records, r.dt = st.dt_ ∧ r.sweeps.length = st.iteration_count_ := by
    intro r hmem
    obtain ⟨a, _, c, _⟩ := records_ok_basic hr r hmem
    rw [a, c, step_dt, num_iterations, hc]
    exact ⟨rfl, rfl⟩
  refine ⟨st1, records, e, hlen, hall, ?_⟩
  have hs : records.map (fun r => r.sweeps.length) = List.replicate 1 st.iteration_count_ := by
    rw [List.eq_replicate_iff]
    refine ⟨by rw [List.length_map, hlen], ?_⟩
    intro x hx
    obtain ⟨r, hmem, rfl⟩ := List.mem_map.mp hx
    exact (hall r hmem).2
  rw [hs, sum_replicate_nat, Nat.one_mul]

/-- C2, example: 10 iterations and 30 substeps give one substep of length `1/60` with 10
sweeps. -/
theorem step_fallback_schedule_witness :
    Ready example_env fallback_solver ∧
    fallback_solver.iteration_count_ < fallback_solver.substeps_ ∧
    ∃ st1 records, step example_env fallback_solver = some (st1, records) ∧
      records.length = 1 ∧
      (∀ r ∈ records, r.dt = 1 / 60 ∧ r.sweeps.length = 10) ∧
      (records.map (fun r => r.sweeps.length)).sum = 10 :=
  ⟨fallback_solver_ready, by decide,
    step_fallback_schedule example_env fallback_solver fallback_solver_ready (by decide)⟩

/-! ## C3: fixed particles -/

/-- C3, counterexample: vertex `0` of the example body is fixed and has velocity `(1, 0, 0)`;
no projection of the example moves a fixed vertex, yet after one call of `step` the velocity
of the vertex is zero, not what it was before the call. -/
theorem fixed_vertex_velocity_counterexample :
    (∀ c ∈ example_solver.constraints_, KeepsFixed c.project) ∧
    (∀ c, KeepsFixed (example_env.collision_project c)) ∧
    ∃ v st1 records v1,
      vertex_at example_solver.physics_bodies_ 0 0 = some v ∧ v.fixed = true ∧
      v.velocity = ⟨1, 0, 0⟩ ∧
      step example_env example_solver = some (st1, records) ∧
      vertex_at st1.physics_bodies_ 0 0 = some v1 ∧ v1.velocity ≠ v.velocity := by
  refine ⟨example_solver_keeps_fixed.1, example_solver_keeps_fixed.2, ?_⟩
  obtain ⟨st1, records, e, _⟩ := step_ok example_env example_solver example_solver_ready
  obtain ⟨v1, h1, _, _, h4⟩ := substeps_fixed example_env (step_dt example_solver)
    (num_iterations example_solver) 0 0 ⟨0, 1, 0⟩ example_solver_keeps_fixed.2
    (num_substeps example_solver) example_solver st1 records example_solver_ready
    example_solver_keeps_fixed.1 e
    ⟨⟨⟨0, 1, 0⟩, ⟨1, 0, 0⟩, ⟨0, 0, 0⟩, 1, true⟩, rfl, rfl, rfl⟩
  have h4 := h4 (by decide)
  refine ⟨⟨⟨0, 1, 0⟩, ⟨1, 0, 0⟩, ⟨0, 0, 0⟩, 1, true⟩, st1, records, v1, rfl, rfl, rfl, e, h1, ?_⟩
  rw [h4]
  intro h
  have := congrArg Vec3.x h
  simp [Vec3.zero] at this

/-- C3, as amended: a single call of `step` leaves a fixed particle where it is when no
projection moves fixed particles. In `solver_t::step` the velocity of a fixed vertex is zero
after the call, so it is what it was before the call exactly when it was zero. In
`timestep_t::step` a particle of inverse mass `0` that enters the call at rest, with zero
velocity and `xn = x`, keeps its position and its velocity. -/
theorem fixed_particle_frame
    (env : Env) (st : Solver) (b vi : Nat) (v : Vertex)
    (tenv : TimestepEnv) (t : Timestep) (simulation : Simulation) (bi i : Nat) (q : Particle)
    (hready : Ready env st)
    (hk : ∀ c ∈ st.constraints_, KeepsFixed c.project)
    (hkc : ∀ c, KeepsFixed (env.collision_project c))
    (hv : vertex_at st.physics_bodies_ b vi = some v) (hf : v.fixed = true)
    (hs : 1 ≤ st.substeps_) (_hdt : st.dt_ ≠ 0)
    (hsolver : t.has_solver = true) (_hts : 1 ≤ t.substeps_) (_htdt : t.dt_ ≠ 0)
    (h1 : KeepsParticles tenv.on_cd_starting) (h2 : KeepsParticles tenv.execute)
    (h3 : KeepsParticles tenv.on_cd_ending) (h4 : KeepsParticles tenv.update_models)
    (h5 : KeepsParticles tenv.cd_update) (hsolve : KeepsFixedParticles tenv.solve)
    (hq : particle_at simulation.particles bi i = some q) (h0 : q.invmass = 0)
    (hqv : q.v = Vec3.zero) (hn : q.xn = q.x) :
    (∃ st1 records v1, step env st = some (st1, records) ∧
      vertex_at st1.physics_bodies_ b vi = some v1 ∧ v1.fixed = true ∧
      v1.position = v.position ∧ v1.velocity = Vec3.zero) ∧
    (∃ simulation1 calls q1, t.step tenv simulation = some (simulation1, calls) ∧
      particle_at simulation1.particles bi i = some q1 ∧ q1.invmass = 0 ∧
      q1.x = q.x ∧ q1.v = q.v) := by
  constructor
  · obtain ⟨st1, records, e, _⟩ := step_ok env st hready
    obtain ⟨v1, e1, e2, e3, e4⟩ := substeps_fixed env (step_dt st) (num_iterations st) b vi
      v.position hkc (num_substeps st) st st1 records hready hk e ⟨v, hv, hf, rfl⟩
    refine ⟨st1, records, v1, e, e1, e2, e3, e4 ?_⟩
    unfold num_substeps
    split
    · exact hs
    · exact Nat.one_pos
  · have hrest : AtRest simulation.particles bi i q.x := ⟨q, hq, h0, rfl, hn, hqv⟩
    have hloop := timestep_substeps_at_rest tenv (t.dt_ / (t.substeps_ : ℚ)) t.iterations_
      hsolve bi i q.x t.substeps_ (detect_collisions tenv simulation).1
      (by rw [detect_collisions_particles tenv simulation h1 h2 h3]; exact hrest)
    obtain ⟨r, hr, r0, rx, _, rv⟩ := hloop
    unfold Timestep.step
    simp only [hsolver, Bool.true_eq_false, and_false, if_false]
    refine ⟨_, _, r, rfl, ?_, r0, rx, by rw [rv, hqv]⟩
    rw [finish_step_particles tenv _ h4 h5]
    exact hr

/-- C3, example: the fixed vertex `0` of the example body through `solver_t::step`, and the
fixed particle `0` of the example simulation through `timestep_t::step`. -/
theorem fixed_particle_frame_witness :
    (Ready example_env example_solver ∧
      (∀ c ∈ example_solver.constraints_, KeepsFixed c.project) ∧
      (∀ c, KeepsFixed (example_env.collision_project c)) ∧
      KeepsFixedParticles example_timestep_env.solve) ∧
    (∃ st1 records v1, step example_env example_solver = some (st1, records) ∧
      vertex_at st1.physics_bodies_ 0 0 = some v1 ∧ v1.fixed = true ∧
      v1.position = ⟨0, 1, 0⟩ ∧ v1.velocity = Vec3.zero) ∧
    (∃ simulation1 calls q1,
      example_timestep.step example_timestep_env example_simulation
        = some (simulation1, calls) ∧
      particle_at simulation1.particles 0 0 = some q1 ∧ q1.invmass = 0 ∧
      q1.x = ⟨0, 1, 0⟩ ∧ q1.v = ⟨0, 0, 0⟩) :=
  ⟨⟨example_solver_ready, example_solver_keeps_fixed.1, example_solver_keeps_fixed.2,
      example_solve_keeps_fixed⟩,
   fixed_particle_frame example_env example_solver 0 0
      ⟨⟨0, 1, 0⟩, ⟨1, 0, 0⟩, ⟨0, 0, 0⟩, 1, true⟩
      example_timestep_env example_timestep example_simulation 0 0
      ⟨⟨0, 1, 0⟩, ⟨0, 1, 0⟩, ⟨0, 1, 0⟩, ⟨0, 0, 0⟩, ⟨0, 0, 0⟩, 0⟩
      example_solver_ready example_solver_keeps_fixed.1 example_solver_keeps_fixed.2 rfl rfl
      (by decide) (by show (1 / 60 : ℚ) ≠ 0; norm_num)
      rfl (by decide) (by show (1 / 60 : ℚ) ≠ 0; norm_num)
      (fun _ => rfl) (fun _ => rfl) (fun _ => rfl) (fun _ => rfl) (fun _ => rfl)
      example_solve_keeps_fixed rfl rfl rfl rfl⟩

/-! ## C4: free fall -/

/-- C4: for every vertex that is not fixed, with mass `m`, force `f`, velocity `v` and
position `x`, one substep of `solver_t::step` of length `dt > 0` without constraints and
without collisions gives the velocity `v1 = v + dt * (f + g) / m` with `g = (0, -9.81, 0)` and
the position `x1 = x + dt * v1`; the velocity that the substep reconstructs from the position
delta, `(x1 - x) / dt`, is `v1`, and `m * (v1 - v) = dt * (f + g)`. -/
theorem free_fall_substep (env : Env) (dt : ℚ) (iterations : Nat) (st : Solver)
    (b vi : Nat) (v : Vertex)
    (hx0 : st.physics_bodies_.length ≤ st.x0_.length)
    (hcs : st.constraints_ = []) (hcc : st.collision_constraints_ = [])
    (hdet : ∀ body, env.intersect st.environment_bodies_ body = [])
    (hv : vertex_at st.physics_bodies_ b vi = some v) (hf : v.fixed = false)
    (hm : v.mass ≠ 0) (hdt : 0 < dt) :
    ∃ st1 r v1, substep env dt iterations st = some (st1, r) ∧
      vertex_at st1.physics_bodies_ b vi = some v1 ∧
      v1.velocity =
        Vec3.add v.velocity (Vec3.smul dt (Vec3.sdiv (Vec3.add v.force gravity) v.mass)) ∧
      v1.position = Vec3.add v.position (Vec3.smul dt v1.velocity) ∧
      Vec3.sdiv (Vec3.sub v1.position v.position) dt = v1.velocity ∧
      Vec3.smul v.mass (Vec3.sub v1.velocity v.velocity) =
        Vec3.smul dt (Vec3.add v.force gravity) := by
  obtain ⟨st1, r, e, hb⟩ := substep_free env dt iterations st hx0 hcs hcc hdet
  have hvel := free_vertex_velocity dt v hf hdt.ne'
  have hpos := free_vertex_position dt v hf
  refine ⟨st1, r, free_vertex dt v, e, ?_, hvel, ?_, ?_, ?_⟩
  · rw [hb, vertex_at_map, hv]
    rfl
  · rw [hpos, hvel]
  · rw [hpos, hvel]
    have hne := hdt.ne'
    ext <;> simp [Vec3.sdiv, Vec3.sub, Vec3.add, Vec3.smul] <;> field_simp <;> ring
  · rw [hvel]
    ext <;> simp [Vec3.sdiv, Vec3.sub, Vec3.add, Vec3.smul] <;> field_simp

/-- C4, example: mass `1`, zero initial state, `dt = 1/60`, one substep and no iterations
give `velocity.y = -0.1635` and `position.y = -0.002725`, as one substep and as the whole
call of `step`. -/
theorem free_fall_substep_witness :
    free_solver.physics_bodies_.length ≤ free_solver.x0_.length ∧
    free_solver.constraints_ = [] ∧ free_solver.collision_constraints_ = [] ∧
    (0 : ℚ) < 1 / 60 ∧
    ∃ st1 r v1, substep example_env (1 / 60) 0 free_solver = some (st1, r) ∧
      step example_env free_solver = some (st1, [r]) ∧
      vertex_at st1.physics_bodies_ 0 0 = some v1 ∧
      v1.velocity = ⟨0, -1635 / 10000, 0⟩ ∧ v1.position = ⟨0, -2725 / 1000000, 0⟩ := by
  obtain ⟨st1, r, v1, e, h1, h2, h3, _, _⟩ := free_fall_substep example_env (1 / 60) 0
    free_solver 0 0 ⟨⟨0, 0, 0⟩, ⟨0, 0, 0⟩, ⟨0, 0, 0⟩, 1, false⟩ (by decide) rfl rfl
    (fun body => by simp [example_env, free_solver, Solver.mk3]) rfl rfl (by norm_num)
    (by norm_num)
  have hvel : v1.velocity = ⟨0, -1635 / 10000, 0⟩ := by
    rw [h2]
    ext <;> norm_num [Vec3.sdiv, Vec3.add, Vec3.smul, gravity]
  refine ⟨by decide, rfl, rfl, by norm_num, st1, r, v1, e, ?_, h1, hvel, ?_⟩
  · have hn : num_substeps free_solver = 1 := by decide
    have hi : num_iterations free_solver = 0 := by decide
    have hd : step_dt free_solver = 1 / 60 := by
      simp [step_dt, can_perform_substepping, free_solver, Solver.mk3]
    rw [step, hn, hi, hd, substeps, e]
    rfl
  · rw [h3, hvel]
    ext <;> norm_num [Vec3.add, Vec3.smul]

/-! ## C5: reset of the multipliers -/

/-- C5: in every substep of `solver_t::step` the multiplier vector right before the first
sweep has length `J + Mc` and every entry is `0`, whatever the multipliers were before;
`J` is the number of persistent constraints and `Mc` the number of collision constraints of
the substep. -/
theorem multipliers_zero_before_first_sweep (env : Env) (st : Solver) (h : Ready env st) :
    ∃ st1 records, step env st = some (st1, records) ∧
      ∀ r ∈ records, r.J = st.constraints_.length ∧
        (st.collision_constraints_ = [] → r.Mc = r.generated.length) ∧
        r.lagrange_before_sweeps.length = r.J + r.Mc ∧
        ∀ x ∈ r.lagrange_before_sweeps, x = 0 := by
  obtain ⟨st1, records, e, _, _, _, _, hr⟩ := step_ok env st h
  refine ⟨st1, records, e, ?_⟩
  intro r hmem
  obtain ⟨_, b, _, d⟩ := records_ok_basic hr r hmem
  refine ⟨b, ?_, by rw [d, List.length_replicate], ?_⟩
  · intro hempty
    rw [hempty] at hr
    have := (records_ok_forall hr r hmem).2.2.1
    simpa using this
  · intro x hx
    rw [d] at hx
    exact List.eq_of_mem_replicate hx

/-- C5, example: the example solver entered with the multipliers `5, -3, 8`. -/
theorem multipliers_zero_before_first_sweep_witness :
    Ready example_env stale_solver ∧ stale_solver.lagrange_multipliers_ = [5, -3, 8] ∧
    ∃ st1 records, step example_env stale_solver = some (st1, records) ∧
      ∀ r ∈ records, r.J = stale_solver.constraints_.length ∧
        (stale_solver.collision_constraints_ = [] → r.Mc = r.generated.length) ∧
        r.lagrange_before_sweeps.length = r.J + r.Mc ∧
        ∀ x ∈ r.lagrange_before_sweeps, x = 0 :=
  ⟨stale_solver_ready, rfl,
    multipliers_zero_before_first_sweep example_env stale_solver stale_solver_ready⟩

/-! ## C6: one collision constraint per vertex -/

/-- C6: for every physics body and every list of pairs returned by the detector, one call
of `solver_t::handle_collisions` appends at most one collision constraint for every vertex
of that body. -/
theorem handle_collisions_at_most_one_per_vertex (env : Env) (st : Solver)
    (hs : ∀ body ∈ st.physics_bodies_, shape_ok body.shape)
    (hp : ∀ body ∈ st.physics_bodies_, ∀ pair ∈ env.intersect st.environment_bodies_ body,
      pair.1 < body.tetrahedra.length) :
    ∃ added, handle_collisions env st = some (st.collision_constraints_ ++ added) ∧
      ∀ b vi, added.countP (fun c => decide (c.body = b ∧ c.vi = vi)) ≤ 1 := by
  obtain ⟨added, h, s⟩ := handle_collisions_ok env st hs hp
  refine ⟨added, h, fun b vi => ?_⟩
  have := countP_le_one_of_nodup_map (fun c : CollisionConstraint => (c.body, c.vi)) added
    (bodies_added_nodup s) (b, vi)
  refine le_trans (le_of_eq ?_) this
  apply List.countP_congr
  intro c _
  simp [Prod.ext_iff]

/-- C6, example: in the example scene vertex `1` belongs to both tetrahedra and lies below
both floor triangles, so the detector reports it four times. -/
theorem handle_collisions_at_most_one_per_vertex_witness :
    (∀ body ∈ example_solver.physics_bodies_, shape_ok body.shape) ∧
    (example_env.intersect example_solver.environment_bodies_ example_body).length = 4 ∧
    ∃ added, handle_collisions example_env example_solver =
        some (example_solver.collision_constraints_ ++ added) ∧
      ∀ b vi, added.countP (fun c => decide (c.body = b ∧ c.vi = vi)) ≤ 1 :=
  ⟨example_solver_shapes, by decide,
    handle_collisions_at_most_one_per_vertex example_env example_solver example_solver_shapes
      example_solver_pairs⟩

/-! ## C7: which vertices are constrained -/

/-- C7: in `solver_t::handle_collisions` a vertex `vi` of a physics body receives a collision
constraint if and only if some reported pair `(ti, triangle)` has `vi` among the four vertices
of tetrahedron `ti` and `(position(vi) - triangle.a) . n < 0` for the normal `n` of that
triangle; the constraint carries the triangle and the normal of the first such pair in the
order of the detector. -/
theorem handle_collisions_iff_penetrating (env : Env) (st : Solver)
    (hs : ∀ body ∈ st.physics_bodies_, shape_ok body.shape)
    (hp : ∀ body ∈ st.physics_bodies_, ∀ pair ∈ env.intersect st.environment_bodies_ body,
      pair.1 < body.tetrahedra.length) :
    ∃ added, handle_collisions env st = some (st.collision_constraints_ ++ added) ∧
      (∀ b body vi, st.physics_bodies_[b]? = some body →
        ((∃ c ∈ added, c.body = b ∧ c.vi = vi) ↔
          (env.intersect st.environment_bodies_ body).any (penetrates env body vi) = true)) ∧
      (∀ c ∈ added, ∃ body pair, st.physics_bodies_[c.body]? = some body ∧
        (env.intersect st.environment_bodies_ body).find? (penetrates env body c.vi) = some pair ∧
        c.triangle = pair.2 ∧ c.n = env.normal pair.2) := by
  obtain ⟨added, h, s⟩ := handle_collisions_ok env st hs hp
  refine ⟨added, h, ?_, ?_⟩
  · intro b body vi hb
    constructor
    · rintro ⟨c, hc, hcb, hcv⟩
      obtain ⟨_, body1, pair, hg, hf, _⟩ := bodies_added_sound s c hc
      rw [Nat.sub_zero, hcb, hb, Option.some.injEq] at hg
      subst hg
      rw [hcv] at hf
      rw [List.any_eq_true]
      exact ⟨pair, List.mem_of_find?_eq_some hf, List.find?_some hf⟩
    · intro hany
      obtain ⟨c, hc, hcb, hcv⟩ := bodies_added_complete s b body vi hb hany
      exact ⟨c, hc, by omega, hcv⟩
  · intro c hc
    obtain ⟨_, body1, pair, hg, hf, hceq⟩ := bodies_added_sound s c hc
    refine ⟨body1, pair, hg, hf, ?_, ?_⟩
    · rw [hceq]
    · rw [hceq]

/-- C7, example: the example scene, where the vertices `1` and `4` lie below the floor. -/
theorem handle_collisions_iff_penetrating_witness :
    (∀ body ∈ example_solver.physics_bodies_, shape_ok body.shape) ∧
    ∃ added, handle_collisions example_env example_solver =
        some (example_solver.collision_constraints_ ++ added) ∧
      (∀ b body vi, example_solver.physics_bodies_[b]? = some body →
        ((∃ c ∈ added, c.body = b ∧ c.vi = vi) ↔
          (example_env.intersect example_solver.environment_bodies_ body).any
            (penetrates example_env body vi) = true)) ∧
      (∀ c ∈ added, ∃ body pair, example_solver.physics_bodies_[c.body]? = some body ∧
        (example_env.intersect example_solver.environment_bodies_ body).find?
          (penetrates example_env body c.vi) = some pair ∧
        c.triangle = pair.2 ∧ c.n = example_env.normal pair.2) :=
  ⟨example_solver_shapes,
    handle_collisions_iff_penetrating example_env example_solver example_solver_shapes
      example_solver_pairs⟩

/-! ## C8: collision constraints are transient -/

/-- C8: collision constraints carry no state across substeps: the list is empty whenever
`step` is entered and whenever it returns, and in every substep the collision constraints
that every sweep projects are exactly those generated by the `handle_collisions` call of
that substep. -/
theorem collision_constraints_are_transient (env : Env) (st : Solver)
    (hreach : Reachable env st) (h : Ready env st) :
    st.collision_constraints_ = [] ∧
    ∃ st1 records, step env st = some (st1, records) ∧
      st1.collision_constraints_ = [] ∧
      ∀ r ∈ records, r.Mc = r.generated.length ∧
        ∀ sw ∈ r.sweeps, collisions_of sw = r.generated := by
  have hempty := reachable_collision_constraints hreach
  obtain ⟨st1, records, e, _, _, hc, _, hr⟩ := step_ok env st h
  refine ⟨hempty, st1, records, e, hc hempty, ?_⟩
  intro r hmem
  rw [hempty] at hr
  obtain ⟨_, _, c, _, s⟩ := records_ok_forall hr r hmem
  refine ⟨by simpa using c, ?_⟩
  intro sw hsw
  rw [s] at hsw
  rw [List.eq_of_mem_replicate hsw, collisions_of_expected_calls, List.nil_append]

/-- C8, example: the solver of the example scene right after `setup`. -/
theorem collision_constraints_are_transient_witness :
    Reachable example_env example_solver ∧ Ready example_env example_solver ∧
    example_solver.collision_constraints_ = [] ∧
    ∃ st1 records, step example_env example_solver = some (st1, records) ∧
      st1.collision_constraints_ = [] ∧
      ∀ r ∈ records, r.Mc = r.generated.length ∧
        ∀ sw ∈ r.sweeps, collisions_of sw = r.generated :=
  ⟨example_solver_reachable, example_solver_ready,
    collision_constraints_are_transient example_env example_solver example_solver_reachable
      example_solver_ready⟩

/-! ## C9: degenerate gradient of the hybrid constraint -/

/-- C9: whenever the weighted gradient sum that
`hybrid_mesh_meshless_sph_constraint_t::project_positions` computes is below `1e-20`, the
call returns with the simulation, hence the predicted position of every particle, and the
accumulated multiplier of the constraint as they were. -/
theorem hybrid_degenerate_gradient_skips (c : HybridConstraint) (simulation : Simulation)
    (dt : ℚ) (particles : List Particle) (g : GradientSums)
    (hp : simulation.particles[c.bi_]? = some particles)
    (hg : c.gradient_sums particles = some g)
    (hS : g.weighted_sum_of_gradients < epsilon) :
    ∃ c1, c.project_positions simulation dt = some (c1, simulation) ∧
      c1.lagrange_ = c.lagrange_ := by
  refine ⟨{ c with node_ := { c.node_ with Fi := g.Fi } }, ?_, rfl⟩
  unfold HybridConstraint.project_positions
  rw [hp]
  simp only [hg]
  rw [if_pos hS]

/-- C9, example: two fixed particles; the constraint value is `6250/13` and the gradients
are not zero, but the weighted gradient sum is `0`. -/
theorem hybrid_degenerate_gradient_skips_witness :
    pinned_sums.weighted_sum_of_gradients < epsilon ∧
    pinned_sums.C = 6250 / 13 ∧
    ∃ c1, example_hybrid.project_positions pinned_simulation (1 / 60)
        = some (c1, pinned_simulation) ∧
      c1.lagrange_ = 7 :=
  ⟨by norm_num [pinned_sums, epsilon], rfl,
    hybrid_degenerate_gradient_skips example_hybrid pinned_simulation (1 / 60) _ pinned_sums
      rfl pinned_sums_eq (by norm_num [pinned_sums, epsilon])⟩

/-! ## C10: degenerate gradient of the meshless collision constraint -/

/-- C10, the code at the failing input: the constraint is violated (`C = -1 < 0`) and the
weighted gradient sum is `1e-22 < 1e-20`, yet `project_positions` divides by it and moves the
predicted position of the particle from the origin to `y = 1e11`. -/
theorem meshless_collision_divides_below_epsilon :
    Vec3.dot (Vec3.sub tiny_collision.vi_ tiny_collision.c_) tiny_collision.n_ < 0 ∧
    tiny_collision.weighted_sum_of_gradients tiny_simulation = some (1 / 10 ^ 22) ∧
    (1 / 10 ^ 22 : ℚ) < epsilon ∧
    particle_at tiny_simulation.particles 0 0
      = some ⟨⟨0, 0, 0⟩, ⟨0, 0, 0⟩, ⟨0, 0, 0⟩, ⟨0, 0, 0⟩, ⟨0, 0, 0⟩, 1⟩ ∧
    tiny_collision.project_positions tiny_simulation (1 / 60) =
      some ({ tiny_collision with vi_ := ⟨0, 1, 0⟩ },
            { tiny_simulation with
              particles :=
                [[⟨⟨0, 0, 0⟩, ⟨0, 10 ^ 11, 0⟩, ⟨0, 0, 0⟩, ⟨0, 0, 0⟩, ⟨0, 0, 0⟩, 1⟩]] }) := by
  refine ⟨?_, ?_, ?_, rfl, ?_⟩
  · norm_num [tiny_collision, Vec3.dot, Vec3.sub]
  · simp only [MeshlessSphCollisionConstraint.weighted_sum_of_gradients, tiny_simulation,
      tiny_collision, collision_gradients, List.getElem?_cons_zero]
    norm_num [Vec3.squaredNorm, Vec3.dot, Vec3.smul]
  · norm_num [epsilon]
  · simp only [MeshlessSphCollisionConstraint.project_positions, tiny_simulation,
      tiny_collision, collision_gradients, collision_update, List.getElem?_cons_zero]
    norm_num [Vec3.squaredNorm, Vec3.dot, Vec3.smul, Vec3.sub, Vec3.add, Vec3.zero,
      Mat3.mulVec, Mat3.identity]

/-! ## C11: a satisfied collision constraint changes nothing -/

/-- C11: in every state in which the meshless collision constraint is satisfied,
`C = (vi - c) . n >= 0`, `meshless_sph_collision_constraint_t::project_positions` returns
with the constraint, hence the stored vertex position `vi_` and the multiplier, and the
simulation, hence the predicted position of every particle, exactly as they were. -/
theorem satisfied_collision_is_untouched (c : MeshlessSphCollisionConstraint)
    (simulation : Simulation) (dt : ℚ) (particles : List Particle)
    (hp : simulation.particles[c.bi_]? = some particles)
    (hC : 0 ≤ Vec3.dot (Vec3.sub c.vi_ c.c_) c.n_) :
    c.project_positions simulation dt = some (c, simulation) := by
  unfold MeshlessSphCollisionConstraint.project_positions
  rw [hp]
  simp only [ge_iff_le]
  rw [if_pos hC]

/-- C11, example: a vertex one unit above the contact plane, with the multiplier `3`. -/
theorem satisfied_collision_is_untouched_witness :
    Vec3.dot (Vec3.sub satisfied_collision.vi_ satisfied_collision.c_) satisfied_collision.n_
      = 1 ∧
    satisfied_collision.project_positions tiny_simulation (1 / 60)
      = some (satisfied_collision, tiny_simulation) :=
  ⟨by norm_num [satisfied_collision, tiny_collision, Vec3.dot, Vec3.sub],
    satisfied_collision_is_untouched satisfied_collision tiny_simulation (1 / 60) _ rfl
      (by norm_num [satisfied_collision, tiny_collision, Vec3.dot, Vec3.sub])⟩

/-! ## C12: one projection of the collision constraint -/

/-- C12, counterexample: the stored vertex position is `(0, -1, 0)`, so `C = -1 < 0`, the
compliance and the multiplier are `0` and `S = 1 > 0`, but the only neighbour has the
predicted position `(0, -5, 0)`: the call moves it by `invmass * grad * delta_lagrange`
`= (0, 1, 0)` to `(0, -4, 0)`, recomputes the vertex position from it, and the constraint
value at the updated vertex position is `-4`, smaller than before the call. -/
theorem stale_vertex_counterexample :
    Vec3.dot (Vec3.sub stale_collision.vi_ stale_collision.c_) stale_collision.n_ = -1 ∧
    0 ≤ stale_collision.alpha_ ∧ stale_collision.lagrange_ = 0 ∧
    stale_collision.weighted_sum_of_gradients deep_simulation = some 1 ∧
    stale_collision.project_positions deep_simulation 1
      = some ({ stale_collision with vi_ := ⟨0, -4, 0⟩ },
          { particles := [[⟨⟨0, -1, 0⟩, ⟨0, -4, 0⟩, ⟨0, -1, 0⟩, ⟨0, 0, 0⟩, ⟨0, 0, 0⟩, 1⟩]]
            collision_constraints := [] }) ∧
    Vec3.dot (Vec3.sub (⟨0, -4, 0⟩ : Vec3) stale_collision.c_) stale_collision.n_ = -4 := by
  refine ⟨?_, ?_, rfl, ?_, ?_, ?_⟩
  · norm_num [stale_collision, Vec3.dot, Vec3.sub]
  · norm_num [stale_collision]
  · simp only [MeshlessSphCollisionConstraint.weighted_sum_of_gradients, stale_collision,
      deep_simulation, collision_gradients]
    norm_num [Vec3.squaredNorm, Vec3.dot, Vec3.smul, collision_gradients]
  · simp only [MeshlessSphCollisionConstraint.project_positions, stale_collision,
      deep_simulation, collision_gradients, collision_update]
    norm_num [Vec3.squaredNorm, Vec3.dot, Vec3.smul, Vec3.sub, Vec3.add, Vec3.zero,
      Mat3.mulVec, Mat3.identity, collision_gradients, collision_update]
  · norm_num [stale_collision, Vec3.dot, Vec3.sub]

/-- C12, amended: in every state with `C = (vi - c) . n < 0` for the stored vertex position
`vi`, compliance `alpha >= 0`, multiplier `0`, weighted gradient sum `S > 0` and `dt` not
zero, in which the neighbour list has no duplicates and the lookups of the interpolation
`u = sum_j sk * Vj * (Fj * Xkj + xi_j) * Wkj` of the current predicted positions are in
range, one call of `meshless_sph_collision_constraint_t::project_positions` returns, moves
the particle of every neighbour `j` by `invmass_j * grad C_j * delta_lagrange` with
`grad C_j = sk * Vj * Wkj * n` and `delta_lagrange = -C / (S + alpha / dt^2)`, and leaves
every other particle as it is; the constraint value at the updated vertex position is the
value at `u` plus `delta_lagrange * S`, hence not smaller than the value at `u`; when the
stored `vi` is `u`, it is `C * (alpha / dt^2) / (S + alpha / dt^2)`, not smaller than
`C`. -/
theorem collision_projection_reduces_penetration (c : MeshlessSphCollisionConstraint)
    (simulation : Simulation) (dt : ℚ) (particles : List Particle) (S : ℚ) (u : Vec3)
    (hp : simulation.particles[c.bi_]? = some particles)
    (hS : c.weighted_sum_of_gradients simulation = some S)
    (hu : interpolation c particles c.vk_.neighbours 0 Vec3.zero = some u)
    (hnd : c.vk_.neighbours.Nodup)
    (hC : Vec3.dot (Vec3.sub c.vi_ c.c_) c.n_ < 0) (ha : 0 ≤ c.alpha_)
    (hl : c.lagrange_ = 0) (hSpos : 0 < S) (_hdt : dt ≠ 0) :
    ∃ vi1 particles1,
      c.project_positions simulation dt
        = some ({ c with vi_ := vi1 },
            { simulation with particles := simulation.particles.set c.bi_ particles1 }) ∧
      (∀ (a j : Nat) (Vj Wkj : ℚ) (p : Particle), c.vk_.neighbours[a]? = some j →
        c.vk_.Vjs[a]? = some Vj → c.vk_.Wkjs[a]? = some Wkj → particles[j]? = some p →
        particles1[j]? = some
          (push_particle
            (-(Vec3.dot (Vec3.sub c.vi_ c.c_) c.n_) / (S + alpha_tilde c.alpha_ dt))
            (Vec3.smul (c.vk_.sk * Vj * Wkj) c.n_) p)) ∧
      (∀ k : Nat, k ∉ c.vk_.neighbours → particles1[k]? = particles[k]?) ∧
      Vec3.dot (Vec3.sub vi1 c.c_) c.n_
        = Vec3.dot (Vec3.sub u c.c_) c.n_
            + -(Vec3.dot (Vec3.sub c.vi_ c.c_) c.n_) / (S + alpha_tilde c.alpha_ dt) * S ∧
      Vec3.dot (Vec3.sub u c.c_) c.n_ ≤ Vec3.dot (Vec3.sub vi1 c.c_) c.n_ ∧
      (c.vi_ = u →
        Vec3.dot (Vec3.sub vi1 c.c_) c.n_
          = Vec3.dot (Vec3.sub c.vi_ c.c_) c.n_
              * (alpha_tilde c.alpha_ dt / (S + alpha_tilde c.alpha_ dt)) ∧
        Vec3.dot (Vec3.sub c.vi_ c.c_) c.n_ ≤ Vec3.dot (Vec3.sub vi1 c.c_) c.n_) := by
  have hg : ∃ G, collision_gradients c particles c.vk_.neighbours 0 ([], 0) = some (G, S) := by
    unfold MeshlessSphCollisionConstraint.weighted_sum_of_gradients at hS
    rw [hp] at hS
    simp only at hS
    split at hS
    · cases hS
    · rename_i r hr
      simp only [Option.some.injEq] at hS
      exact ⟨r.1, by rw [hr, ← hS]⟩
  obtain ⟨G, hG⟩ := hg
  have hden : 0 < S + alpha_tilde c.alpha_ dt := collision_divisor_pos _ _ _ ha hSpos
  have hne : S + alpha_tilde c.alpha_ dt ≠ 0 := ne_of_gt hden
  have hdl : -(Vec3.dot (Vec3.sub c.vi_ c.c_) c.n_ + c.alpha_ / (dt * dt) * c.lagrange_)
      / (S + c.alpha_ / (dt * dt))
      = -(Vec3.dot (Vec3.sub c.vi_ c.c_) c.n_) / (S + alpha_tilde c.alpha_ dt) := by
    rw [hl, mul_zero, add_zero]
    rfl
  have hpos : 0 ≤ -(Vec3.dot (Vec3.sub c.vi_ c.c_) c.n_) / (S + alpha_tilde c.alpha_ dt) * S :=
    mul_nonneg (div_nonneg (by linarith) hden.le) hSpos.le
  obtain ⟨particles1, vi1, h1, hother, hmoved, hdot⟩ := collision_update_spec c particles G S
    u (-(Vec3.dot (Vec3.sub c.vi_ c.c_) c.n_) / (S + alpha_tilde c.alpha_ dt))
    c.vk_.neighbours 0 [] 0 particles Vec3.zero Vec3.zero rfl hnd (fun _ _ => rfl) hG hu
  have hval : Vec3.dot (Vec3.sub vi1 c.c_) c.n_
      = Vec3.dot (Vec3.sub u c.c_) c.n_
          + -(Vec3.dot (Vec3.sub c.vi_ c.c_) c.n_) / (S + alpha_tilde c.alpha_ dt) * S := by
    have hd : Vec3.dot (Vec3.sub vi1 c.c_) c.n_ - Vec3.dot (Vec3.sub u c.c_) c.n_
        = Vec3.dot vi1 c.n_ - Vec3.dot u c.n_ := by
      simp only [Vec3.dot, Vec3.sub]
      ring
    have hz : Vec3.dot Vec3.zero c.n_ = 0 := by simp [Vec3.dot, Vec3.zero]
    rw [hz, sub_zero, sub_zero, sub_zero] at hdot
    linarith
  refine ⟨vi1, particles1, ?_, ?_, hother, hval, by linarith, ?_⟩
  · unfold MeshlessSphCollisionConstraint.project_positions
    rw [hp]
    simp only [ge_iff_le]
    rw [if_neg (not_le.mpr hC)]
    simp only [hG, hdl, h1]
  · intro a j Vj Wkj p hj hV hW hpj
    exact hmoved a j Vj Wkj p hj (by rw [Nat.zero_add]; exact hV)
      (by rw [Nat.zero_add]; exact hW) hpj
  · intro hvi
    rw [← hvi] at hval
    refine ⟨?_, by linarith⟩
    rw [hval]
    field_simp
    ring

/-- C12, example: `sunk_collision` on `sunk_simulation` with `dt = 1`: the stored vertex
position is the interpolation, `C = -1`, `S = 1/4`, the free neighbour moves up by `500/251`
and the constraint value at the updated vertex position is `-1/251`. -/
theorem collision_projection_reduces_penetration_witness :
    (Vec3.dot (Vec3.sub sunk_collision.vi_ sunk_collision.c_) sunk_collision.n_ = -1 ∧
      sunk_collision.weighted_sum_of_gradients sunk_simulation = some (1 / 4)) ∧
    ∃ vi1 particles1,
      sunk_collision.project_positions sunk_simulation 1
        = some ({ sunk_collision with vi_ := vi1 },
            { sunk_simulation with
              particles := sunk_simulation.particles.set sunk_collision.bi_ particles1 }) ∧
      particles1[1]? = some ⟨⟨1, -1, 0⟩, ⟨1, 249 / 251, 0⟩, ⟨1, -1, 0⟩, ⟨0, 0, 0⟩, ⟨0, 0, 0⟩, 1⟩ ∧
      Vec3.dot (Vec3.sub vi1 sunk_collision.c_) sunk_collision.n_ = -1 / 251 := by
  have hC : Vec3.dot (Vec3.sub sunk_collision.vi_ sunk_collision.c_) sunk_collision.n_
      = -1 := by
    norm_num [sunk_collision, Vec3.dot, Vec3.sub]
  have hS : sunk_collision.weighted_sum_of_gradients sunk_simulation = some (1 / 4) := by
    simp only [MeshlessSphCollisionConstraint.weighted_sum_of_gradients, sunk_collision,
      sunk_simulation, collision_gradients]
    norm_num [Vec3.squaredNorm, Vec3.dot, Vec3.smul, collision_gradients]
  obtain ⟨vi1, particles1, h1, hmoved, _, _, _, hval⟩ :=
    collision_projection_reduces_penetration sunk_collision sunk_simulation 1
      [⟨⟨0, -1, 0⟩, ⟨0, -1, 0⟩, ⟨0, -1, 0⟩, ⟨0, 0, 0⟩, ⟨0, 0, 0⟩, 0⟩,
       ⟨⟨1, -1, 0⟩, ⟨1, -1, 0⟩, ⟨1, -1, 0⟩, ⟨0, 0, 0⟩, ⟨0, 0, 0⟩, 1⟩] (1 / 4) ⟨0, -1, 0⟩ rfl hS
      (by
        simp only [interpolation, sunk_collision, sunk_simulation]
        norm_num [Vec3.smul, Vec3.add, Vec3.zero, Mat3.mulVec, Mat3.identity, interpolation])
      (by decide) (by rw [hC]; norm_num) (by norm_num [sunk_collision]) rfl (by norm_num)
      one_ne_zero
  refine ⟨⟨hC, hS⟩, vi1, particles1, h1, ?_, ?_⟩
  · have h := hmoved 1 1 1 (1 / 2)
      ⟨⟨1, -1, 0⟩, ⟨1, -1, 0⟩, ⟨1, -1, 0⟩, ⟨0, 0, 0⟩, ⟨0, 0, 0⟩, 1⟩ rfl rfl rfl rfl
    rw [h, hC]
    norm_num [push_particle, alpha_tilde, sunk_collision, Vec3.smul, Vec3.add]
  · rw [(hval rfl).1, hC]
    norm_num [alpha_tilde, sunk_collision]

/-! ## C13: no projection displaces a fixed particle -/

/-- C13, failing input: the collision constraint `pinned_collision`, with compliance `0`, on
`pinned_simulation`, whose two particles are fixed, with `dt = 1`. The constraint is violated
(`C = -1 < 0`), so the call does not return early; `weighted_sum_of_gradients` is `0` and
`alpha_tilde` is `0`, so `delta_lagrange` is the quotient of `1` by `0` and is not a number,
and the predicted position that `p.xi() += p.invmass() * gradC[a] * delta_lagrange` writes
into a fixed particle is not a number either: it is not the predicted position before the
call. Where the divisor is not zero, the quotient is the `delta_lagrange` of the
embedding. -/
theorem fixed_particles_receive_zero_quotient :
    Vec3.dot (Vec3.sub pinned_collision.vi_ pinned_collision.c_) pinned_collision.n_ = -1 ∧
    pinned_collision.alpha_ = 0 ∧ pinned_collision.lagrange_ = 0 ∧
    pinned_collision.vk_.neighbours = [0, 1] ∧
    pinned_simulation.particles[pinned_collision.bi_]? = some
      [⟨⟨0, 0, 0⟩, ⟨0, 0, 0⟩, ⟨0, 0, 0⟩, ⟨0, 0, 0⟩, ⟨0, 0, 0⟩, 0⟩,
       ⟨⟨1, 0, 0⟩, ⟨1, 0, 0⟩, ⟨1, 0, 0⟩, ⟨0, 0, 0⟩, ⟨0, 0, 0⟩, 0⟩] ∧
    pinned_collision.weighted_sum_of_gradients pinned_simulation = some 0 ∧
    finite_div pinned_collision.alpha_ (1 * 1) = some 0 ∧
    -(Vec3.dot (Vec3.sub pinned_collision.vi_ pinned_collision.c_) pinned_collision.n_
        + 0 * pinned_collision.lagrange_) = 1 ∧
    pinned_collision.finite_delta_lagrange 0 1 = none ∧
    (∀ (grad : Vec3) (p : Particle),
      finite_push (pinned_collision.finite_delta_lagrange 0 1) grad p = none ∧
      finite_push (pinned_collision.finite_delta_lagrange 0 1) grad p ≠ some p) ∧
    ∀ (c : MeshlessSphCollisionConstraint) (simulation : Simulation) (dt S : ℚ),
      c.weighted_sum_of_gradients simulation = some S → dt ≠ 0 →
      S + c.alpha_ / (dt * dt) ≠ 0 →
      c.delta_lagrange simulation dt = c.finite_delta_lagrange S dt := by
  have hC : Vec3.dot (Vec3.sub pinned_collision.vi_ pinned_collision.c_) pinned_collision.n_
      = -1 := by
    norm_num [pinned_collision, sunk_collision, Vec3.dot, Vec3.sub]
  have hdl : pinned_collision.finite_delta_lagrange 0 1 = none := by
    simp only [MeshlessSphCollisionConstraint.finite_delta_lagrange, finite_div, hC]
    norm_num [pinned_collision, sunk_collision]
  refine ⟨hC, rfl, rfl, rfl, rfl, ?_, ?_, ?_, hdl, ?_, ?_⟩
  · simp only [MeshlessSphCollisionConstraint.weighted_sum_of_gradients, pinned_collision,
      sunk_collision, pinned_simulation, collision_gradients]
    norm_num [Vec3.squaredNorm, Vec3.dot, Vec3.smul, collision_gradients]
  · norm_num [finite_div, pinned_collision, sunk_collision]
  · rw [hC]
    norm_num
  · intro grad p
    rw [hdl]
    exact ⟨rfl, fun h => by cases h⟩
  · intro c simulation dt S hS hdt hden
    have hdt2 : dt * dt ≠ 0 := mul_ne_zero hdt hdt
    simp only [MeshlessSphCollisionConstraint.delta_lagrange, hS,
      MeshlessSphCollisionConstraint.finite_delta_lagrange, finite_div, if_neg hdt2,
      if_neg hden]

/-! ## C14: no strain and no energy at the identity -/

/-- C14, counterexample: with the Young modulus `1000` and the Poisson ratio `1/2` the strain
at the identity is the zero matrix, but the divisor `(1 + nu) (1 - 2 nu)` of the quotient that
the constructor stores in `lambda` is `0` and its dividend is `500`: `lambda` is not a number,
and neither is the energy density `mu * EdotE + 0.5 * lambda * tr2` of the zero strain, so it
is not `0`. The same holds at the Poisson ratio `-1`, where `mu` is not a number. -/
theorem incompressible_energy_counterexample :
    green_strain_op_t Mat3.identity = Mat3.zero ∧
    (linear_elasticity_strain_energy_density_t.finite_ctor 1000 (1 / 2)).1 = some (1000 / 3) ∧
    (linear_elasticity_strain_energy_density_t.finite_ctor 1000 (1 / 2)).2 = none ∧
    stvk_strain_energy_density_op_t.finite_energy
      (linear_elasticity_strain_energy_density_t.finite_ctor 1000 (1 / 2))
      (green_strain_op_t Mat3.identity) = none ∧
    stvk_strain_energy_density_op_t.finite_energy
      (linear_elasticity_strain_energy_density_t.finite_ctor 1000 (1 / 2))
      (green_strain_op_t Mat3.identity) ≠ some 0 ∧
    stvk_strain_energy_density_op_t.finite_energy
      (linear_elasticity_strain_energy_density_t.finite_ctor 1000 (-1))
      (green_strain_op_t Mat3.identity) = none := by
  have h1 : green_strain_op_t Mat3.identity = Mat3.zero := by
    ext <;> simp [green_strain_op_t, Mat3.smul, Mat3.sub, Mat3.mul, Mat3.transpose,
      Mat3.identity, Mat3.zero]
  have h2 : (linear_elasticity_strain_energy_density_t.finite_ctor 1000 (1 / 2)).2 = none := by
    norm_num [linear_elasticity_strain_energy_density_t.finite_ctor, finite_div]
  have h3 : (linear_elasticity_strain_energy_density_t.finite_ctor 1000 (-1)).1 = none := by
    norm_num [linear_elasticity_strain_energy_density_t.finite_ctor, finite_div]
  have h4 : stvk_strain_energy_density_op_t.finite_energy
      (linear_elasticity_strain_energy_density_t.finite_ctor 1000 (1 / 2))
      (green_strain_op_t Mat3.identity) = none := by
    unfold stvk_strain_energy_density_op_t.finite_energy
    rw [h2]
    split
    · rename_i h
      cases h
    · rfl
  refine ⟨h1, ?_, h2, h4, ?_, ?_⟩
  · norm_num [linear_elasticity_strain_energy_density_t.finite_ctor, finite_div]
  · rw [h4]
    exact fun h => by cases h
  · unfold stvk_strain_energy_density_op_t.finite_energy
    rw [h3]

/-- C14, amended: at the identity deformation gradient the Green strain of
`green_strain_op_t` and of the hybrid constraint is the zero matrix; the
St. Venant-Kirchhoff energy density of that strain is `0` for all Lame parameters that are
numbers, in particular for those that the constructor derives from a Young modulus and a
Poisson ratio other than `-1` and `1/2`, where both of its quotients are numbers; hence the
value `C = Vi * Psi` of the hybrid constraint is `0`. -/
theorem identity_has_no_strain_energy (op : linear_elasticity_strain_energy_density_t)
    (young_modulus poisson_ratio : ℚ) (c : HybridConstraint)
    (h1 : poisson_ratio ≠ -1) (h2 : poisson_ratio ≠ 1 / 2) :
    green_strain_op_t Mat3.identity = Mat3.zero ∧
    HybridConstraint.green_strain Mat3.identity = Mat3.zero ∧
    stvk_strain_energy_density_op_t.energy op (green_strain_op_t Mat3.identity) = 0 ∧
    stvk_strain_energy_density_op_t.energy
      (stvk_strain_energy_density_op_t.ctor young_modulus poisson_ratio)
      (green_strain_op_t Mat3.identity) = 0 ∧
    (c.strain_energy_and_stress Mat3.identity
      (HybridConstraint.green_strain Mat3.identity)).1 = 0 ∧
    c.C (c.strain_energy_and_stress Mat3.identity
      (HybridConstraint.green_strain Mat3.identity)).1 = 0 ∧
    linear_elasticity_strain_energy_density_t.finite_ctor young_modulus poisson_ratio
      = (some (stvk_strain_energy_density_op_t.ctor young_modulus poisson_ratio).mu,
         some (stvk_strain_energy_density_op_t.ctor young_modulus poisson_ratio).lambda) ∧
    stvk_strain_energy_density_op_t.finite_energy
      (linear_elasticity_strain_energy_density_t.finite_ctor young_modulus poisson_ratio)
      (green_strain_op_t Mat3.identity) = some 0 := by
  have e1 : green_strain_op_t Mat3.identity = Mat3.zero := by
    ext <;> simp [green_strain_op_t, Mat3.smul, Mat3.sub, Mat3.mul, Mat3.transpose,
      Mat3.identity, Mat3.zero]
  have e2 : HybridConstraint.green_strain Mat3.identity = Mat3.zero := e1
  have e3 : ∀ o : linear_elasticity_strain_energy_density_t,
      stvk_strain_energy_density_op_t.energy o Mat3.zero = 0 := by
    intro o
    simp [stvk_strain_energy_density_op_t.energy, Mat3.trace, Mat3.contraction, Mat3.zero]
  have e4 : (c.strain_energy_and_stress Mat3.identity Mat3.zero).1 = 0 := by
    simp [HybridConstraint.strain_energy_and_stress, Mat3.trace, Mat3.contraction, Mat3.zero]
  have d1 : 2 * (1 + poisson_ratio) ≠ 0 := by
    intro h
    apply h1
    linarith
  have d2 : (1 + poisson_ratio) * (1 - 2 * poisson_ratio) ≠ 0 := by
    apply mul_ne_zero
    · intro h
      apply h1
      linarith
    · intro h
      apply h2
      linarith
  have e5 : linear_elasticity_strain_energy_density_t.finite_ctor young_modulus poisson_ratio
      = (some (stvk_strain_energy_density_op_t.ctor young_modulus poisson_ratio).mu,
         some (stvk_strain_energy_density_op_t.ctor young_modulus poisson_ratio).lambda) := by
    simp only [linear_elasticity_strain_energy_density_t.finite_ctor, finite_div, if_neg d1,
      if_neg d2]
    rfl
  refine ⟨e1, e2, ?_, ?_, ?_, ?_, e5, ?_⟩
  · rw [e1]; exact e3 op
  · rw [e1]; exact e3 _
  · rw [e2]; exact e4
  · rw [e2, e4]; simp [HybridConstraint.C]
  · rw [e5, e1]
    simp only [stvk_strain_energy_density_op_t.finite_energy]
    rw [e3]

/-- C14, example: Young modulus `1000` and Poisson ratio `3/10`, the Lame parameters
`5000/13` and `7500/13` of `example_hybrid`. -/
theorem identity_has_no_strain_energy_witness :
    ((3 : ℚ) / 10 ≠ -1 ∧ (3 : ℚ) / 10 ≠ 1 / 2) ∧
    green_strain_op_t Mat3.identity = Mat3.zero ∧
    stvk_strain_energy_density_op_t.energy (stvk_strain_energy_density_op_t.ctor 1000 (3 / 10))
      (green_strain_op_t Mat3.identity) = 0 ∧
    example_hybrid.C (example_hybrid.strain_energy_and_stress Mat3.identity
      (HybridConstraint.green_strain Mat3.identity)).1 = 0 ∧
    stvk_strain_energy_density_op_t.finite_energy
      (linear_elasticity_strain_energy_density_t.finite_ctor 1000 (3 / 10))
      (green_strain_op_t Mat3.identity) = some 0 := by
  have h1 : (3 : ℚ) / 10 ≠ -1 := by norm_num
  have h2 : (3 : ℚ) / 10 ≠ 1 / 2 := by norm_num
  obtain ⟨a, _, _, b, _, d, _, f⟩ := identity_has_no_strain_energy ⟨5000 / 13, 7500 / 13⟩ 1000
    (3 / 10) example_hybrid h1 h2
  exact ⟨⟨h1, h2⟩, a, b, d, f⟩

/-! ## C15: the Lame parameters of the constructors -/

/-- C15: for every Young modulus `Y` and Poisson ratio `nu` other than `-1` and `0.5`, the
constructors of `linear_elasticity_strain_energy_density_t`, of
`differentiable::stvk_strain_energy_density_op_t` and of
`hybrid_mesh_meshless_sph_constraint_t` store `mu = Y / (2 (1 + nu))` and
`lambda = Y nu / ((1 + nu) (1 - 2 nu))`, so they agree; the stored values satisfy
`mu * (2 (1 + nu)) = Y` and `lambda * ((1 + nu) (1 - 2 nu)) = Y nu`. -/
theorem lame_parameters_agree (Y nu : ℚ) (alpha beta : ℚ) (bi ni : Nat) (node : HybridNode)
    (h1 : nu ≠ -1) (h2 : nu ≠ 1 / 2) :
    (linear_elasticity_strain_energy_density_t.ctor Y nu).mu = Y / (2 * (1 + nu)) ∧
    (linear_elasticity_strain_energy_density_t.ctor Y nu).lambda
      = Y * nu / ((1 + nu) * (1 - 2 * nu)) ∧
    (differentiable.stvk_strain_energy_density_op_t.ctor Y nu).mu
      = (linear_elasticity_strain_energy_density_t.ctor Y nu).mu ∧
    (differentiable.stvk_strain_energy_density_op_t.ctor Y nu).lambda
      = (linear_elasticity_strain_energy_density_t.ctor Y nu).lambda ∧
    (HybridConstraint.mk8 alpha beta bi ni Y nu node).mu_
      = (linear_elasticity_strain_energy_density_t.ctor Y nu).mu ∧
    (HybridConstraint.mk8 alpha beta bi ni Y nu node).lambda_
      = (linear_elasticity_strain_energy_density_t.ctor Y nu).lambda ∧
    (linear_elasticity_strain_energy_density_t.ctor Y nu).mu * (2 * (1 + nu)) = Y ∧
    (linear_elasticity_strain_energy_density_t.ctor Y nu).lambda
      * ((1 + nu) * (1 - 2 * nu)) = Y * nu := by
  have ha : (1 + nu) ≠ 0 := by
    intro h
    apply h1
    linarith
  have hb : (1 - 2 * nu) ≠ 0 := by
    intro h
    apply h2
    linarith
  refine ⟨rfl, rfl, rfl, rfl, rfl, rfl, ?_, ?_⟩
  · simp only [linear_elasticity_strain_energy_density_t.ctor]
    field_simp
  · simp only [linear_elasticity_strain_energy_density_t.ctor]
    field_simp

/-- C15, example: `Y = 1000` and `nu = 3/10` give `mu = 5000/13` and `lambda = 7500/13` in
the three constructors. -/
theorem lame_parameters_agree_witness :
    ((3 : ℚ) / 10 ≠ -1 ∧ (3 : ℚ) / 10 ≠ 1 / 2) ∧
    (linear_elasticity_strain_energy_density_t.ctor 1000 (3 / 10)).mu = 5000 / 13 ∧
    (linear_elasticity_strain_energy_density_t.ctor 1000 (3 / 10)).lambda = 7500 / 13 ∧
    (differentiable.stvk_strain_energy_density_op_t.ctor 1000 (3 / 10)).mu = 5000 / 13 ∧
    (differentiable.stvk_strain_energy_density_op_t.ctor 1000 (3 / 10)).lambda = 7500 / 13 ∧
    (HybridConstraint.mk8 (1 / 1000) (1 / 10) 0 0 1000 (3 / 10) example_node).mu_
      = 5000 / 13 ∧
    (HybridConstraint.mk8 (1 / 1000) (1 / 10) 0 0 1000 (3 / 10) example_node).lambda_
      = 7500 / 13 := by
  obtain ⟨a, b, c, d, e, f, _, _⟩ := lame_parameters_agree 1000 (3 / 10) (1 / 1000) (1 / 10) 0 0
    example_node (by norm_num) (by norm_num)
  have ha : (linear_elasticity_strain_energy_density_t.ctor 1000 (3 / 10)).mu = 5000 / 13 := by
    rw [a]; norm_num
  have hb : (linear_elasticity_strain_energy_density_t.ctor 1000 (3 / 10)).lambda
      = 7500 / 13 := by
    rw [b]; norm_num
  exact ⟨⟨by norm_num, by norm_num⟩, ha, hb, c.trans ha, d.trans hb, e.trans ha, f.trans hb⟩

/-! ## C16: the St. Venant-Kirchhoff stress is the derivative of the energy -/

/-- C16: for every matrix `F`, every direction `H` and all Lame parameters, the function
`t -> Psi(E(F + t H))`, with `E = green_strain_op_t` and
`Psi = stvk_strain_energy_density_op_t::operator()`, has at `t = 0` the derivative
`stress(F, E(F)) : H`, the Frobenius inner product of
`stvk_strain_energy_density_op_t::stress` with `H`; the same holds for the energy and the
stress returned by `strain_energy_and_stress` of the hybrid constraint. -/
theorem stvk_stress_is_energy_derivative (op : linear_elasticity_strain_energy_density_t)
    (c : HybridConstraint) (F H : Mat3) :
    HasDerivAt
      (fun t : ℚ => stvk_strain_energy_density_op_t.energy op
        (green_strain_op_t (Mat3.line F H t)))
      (Mat3.inner (stvk_strain_energy_density_op_t.stress op F (green_strain_op_t F)) H) 0 ∧
    HasDerivAt
      (fun t : ℚ => (c.strain_energy_and_stress (Mat3.line F H t)
        (HybridConstraint.green_strain (Mat3.line F H t))).1)
      (Mat3.inner (c.strain_energy_and_stress F (HybridConstraint.green_strain F)).2 H) 0 := by
  constructor
  · exact hasDerivAt_of_expansion _ _ _ _ _ _
      (fun t => stvk_energy_expansion op.mu op.lambda F H t)
  · exact hasDerivAt_of_expansion _ _ _ _ _ _
      (fun t => stvk_energy_expansion c.mu_ c.lambda_ F H t)

/-! ## C17: the Green strain is invariant under rotations -/

/-- C17: the Green strain is invariant under rotations: for every matrix `F` and every `Q`
with `Q^T Q = I`, `green_strain_op_t` and the `green_strain` of the hybrid constraint give
the same strain for `Q F` as for `F`, and therefore the St. Venant-Kirchhoff energy density
of `Q F` equals that of `F`. -/
theorem green_strain_rotation_invariant (Q F : Mat3)
    (op : linear_elasticity_strain_energy_density_t) (c : HybridConstraint)
    (hQ : Mat3.mul (Mat3.transpose Q) Q = Mat3.identity) :
    green_strain_op_t (Mat3.mul Q F) = green_strain_op_t F ∧
    HybridConstraint.green_strain (Mat3.mul Q F) = HybridConstraint.green_strain F ∧
    stvk_strain_energy_density_op_t.energy op (green_strain_op_t (Mat3.mul Q F)) =
      stvk_strain_energy_density_op_t.energy op (green_strain_op_t F) ∧
    (c.strain_energy_and_stress (Mat3.mul Q F)
        (HybridConstraint.green_strain (Mat3.mul Q F))).1 =
      (c.strain_energy_and_stress F (HybridConstraint.green_strain F)).1 := by
  have h1 : green_strain_op_t (Mat3.mul Q F) = green_strain_op_t F := by
    simp only [green_strain_op_t]
    rw [mat3_gram_rotation Q F hQ]
  have h2 : HybridConstraint.green_strain (Mat3.mul Q F) = HybridConstraint.green_strain F := by
    simp only [HybridConstraint.green_strain]
    rw [mat3_gram_rotation Q F hQ]
  refine ⟨h1, h2, by rw [h1], ?_⟩
  rw [h2]
  simp only [HybridConstraint.strain_energy_and_stress]

/-- C17, example: a rotation about the `z` axis applied to a stretch with shear. -/
theorem green_strain_rotation_invariant_witness :
    Mat3.mul (Mat3.transpose example_rotation) example_rotation = Mat3.identity ∧
    Mat3.mul example_rotation example_deformation ≠ example_deformation ∧
    green_strain_op_t (Mat3.mul example_rotation example_deformation)
      = green_strain_op_t example_deformation ∧
    green_strain_op_t example_deformation = ⟨3 / 2, 1, 0, 1, 1 / 2, 0, 0, 0, 4⟩ := by
  have hQ : Mat3.mul (Mat3.transpose example_rotation) example_rotation = Mat3.identity := by
    ext <;> norm_num [Mat3.mul, Mat3.transpose, example_rotation, Mat3.identity]
  refine ⟨hQ, ?_,
    (green_strain_rotation_invariant example_rotation example_deformation ⟨1, 1⟩
      example_hybrid hQ).1, ?_⟩
  · intro h
    have := congrArg Mat3.m00 h
    norm_num [Mat3.mul, example_rotation, example_deformation] at this
  · ext <;> norm_num [green_strain_op_t, Mat3.smul, Mat3.sub, Mat3.mul, Mat3.transpose,
      example_deformation, Mat3.identity]

/-! ## C18: the constructors do not validate the material parameters -/

/-- C18, counterexample: with the Young modulus `-1000` and the Poisson ratio `3/10` the
constructors of `linear_elasticity_strain_energy_density_t`,
`stvk_strain_energy_density_op_t` and `hybrid_mesh_meshless_sph_constraint_t` return objects
holding `mu = -5000/13` and `lambda = -7500/13`; with the Poisson ratio `1/2` and the Young
modulus `1000` they return objects holding `mu = 1000/3`. -/
theorem invalid_material_counterexample :
    (linear_elasticity_strain_energy_density_t.ctor (-1000) (3 / 10)
      = { mu := -5000 / 13, lambda := -7500 / 13 } ∧
     stvk_strain_energy_density_op_t.ctor (-1000) (3 / 10)
      = { mu := -5000 / 13, lambda := -7500 / 13 } ∧
     HybridConstraint.mk8 (1 / 1000) (1 / 10) 0 0 (-1000) (3 / 10) example_node
      = { alpha_ := 1 / 1000, beta_ := 1 / 10, lagrange_ := 0, node_ := example_node,
          bi_ := 0, ni_ := 0, mu_ := -5000 / 13, lambda_ := -7500 / 13 }) ∧
    ((linear_elasticity_strain_energy_density_t.ctor 1000 (1 / 2)).mu = 1000 / 3 ∧
     (stvk_strain_energy_density_op_t.ctor 1000 (1 / 2)).mu = 1000 / 3 ∧
     (HybridConstraint.mk8 (1 / 1000) (1 / 10) 0 0 1000 (1 / 2) example_node).mu_
      = 1000 / 3) := by
  refine ⟨⟨?_, ?_, ?_⟩, ?_, ?_, ?_⟩ <;>
    norm_num [linear_elasticity_strain_energy_density_t.ctor,
      stvk_strain_energy_density_op_t.ctor, HybridConstraint.mk8]

/-- C18, amended: the constructors of `linear_elasticity_strain_energy_density_t`,
`stvk_strain_energy_density_op_t`, `differentiable::stvk_strain_energy_density_op_t` and
`hybrid_mesh_meshless_sph_constraint_t` check nothing: for every Young modulus and every
Poisson ratio they return an object whose `mu` is the quotient `Y / (2 (1 + nu))` and whose
`lambda` is the quotient `Y nu / ((1 + nu) (1 - 2 nu))`, whatever the arithmetic makes of a
quotient by zero; the hybrid constraint starts with the multiplier `0`. -/
theorem constructors_accept_every_material (Y nu alpha beta : ℚ) (bi ni : Nat)
    (node : HybridNode) :
    linear_elasticity_strain_energy_density_t.ctor Y nu
      = { mu := Y / (2 * (1 + nu)), lambda := Y * nu / ((1 + nu) * (1 - 2 * nu)) } ∧
    stvk_strain_energy_density_op_t.ctor Y nu
      = { mu := Y / (2 * (1 + nu)), lambda := Y * nu / ((1 + nu) * (1 - 2 * nu)) } ∧
    differentiable.stvk_strain_energy_density_op_t.ctor Y nu
      = { mu := Y / (2 * (1 + nu)), lambda := Y * nu / ((1 + nu) * (1 - 2 * nu)) } ∧
    HybridConstraint.mk8 alpha beta bi ni Y nu node
      = { alpha_ := alpha, beta_ := beta, lagrange_ := 0, node_ := node, bi_ := bi, ni_ := ni,
          mu_ := Y / (2 * (1 + nu)), lambda_ := Y * nu / ((1 + nu) * (1 - 2 * nu)) } :=
  ⟨rfl, rfl, rfl, rfl⟩

/-! ## C19: `step` before `setup` -/

/-- C19, counterexample: `step` on a default-constructed solver on which `setup` was never
called returns normally: the solver is unchanged and the record shows one substep of
`0.0167` with ten sweeps, none of which calls `project`. -/
theorem step_before_setup_counterexample :
    step example_env (Solver.mk0 0)
      = some (Solver.mk0 0,
          [{ dt := 167 / 10000, J := 0, Mc := 0, generated := [],
             lagrange_before_sweeps := [], sweeps := List.replicate 10 [] }]) := by
  have h1 : num_substeps (Solver.mk0 0) = 1 := by decide
  have h2 : num_iterations (Solver.mk0 0) = 10 := by decide
  have h3 : step_dt (Solver.mk0 0) = 167 / 10000 := by
    norm_num [step_dt, can_perform_substepping, Solver.mk0, Solver.mk3]
  rw [step, h1, h2, h3]
  exact substeps_before_setup example_env _ _ _ _ _ _ 1

/-- C19, amended: `step` on a solver as a constructor left it, without a call of `setup`,
does not report an error: for every detector, time step, substep count, iteration count and
collision compliance it returns with the solver unchanged, after `num_substeps` passes
through the substep loop, each with `num_iterations` sweeps over no constraints. -/
theorem step_before_setup_completes (env : Env) (timestep : ℚ) (substeps0 iterations0 : Nat)
    (collision_alpha : ℚ) :
    step env (Solver.mk3 timestep substeps0 iterations0 collision_alpha)
      = some (Solver.mk3 timestep substeps0 iterations0 collision_alpha,
          List.replicate
            (num_substeps (Solver.mk3 timestep substeps0 iterations0 collision_alpha))
            { dt := step_dt (Solver.mk3 timestep substeps0 iterations0 collision_alpha)
              J := 0
              Mc := 0
              generated := []
              lagrange_before_sweeps := []
              sweeps := List.replicate
                (num_iterations (Solver.mk3 timestep substeps0 iterations0 collision_alpha))
                [] }) ∧
    step env (Solver.mk0 collision_alpha)
      = some (Solver.mk0 collision_alpha,
          List.replicate (num_substeps (Solver.mk0 collision_alpha))
            { dt := step_dt (Solver.mk0 collision_alpha)
              J := 0
              Mc := 0
              generated := []
              lagrange_before_sweeps := []
              sweeps := List.replicate (num_iterations (Solver.mk0 collision_alpha)) [] }) := by
  constructor
  · rw [step]
    exact substeps_before_setup env _ _ _ _ _ _ _
  · rw [step]
    exact substeps_before_setup env _ _ _ _ _ _ _

/-! ## C20: the multiplier update of the hybrid constraint -/

/-- C20, failing input: the mixed node `mixed_node` with the mesh particle offset `2`,
compliance `1/1000`, damping `1/10`, multiplier `0` and `dt = 1`; the particle of the mesh
vertex `0`, at index `2`, is free and has `xi - xn = (1, 0, 0)`. The call displaces the
particles `0`, `1` and `2` along `(7500/13, 0, 0)`, `(-7500/13, 0, 0)` and
`(-7500/13, 0, 0)`: over these, `S = 112500000/169` and `dot_term = -7500/13`, and the
formula gives `dlambda = -81240250/112511250169`. The code takes the mesh term of both sums
from the particle at index `0`, has `S = 56250000/169` and `dot_term = 0`, and adds
`-81250000/56255625169` to the multiplier. On a node that is not a mixed particle the two
sums of the code are the sums over the particles that are displaced, and the call adds the
`dlambda` of the formula. -/
theorem multiplier_update_reads_other_particles :
    (damped_mixed_hybrid.node_.is_mixed_particle = true ∧
      damped_mixed_hybrid.node_.body.mesh_particles_index_offset = 2 ∧
      damped_mixed_hybrid.alpha_ = 1 / 1000 ∧ damped_mixed_hybrid.beta_ = 1 / 10 ∧
      damped_mixed_hybrid.lagrange_ = 0) ∧
    damped_mixed_hybrid.gradient_sums (mixed_particles lagging_particle) = some mixed_sums ∧
    (mixed_sums.C = 6250 / 13 ∧ mixed_sums.weighted_sum_of_gradients = 56250000 / 169 ∧
      mixed_sums.gradC_dot_displacement = 0) ∧
    damped_mixed_hybrid.displaced (mixed_particles lagging_particle) mixed_sums
      = some [(⟨7500 / 13, 0, 0⟩,
                ⟨⟨0, 0, 0⟩, ⟨0, 0, 0⟩, ⟨0, 0, 0⟩, ⟨0, 0, 0⟩, ⟨0, 0, 0⟩, 0⟩),
              (⟨-7500 / 13, 0, 0⟩,
                ⟨⟨1, 0, 0⟩, ⟨1, 0, 0⟩, ⟨1, 0, 0⟩, ⟨0, 0, 0⟩, ⟨0, 0, 0⟩, 1⟩),
              (⟨-7500 / 13, 0, 0⟩, lagging_particle)] ∧
    (∃ pairs, damped_mixed_hybrid.displaced (mixed_particles lagging_particle) mixed_sums
        = some pairs ∧
      specified_weighted_sum pairs = 112500000 / 169 ∧
      specified_dot_term pairs = -7500 / 13 ∧
      specified_delta_lagrange damped_mixed_hybrid.alpha_ damped_mixed_hybrid.beta_
        damped_mixed_hybrid.lagrange_ 1 mixed_sums.C (specified_weighted_sum pairs)
        (specified_dot_term pairs) = -81240250 / 112511250169) ∧
    (∃ c1 simulation1,
      damped_mixed_hybrid.project_positions lagging_simulation 1 = some (c1, simulation1) ∧
      c1.lagrange_ = damped_mixed_hybrid.lagrange_ + -81250000 / 56255625169 ∧
      particle_at simulation1.particles 0 2
        = some ⟨⟨0, 0, 0⟩, ⟨46875000000 / 56255625169, 0, 0⟩, ⟨-1, 0, 0⟩, ⟨0, 0, 0⟩,
            ⟨0, 0, 0⟩, 1⟩) ∧
    (-81250000 / 56255625169 : ℚ) ≠ -81240250 / 112511250169 ∧
    ∀ (c : HybridConstraint) (simulation : Simulation) (dt : ℚ) (particles : List Particle)
      (g : GradientSums),
      simulation.particles[c.bi_]? = some particles →
      c.gradient_sums particles = some g →
      c.node_.is_mixed_particle = false →
      epsilon ≤ g.weighted_sum_of_gradients → dt ≠ 0 →
      (1 + gamma c.alpha_ c.beta_ dt) * g.weighted_sum_of_gradients
        + alpha_tilde c.alpha_ dt ≠ 0 →
      ∃ pairs c1 simulation1, c.displaced particles g = some pairs ∧
        g.weighted_sum_of_gradients = specified_weighted_sum pairs ∧
        g.gradC_dot_displacement = specified_dot_term pairs ∧
        c.project_positions simulation dt = some (c1, simulation1) ∧
        c1.lagrange_ = c.lagrange_ +
          specified_delta_lagrange c.alpha_ c.beta_ c.lagrange_ dt g.C
            (specified_weighted_sum pairs) (specified_dot_term pairs) := by
  have hd : damped_mixed_hybrid.displaced (mixed_particles lagging_particle) mixed_sums
      = some [(⟨7500 / 13, 0, 0⟩,
                ⟨⟨0, 0, 0⟩, ⟨0, 0, 0⟩, ⟨0, 0, 0⟩, ⟨0, 0, 0⟩, ⟨0, 0, 0⟩, 0⟩),
              (⟨-7500 / 13, 0, 0⟩,
                ⟨⟨1, 0, 0⟩, ⟨1, 0, 0⟩, ⟨1, 0, 0⟩, ⟨0, 0, 0⟩, ⟨0, 0, 0⟩, 1⟩),
              (⟨-7500 / 13, 0, 0⟩, lagging_particle)] := by
    simp only [HybridConstraint.displaced, displaced_meshless, displaced_mesh,
      damped_mixed_hybrid, HybridConstraint.mk8, mixed_node, example_node, mixed_sums,
      mixed_particles, Tetrahedron.indices]
    simp [displaced_meshless, displaced_mesh, Tetrahedron.indices]
  refine ⟨⟨rfl, rfl, rfl, rfl, rfl⟩, damped_mixed_sums_eq, ⟨rfl, rfl, rfl⟩, hd,
    ⟨_, hd, ?_, ?_, ?_⟩, ⟨_, _, damped_mixed_on_lagging, ?_, rfl⟩, by norm_num, ?_⟩
  · norm_num [specified_weighted_sum, Vec3.squaredNorm, Vec3.dot, lagging_particle]
  · norm_num [specified_dot_term, Vec3.dot, Vec3.sub, lagging_particle]
  · norm_num [specified_delta_lagrange, specified_weighted_sum, specified_dot_term, alpha_tilde,
      beta_tilde, gamma, damped_mixed_hybrid, HybridConstraint.mk8, mixed_sums,
      Vec3.squaredNorm, Vec3.dot, Vec3.sub, lagging_particle]
  · norm_num [damped_mixed_hybrid, HybridConstraint.mk8]
  · intro c simulation dt particles g hp hg hmixed hS hdt hden
    obtain ⟨pairs, hpairs, h1, h2⟩ := gradient_sums_specified c particles g hg hmixed
    have hmesh : g.gradC_wrt_mesh_indices = [none, none, none, none] := by
      have h := (gradient_sums_gradients c particles g hg).2
      rw [dCdvi_not_mixed c _ hmixed] at h
      exact (Option.some.inj h).symm
    obtain ⟨c1, simulation1, hr, hl, _⟩ := hybrid_multiplier_update c simulation dt particles g
      hp hg
      (fun i grad t vi hi => by
        rw [hmesh] at hi
        have hnone : ∀ j : Nat,
            ([none, none, none, none] : List (Option Vec3))[j]? ≠ some (some grad) := by
          intro j
          match j with
          | 0 => simp
          | 1 => simp
          | 2 => simp
          | 3 => simp
          | _ + 4 => simp
        exact absurd hi (hnone i))
      hS hdt hden
    refine ⟨pairs, c1, simulation1, hpairs, h1, h2, hr, ?_⟩
    rw [hl, ← h1, ← h2]
    rfl

/-! ## C21: the multiplier of the collision constraint -/

/-- C21, failing input: `sunk_collision`, entered with the multiplier `0`, on
`sunk_simulation` with `dt = 1`: `C = -1 < 0`, the particles are displaced with
`delta_lagrange = 1000/251`, the free neighbour by `invmass * grad * delta_lagrange`
`= (0, 500/251, 0)`, and the multiplier of the constraint after the call is still `0`;
no call of `meshless_sph_collision_constraint_t::project_positions` changes the
multiplier. -/
theorem collision_multiplier_is_never_updated :
    Vec3.dot (Vec3.sub sunk_collision.vi_ sunk_collision.c_) sunk_collision.n_ = -1 ∧
    sunk_collision.lagrange_ = 0 ∧
    sunk_collision.delta_lagrange sunk_simulation 1 = some (1000 / 251) ∧
    (∃ c1, sunk_collision.project_positions sunk_simulation 1
        = some (c1, sunk_simulation_after_collision) ∧
      c1.lagrange_ = 0 ∧ c1.lagrange_ ≠ sunk_collision.lagrange_ + 1000 / 251) ∧
    ∀ (c c1 : MeshlessSphCollisionConstraint) (simulation simulation1 : Simulation) (dt : ℚ),
      c.project_positions simulation dt = some (c1, simulation1) →
        c1.lagrange_ = c.lagrange_ := by
  refine ⟨?_, rfl, ?_, ⟨_, sunk_collision_on_sunk, rfl, ?_⟩, ?_⟩
  · norm_num [sunk_collision, Vec3.dot, Vec3.sub]
  · simp only [MeshlessSphCollisionConstraint.delta_lagrange,
      MeshlessSphCollisionConstraint.weighted_sum_of_gradients, sunk_collision,
      sunk_simulation, collision_gradients]
    norm_num [Vec3.squaredNorm, Vec3.dot, Vec3.smul, Vec3.sub, collision_gradients]
  · norm_num [sunk_collision]
  · intro c c1 simulation simulation1 dt h
    unfold MeshlessSphCollisionConstraint.project_positions at h
    split at h
    · cases h
    · simp only at h
      split at h
      · simp only [Option.some.injEq, Prod.mk.injEq] at h
        rw [← h.1]
      · split at h
        · cases h
        · split at h
          · cases h
          · simp only [Option.some.injEq, Prod.mk.injEq] at h
            rw [← h.1]

/-! ## C22: the particles of the mesh vertices in the sums and in the update -/

/-- C22, failing input: the mixed node `mixed_node` with the mesh particle offset `2`. For
the mesh vertex `0` the sums `S` and `dot_term` read the particle at index `0`, which is
fixed: `S = 56250000/169` and `dot_term = 0` whatever the particle `q` at index `2` is, while
the update displaces the particle at index `2` by `invmass * grad C * delta_lagrange`
`= (5/6, 0, 0)`. The sum over the particles that are displaced would be
`2 * 56250000/169`. -/
theorem mesh_sums_read_other_particles :
    mixed_hybrid.node_.is_mixed_particle = true ∧
    mixed_hybrid.node_.body.mesh_particles_index_offset = 2 ∧
    (∀ q : Particle, mixed_hybrid.gradient_sums (mixed_particles q) = some mixed_sums) ∧
    mixed_sums.gradC_wrt_mesh_indices = [some ⟨-7500 / 13, 0, 0⟩, none, none, none] ∧
    mixed_sums.weighted_sum_of_gradients = 56250000 / 169 ∧
    mixed_sums.gradC_dot_displacement = 0 ∧
    (1 : ℚ) * Vec3.squaredNorm ⟨-7500 / 13, 0, 0⟩
        + mesh_particle.invmass * Vec3.squaredNorm ⟨-7500 / 13, 0, 0⟩
      = 2 * (56250000 / 169) ∧
    mixed_hybrid.project_positions mixed_simulation 1
      = some ({ mixed_hybrid with
                lagrange_ := -13 / 9000
                node_ := { mixed_node with Fi := ⟨1, 0, 0, 0, 0, 0, 0, 0, 0⟩ } },
          { particles :=
              [[⟨⟨0, 0, 0⟩, ⟨0, 0, 0⟩, ⟨0, 0, 0⟩, ⟨0, 0, 0⟩, ⟨0, 0, 0⟩, 0⟩,
                ⟨⟨1, 0, 0⟩, ⟨11 / 6, 0, 0⟩, ⟨1, 0, 0⟩, ⟨0, 0, 0⟩, ⟨0, 0, 0⟩, 1⟩,
                ⟨⟨0, 0, 0⟩, ⟨5 / 6, 0, 0⟩, ⟨0, 0, 0⟩, ⟨0, 0, 0⟩, ⟨0, 0, 0⟩, 1⟩]]
            collision_constraints := [] }) := by
  refine ⟨rfl, rfl, mixed_sums_eq, rfl, rfl, rfl, ?_, mixed_hybrid_on_mixed⟩
  norm_num [Vec3.squaredNorm, Vec3.dot, mesh_particle]

/-! ## C23: the gradients of `dCdxk` -/

/-- C23: for a node whose neighbour list has no duplicates and contains the node itself,
and particles on which `deformation_gradient` returns `Fi`, `dCdxk`, applied to the stress
`dPsi/dF` at `Fi`, returns one vector for every neighbour, and the vector `g` at the position
`a` of neighbour `j` is the gradient of the constraint value `C = Vi * Psi(E(Fi))` with
respect to the predicted position of particle `j`: moving that position by `t h` changes the
constraint value with the derivative `g . h` at `t = 0`, for every direction `h`. For `j`
other than the node, `g = Vi * dPsi/dF * (Vj * Li * gradWij)`; for the node itself `g` is
minus the sum of these vectors over the other neighbours. -/
theorem dCdxk_is_gradient (c : HybridConstraint) (particles : List Particle) (Fi : Mat3)
    (hnd : c.node_.neighbours.Nodup) (hmem : c.ni_ ∈ c.node_.neighbours)
    (hF : c.deformation_gradient particles = some Fi) :
    ∃ gradC,
      c.dCdxk (c.strain_energy_and_stress Fi (HybridConstraint.green_strain Fi)).2
        = some gradC ∧
      gradC.length = c.node_.neighbours.length ∧
      ∀ (a j : Nat) (pj : Particle) (h : Vec3), c.node_.neighbours[a]? = some j →
        particles[c.node_.body.meshless_particles_index_offset + j]? = some pj →
        ∃ (g : Vec3) (f : ℚ → ℚ), gradC[a]? = some g ∧
          (∀ t, c.value
              (particles.set (c.node_.body.meshless_particles_index_offset + j)
                (moved h t pj)) = some (f t)) ∧
          HasDerivAt f (Vec3.dot g h) 0 ∧
          (j ≠ c.ni_ → ∀ (Vj : ℚ) (gradWij : Vec3), c.node_.Vjs[a]? = some Vj →
            c.node_.gradWij[a]? = some gradWij →
            g = Vec3.smul c.node_.Vi
              (Mat3.mulVec (c.strain_energy_and_stress Fi (HybridConstraint.green_strain Fi)).2
                (Vec3.smul Vj (Mat3.mulVec c.node_.Li gradWij)))) ∧
          (j = c.ni_ →
            g = Vec3.sub Vec3.zero
              (others_sum c (c.strain_energy_and_stress Fi (HybridConstraint.green_strain Fi)).2
                c.node_.neighbours 0)) := by
  obtain ⟨gradC, hG, hlen, hget⟩ := dCdxk_spec c particles Fi
    (c.strain_energy_and_stress Fi (HybridConstraint.green_strain Fi)).2 hmem hF
  refine ⟨gradC, hG, hlen, ?_⟩
  intro a j pj h ha hpj
  generalize hP : (c.strain_energy_and_stress Fi (HybridConstraint.green_strain Fi)).2 = P
    at hget ⊢
  have ha_lt : a < c.node_.neighbours.length := (List.getElem?_eq_some.mp ha).1
  have hja : c.node_.neighbours[a] = j := (List.getElem?_eq_some.mp ha).2
  have hga : gradC[a]? = some (gradC.getD a Vec3.zero) := by
    rw [List.getD_eq_getElem?_getD, List.getElem?_eq_getElem (by rw [hlen]; exact ha_lt)]
    rfl
  have hown := own_gradient_at c P c.node_.neighbours 0 a j ha
  rw [Nat.zero_add] at hown
  have hg : gradC.getD a Vec3.zero = total_gradient c P j c.node_.neighbours 0 := by
    rw [hget a, hown]
    by_cases hj : j = c.ni_
    · have hidx : c.node_.neighbours.indexOf c.ni_ = a := by
        rw [← hj, ← hja]
        exact List.indexOf_getElem hnd a ha_lt
      rw [if_neg (fun e : j ≠ c.ni_ => e hj), if_pos hidx.symm, hj, total_gradient_node]
    · have hidx : a ≠ c.node_.neighbours.indexOf c.ni_ := by
        intro e
        have h1 := List.getElem?_indexOf hmem
        rw [← e, ha] at h1
        exact hj (Option.some.inj h1)
      rw [if_pos hj, if_neg hidx, total_gradient_neighbour c P j hj c.node_.neighbours 0 a hnd ha,
        Nat.zero_add]
      ext <;> simp [Vec3.sub, Vec3.zero]
  refine ⟨gradC.getD a Vec3.zero,
    fun t => c.node_.Vi * stvk_strain_energy_density_op_t.energy ⟨c.mu_, c.lambda_⟩
      (green_strain_op_t (Mat3.line Fi (direction c h j c.node_.neighbours 0) t)),
    hga, fun t => value_moved c particles Fi j pj h t hF hpj, ?_, ?_, ?_⟩
  · have hd := value_hasDerivAt c Fi (direction c h j c.node_.neighbours 0)
    rw [hP, inner_direction c P h j c.node_.neighbours 0, ← hg] at hd
    exact hd
  · intro hj Vj gradWij hVj hgW
    rw [hg, total_gradient_neighbour c P j hj c.node_.neighbours 0 a hnd ha, Nat.zero_add]
    unfold neighbour_gradient kernel_gradient
    rw [List.getD_eq_getElem?_getD, hVj, List.getD_eq_getElem?_getD, hgW]
    rfl
  · intro hj
    rw [hg, hj, total_gradient_node]

/-- C23, example: `example_hybrid` on the two particles of `sunk_simulation`; the vector of
the neighbour `1` is `(-7500/13, 0, 0)` and is the gradient with respect to its predicted
position. -/
theorem dCdxk_is_gradient_witness :
    example_hybrid.node_.neighbours.Nodup ∧
    example_hybrid.ni_ ∈ example_hybrid.node_.neighbours ∧
    ∃ gradC,
      example_hybrid.dCdxk
          (example_hybrid.strain_energy_and_stress ⟨1, 0, 0, 0, 0, 0, 0, 0, 0⟩
            (HybridConstraint.green_strain ⟨1, 0, 0, 0, 0, 0, 0, 0, 0⟩)).2 = some gradC ∧
      gradC.length = 2 ∧
      ∀ h : Vec3, ∃ (g : Vec3) (f : ℚ → ℚ), gradC[1]? = some g ∧
        (∀ t, example_hybrid.value
            ([⟨⟨0, -1, 0⟩, ⟨0, -1, 0⟩, ⟨0, -1, 0⟩, ⟨0, 0, 0⟩, ⟨0, 0, 0⟩, 0⟩,
              ⟨⟨1, -1, 0⟩, ⟨1, -1, 0⟩, ⟨1, -1, 0⟩, ⟨0, 0, 0⟩, ⟨0, 0, 0⟩, 1⟩].set 1
              (moved h t ⟨⟨1, -1, 0⟩, ⟨1, -1, 0⟩, ⟨1, -1, 0⟩, ⟨0, 0, 0⟩, ⟨0, 0, 0⟩, 1⟩))
          = some (f t)) ∧
        HasDerivAt f (Vec3.dot g h) 0 ∧ g = ⟨-7500 / 13, 0, 0⟩ := by
  have hnd : example_hybrid.node_.neighbours.Nodup := by decide
  have hmem : example_hybrid.ni_ ∈ example_hybrid.node_.neighbours := by decide
  have hF : example_hybrid.deformation_gradient
      [⟨⟨0, -1, 0⟩, ⟨0, -1, 0⟩, ⟨0, -1, 0⟩, ⟨0, 0, 0⟩, ⟨0, 0, 0⟩, 0⟩,
       ⟨⟨1, -1, 0⟩, ⟨1, -1, 0⟩, ⟨1, -1, 0⟩, ⟨0, 0, 0⟩, ⟨0, 0, 0⟩, 1⟩]
      = some ⟨1, 0, 0, 0, 0, 0, 0, 0, 0⟩ := by
    simp only [HybridConstraint.deformation_gradient, deformation_gradient_loop,
      example_hybrid, HybridConstraint.mk8, example_node]
    norm_num [Vec3.smul, Vec3.sub, Mat3.mulVec, Mat3.identity, Mat3.zero, Mat3.outer,
      Mat3.add, deformation_gradient_loop]
  obtain ⟨gradC, hG, hlen, hall⟩ := dCdxk_is_gradient example_hybrid _ _ hnd hmem hF
  refine ⟨hnd, hmem, gradC, hG, hlen, fun h => ?_⟩
  obtain ⟨g, f, hg, hval, hder, hformula, _⟩ := hall 1 1
    ⟨⟨1, -1, 0⟩, ⟨1, -1, 0⟩, ⟨1, -1, 0⟩, ⟨0, 0, 0⟩, ⟨0, 0, 0⟩, 1⟩ h rfl rfl
  refine ⟨g, f, hg, hval, hder, ?_⟩
  rw [hformula (by decide) 1 ⟨1, 0, 0⟩ rfl rfl]
  simp only [HybridConstraint.strain_energy_and_stress, HybridConstraint.green_strain,
    example_hybrid, HybridConstraint.mk8, example_node]
  ext <;> norm_num [Vec3.smul, Mat3.mulVec, Mat3.identity, Mat3.mul, Mat3.add, Mat3.sub,
    Mat3.smul, Mat3.transpose, Mat3.trace]

/-! ## C24: the gradients of `dCdvi` -/

/-- C24, failing input: the mixed node `mixed_node`, whose tetrahedron has the one
non-boundary vertex `0`. The deformation gradient that `deformation_gradient` returns, and
with it the constraint value `C = 6250/13`, is the same for every particle `q` of that mesh
vertex, so the derivative of `C` along every line of predicted positions of the vertex is
`0`; `dCdvi` returns `(-7500/13, 0, 0)` for the vertex, whose product with the direction
`(1, 0, 0)` is `-7500/13`, and `project_positions` moves the particle of the vertex by
`(5/6, 0, 0)`. The three boundary vertices get no gradient. -/
theorem dCdvi_is_not_the_gradient :
    mixed_hybrid.node_.is_mixed_particle = true ∧
    mixed_hybrid.deformation_gradient (mixed_particles mesh_particle)
      = some ⟨1, 0, 0, 0, 0, 0, 0, 0, 0⟩ ∧
    (∀ q : Particle, mixed_hybrid.value (mixed_particles q) = some (6250 / 13)) ∧
    (∀ h : Vec3, ∃ f : ℚ → ℚ,
      (∀ t, mixed_hybrid.value (mixed_particles (moved h t mesh_particle)) = some (f t)) ∧
      HasDerivAt f 0 0) ∧
    mixed_hybrid.dCdvi
        (mixed_hybrid.strain_energy_and_stress ⟨1, 0, 0, 0, 0, 0, 0, 0, 0⟩
          (HybridConstraint.green_strain ⟨1, 0, 0, 0, 0, 0, 0, 0, 0⟩)).2
      = some [some ⟨-7500 / 13, 0, 0⟩, none, none, none] ∧
    Vec3.dot (⟨-7500 / 13, 0, 0⟩ : Vec3) ⟨1, 0, 0⟩ = -7500 / 13 ∧
    ∃ c1 simulation1, mixed_hybrid.project_positions mixed_simulation 1
        = some (c1, simulation1) ∧
      particle_at mixed_simulation.particles 0 2 = some mesh_particle ∧
      particle_at simulation1.particles 0 2
        = some ⟨⟨0, 0, 0⟩, ⟨5 / 6, 0, 0⟩, ⟨0, 0, 0⟩, ⟨0, 0, 0⟩, ⟨0, 0, 0⟩, 1⟩ := by
  refine ⟨rfl, ?_, mixed_value_eq, ?_, mixed_dCdvi_eq, ?_, _, _, mixed_hybrid_on_mixed,
    rfl, rfl⟩
  · simp only [HybridConstraint.deformation_gradient, deformation_gradient_loop,
      mixed_hybrid, HybridConstraint.mk8, mixed_node, example_node, mixed_particles]
    norm_num [Vec3.smul, Vec3.sub, Mat3.mulVec, Mat3.identity, Mat3.zero, Mat3.outer,
      Mat3.add, deformation_gradient_loop]
  · intro h
    exact ⟨fun _ => 6250 / 13, fun t => mixed_value_eq _, hasDerivAt_const 0 _⟩
  · norm_num [Vec3.dot]

/-! ## C25: the polar decomposition of `get_RS` -/

/-- C25: whenever the decomposition that `small_strain_tensor_op_t::get_RS` asks for returns
factors `U`, `sigma`, `V` with `U^T U = I`, `V^T V = I` and `F = U diag(sigma) V^T`, the pair
`(R, S)` that `get_RS` returns is `(U V^T, V diag(sigma) V^T)` and satisfies `R S = F`,
`R^T R = I` and `S^T = S`; the small strain that `operator()` returns for `S` is `S - I`. -/
theorem get_RS_is_polar_decomposition (jacobiSvd : Mat3 → Mat3 × Vec3 × Mat3) (F : Mat3)
    (hU : Mat3.mul (Mat3.transpose (jacobiSvd F).1) (jacobiSvd F).1 = Mat3.identity)
    (hV : Mat3.mul (Mat3.transpose (jacobiSvd F).2.2) (jacobiSvd F).2.2 = Mat3.identity)
    (hF : F = Mat3.mul (Mat3.mul (jacobiSvd F).1 (Mat3.asDiagonal (jacobiSvd F).2.1))
      (Mat3.transpose (jacobiSvd F).2.2)) :
    (small_strain_tensor_op_t.get_RS jacobiSvd F).1
      = Mat3.mul (jacobiSvd F).1 (Mat3.transpose (jacobiSvd F).2.2) ∧
    (small_strain_tensor_op_t.get_RS jacobiSvd F).2
      = Mat3.mul (Mat3.mul (jacobiSvd F).2.2 (Mat3.asDiagonal (jacobiSvd F).2.1))
          (Mat3.transpose (jacobiSvd F).2.2) ∧
    Mat3.mul (small_strain_tensor_op_t.get_RS jacobiSvd F).1
      (small_strain_tensor_op_t.get_RS jacobiSvd F).2 = F ∧
    Mat3.mul (Mat3.transpose (small_strain_tensor_op_t.get_RS jacobiSvd F).1)
      (small_strain_tensor_op_t.get_RS jacobiSvd F).1 = Mat3.identity ∧
    Mat3.transpose (small_strain_tensor_op_t.get_RS jacobiSvd F).2
      = (small_strain_tensor_op_t.get_RS jacobiSvd F).2 ∧
    small_strain_tensor_op_t (small_strain_tensor_op_t.get_RS jacobiSvd F).2
      = Mat3.sub (small_strain_tensor_op_t.get_RS jacobiSvd F).2 Mat3.identity := by
  have key : ∀ (U V : Mat3) (sigma : Vec3),
      Mat3.mul (Mat3.transpose U) U = Mat3.identity →
      Mat3.mul (Mat3.transpose V) V = Mat3.identity →
      Mat3.mul (Mat3.mul U (Mat3.transpose V))
          (Mat3.mul (Mat3.mul V (Mat3.asDiagonal sigma)) (Mat3.transpose V))
        = Mat3.mul (Mat3.mul U (Mat3.asDiagonal sigma)) (Mat3.transpose V) ∧
      Mat3.mul (Mat3.transpose (Mat3.mul U (Mat3.transpose V)))
          (Mat3.mul U (Mat3.transpose V)) = Mat3.identity ∧
      Mat3.transpose (Mat3.mul (Mat3.mul V (Mat3.asDiagonal sigma)) (Mat3.transpose V))
        = Mat3.mul (Mat3.mul V (Mat3.asDiagonal sigma)) (Mat3.transpose V) := by
    intro U V sigma hU1 hV1
    have hV2 : Mat3.mul V (Mat3.transpose V) = Mat3.identity :=
      mat3_mul_eq_identity_comm _ _ hV1
    refine ⟨?_, ?_, ?_⟩
    · rw [mat3_mul_assoc U, ← mat3_mul_assoc (Mat3.transpose V),
        ← mat3_mul_assoc (Mat3.transpose V), hV1, mat3_identity_mul, mat3_mul_assoc U]
    · rw [mat3_gram_rotation U _ hU1, mat3_transpose_transpose, hV2]
    · rw [mat3_transpose_mul, mat3_transpose_mul, mat3_transpose_transpose,
        mat3_transpose_asDiagonal, mat3_mul_assoc]
  obtain ⟨k1, k2, k3⟩ := key (jacobiSvd F).1 (jacobiSvd F).2.2 (jacobiSvd F).2.1 hU hV
  exact ⟨rfl, rfl, k1.trans hF.symm, k2, k3, rfl⟩

/-- C25, example: the matrix built from a rotation about `z`, the singular values `2, 1, 3`
and a rotation about `x`. -/
theorem get_RS_is_polar_decomposition_witness :
    Mat3.mul (small_strain_tensor_op_t.get_RS example_jacobiSvd example_svd_matrix).1
      (small_strain_tensor_op_t.get_RS example_jacobiSvd example_svd_matrix).2
      = example_svd_matrix ∧
    Mat3.mul
      (Mat3.transpose (small_strain_tensor_op_t.get_RS example_jacobiSvd example_svd_matrix).1)
      (small_strain_tensor_op_t.get_RS example_jacobiSvd example_svd_matrix).1
      = Mat3.identity ∧
    (small_strain_tensor_op_t.get_RS example_jacobiSvd example_svd_matrix).2
      = ⟨2, 0, 0, 0, 43 / 25, -24 / 25, 0, -24 / 25, 57 / 25⟩ := by
  obtain ⟨_, hS, h1, h2, _, _⟩ := get_RS_is_polar_decomposition example_jacobiSvd
    example_svd_matrix
    (by ext <;> norm_num [example_jacobiSvd, example_rotation, Mat3.mul, Mat3.transpose,
      Mat3.identity])
    (by ext <;> norm_num [example_jacobiSvd, example_rotation_x, Mat3.mul, Mat3.transpose,
      Mat3.identity])
    rfl
  refine ⟨h1, h2, ?_⟩
  rw [hS]
  ext <;> norm_num [example_jacobiSvd, example_rotation_x, Mat3.mul, Mat3.transpose,
    Mat3.asDiagonal]

/-! ## C26: order of the calls of `project` and their multiplier slots -/

/-- C26: in every substep of `solver_t::step` the number of sweeps is `num_iterations`, and
every sweep calls `project` on the persistent constraints in the order `0 .. J-1`, the
`j`-th with the multiplier slot `j`, and then on the collision constraints of the substep in
the order `0 .. Mc-1`, the `c`-th with the slot `J + c`; the slots of the calls of a sweep
are `0, 1, .., J + Mc - 1`, so no two calls of a sweep share a slot. The multipliers bear
this out: for every `k` below `num_substeps`, the substep `k` runs from the state `stk` that
`k` substeps leave behind, and the multiplier vector and the bodies that it leaves behind
are those of `num_iterations` sweeps in which every constraint carries a multiplier of its
own, entered as `0`: the multiplier that a projection reads is the one that the last
projection of the same constraint returned, and the vector after the substep holds the
multipliers of the persistent constraints followed by those of the collision
constraints. -/
theorem sweeps_project_in_order (env : Env) (st : Solver) (h : Ready env st) :
    ∃ st1 records, step env st = some (st1, records) ∧
      (∀ r ∈ records, r.J = st.constraints_.length ∧ r.sweeps.length = num_iterations st ∧
        ∃ ccs : List CollisionConstraint, ccs.length = r.Mc ∧
          ∀ sweep ∈ r.sweeps,
            sweep = (List.range r.J).map (fun j => ProjectCall.persistent j j) ++
              ccs.enum.map (fun p => ProjectCall.collision p.1 (r.J + p.1) p.2) ∧
            sweep.map ProjectCall.slot = List.range (r.J + r.Mc) ∧
            (sweep.map ProjectCall.slot).Nodup) ∧
      ∀ k : Nat, k < num_substeps st →
        ∃ (stk stk1 : Solver) (recs : List SubstepRecord) (rk : SubstepRecord)
          (owned : List Body × List (Constraint × ℚ) × List (CollisionConstraint × ℚ)),
          substeps env (step_dt st) (num_iterations st) k st = some (stk, recs) ∧
          substep env (step_dt st) (num_iterations st) stk = some (stk1, rk) ∧
          records[k]? = some rk ∧
          stk.constraints_ = st.constraints_ ∧
          rk.J = stk.constraints_.length ∧
          rk.Mc = (stk.collision_constraints_ ++ rk.generated).length ∧
          rk.sweeps = List.replicate (num_iterations st)
            (expected_calls rk.J (stk.collision_constraints_ ++ rk.generated)) ∧
          owned = owned_substep env (step_dt st) (num_iterations st) stk
            (stk.collision_constraints_ ++ rk.generated) ∧
          owned.2.1.map Prod.fst = stk.constraints_ ∧
          owned.2.2.map Prod.fst = stk.collision_constraints_ ++ rk.generated ∧
          stk1.lagrange_multipliers_ = owned.2.1.map Prod.snd ++ owned.2.2.map Prod.snd ∧
          stk1.physics_bodies_
            = List.zipWith (update_body (step_dt st)) (stk.physics_bodies_.map positions_of)
                owned.1 := by
  obtain ⟨st1, records, e, _, _, _, _, hr⟩ := step_ok env st h
  refine ⟨st1, records, e, ?_, ?_⟩
  · intro r hmem
    obtain ⟨_, hJ, hlen, _⟩ := records_ok_basic hr r hmem
    obtain ⟨ccs, hMc, hsw⟩ := records_ok_sweeps hr r hmem
    refine ⟨hJ, hlen, ccs, hMc, ?_⟩
    intro sweep hs
    rw [hsw] at hs
    have hsweep : sweep = expected_calls st.constraints_.length ccs :=
      List.eq_of_mem_replicate hs
    have hslots := expected_calls_slots st.constraints_.length ccs
    rw [← hsweep, hMc, ← hJ] at hslots
    refine ⟨?_, hslots, ?_⟩
    · rw [hsweep, hJ]
      rfl
    · rw [hslots]
      exact List.nodup_range _
  · intro k hk
    obtain ⟨stk, recs, added, ek, _, hcs, _, hsub, hrec⟩ := substeps_prefix env (step_dt st)
      (num_iterations st) (num_substeps st) st st1 records h e k hk
    obtain ⟨o1, o2, o3, o4⟩ := substep_result_owned env (step_dt st) (num_iterations st) stk
      added
    exact ⟨stk, (substep_result env (step_dt st) (num_iterations st) stk added).1, recs,
      (substep_result env (step_dt st) (num_iterations st) stk added).2, _, ek, hsub, hrec, hcs,
      rfl, rfl, rfl, rfl, o3, o4, o1, o2⟩

/-- C26, example: the example solver, one body with persistent constraints above the floor
triangles. -/
theorem sweeps_project_in_order_witness :
    Ready example_env example_solver ∧
    ∃ st1 records, step example_env example_solver = some (st1, records) ∧
      (∀ r ∈ records, r.J = example_solver.constraints_.length ∧
        r.sweeps.length = num_iterations example_solver ∧
        ∃ ccs : List CollisionConstraint, ccs.length = r.Mc ∧
          ∀ sweep ∈ r.sweeps,
            sweep = (List.range r.J).map (fun j => ProjectCall.persistent j j) ++
              ccs.enum.map (fun p => ProjectCall.collision p.1 (r.J + p.1) p.2) ∧
            sweep.map ProjectCall.slot = List.range (r.J + r.Mc) ∧
            (sweep.map ProjectCall.slot).Nodup) ∧
      ∀ k : Nat, k < num_substeps example_solver →
        ∃ (stk stk1 : Solver) (recs : List SubstepRecord) (rk : SubstepRecord)
          (owned : List Body × List (Constraint × ℚ) × List (CollisionConstraint × ℚ)),
          substeps example_env (step_dt example_solver) (num_iterations example_solver) k
            example_solver = some (stk, recs) ∧
          substep example_env (step_dt example_solver) (num_iterations example_solver) stk
            = some (stk1, rk) ∧
          records[k]? = some rk ∧
          stk.constraints_ = example_solver.constraints_ ∧
          rk.J = stk.constraints_.length ∧
          rk.Mc = (stk.collision_constraints_ ++ rk.generated).length ∧
          rk.sweeps = List.replicate (num_iterations example_solver)
            (expected_calls rk.J (stk.collision_constraints_ ++ rk.generated)) ∧
          owned = owned_substep example_env (step_dt example_solver)
            (num_iterations example_solver) stk
            (stk.collision_constraints_ ++ rk.generated) ∧
          owned.2.1.map Prod.fst = stk.constraints_ ∧
          owned.2.2.map Prod.fst = stk.collision_constraints_ ++ rk.generated ∧
          stk1.lagrange_multipliers_ = owned.2.1.map Prod.snd ++ owned.2.2.map Prod.snd ∧
          stk1.physics_bodies_
            = List.zipWith (update_body (step_dt example_solver))
                (stk.physics_bodies_.map positions_of) owned.1 :=
  ⟨example_solver_ready,
    sweeps_project_in_order example_env example_solver example_solver_ready⟩

/-! ## C27: the collision detection of `timestep_t::step` -/

/-- C27, counterexample: with two substeps, a solver and a contact handler, one call of
`timestep_t::step` executes the detector once and calls `solve` twice. -/
theorem detector_per_substep_counterexample :
    example_timestep.substeps_ = 2 ∧
    example_timestep_env.has_contact_handler example_simulation = true ∧
    ∃ simulation1 log, example_timestep.step example_timestep_env example_simulation
        = some (simulation1, log) ∧
      log.count TimestepCall.execute = 1 ∧
      log.count (TimestepCall.solve (1 / 120) 10) = 2 := by
  refine ⟨rfl, rfl, _, _,
    timestep_step_log example_timestep_env example_timestep example_simulation rfl, ?_, ?_⟩
  · simp [detect_collisions, finish_step, example_timestep_env, example_timestep,
      List.count_replicate]
  · have h : example_timestep.dt_ / (example_timestep.substeps_ : ℚ) = 1 / 120 := by
      norm_num [example_timestep]
    rw [h]
    simp [detect_collisions, finish_step, example_timestep_env, example_timestep,
      List.count_replicate]

/-- C27, amended: one call of `timestep_t::step` with a solver executes the collision
detector once when the simulation has a collision detection system with a contact handler
and not at all otherwise, whatever the number of substeps; the execution, bracketed by
`on_cd_starting` and `on_cd_ending`, precedes the calls of `solve`, of which there is one for
every substep, and nothing after them executes the detector. -/
theorem detector_runs_once_per_step (env : TimestepEnv) (t : Timestep)
    (simulation : Simulation) (hs : t.has_solver = true) :
    ∃ simulation1 log head tail, t.step env simulation = some (simulation1, log) ∧
      log = head
        ++ List.replicate t.substeps_
            (TimestepCall.solve (t.dt_ / (t.substeps_ : ℚ)) t.iterations_)
        ++ tail ∧
      head = (if env.has_contact_handler simulation then
          [TimestepCall.on_cd_starting, TimestepCall.execute, TimestepCall.on_cd_ending]
        else []) ∧
      TimestepCall.execute ∉ tail ∧
      log.count TimestepCall.execute = (if env.has_contact_handler simulation then 1 else 0) := by
  have hhead : (detect_collisions env simulation).2
      = (if env.has_contact_handler simulation then
          [TimestepCall.on_cd_starting, TimestepCall.execute, TimestepCall.on_cd_ending]
        else []) := by
    unfold detect_collisions
    split <;> rfl
  have htail := finish_step_no_execute env (timestep_state env t simulation t.substeps_)
  refine ⟨_, _, _, _, timestep_step_log env t simulation hs, rfl, hhead, htail, ?_⟩
  rw [List.count_append, List.count_append, List.count_eq_zero_of_not_mem htail,
    List.count_replicate, hhead]
  split <;> simp

/-- C27, example: the example time step with two substeps. -/
theorem detector_runs_once_per_step_witness :
    example_timestep.has_solver = true ∧ example_timestep.substeps_ = 2 ∧
    ∃ simulation1 log head tail,
      example_timestep.step example_timestep_env example_simulation
        = some (simulation1, log) ∧
      log = head
        ++ List.replicate example_timestep.substeps_
            (TimestepCall.solve (example_timestep.dt_ / (example_timestep.substeps_ : ℚ))
              example_timestep.iterations_)
        ++ tail ∧
      head = (if example_timestep_env.has_contact_handler example_simulation then
          [TimestepCall.on_cd_starting, TimestepCall.execute, TimestepCall.on_cd_ending]
        else []) ∧
      TimestepCall.execute ∉ tail ∧
      log.count TimestepCall.execute
        = (if example_timestep_env.has_contact_handler example_simulation then 1 else 0) :=
  ⟨rfl, rfl,
    detector_runs_once_per_step example_timestep_env example_timestep example_simulation rfl⟩

/-! ## C28: the reconciliation at the end of a substep of `timestep_t::step` -/

/-- C28: after every substep of `timestep_t::step`, the `k + 1`-th of `substeps_`, every
particle has the velocity `(xi - xn0) / (dt_ / substeps_)`, where `xi` is its predicted
position and `xn0` the previous confirmed position that the particle had when the substep
started, its position `x` and its confirmed position `xn` are `xi`, and its force is zero;
`solve` is taken to leave `xn` alone and `dt_`, `substeps_` not to be zero. -/
theorem substep_reconciles (env : TimestepEnv) (t : Timestep) (simulation : Simulation)
    (hsolve : KeepsConfirmed env.solve) (_hdt : t.dt_ ≠ 0) (_hn : t.substeps_ ≠ 0)
    (k : Nat) (_hk : k < t.substeps_) (bi i : Nat) (q1 : Particle)
    (h1 : particle_at (timestep_state env t simulation (k + 1)).particles bi i = some q1) :
    ∃ q0, particle_at (timestep_state env t simulation k).particles bi i = some q0 ∧
      q1.v = Vec3.sdiv (Vec3.sub q1.xi q0.xn) (t.dt_ / (t.substeps_ : ℚ)) ∧
      q1.x = q1.xi ∧ q1.xn = q1.xi ∧ q1.f = Vec3.zero := by
  unfold timestep_state at h1 ⊢
  rw [timestep_substeps_succ] at h1
  generalize (timestep_substeps env (t.dt_ / (t.substeps_ : ℚ)) t.iterations_ k
    (detect_collisions env simulation).1).1 = start at h1 ⊢
  simp only [timestep_substep, particle_at_map] at h1
  cases hs : particle_at (env.solve
      { start with
        particles := start.particles.map
          (List.map (move_particle (t.dt_ / (t.substeps_ : ℚ)))) }
      (t.dt_ / (t.substeps_ : ℚ)) t.iterations_).particles bi i with
  | none => rw [hs] at h1; cases h1
  | some s =>
    rw [hs] at h1
    simp only [Option.map_some', Option.some.injEq] at h1
    obtain ⟨m, hm, hxn⟩ := hsolve _ _ _ bi i s hs
    simp only [particle_at_map] at hm
    cases h0 : particle_at start.particles bi i with
    | none => rw [h0] at hm; cases hm
    | some q0 =>
      rw [h0] at hm
      simp only [Option.map_some', Option.some.injEq] at hm
      have hq : s.xn = q0.xn := by
        rw [hxn, ← hm]
        rfl
      refine ⟨q0, rfl, ?_, ?_, ?_, ?_⟩ <;> rw [← h1]
      · simp only [set_solution, hq]
      · rfl
      · rfl
      · rfl

/-- C28, example: the free particle of the example simulation after the first of the two
substeps of `1/120`. -/
theorem substep_reconciles_witness :
    KeepsConfirmed example_timestep_env.solve ∧
    ∃ q1, particle_at (timestep_state example_timestep_env example_timestep
        example_simulation 1).particles 0 1 = some q1 ∧
      ∃ q0, particle_at (timestep_state example_timestep_env example_timestep
          example_simulation 0).particles 0 1 = some q0 ∧
        q1.v = Vec3.sdiv (Vec3.sub q1.xi q0.xn)
          (example_timestep.dt_ / (example_timestep.substeps_ : ℚ)) ∧
        q1.x = q1.xi ∧ q1.xn = q1.xi ∧ q1.f = Vec3.zero := by
  have h : ∃ q1, particle_at (timestep_state example_timestep_env example_timestep
      example_simulation 1).particles 0 1 = some q1 := by
    simp only [timestep_state, timestep_substeps, timestep_substep, particle_at_map,
      detect_collisions, example_timestep_env, example_solve, example_simulation,
      particle_at]
    simp
  obtain ⟨q1, hq1⟩ := h
  exact ⟨example_solve_keeps_confirmed, q1, hq1,
    substep_reconciles example_timestep_env example_timestep example_simulation
      example_solve_keeps_confirmed (by norm_num [example_timestep]) (by decide) 0
      (by decide) 0 1 q1 hq1⟩

/-! ## C29: what `setup` creates -/

/-- C29: after `solver_t::setup`, whatever the solver held before, `physics_bodies_` are the
physics bodies of the scene in scene order; the persistent constraint list is, in body
order, one Green constraint for every tetrahedron of every body whose selector is `green`
and one distance constraint of compliance `1 / hooke_coefficient` for every edge of every
body whose selector is `distance`; for every green body `b` and tetrahedron index `ti` the
map entry `(b, ti)` is the index in the constraint list of the Green constraint created for
that tetrahedron; the multiplier vector has one entry for every constraint and `x0_` one
entry for every physics body. A body is identified by its index in `physics_bodies_`. -/
theorem setup_creates_constraints (env : Env) (bodies : List SceneNode) (st : Solver) :
    (Solver.setup env bodies st).physics_bodies_ = physics_bodies_of bodies ∧
    (Solver.setup env bodies st).constraints_
      = expected_constraints env 0 (physics_bodies_of bodies) ∧
    (∀ (b : Nat) (body : Body) (ti : Nat), (physics_bodies_of bodies)[b]? = some body →
      body.simulation_parameters.constraint_type = ConstraintType.green →
      ti < body.tetrahedra.length →
      List.lookup (b, ti) (Solver.setup env bodies st).tetrahedron_to_constraint_map_
        = some ((expected_constraints env 0 ((physics_bodies_of bodies).take b)).length + ti) ∧
      (Solver.setup env bodies st).constraints_[
          (expected_constraints env 0 ((physics_bodies_of bodies).take b)).length + ti]?
        = some (env.green_constraint body.simulation_parameters.alpha b ti
            body.simulation_parameters.young_modulus
            body.simulation_parameters.poisson_ratio)) ∧
    (Solver.setup env bodies st).lagrange_multipliers_.length
      = (Solver.setup env bodies st).constraints_.length ∧
    (Solver.setup env bodies st).x0_.length
      = (Solver.setup env bodies st).physics_bodies_.length := by
  obtain ⟨s1, s2, _⟩ := sort_bodies_spec bodies st.reset
  have hp : (sort_bodies bodies st.reset).physics_bodies_ = physics_bodies_of bodies := by
    rw [s1]
    rfl
  have hc : (sort_bodies bodies st.reset).constraints_ = [] := by
    rw [s2]
    rfl
  obtain ⟨c1, c2, _, c4⟩ := create_constraints_spec env
    (sort_bodies bodies st.reset).physics_bodies_ 0 (sort_bodies bodies st.reset)
  rw [hc, hp] at c1 c4
  rw [hp] at c2
  rw [List.nil_append] at c1
  have hcs : (Solver.setup env bodies st).constraints_
      = expected_constraints env 0 (physics_bodies_of bodies) := by
    unfold Solver.setup
    simp only [hp]
    exact c1
  refine ⟨?_, hcs, ?_, ?_, ?_⟩
  · unfold Solver.setup
    simp only [hp]
    exact c2
  · intro b body ti hb hgreen hti
    constructor
    · have h := c4 b body ti hb hgreen hti
      rw [Nat.zero_add, List.length_nil, Nat.zero_add] at h
      unfold Solver.setup
      simp only [hp]
      exact h
    · rw [hcs]
      have h := expected_constraints_getElem env (physics_bodies_of bodies) 0 b body ti hb
        hgreen hti
      rw [Nat.zero_add] at h
      exact h
  · unfold Solver.setup
    simp only [resize_length]
  · unfold Solver.setup
    simp only [resize_x0_length]

/-! ## C30: the implementations of the constitutive functions agree -/

/-- C30: for every matrix `F`, every strain `E` and the same Young modulus and Poisson
ratio, `green_strain` and `strain_energy_and_stress` of the hybrid constraint return the
strain, the energy and the stress of `green_strain_op_t`,
`stvk_strain_energy_density_op_t::operator()` and `stvk_strain_energy_density_op_t::stress`;
the values of `differentiable::strain_op_t` and of
`differentiable::stvk_strain_energy_density_op_t` are those of the plain operators; and the
energy operators of the corotational and of the St. Venant-Kirchhoff model are the same
function of `E`. -/
theorem constitutive_implementations_agree (Y nu alpha beta : ℚ) (bi ni : Nat)
    (node : HybridNode) (F E : Mat3) :
    HybridConstraint.green_strain F = green_strain_op_t F ∧
    ((HybridConstraint.mk8 alpha beta bi ni Y nu node).strain_energy_and_stress F E).1
      = stvk_strain_energy_density_op_t.energy (stvk_strain_energy_density_op_t.ctor Y nu) E ∧
    ((HybridConstraint.mk8 alpha beta bi ni Y nu node).strain_energy_and_stress F E).2
      = stvk_strain_energy_density_op_t.stress (stvk_strain_energy_density_op_t.ctor Y nu)
          F E ∧
    differentiable.strain_op_t F = green_strain_op_t F ∧
    differentiable.stvk_strain_energy_density_op_t.energy
        (differentiable.stvk_strain_energy_density_op_t.ctor Y nu) E
      = stvk_strain_energy_density_op_t.energy (stvk_strain_energy_density_op_t.ctor Y nu) E ∧
    corotational_linear_elasticity_strain_energy_density_op_t.energy
        (corotational_linear_elasticity_strain_energy_density_op_t.ctor Y nu) E
      = stvk_strain_energy_density_op_t.energy (stvk_strain_energy_density_op_t.ctor Y nu) E ∧
    ∀ op : linear_elasticity_strain_energy_density_t,
      corotational_linear_elasticity_strain_energy_density_op_t.energy op E
        = stvk_strain_energy_density_op_t.energy op E :=
  ⟨rfl, rfl, rfl, rfl, rfl, rfl, fun _ => rfl⟩

/-! ## C31: the strain energy density is not negative -/

/-- C31: for every Young modulus `Y > 0`, Poisson ratio `-1 < nu < 1/2` and every matrix
`E`, symmetric or not, the St. Venant-Kirchhoff energy density
`mu * (E : E) + 1/2 * lambda * tr(E)^2` with the Lame parameters that the constructor derives
from `Y` and `nu` is not negative, also for `nu < 0`, where `lambda < 0`; it is `0` only for
`E = 0`; hence the energy `Psi` and the value `C = Vi * Psi` of a hybrid constraint
constructed with `Y` and `nu` are not negative when `Vi >= 0`. -/
theorem strain_energy_density_nonneg (young_modulus poisson_ratio : ℚ) (E : Mat3)
    (alpha beta : ℚ) (bi ni : Nat) (node : HybridNode)
    (hY : 0 < young_modulus) (h1 : -1 < poisson_ratio) (h2 : poisson_ratio < 1 / 2) :
    0 ≤ stvk_strain_energy_density_op_t.energy
      (stvk_strain_energy_density_op_t.ctor young_modulus poisson_ratio) E ∧
    (stvk_strain_energy_density_op_t.energy
      (stvk_strain_energy_density_op_t.ctor young_modulus poisson_ratio) E = 0
        ↔ E = Mat3.zero) ∧
    (poisson_ratio < 0 →
      (stvk_strain_energy_density_op_t.ctor young_modulus poisson_ratio).lambda < 0) ∧
    (∀ Fi : Mat3,
      0 ≤ ((HybridConstraint.mk8 alpha beta bi ni young_modulus poisson_ratio
        node).strain_energy_and_stress Fi E).1) ∧
    (0 ≤ node.Vi → ∀ (particles : List Particle) (C : ℚ),
      (HybridConstraint.mk8 alpha beta bi ni young_modulus poisson_ratio node).value particles
        = some C → 0 ≤ C) := by
  have core : ∀ (mu lam : ℚ), 0 < mu → 0 < 2 * mu + 3 * lam → ∀ M : Mat3,
      0 ≤ mu * Mat3.contraction M + (1 / 2) * lam * (Mat3.trace M * Mat3.trace M) ∧
      (mu * Mat3.contraction M + (1 / 2) * lam * (Mat3.trace M * Mat3.trace M) = 0 →
        M = Mat3.zero) := by
    intro mu lam hmu hK M
    have key : mu * Mat3.contraction M + (1 / 2) * lam * (Mat3.trace M * Mat3.trace M)
        = mu * (M.m01 ^ 2 + M.m02 ^ 2 + M.m10 ^ 2 + M.m12 ^ 2 + M.m20 ^ 2 + M.m21 ^ 2
            + ((M.m00 - M.m11) ^ 2 + (M.m11 - M.m22) ^ 2 + (M.m00 - M.m22) ^ 2) / 3)
          + (2 * mu + 3 * lam) / 6 * (M.m00 + M.m11 + M.m22) ^ 2 := by
      simp only [Mat3.contraction, Mat3.trace]
      ring
    have hQ : 0 ≤ M.m01 ^ 2 + M.m02 ^ 2 + M.m10 ^ 2 + M.m12 ^ 2 + M.m20 ^ 2 + M.m21 ^ 2
        + ((M.m00 - M.m11) ^ 2 + (M.m11 - M.m22) ^ 2 + (M.m00 - M.m22) ^ 2) / 3 := by
      positivity
    have hT : 0 ≤ (2 * mu + 3 * lam) / 6 * (M.m00 + M.m11 + M.m22) ^ 2 :=
      mul_nonneg (by linarith) (sq_nonneg _)
    rw [key]
    refine ⟨add_nonneg (mul_nonneg hmu.le hQ) hT, fun h0 => ?_⟩
    have hA0 := mul_nonneg hmu.le hQ
    have hA : mu * (M.m01 ^ 2 + M.m02 ^ 2 + M.m10 ^ 2 + M.m12 ^ 2 + M.m20 ^ 2 + M.m21 ^ 2
        + ((M.m00 - M.m11) ^ 2 + (M.m11 - M.m22) ^ 2 + (M.m00 - M.m22) ^ 2) / 3) = 0 :=
      le_antisymm (by linarith only [h0, hT]) hA0
    have hB : (2 * mu + 3 * lam) / 6 * (M.m00 + M.m11 + M.m22) ^ 2 = 0 :=
      le_antisymm (by linarith only [h0, hA0]) hT
    have hQ0 := (mul_eq_zero.mp hA).resolve_left (ne_of_gt hmu)
    have hT0 : M.m00 + M.m11 + M.m22 = 0 :=
      pow_eq_zero_iff (two_ne_zero) |>.mp
        ((mul_eq_zero.mp hB).resolve_left (by
          have : 0 < (2 * mu + 3 * lam) / 6 := by linarith
          exact ne_of_gt this))
    have s01 := sq_nonneg M.m01
    have s02 := sq_nonneg M.m02
    have s10 := sq_nonneg M.m10
    have s12 := sq_nonneg M.m12
    have s20 := sq_nonneg M.m20
    have s21 := sq_nonneg M.m21
    have d1 := sq_nonneg (M.m00 - M.m11)
    have d2 := sq_nonneg (M.m11 - M.m22)
    have d3 := sq_nonneg (M.m00 - M.m22)
    have z01 : M.m01 = 0 := pow_eq_zero_iff (two_ne_zero) |>.mp
      (le_antisymm (by linarith only [hQ0, s01, s02, s10, s12, s20, s21, d1, d2, d3]) (sq_nonneg _))
    have z02 : M.m02 = 0 := pow_eq_zero_iff (two_ne_zero) |>.mp
      (le_antisymm (by linarith only [hQ0, s01, s02, s10, s12, s20, s21, d1, d2, d3]) (sq_nonneg _))
    have z10 : M.m10 = 0 := pow_eq_zero_iff (two_ne_zero) |>.mp
      (le_antisymm (by linarith only [hQ0, s01, s02, s10, s12, s20, s21, d1, d2, d3]) (sq_nonneg _))
    have z12 : M.m12 = 0 := pow_eq_zero_iff (two_ne_zero) |>.mp
      (le_antisymm (by linarith only [hQ0, s01, s02, s10, s12, s20, s21, d1, d2, d3]) (sq_nonneg _))
    have z20 : M.m20 = 0 := pow_eq_zero_iff (two_ne_zero) |>.mp
      (le_antisymm (by linarith only [hQ0, s01, s02, s10, s12, s20, s21, d1, d2, d3]) (sq_nonneg _))
    have z21 : M.m21 = 0 := pow_eq_zero_iff (two_ne_zero) |>.mp
      (le_antisymm (by linarith only [hQ0, s01, s02, s10, s12, s20, s21, d1, d2, d3]) (sq_nonneg _))
    have e1 : M.m00 - M.m11 = 0 := pow_eq_zero_iff (two_ne_zero) |>.mp
      (le_antisymm (by linarith only [hQ0, s01, s02, s10, s12, s20, s21, d1, d2, d3]) d1)
    have e2 : M.m11 - M.m22 = 0 := pow_eq_zero_iff (two_ne_zero) |>.mp
      (le_antisymm (by linarith only [hQ0, s01, s02, s10, s12, s20, s21, d1, d2, d3]) d2)
    ext
    · show M.m00 = 0
      linear_combination (hT0 + 2 * e1 + e2) / 3
    · exact z01
    · exact z02
    · exact z10
    · show M.m11 = 0
      linear_combination (hT0 - e1 + e2) / 3
    · exact z12
    · exact z20
    · exact z21
    · show M.m22 = 0
      linear_combination (hT0 - e1 - 2 * e2) / 3
  have hp1 : (0 : ℚ) < 1 + poisson_ratio := by linarith
  have hp2 : (0 : ℚ) < 1 - 2 * poisson_ratio := by linarith
  have hmu : 0 < young_modulus / (2 * (1 + poisson_ratio)) := div_pos hY (by linarith)
  have hK : 2 * (young_modulus / (2 * (1 + poisson_ratio)))
      + 3 * ((young_modulus * poisson_ratio)
          / ((1 + poisson_ratio) * (1 - 2 * poisson_ratio)))
      = young_modulus / (1 - 2 * poisson_ratio) := by
    field_simp
    ring
  have hKpos : 0 < 2 * (young_modulus / (2 * (1 + poisson_ratio)))
      + 3 * ((young_modulus * poisson_ratio)
          / ((1 + poisson_ratio) * (1 - 2 * poisson_ratio))) := by
    rw [hK]
    exact div_pos hY hp2
  have hzero : stvk_strain_energy_density_op_t.energy
      (stvk_strain_energy_density_op_t.ctor young_modulus poisson_ratio) Mat3.zero = 0 := by
    simp [stvk_strain_energy_density_op_t.energy, Mat3.trace, Mat3.contraction, Mat3.zero]
  refine ⟨(core _ _ hmu hKpos E).1, ⟨(core _ _ hmu hKpos E).2, fun h => by rw [h, hzero]⟩,
    fun hn => div_neg_of_neg_of_pos (mul_neg_of_pos_of_neg hY hn) (mul_pos hp1 hp2),
    fun _ => (core _ _ hmu hKpos E).1, fun hVi particles C hC => ?_⟩
  unfold HybridConstraint.value at hC
  split at hC
  · cases hC
  · rename_i Fi _
    simp only [Option.some.injEq] at hC
    rw [← hC]
    exact mul_nonneg hVi (core _ _ hmu hKpos (HybridConstraint.green_strain Fi)).1

/-- C31, example: Young modulus `1000` and Poisson ratio `-1/2` give `mu = 1000` and
`lambda = -500 < 0`; the energy density of the identity strain is `750`. -/
theorem strain_energy_density_nonneg_witness :
    ((0 : ℚ) < 1000 ∧ (-1 : ℚ) < -1 / 2 ∧ (-1 / 2 : ℚ) < 1 / 2) ∧
    (stvk_strain_energy_density_op_t.ctor 1000 (-1 / 2)).lambda = -500 ∧
    stvk_strain_energy_density_op_t.energy
      (stvk_strain_energy_density_op_t.ctor 1000 (-1 / 2)) Mat3.identity = 750 ∧
    0 ≤ stvk_strain_energy_density_op_t.energy
      (stvk_strain_energy_density_op_t.ctor 1000 (-1 / 2)) Mat3.identity := by
  have hY : (0 : ℚ) < 1000 := by norm_num
  have h1 : (-1 : ℚ) < -1 / 2 := by norm_num
  have h2 : (-1 / 2 : ℚ) < 1 / 2 := by norm_num
  refine ⟨⟨hY, h1, h2⟩, ?_, ?_,
    (strain_energy_density_nonneg 1000 (-1 / 2) Mat3.identity 0 0 0 0 example_node
      hY h1 h2).1⟩
  · norm_num [stvk_strain_energy_density_op_t.ctor,
      linear_elasticity_strain_energy_density_t.ctor]
  · norm_num [stvk_strain_energy_density_op_t.energy, stvk_strain_energy_density_op_t.ctor,
      linear_elasticity_strain_energy_density_t.ctor, Mat3.trace, Mat3.contraction,
      Mat3.identity]

/-! ## C32: a rotation produces no stress -/

/-- C32: for every matrix `R` with `R^T R = I` and all Lame parameters, the Green strain of
the deformation gradient `R` is the zero matrix, for `green_strain_op_t` and for the hybrid
constraint; the St. Venant-Kirchhoff stress `stress(R, 0)`, which is the stress at that
strain, is the zero matrix; so is the stress that the hybrid constraint computes for `R`,
and so is the corotational stress `stress(R, F)` for `F = R`. -/
theorem rotation_has_no_stress (R : Mat3) (op : linear_elasticity_strain_energy_density_t)
    (c : HybridConstraint) (hR : Mat3.mul (Mat3.transpose R) R = Mat3.identity) :
    green_strain_op_t R = Mat3.zero ∧
    HybridConstraint.green_strain R = Mat3.zero ∧
    stvk_strain_energy_density_op_t.stress op R Mat3.zero = Mat3.zero ∧
    stvk_strain_energy_density_op_t.stress op R (green_strain_op_t R) = Mat3.zero ∧
    (c.strain_energy_and_stress R (HybridConstraint.green_strain R)).2 = Mat3.zero ∧
    corotational_linear_elasticity_strain_energy_density_op_t.stress op R R = Mat3.zero := by
  have h1 : green_strain_op_t R = Mat3.zero := by
    simp only [green_strain_op_t, hR]
    ext <;> simp [Mat3.smul, Mat3.sub, Mat3.identity, Mat3.zero]
  have h2 : HybridConstraint.green_strain R = Mat3.zero := h1
  have h3 : ∀ (mu lam : ℚ), Mat3.mul R (Mat3.add (Mat3.smul (2 * mu) Mat3.zero)
      (Mat3.smul (lam * Mat3.trace Mat3.zero) Mat3.identity)) = Mat3.zero := by
    intro mu lam
    ext <;> simp [Mat3.mul, Mat3.add, Mat3.smul, Mat3.trace, Mat3.zero, Mat3.identity]
  refine ⟨h1, h2, h3 _ _, ?_, ?_, ?_⟩
  · rw [h1]
    exact h3 _ _
  · rw [h2]
    exact h3 _ _
  · simp only [corotational_linear_elasticity_strain_energy_density_op_t.stress, hR]
    ext <;> simp [Mat3.add, Mat3.sub, Mat3.smul, Mat3.trace, Mat3.zero, Mat3.identity]

/-- C32, example: the rotation about the `z` axis with cosine `3/5` and sine `4/5`, which is
not the identity. -/
theorem rotation_has_no_stress_witness :
    Mat3.mul (Mat3.transpose example_rotation) example_rotation = Mat3.identity ∧
    example_rotation ≠ Mat3.identity ∧
    green_strain_op_t example_rotation = Mat3.zero ∧
    stvk_strain_energy_density_op_t.stress
      (stvk_strain_energy_density_op_t.ctor 1000 (3 / 10)) example_rotation Mat3.zero
        = Mat3.zero ∧
    corotational_linear_elasticity_strain_energy_density_op_t.stress
      (corotational_linear_elasticity_strain_energy_density_op_t.ctor 1000 (3 / 10))
      example_rotation example_rotation = Mat3.zero := by
  have hQ : Mat3.mul (Mat3.transpose example_rotation) example_rotation = Mat3.identity := by
    ext <;> norm_num [Mat3.mul, Mat3.transpose, example_rotation, Mat3.identity]
  obtain ⟨a, _, b, _, _, d⟩ := rotation_has_no_stress example_rotation
    (stvk_strain_energy_density_op_t.ctor 1000 (3 / 10)) example_hybrid hQ
  refine ⟨hQ, ?_, a, b, d⟩
  intro h
  have := congrArg Mat3.m00 h
  norm_num [example_rotation, Mat3.identity] at this

/-! ## C33: the deformation gradient under an affine map -/

/-- C33: for every matrix `A` and vector `t`, when the predicted position `x` of every
particle is replaced by `A * x + t`,
`hybrid_mesh_meshless_sph_constraint_t::deformation_gradient` returns exactly when it
returned before, and returns `A` times the matrix it returned before; replacing every
predicted position `x` by `x + t` leaves what it returns unchanged. -/
theorem deformation_gradient_affine_covariant (c : HybridConstraint)
    (particles : List Particle) (A : Mat3) (t : Vec3) :
    c.deformation_gradient (particles.map (transformed A t))
      = (c.deformation_gradient particles).map (Mat3.mul A) ∧
    c.deformation_gradient (particles.map (transformed Mat3.identity t))
      = c.deformation_gradient particles ∧
    (∀ p : Particle, (transformed A t p).xi = Vec3.add (Mat3.mulVec A p.xi) t ∧
      (transformed Mat3.identity t p).xi = Vec3.add p.xi t) := by
  have h : ∀ B : Mat3, c.deformation_gradient (particles.map (transformed B t))
      = (c.deformation_gradient particles).map (Mat3.mul B) := by
    intro B
    unfold HybridConstraint.deformation_gradient
    rw [← deformation_gradient_loop_affine c particles B t c.node_.neighbours 0 Mat3.zero,
      mat3_mul_zero]
  refine ⟨h A, ?_, fun p => ⟨rfl, ?_⟩⟩
  · rw [h Mat3.identity]
    cases c.deformation_gradient particles with
    | none => rfl
    | some F => simp only [Option.map_some', mat3_identity_mul]
  · ext <;> simp [transformed, Vec3.add, Mat3.mulVec, Mat3.identity]

/-! ## C34: the hybrid projection conserves linear momentum -/

/-- C34: for a node that is not a mixed particle, whose neighbour list has no duplicates and
contains the node itself, in every state in which `deformation_gradient` returns: `dCdxk`
returns for every stress, and the gradients it returns sum to the zero vector;
`project_positions` returns, every neighbour has a particle before and after the call, and
when the inverse mass of every neighbour is positive the mass-weighted sum of the
displacements `sum_k (1 / invmass_k) * (xi_k' - xi_k)` over the neighbours is the zero
vector. The time step and the divisor of `delta_lagrange`, when the call divides, are taken
to be non-zero. -/
theorem hybrid_projection_conserves_momentum (c : HybridConstraint) (simulation : Simulation)
    (dt : ℚ) (particles : List Particle) (Fi : Mat3)
    (hp : simulation.particles[c.bi_]? = some particles)
    (hF : c.deformation_gradient particles = some Fi)
    (hmixed : c.node_.is_mixed_particle = false)
    (hnd : c.node_.neighbours.Nodup)
    (hmem : c.ni_ ∈ c.node_.neighbours)
    (hmass : ∀ (j : Nat) (p : Particle), j ∈ c.node_.neighbours →
      particles[c.node_.body.meshless_particles_index_offset + j]? = some p → 0 < p.invmass)
    (_hdt : dt ≠ 0)
    (_hden : ∀ g : GradientSums, c.gradient_sums particles = some g →
      epsilon ≤ g.weighted_sum_of_gradients →
      (1 + gamma c.alpha_ c.beta_ dt) * g.weighted_sum_of_gradients
        + alpha_tilde c.alpha_ dt ≠ 0) :
    (∀ P : Mat3, ∃ gradC, c.dCdxk P = some gradC ∧ vec3_sum gradC = Vec3.zero) ∧
    ∃ c1 simulation1 particles1,
      c.project_positions simulation dt = some (c1, simulation1) ∧
      simulation1.particles[c.bi_]? = some particles1 ∧
      (∀ j ∈ c.node_.neighbours, ∃ p p1,
        particles[c.node_.body.meshless_particles_index_offset + j]? = some p ∧
        particles1[c.node_.body.meshless_particles_index_offset + j]? = some p1) ∧
      momentum_change c particles particles1 c.node_.neighbours = Vec3.zero := by
  have hex := deformation_gradient_loop_particles c particles c.node_.neighbours 0 Mat3.zero
    Fi hF
  refine ⟨fun P => ?_, ?_⟩
  · obtain ⟨gradC, hG, _, _⟩ := dCdxk_spec c particles Fi P hmem hF
    exact ⟨gradC, hG, dCdxk_sum_zero c P gradC hG⟩
  · obtain ⟨g, hg⟩ := gradient_sums_returns c particles Fi hmem hF hmixed
    by_cases hS : epsilon ≤ g.weighted_sum_of_gradients
    · obtain ⟨c1, particles1, hr, _, _, hmoved⟩ :=
        meshless_projection_spec c simulation dt particles g hp hg hmixed hnd hS
      have hGs := (gradient_sums_gradients c particles g hg).1
      have hlen : g.gradC.length = c.node_.neighbours.length := by
        obtain ⟨gradC, hG, hl, _⟩ := dCdxk_spec c particles Fi
          (c.strain_energy_and_stress g.Fi (HybridConstraint.green_strain g.Fi)).2 hmem hF
        rw [hGs] at hG
        cases hG
        exact hl
      have hmoved0 : ∀ (i j : Nat) (p : Particle) (grad : Vec3),
          c.node_.neighbours[i]? = some j →
          particles[c.node_.body.meshless_particles_index_offset + j]? = some p →
          g.gradC[0 + i]? = some grad →
          particles1[c.node_.body.meshless_particles_index_offset + j]?
            = some (push_particle (c.delta_lagrange g dt) grad p) := by
        intro i j p grad hi hpj hgr
        rw [Nat.zero_add] at hgr
        exact hmoved i j p grad hi hpj hgr
      refine ⟨c1, _, particles1, hr, ?_, ?_, ?_⟩
      · exact List.getElem?_set_self (List.getElem?_eq_some.mp hp).1
      · intro j hj
        obtain ⟨p, hpj⟩ := hex j hj
        obtain ⟨i, hi⟩ := List.getElem?_of_mem hj
        have hlt : i < g.gradC.length := by
          rw [hlen]
          exact (List.getElem?_eq_some.mp hi).1
        exact ⟨p, _, hpj, hmoved i j p g.gradC[i] hi hpj (List.getElem?_eq_getElem hlt)⟩
      · rw [momentum_change_spec c g.gradC (c.delta_lagrange g dt) particles particles1
          c.node_.neighbours 0 (by omega)
          (fun j hj => by
            obtain ⟨p, hpj⟩ := hex j hj
            exact ⟨p, hpj, ne_of_gt (hmass j p hj hpj)⟩)
          hmoved0, List.drop_zero, dCdxk_sum_zero c _ g.gradC hGs]
        ext <;> simp [Vec3.smul, Vec3.zero]
    · refine ⟨{ c with node_ := { c.node_ with Fi := g.Fi } }, simulation, particles, ?_, hp,
        fun j hj => ?_, momentum_change_self c particles _⟩
      · unfold HybridConstraint.project_positions
        rw [hp]
        simp only [hg]
        rw [if_pos (not_le.mp hS)]
      · obtain ⟨p, hpj⟩ := hex j hj
        exact ⟨p, p, hpj, hpj⟩

/-- C34, example: `example_hybrid` on two free particles of inverse mass `1` and `2`, with
`dt = 1`. -/
theorem hybrid_projection_conserves_momentum_witness :
    example_hybrid.deformation_gradient
      [⟨⟨0, -1, 0⟩, ⟨0, -1, 0⟩, ⟨0, -1, 0⟩, ⟨0, 0, 0⟩, ⟨0, 0, 0⟩, 1⟩,
       ⟨⟨1, -1, 0⟩, ⟨1, -1, 0⟩, ⟨1, -1, 0⟩, ⟨0, 0, 0⟩, ⟨0, 0, 0⟩, 2⟩]
      = some ⟨1, 0, 0, 0, 0, 0, 0, 0, 0⟩ ∧
    ∃ c1 simulation1 particles1,
      example_hybrid.project_positions loose_simulation 1 = some (c1, simulation1) ∧
      simulation1.particles[0]? = some particles1 ∧
      momentum_change example_hybrid
        [⟨⟨0, -1, 0⟩, ⟨0, -1, 0⟩, ⟨0, -1, 0⟩, ⟨0, 0, 0⟩, ⟨0, 0, 0⟩, 1⟩,
         ⟨⟨1, -1, 0⟩, ⟨1, -1, 0⟩, ⟨1, -1, 0⟩, ⟨0, 0, 0⟩, ⟨0, 0, 0⟩, 2⟩]
        particles1 [0, 1] = Vec3.zero := by
  obtain ⟨_, c1, simulation1, particles1, h1, h2, _, h3⟩ :=
    hybrid_projection_conserves_momentum example_hybrid loose_simulation 1
      [⟨⟨0, -1, 0⟩, ⟨0, -1, 0⟩, ⟨0, -1, 0⟩, ⟨0, 0, 0⟩, ⟨0, 0, 0⟩, 1⟩,
       ⟨⟨1, -1, 0⟩, ⟨1, -1, 0⟩, ⟨1, -1, 0⟩, ⟨0, 0, 0⟩, ⟨0, 0, 0⟩, 2⟩]
      ⟨1, 0, 0, 0, 0, 0, 0, 0, 0⟩ rfl loose_deformation_gradient rfl (by decide) (by decide)
      (fun j p hj hpj => by
        have hj2 : j = 0 ∨ j = 1 := by
          simpa [example_hybrid, HybridConstraint.mk8, example_node] using hj
        rcases hj2 with e | e
        · subst e
          simp only [example_hybrid, HybridConstraint.mk8, example_node, Nat.add_zero,
            List.getElem?_cons_zero, Option.some.injEq] at hpj
          rw [← hpj]
          norm_num
        · subst e
          simp only [example_hybrid, HybridConstraint.mk8, example_node, Nat.zero_add,
            List.getElem?_cons_succ, List.getElem?_cons_zero, Option.some.injEq] at hpj
          rw [← hpj]
          norm_num)
      one_ne_zero
      (fun g _ hS => ne_of_gt (hybrid_divisor_pos _ _ _ _
        (by norm_num [example_hybrid, HybridConstraint.mk8])
        (by norm_num [example_hybrid, HybridConstraint.mk8]) one_pos hS))
  exact ⟨loose_deformation_gradient, c1, simulation1, particles1, h1, h2, h3⟩

/-! ## C35: the hybrid projection with zero compliance -/

/-- C35: `gamma = alpha * beta / dt` for `dt` other than zero, hence `0` for `alpha = 0` and
every `beta`. For a node that is not a mixed particle, with a neighbour list without
duplicates, `alpha = 0`, `dt` other than zero, in every state in which the locals of
`project_positions` are computed and `S >= 1e-20`: `delta_lagrange = -C / S` whatever
`beta` and the multiplier are, the call returns, adds `-C / S` to the multiplier, moves the
particle of the neighbour at position `i` by `dx = invmass * gradC[i] * delta_lagrange`, and
these displacements solve the linearised constraint:
`C + sum_k grad C_k . dx_k = 0`. -/
theorem rigid_hybrid_projection_is_exact (c : HybridConstraint) (simulation : Simulation)
    (dt : ℚ) (particles : List Particle) (g : GradientSums)
    (hp : simulation.particles[c.bi_]? = some particles)
    (hg : c.gradient_sums particles = some g)
    (hmixed : c.node_.is_mixed_particle = false)
    (hnd : c.node_.neighbours.Nodup)
    (ha : c.alpha_ = 0) (hdt : dt ≠ 0)
    (hS : epsilon ≤ g.weighted_sum_of_gradients) :
    (∀ alpha beta : ℚ, gamma alpha beta dt = alpha * beta / dt) ∧
    (∀ beta : ℚ, gamma c.alpha_ beta dt = 0) ∧
    c.delta_lagrange g dt = -g.C / g.weighted_sum_of_gradients ∧
    ∃ c1 particles1,
      c.project_positions simulation dt
        = some (c1, { simulation with particles := simulation.particles.set c.bi_ particles1 }) ∧
      c1.lagrange_ = c.lagrange_ + -g.C / g.weighted_sum_of_gradients ∧
      (∀ (i j : Nat) (p : Particle) (grad : Vec3), c.node_.neighbours[i]? = some j →
        particles[c.node_.body.meshless_particles_index_offset + j]? = some p →
        g.gradC[i]? = some grad →
        particles1[c.node_.body.meshless_particles_index_offset + j]?
          = some (push_particle (-g.C / g.weighted_sum_of_gradients) grad p)) ∧
      g.C + linearised_change c g.gradC particles particles1 c.node_.neighbours 0 = 0 := by
  have hgam : ∀ alpha beta : ℚ, gamma alpha beta dt = alpha * beta / dt := by
    intro alpha beta
    simp only [gamma, alpha_tilde, beta_tilde]
    field_simp
    ring
  have hgam0 : ∀ beta : ℚ, gamma c.alpha_ beta dt = 0 := by
    intro beta
    rw [hgam, ha, zero_mul, zero_div]
  have hdl : c.delta_lagrange g dt = -g.C / g.weighted_sum_of_gradients := by
    have hg0 : gamma 0 c.beta_ dt = 0 := by rw [hgam, zero_mul, zero_div]
    simp only [HybridConstraint.delta_lagrange, alpha_tilde, ha, hg0]
    simp
  have he : (0 : ℚ) < epsilon := by norm_num [epsilon]
  have hSne : g.weighted_sum_of_gradients ≠ 0 := ne_of_gt (lt_of_lt_of_le he hS)
  obtain ⟨c1, particles1, hr, hl, _, hmoved⟩ :=
    meshless_projection_spec c simulation dt particles g hp hg hmixed hnd hS
  rw [hdl] at hl
  simp only [hdl] at hmoved
  refine ⟨hgam, hgam0, hdl, c1, particles1, hr, hl, hmoved, ?_⟩
  obtain ⟨_, _, s1, hs1, hs2⟩ := gradient_sums_spec c particles g hg
  have hmesh : g.gradC_wrt_mesh_indices = [none, none, none, none] := by
    have h := (gradient_sums_gradients c particles g hg).2
    rw [dCdvi_not_mixed c _ hmixed] at h
    exact (Option.some.inj h).symm
  rw [hmesh] at hs2
  simp only [mesh_sums, Option.some.injEq] at hs2
  rw [hs2] at hs1
  rw [linearised_change_spec c g.gradC (-g.C / g.weighted_sum_of_gradients) particles
    particles1 c.node_.neighbours 0 (0, 0) _ hs1
    (fun i j p grad hi hpj hgr => hmoved i j p grad hi hpj (by rw [← hgr, Nat.zero_add]))]
  simp only [sub_zero]
  field_simp

/-- C35, example: `rigid_hybrid`, with damping `1/10`, on `moving_simulation` with `dt = 1`,
where the displacement `xi - xn` of the step is not zero: `C = 6250/13`,
`S = 56250000/169`, the multiplier after the call is `-13/9000` and the free particle has
moved by `(5/6, 0, 0)`. -/
theorem rigid_hybrid_projection_is_exact_witness :
    (rigid_hybrid.alpha_ = 0 ∧ rigid_hybrid.beta_ = 1 / 10 ∧
      epsilon ≤ moving_sums.weighted_sum_of_gradients ∧
      moving_sums.gradC_dot_displacement = -3750 / 13) ∧
    ∃ c1 particles1,
      rigid_hybrid.project_positions moving_simulation 1
        = some (c1, { moving_simulation with
            particles := moving_simulation.particles.set 0 particles1 }) ∧
      c1.lagrange_ = -13 / 9000 ∧
      particles1[1]?
        = some ⟨⟨1, -1, 0⟩, ⟨11 / 6, -1, 0⟩, ⟨1 / 2, -1, 0⟩, ⟨0, 0, 0⟩, ⟨0, 0, 0⟩, 1⟩ := by
  have hS : epsilon ≤ moving_sums.weighted_sum_of_gradients := by
    norm_num [moving_sums, epsilon]
  obtain ⟨_, _, _, c1, particles1, h1, h2, h3, _⟩ :=
    rigid_hybrid_projection_is_exact rigid_hybrid moving_simulation 1
      [⟨⟨0, -1, 0⟩, ⟨0, -1, 0⟩, ⟨0, -1, 0⟩, ⟨0, 0, 0⟩, ⟨0, 0, 0⟩, 0⟩,
       ⟨⟨1, -1, 0⟩, ⟨1, -1, 0⟩, ⟨1 / 2, -1, 0⟩, ⟨0, 0, 0⟩, ⟨0, 0, 0⟩, 1⟩]
      moving_sums rfl rigid_moving_sums_eq rfl (by decide) rfl one_ne_zero hS
  refine ⟨⟨rfl, rfl, hS, rfl⟩, c1, particles1, h1, ?_, ?_⟩
  · rw [h2]
    norm_num [rigid_hybrid, HybridConstraint.mk8, moving_sums, pinned_sums]
  · have h := h3 1 1 ⟨⟨1, -1, 0⟩, ⟨1, -1, 0⟩, ⟨1 / 2, -1, 0⟩, ⟨0, 0, 0⟩, ⟨0, 0, 0⟩, 1⟩
      ⟨-7500 / 13, 0, 0⟩ rfl rfl rfl
    simp only [rigid_hybrid, HybridConstraint.mk8, example_node, Nat.zero_add] at h
    rw [h]
    norm_num [push_particle, moving_sums, pinned_sums, Vec3.add, Vec3.smul]

/-! ## C36: a rigid collision constraint removes the penetration -/

/-- C36: in every state in which the neighbour list has no duplicates, the stored vertex
position `vi` is the interpolation `sum_j sk * Vj * Wkj * (Fj * Xkj + xi_j)` of the current
predicted positions, `C = (vi - c) . n < 0`, `S > 0`, the compliance is not negative and
`dt` is not zero, one call of `meshless_sph_collision_constraint_t::project_positions`
returns and stores a vertex position `vi'` that is the interpolation of the predicted
positions after the call; for `alpha = 0` and every multiplier, `(vi' - c) . n = 0`; for
`alpha > 0` and the multiplier `0`, `C <= (vi' - c) . n <= 0`. -/
theorem rigid_collision_removes_penetration (c : MeshlessSphCollisionConstraint)
    (simulation : Simulation) (dt : ℚ) (particles : List Particle) (S : ℚ)
    (hp : simulation.particles[c.bi_]? = some particles)
    (hS : c.weighted_sum_of_gradients simulation = some S)
    (hu : interpolation c particles c.vk_.neighbours 0 Vec3.zero = some c.vi_)
    (hnd : c.vk_.neighbours.Nodup)
    (hC : Vec3.dot (Vec3.sub c.vi_ c.c_) c.n_ < 0)
    (hSpos : 0 < S) (ha : 0 ≤ c.alpha_) (_hdt : dt ≠ 0) :
    ∃ vi1 particles1,
      c.project_positions simulation dt
        = some ({ c with vi_ := vi1 },
            { simulation with particles := simulation.particles.set c.bi_ particles1 }) ∧
      interpolation c particles1 c.vk_.neighbours 0 Vec3.zero = some vi1 ∧
      (c.alpha_ = 0 → Vec3.dot (Vec3.sub vi1 c.c_) c.n_ = 0) ∧
      (0 < c.alpha_ → c.lagrange_ = 0 →
        Vec3.dot (Vec3.sub c.vi_ c.c_) c.n_ ≤ Vec3.dot (Vec3.sub vi1 c.c_) c.n_ ∧
        Vec3.dot (Vec3.sub vi1 c.c_) c.n_ ≤ 0) := by
  have hg : ∃ G, collision_gradients c particles c.vk_.neighbours 0 ([], 0) = some (G, S) := by
    unfold MeshlessSphCollisionConstraint.weighted_sum_of_gradients at hS
    rw [hp] at hS
    simp only at hS
    split at hS
    · cases hS
    · rename_i r hr
      simp only [Option.some.injEq] at hS
      exact ⟨r.1, by rw [hr, ← hS]⟩
  obtain ⟨G, hG⟩ := hg
  have hA : 0 ≤ c.alpha_ / (dt * dt) := div_nonneg ha (mul_self_nonneg dt)
  have hden : 0 < S + c.alpha_ / (dt * dt) := by linarith
  have hne : S + c.alpha_ / (dt * dt) ≠ 0 := ne_of_gt hden
  obtain ⟨particles1, vi1, h1, _, _, hdot⟩ := collision_update_spec c particles G S c.vi_
    (-(Vec3.dot (Vec3.sub c.vi_ c.c_) c.n_ + c.alpha_ / (dt * dt) * c.lagrange_)
      / (S + c.alpha_ / (dt * dt)))
    c.vk_.neighbours 0 [] 0 particles Vec3.zero Vec3.zero rfl hnd (fun _ _ => rfl) hG hu
  have hval : Vec3.dot (Vec3.sub vi1 c.c_) c.n_
      = Vec3.dot (Vec3.sub c.vi_ c.c_) c.n_
          + -(Vec3.dot (Vec3.sub c.vi_ c.c_) c.n_ + c.alpha_ / (dt * dt) * c.lagrange_)
              / (S + c.alpha_ / (dt * dt)) * S := by
    have hd : Vec3.dot (Vec3.sub vi1 c.c_) c.n_ - Vec3.dot (Vec3.sub c.vi_ c.c_) c.n_
        = Vec3.dot vi1 c.n_ - Vec3.dot c.vi_ c.n_ := by
      simp only [Vec3.dot, Vec3.sub]
      ring
    have hz : Vec3.dot Vec3.zero c.n_ = 0 := by simp [Vec3.dot, Vec3.zero]
    rw [hz, sub_zero, sub_zero, sub_zero] at hdot
    linarith
  refine ⟨vi1, particles1, ?_,
    collision_update_interpolation c G _ c.vk_.neighbours 0 _ _ hnd h1, ?_, ?_⟩
  · unfold MeshlessSphCollisionConstraint.project_positions
    rw [hp]
    simp only [ge_iff_le]
    rw [if_neg (not_le.mpr hC)]
    simp only [hG, h1]
  · intro h0
    rw [hval, h0]
    have hS0 : S ≠ 0 := ne_of_gt hSpos
    field_simp
  · intro _ hl
    rw [hl, mul_zero, add_zero] at hval
    generalize Vec3.dot (Vec3.sub c.vi_ c.c_) c.n_ = C at hC hval
    generalize c.alpha_ / (dt * dt) = A at hA hden hne hval
    have hpos : 0 ≤ -C / (S + A) * S := mul_nonneg (div_nonneg (by linarith) hden.le) hSpos.le
    have hform : Vec3.dot (Vec3.sub vi1 c.c_) c.n_ = C * A / (S + A) := by
      rw [hval]
      field_simp
      ring
    refine ⟨by linarith, ?_⟩
    rw [hform]
    exact div_nonpos_of_nonpos_of_nonneg (by nlinarith) hden.le

/-- C36, example: on `sunk_simulation` with `dt = 1`, where `C = -1` and `S = 1/4`, the
constraint with compliance `0` and multiplier `3` stores the vertex position `(0, 0, 0)` on
the contact plane, and the constraint with compliance `1/1000` and multiplier `0` ends
between `C` and `0`. -/
theorem rigid_collision_removes_penetration_witness :
    (Vec3.dot (Vec3.sub rigid_collision.vi_ rigid_collision.c_) rigid_collision.n_ = -1 ∧
      rigid_collision.weighted_sum_of_gradients sunk_simulation = some (1 / 4) ∧
      rigid_collision.alpha_ = 0 ∧ rigid_collision.lagrange_ = 3) ∧
    (∃ vi1 particles1,
      rigid_collision.project_positions sunk_simulation 1
        = some ({ rigid_collision with vi_ := vi1 },
            { sunk_simulation with
              particles := sunk_simulation.particles.set rigid_collision.bi_ particles1 }) ∧
      Vec3.dot (Vec3.sub vi1 rigid_collision.c_) rigid_collision.n_ = 0) ∧
    ∃ vi1 particles1,
      sunk_collision.project_positions sunk_simulation 1
        = some ({ sunk_collision with vi_ := vi1 },
            { sunk_simulation with
              particles := sunk_simulation.particles.set sunk_collision.bi_ particles1 }) ∧
      -1 ≤ Vec3.dot (Vec3.sub vi1 sunk_collision.c_) sunk_collision.n_ ∧
      Vec3.dot (Vec3.sub vi1 sunk_collision.c_) sunk_collision.n_ ≤ 0 := by
  have hC : Vec3.dot (Vec3.sub rigid_collision.vi_ rigid_collision.c_) rigid_collision.n_
      = -1 := by
    norm_num [rigid_collision, sunk_collision, Vec3.dot, Vec3.sub]
  have hC2 : Vec3.dot (Vec3.sub sunk_collision.vi_ sunk_collision.c_) sunk_collision.n_
      = -1 := by
    norm_num [sunk_collision, Vec3.dot, Vec3.sub]
  have hS : rigid_collision.weighted_sum_of_gradients sunk_simulation = some (1 / 4) := by
    simp only [MeshlessSphCollisionConstraint.weighted_sum_of_gradients, rigid_collision,
      sunk_collision, sunk_simulation, collision_gradients]
    norm_num [Vec3.squaredNorm, Vec3.dot, Vec3.smul, collision_gradients]
  have hS2 : sunk_collision.weighted_sum_of_gradients sunk_simulation = some (1 / 4) := by
    simp only [MeshlessSphCollisionConstraint.weighted_sum_of_gradients, sunk_collision,
      sunk_simulation, collision_gradients]
    norm_num [Vec3.squaredNorm, Vec3.dot, Vec3.smul, collision_gradients]
  obtain ⟨vi1, particles1, h1, _, h0, _⟩ :=
    rigid_collision_removes_penetration rigid_collision sunk_simulation 1
      [⟨⟨0, -1, 0⟩, ⟨0, -1, 0⟩, ⟨0, -1, 0⟩, ⟨0, 0, 0⟩, ⟨0, 0, 0⟩, 0⟩,
       ⟨⟨1, -1, 0⟩, ⟨1, -1, 0⟩, ⟨1, -1, 0⟩, ⟨0, 0, 0⟩, ⟨0, 0, 0⟩, 1⟩] (1 / 4) rfl hS
      (by
        simp only [interpolation, rigid_collision, sunk_collision, sunk_simulation]
        norm_num [Vec3.smul, Vec3.add, Vec3.zero, Mat3.mulVec, Mat3.identity, interpolation])
      (by decide) (by rw [hC]; norm_num) (by norm_num)
      (by norm_num [rigid_collision, sunk_collision]) one_ne_zero
  obtain ⟨vi2, particles2, h2, _, _, hb⟩ :=
    rigid_collision_removes_penetration sunk_collision sunk_simulation 1
      [⟨⟨0, -1, 0⟩, ⟨0, -1, 0⟩, ⟨0, -1, 0⟩, ⟨0, 0, 0⟩, ⟨0, 0, 0⟩, 0⟩,
       ⟨⟨1, -1, 0⟩, ⟨1, -1, 0⟩, ⟨1, -1, 0⟩, ⟨0, 0, 0⟩, ⟨0, 0, 0⟩, 1⟩] (1 / 4) rfl hS2
      (by
        simp only [interpolation, sunk_collision, sunk_simulation]
        norm_num [Vec3.smul, Vec3.add, Vec3.zero, Mat3.mulVec, Mat3.identity, interpolation])
      (by decide) (by rw [hC2]; norm_num) (by norm_num)
      (by norm_num [sunk_collision]) one_ne_zero
  have hb2 := hb (by norm_num [sunk_collision]) rfl
  rw [hC2] at hb2
  exact ⟨⟨hC, hS, rfl, rfl⟩, ⟨vi1, particles1, h1, h0 rfl⟩, vi2, particles2, h2, hb2.1, hb2.2⟩

end Sbs
